import Mathlib

/-!
# Phase-space boundaries and the max-cross-section cache

A shallow embedding of `Framework/Interaction/KPhaseSpace.cxx`,
`Physics/Common/KineGeneratorWithCache.cxx` and
`Physics/BoostedDarkMatter/XSection/DMDISXSec.cxx`.

Conventions of the embedding:

* a C++ `double` is an exact rational number (`ℚ`), except in the section on
  binary64 arithmetic, which rounds every operation of the computations whose
  result depends on rounding; infinities and not-a-number values are outside
  the model unless a definition says otherwise;
* a function that can throw returns `Except`;
* classes whose headers are not among the sources (`ProcessInfo`, `XclsTag`,
  `Target`, `InitialState`, `Kinematics`, `PDGLibrary`, `Spline`,
  `CacheBranchFx`, `Cache`, `GHepRecord`, `XSecAlgorithmI`, `XSecSplineList`,
  `SppChannel`, `KineVar_t`, the numerical integrator, the `kinematics::`
  utilities) are represented by
  the values their accessors return, or by a parameter.
-/

namespace genie

/-! ## Data model -/

/-- Modelled from the spec: the scattering-type enumeration behind
`ProcessInfo` (header `ScatteringType.h` is not among the sources).  The spec
calls the process kind a closed enumeration; the constructors are the kinds
that the predicates used in `KPhaseSpace.cxx` test for, plus the two
"no kind" values. -/
inductive ScatteringType where
  | kScUnknown
  | kScNull
  | kScQuasiElastic
  | kScSingleKaon
  | kScDeepInelastic
  | kScResonant
  | kScCoherentProduction
  | kScDiffractive
  | kScNuElectronElastic
  | kScInverseMuDecay
  | kScAMNuGamma
  | kScMEC
  | kScCoherentElastic
  | kScInverseBetaDecay
  | kScGlashowResonance
  | kScIMDAnnihilation
  | kScPhotonCoherent
  | kScPhotonResonance
  | kScSinglePion
  | kScDarkMatterElastic
  | kScDarkMatterDeepInelastic
  | kScDarkMatterElectronElastic
  | kScNorm
  deriving DecidableEq, Repr

/-- Modelled from the spec: the current-type flag carried by a process
(charged-current / neutral-current / electromagnetic / weak);
header `InteractionType.h` is not among the sources. -/
inductive InteractionType where
  | kIntNull
  | kIntEM
  | kIntWeakCC
  | kIntWeakNC
  | kIntWeakMix
  | kIntDarkMatter
  deriving DecidableEq, Repr

/-- Modelled from the spec: `ProcessInfo` (header not among the sources).
A process is a scattering type and a current type; each `IsX()` predicate
tests the scattering type, so that at most one of them holds.  The result of
`IsKnown()`, whose definition is not available, is carried as a field. -/
structure ProcessInfo where
  fScatteringType : ScatteringType
  fInteractionType : InteractionType
  fIsKnown : Bool
  deriving DecidableEq, Repr

namespace ProcessInfo

@[simp] def IsKnown (p : ProcessInfo) : Bool := p.fIsKnown
@[simp] def IsQuasiElastic (p : ProcessInfo) : Bool := p.fScatteringType = .kScQuasiElastic
@[simp] def IsSingleKaon (p : ProcessInfo) : Bool := p.fScatteringType = .kScSingleKaon
@[simp] def IsDeepInelastic (p : ProcessInfo) : Bool := p.fScatteringType = .kScDeepInelastic
@[simp] def IsResonant (p : ProcessInfo) : Bool := p.fScatteringType = .kScResonant
@[simp] def IsCoherentProduction (p : ProcessInfo) : Bool := p.fScatteringType = .kScCoherentProduction
@[simp] def IsDiffractive (p : ProcessInfo) : Bool := p.fScatteringType = .kScDiffractive
@[simp] def IsNuElectronElastic (p : ProcessInfo) : Bool := p.fScatteringType = .kScNuElectronElastic
@[simp] def IsInverseMuDecay (p : ProcessInfo) : Bool := p.fScatteringType = .kScInverseMuDecay
@[simp] def IsAMNuGamma (p : ProcessInfo) : Bool := p.fScatteringType = .kScAMNuGamma
@[simp] def IsMEC (p : ProcessInfo) : Bool := p.fScatteringType = .kScMEC
@[simp] def IsCoherentElastic (p : ProcessInfo) : Bool := p.fScatteringType = .kScCoherentElastic
@[simp] def IsInverseBetaDecay (p : ProcessInfo) : Bool := p.fScatteringType = .kScInverseBetaDecay
@[simp] def IsGlashowResonance (p : ProcessInfo) : Bool := p.fScatteringType = .kScGlashowResonance
@[simp] def IsIMDAnnihilation (p : ProcessInfo) : Bool := p.fScatteringType = .kScIMDAnnihilation
@[simp] def IsPhotonCoherent (p : ProcessInfo) : Bool := p.fScatteringType = .kScPhotonCoherent
@[simp] def IsPhotonResonance (p : ProcessInfo) : Bool := p.fScatteringType = .kScPhotonResonance
@[simp] def IsSinglePion (p : ProcessInfo) : Bool := p.fScatteringType = .kScSinglePion
@[simp] def IsDarkMatterElastic (p : ProcessInfo) : Bool := p.fScatteringType = .kScDarkMatterElastic
@[simp] def IsDarkMatterDeepInelastic (p : ProcessInfo) : Bool :=
  p.fScatteringType = .kScDarkMatterDeepInelastic
@[simp] def IsDarkMatterElectronElastic (p : ProcessInfo) : Bool :=
  p.fScatteringType = .kScDarkMatterElectronElastic
@[simp] def IsNorm (p : ProcessInfo) : Bool := p.fScatteringType = .kScNorm
@[simp] def IsEM (p : ProcessInfo) : Bool := p.fInteractionType = .kIntEM
@[simp] def IsWeakCC (p : ProcessInfo) : Bool := p.fInteractionType = .kIntWeakCC

end ProcessInfo

/-- The `{min, max}` pair of `Range1D_t`. -/
structure Range1D_t where
  min : ℚ
  max : ℚ
  deriving DecidableEq, Repr

/-- The "undefined / inapplicable" range `{-1,-1}`. -/
def Range1D_t.sentinel : Range1D_t := ⟨-1, -1⟩

/-- The interaction as `KPhaseSpace`, `KineGeneratorWithCache` and `DMDISXSec`
see it: one field per accessor result the files read.  The running kinematic
point (W, Q2, x, y, t) and the `TObject` bits tested or set by the files are
the last two groups of fields. -/
structure Interaction where
  /-- Accessor `ProcInfo()`. -/
  ProcInfo : ProcessInfo
  /-- Accessor `InitState().ProbePdg()`. -/
  ProbePdg : Int
  /-- Accessor `InitState().ProbeE(kRfLab)`. -/
  ProbeE_Lab : ℚ
  /-- Accessor `InitState().ProbeE(kRfHitNucRest)`. -/
  ProbeE_HitNucRest : ℚ
  /-- Accessor `InitState().CMEnergy()`. -/
  CMEnergy : ℚ
  /-- Accessor `Tgt().Pdg()`. -/
  TgtPdg : Int
  /-- Accessor `Tgt().Mass()`. -/
  TgtMass : ℚ
  /-- Accessor `Tgt().Z()`. -/
  TgtZ : Int
  /-- Accessor `Tgt().N()`. -/
  TgtN : Int
  /-- Accessor `Tgt().HitNucIsSet()`. -/
  HitNucIsSet : Bool
  /-- Accessor `Tgt().HitNucPdg()`. -/
  HitNucPdg : Int
  /-- Accessor `Tgt().HitNucP4Ptr()->M()`, possibly off the mass shell. -/
  HitNucP4M : ℚ
  /-- Accessor `Tgt().HitNucMass()`. -/
  HitNucMass : ℚ
  /-- Accessor `ExclTag().NProtons()`. -/
  NProtons : Int
  /-- Accessor `ExclTag().NPiPlus()`. -/
  NPiPlus : Int
  /-- Accessor `ExclTag().NPiMinus()`. -/
  NPiMinus : Int
  /-- Accessor `ExclTag().NPi0()`. -/
  NPi0 : Int
  /-- Accessor `ExclTag().NPions()`. -/
  NPions : Int
  /-- Accessor `ExclTag().IsCharmEvent()`. -/
  IsCharmEvent : Bool
  /-- Accessor `ExclTag().IsInclusiveCharm()`. -/
  IsInclusiveCharm : Bool
  /-- Accessor `ExclTag().CharmHadronPdg()`. -/
  CharmHadronPdg : Int
  /-- Accessor `ExclTag().IsStrangeEvent()`. -/
  IsStrangeEvent : Bool
  /-- Accessor `ExclTag().StrangeHadronPdg()`. -/
  StrangeHadronPdg : Int
  /-- Accessor `FSPrimLepton()->Mass()`. -/
  FSPrimLeptonMass : ℚ
  /-- Accessor `RecoilNucleon()->Mass()`. -/
  RecoilNucleonMass : ℚ
  /-- Accessor `AsString()`, the canonical string form used in cache keys. -/
  AsString : String
  /-- Accessor `Kine().W()`. -/
  W : ℚ
  /-- Accessor `Kine().Q2()`. -/
  Q2 : ℚ
  /-- Accessor `Kine().x()`. -/
  x : ℚ
  /-- Accessor `Kine().y()`. -/
  y : ℚ
  /-- Accessor `Kine().t()`. -/
  t : ℚ
  /-- Accessor `InitState().GetProbeP4()->M()`. -/
  ProbeMass : ℚ
  /-- Accessor `Tgt().IsNucleus()`. -/
  TgtIsNucleus : Bool
  /-- Bit `kISkipProcessChk`. -/
  kISkipProcessChk : Bool
  /-- Bit `kISkipKinematicChk`. -/
  kISkipKinematicChk : Bool
  /-- Bit `kIAssumeFreeNucleon`. -/
  kIAssumeFreeNucleon : Bool
  /-- Bit `kINoNuclearCorrection`. -/
  kINoNuclearCorrection : Bool

/-- The exceptions `KPhaseSpace` throws (`genie::exceptions::InteractionException`),
one constructor per message. -/
inductive InteractionException where
  /-- Message "Can not compute threshold" (written with an apostrophe in the source). -/
  | cantComputeThreshold
  /-- Message "NaN tmin for diffractive scattering". -/
  | nanTminDiffractive
  deriving DecidableEq, Repr

/-- The ways a phase-space query can end without a result: a thrown
`InteractionException`, or a failed `assert`, which aborts (the only
assertion on an input is `assert(tgt.HitNucIsSet())`, line 156). -/
inductive Failure where
  | exception (e : InteractionException)
  | assertion
  deriving DecidableEq, Repr

/-- The constants of `Conventions/Constants.h` and `Conventions/Controls.h`,
the mass table of `PDGLibrary` and the configured diffractive `DFR-t-max`;
none of the headers is among the sources, so the values are parameters. -/
structure Constants where
  kProtonMass : ℚ
  kNeutronMass : ℚ
  kNucleonMass : ℚ
  kPionMass : ℚ
  kPi0Mass : ℚ
  kPhotontest : ℚ
  kLightestChmHad : ℚ
  kElectronMass : ℚ
  kElectronMass2 : ℚ
  kMuonMass : ℚ
  kMuonMass2 : ℚ
  kTauMass : ℚ
  kMw : ℚ
  kASmallNum : ℚ
  kMinQ2Limit_VLE : ℚ
  /-- Lookup `PDGLibrary::Instance()->Find(pdgc)->Mass()`. -/
  pdgMass : Int → ℚ
  /-- Value that `GetTMaxDFR()` loads once from the configuration. -/
  DFR_tMax : ℚ

/-! PDG codes (`ParticleData/PDGCodes.h`). -/

def kPdgPi0 : Int := 111
def kPdgPiP : Int := 211
def kPdgPiM : Int := -211
def kPdgProton : Int := 2212
def kPdgNeutron : Int := 2112
def kPdgNuE : Int := 12
def kPdgNuMu : Int := 14
def kPdgNuTau : Int := 16

namespace pdg

/-- Modelled from the spec: "charged-current switches proton↔neutron identity"
(`pdg::SwitchProtonNeutron`, in `PDGUtils.h`, is not among the sources); a
code that is neither nucleon is left as it is. -/
def SwitchProtonNeutron (pdgc : Int) : Int :=
  if pdgc = kPdgProton then kPdgNeutron
  else if pdgc = kPdgNeutron then kPdgProton
  else pdgc

def IsNuE (pdgc : Int) : Bool := pdgc = kPdgNuE
def IsNuMu (pdgc : Int) : Bool := pdgc = kPdgNuMu
def IsNuTau (pdgc : Int) : Bool := pdgc = kPdgNuTau

end pdg

/-! ## `KPhaseSpace::Threshold` -/

/-- Method `KPhaseSpace::Threshold` (KPhaseSpace.cxx, lines 82-248). -/
def Threshold (c : Constants) (i : Interaction) : Except Failure ℚ :=
  let pi := i.ProcInfo
  let ml := i.FSPrimLeptonMass
  if !pi.IsKnown then .ok 0
  else if pi.IsSinglePion then
    let Mi := i.HitNucP4M
    let Mf := if i.NProtons = 1 then c.kProtonMass else c.kNeutronMass
    let formula (pion_pdgc : Int) : ℚ :=
      let mpi := c.pdgMass pion_pdgc
      let mi := c.pdgMass i.ProbePdg
      let mf := ml
      let mtot := Mf + mf + mpi
      (mtot * mtot - Mi * Mi - mi * mi) / 2 / Mi
    if i.NPiPlus = 1 then .ok (formula kPdgPiP)
    else if i.NPiMinus = 1 then .ok (formula kPdgPiM)
    else if i.NPi0 ≠ 1 then .error (.exception .cantComputeThreshold)
    else .ok (formula kPdgPi0)
  else if pi.IsNorm then .ok 0
  else if pi.IsSingleKaon then
    let kaon_pdgc := i.StrangeHadronPdg
    let Mi := i.HitNucP4M
    let Mf := if i.NProtons = 1 then c.kProtonMass else c.kNeutronMass
    let mk := c.pdgMass kaon_pdgc
    let mtot := Mf + ml + mk
    .ok ((mtot * mtot - Mi * Mi) / 2 / Mi)
  else if pi.IsCoherentElastic then
    .ok (ml + 0.5 * ml * ml / i.TgtMass)
  else if pi.IsCoherentProduction then
    let MA := c.pdgMass i.TgtPdg
    let m_other := if i.NPions > 0 then (if pi.IsWeakCC then c.kPionMass else c.kPi0Mass)
                   else c.kASmallNum
    let m := ml + m_other
    let m2 := m ^ 2
    let Ethr := m + 0.5 * m2 / MA
    .ok (max 0 Ethr)
  else if pi.IsQuasiElastic || pi.IsDarkMatterElastic || pi.IsInverseBetaDecay ||
          pi.IsResonant || pi.IsDeepInelastic || pi.IsDarkMatterDeepInelastic ||
          pi.IsDiffractive then
    if !i.HitNucIsSet then .error .assertion
    else
    let Mn := i.HitNucP4M
    let Mn2 := Mn ^ 2
    let Wmin0 := c.kNucleonMass + c.kPionMass
    let Wmin1 :=
      if pi.IsQuasiElastic || pi.IsDarkMatterElastic || pi.IsInverseBetaDecay then
        let finalNucPDG :=
          if pi.IsWeakCC then pdg.SwitchProtonNeutron i.HitNucPdg else i.HitNucPdg
        c.pdgMass finalNucPDG
      else Wmin0
    let Wmin2 := if pi.IsResonant then c.kNucleonMass + c.kPhotontest else Wmin1
    let Wmin :=
      if i.IsCharmEvent then
        if i.IsInclusiveCharm then c.kNucleonMass + c.kLightestChmHad
        else
          let mchm := c.pdgMass i.CharmHadronPdg
          if pi.IsQuasiElastic || pi.IsInverseBetaDecay then mchm + c.kASmallNum
          else c.kNeutronMass + mchm + c.kASmallNum
      else Wmin2
    let smin := (Wmin + ml) ^ 2
    let Ethr := 0.5 * (smin - Mn2) / Mn
    if pi.IsDarkMatterElastic || pi.IsDarkMatterDeepInelastic then
      let Wmin' := Mn
      let smin' := (Wmin' + ml) ^ 2
      let Ethr' := max (0.5 * (smin' - Mn2 - ml * ml) / Mn) ml
      .ok (max 0 Ethr')
    else .ok (max 0 Ethr)
  else if pi.IsInverseMuDecay || pi.IsIMDAnnihilation then
    let Ethr := 0.5 * (c.kMuonMass2 - c.kElectronMass2) / c.kElectronMass
    .ok (max 0 Ethr)
  else if pi.IsNuElectronElastic || pi.IsDarkMatterElectronElastic then .ok 0
  else if pi.IsAMNuGamma then .ok 0
  else if pi.IsMEC then
    if i.HitNucIsSet then
      let Mn := i.HitNucP4M
      let Mn2 := Mn ^ 2
      let Wmin := i.RecoilNucleonMass
      let smin := (Wmin + ml) ^ 2
      let Ethr := 0.5 * (smin - Mn2) / Mn
      .ok (max 0 Ethr)
    else .ok ml
  else if pi.IsGlashowResonance then
    let Ethr := 0.5 * (ml * ml - c.kElectronMass2) / c.kElectronMass
    .ok (max 0 Ethr)
  else if pi.IsPhotonResonance then
    let Mn := i.HitNucP4M
    let Ethr := 0.5 * (ml * ml - Mn ^ 2) / Mn
    .ok (max 0 Ethr)
  else if pi.IsPhotonCoherent then
    let ml' : ℚ :=
      if pdg.IsNuE |i.ProbePdg| then c.kElectronMass
      else if pdg.IsNuMu |i.ProbePdg| then c.kMuonMass
      else if pdg.IsNuTau |i.ProbePdg| then c.kTauMass
      else 0
    let MA := (i.TgtZ : ℚ) * c.kProtonMass + (i.TgtN : ℚ) * c.kNeutronMass
    let Ethr := 0.5 * ((c.kMw + ml') ^ 2 - MA ^ 2) / MA
    .ok (max 0 Ethr)
  else .error (.exception .cantComputeThreshold)

/-- The minimum hadronic invariant mass `Wmin` that the generic branch of
`KPhaseSpace::Threshold` holds when it reaches `smin` at line 184
(KPhaseSpace.cxx, lines 159-182), before the dark-matter correction of
lines 187-192. -/
def thresholdWmin (c : Constants) (i : Interaction) : ℚ :=
  let pi := i.ProcInfo
  let Wmin0 := c.kNucleonMass + c.kPionMass
  let Wmin1 :=
    if pi.IsQuasiElastic || pi.IsDarkMatterElastic || pi.IsInverseBetaDecay then
      let finalNucPDG :=
        if pi.IsWeakCC then pdg.SwitchProtonNeutron i.HitNucPdg else i.HitNucPdg
      c.pdgMass finalNucPDG
    else Wmin0
  let Wmin2 := if pi.IsResonant then c.kNucleonMass + c.kPhotontest else Wmin1
  if i.IsCharmEvent then
    if i.IsInclusiveCharm then c.kNucleonMass + c.kLightestChmHad
    else
      let mchm := c.pdgMass i.CharmHadronPdg
      if pi.IsQuasiElastic || pi.IsInverseBetaDecay then mchm + c.kASmallNum
      else c.kNeutronMass + mchm + c.kASmallNum
  else Wmin2

/-- The single-kaon threshold as the specification words it, "analogous
[to single-pion production] with kaon mass substituted for pion mass":
`((Mf + m_l + m_K)^2 - Mi^2 - mi^2) / (2*Mi)`, with `mi` the probe mass. -/
def singleKaonThresholdAsSpecified (c : Constants) (i : Interaction) : ℚ :=
  let Mi := i.HitNucP4M
  let Mf := if i.NProtons = 1 then c.kProtonMass else c.kNeutronMass
  let mK := c.pdgMass i.StrangeHadronPdg
  let mi := c.pdgMass i.ProbePdg
  let ml := i.FSPrimLeptonMass
  ((Mf + ml + mK) ^ 2 - Mi ^ 2 - mi ^ 2) / (2 * Mi)

/-- The process kinds of the generic threshold rule other than the two
dark-matter kinds, whose threshold is recomputed at lines 187-192. -/
def genericNonDarkKinds : List ScatteringType :=
  [.kScQuasiElastic, .kScInverseBetaDecay, .kScResonant, .kScDeepInelastic, .kScDiffractive]

/-! ## `KPhaseSpace::IsAboveThreshold` -/

/-- Method `KPhaseSpace::IsAboveThreshold` (KPhaseSpace.cxx, lines 284-321): the
threshold is computed first (and may throw), then the energy is selected by
two successive `if`s and compared with `E > Ethr`. -/
def IsAboveThreshold (c : Constants) (i : Interaction) : Except Failure Bool :=
  match Threshold c i with
  | .error e => .error e
  | .ok Ethr =>
    let pi := i.ProcInfo
    let E0 : ℚ := 0
    let E1 : ℚ :=
      if pi.IsCoherentElastic || pi.IsCoherentProduction || pi.IsInverseMuDecay ||
         pi.IsIMDAnnihilation || pi.IsNuElectronElastic || pi.IsDarkMatterElectronElastic ||
         pi.IsMEC || pi.IsPhotonCoherent || pi.IsPhotonResonance || pi.IsGlashowResonance
      then i.ProbeE_Lab else E0
    let E : ℚ :=
      if pi.IsQuasiElastic || pi.IsDarkMatterElastic || pi.IsInverseBetaDecay ||
         pi.IsResonant || pi.IsDeepInelastic || pi.IsDarkMatterDeepInelastic ||
         pi.IsDiffractive || pi.IsSingleKaon || pi.IsAMNuGamma
      then i.ProbeE_HitNucRest else E1
    .ok (decide (E > Ethr))

/-- The process kinds for which `IsAboveThreshold` takes the probe energy in
the lab frame (first `if`, lines 292-304). -/
def labFrameKinds : List ScatteringType :=
  [.kScCoherentElastic, .kScCoherentProduction, .kScInverseMuDecay, .kScIMDAnnihilation,
   .kScNuElectronElastic, .kScDarkMatterElectronElastic, .kScMEC, .kScPhotonCoherent,
   .kScPhotonResonance, .kScGlashowResonance]

/-- The process kinds for which `IsAboveThreshold` takes the probe energy in
the hit-nucleon rest frame (second `if`, lines 306-317). -/
def hitNucRestFrameKinds : List ScatteringType :=
  [.kScQuasiElastic, .kScDarkMatterElastic, .kScInverseBetaDecay, .kScResonant,
   .kScDeepInelastic, .kScDarkMatterDeepInelastic, .kScDiffractive, .kScSingleKaon,
   .kScAMNuGamma]

/-- The process kinds whose threshold rule asserts that the hit nucleon is
set (lines 148-156). -/
def hitNucAssertingKinds : List ScatteringType :=
  [.kScQuasiElastic, .kScDarkMatterElastic, .kScInverseBetaDecay, .kScResonant,
   .kScDeepInelastic, .kScDarkMatterDeepInelastic, .kScDiffractive]

/-! ## Kinematic limits -/

/-- The functions of `Framework/Utils/KineUtils.h` (namespace `kinematics`)
and the `cmath` square root that `KPhaseSpace.cxx` calls; the file is not
among the sources, so each function is a parameter.  A function called both
with and without its optional trailing argument appears twice (`_cut` takes
the explicit argument). -/
structure KineUtils where
  InelWLim : ℚ → ℚ → ℚ → Range1D_t
  em_InelWLim : ℚ → ℚ → ℚ → Range1D_t
  DarkWLim : ℚ → ℚ → ℚ → Range1D_t
  InelQ2Lim_W : ℚ → ℚ → ℚ → ℚ → Range1D_t
  InelQ2Lim_W_cut : ℚ → ℚ → ℚ → ℚ → ℚ → Range1D_t
  em_InelQ2Lim_W : ℚ → ℚ → ℚ → ℚ → Range1D_t
  DarkQ2Lim_W : ℚ → ℚ → ℚ → ℚ → Range1D_t
  DarkQ2Lim_W_cut : ℚ → ℚ → ℚ → ℚ → ℚ → Range1D_t
  CEvNSQ2Lim : ℚ → Range1D_t
  CohQ2Lim : ℚ → ℚ → ℚ → ℚ → Range1D_t
  DarkQ2Lim : ℚ → ℚ → ℚ → Range1D_t
  InelQ2Lim : ℚ → ℚ → ℚ → Range1D_t
  em_InelQ2Lim : ℚ → ℚ → ℚ → Range1D_t
  InelXLim : ℚ → ℚ → ℚ → Range1D_t
  em_InelXLim : ℚ → ℚ → ℚ → Range1D_t
  DarkXLim : ℚ → ℚ → ℚ → Range1D_t
  CohXLim : Range1D_t
  InelYLim : ℚ → ℚ → ℚ → Range1D_t
  em_InelYLim : ℚ → ℚ → ℚ → Range1D_t
  DarkYLim : ℚ → ℚ → ℚ → Range1D_t
  CohYLim : ℚ → ℚ → Range1D_t
  CohYLim_xsi : ℚ → ℚ → ℚ → ℚ → ℚ → ℚ → Range1D_t
  InelYLim_X : ℚ → ℚ → ℚ → ℚ → Range1D_t
  em_InelYLim_X : ℚ → ℚ → ℚ → ℚ → Range1D_t
  DarkYLim_X : ℚ → ℚ → ℚ → ℚ → Range1D_t
  /-- Function `kinematics::W(interaction)`. -/
  W : Interaction → ℚ
  /-- The values `kinematics::UpdateWQ2FromXY` writes to the running W and Q2,
  or `none` when it leaves them alone. -/
  WQ2FromXY : Interaction → Option (ℚ × ℚ)
  /-- Square root on doubles; `none` stands for not-a-number. -/
  sqrt : ℚ → Option ℚ

/-- Modelled from the spec: "tests membership in the relevant limit range"
(`math::IsWithinLimits`, in `Numerical/MathUtils.h`, is not among the
sources): a closed-interval test. -/
def IsWithinLimits (x : ℚ) (range : Range1D_t) : Bool :=
  decide (x ≥ range.min) && decide (x ≤ range.max)

/-- Function `kinematics::UpdateWQ2FromXY`: only the running W and Q2 can change. -/
def UpdateWQ2FromXY (k : KineUtils) (i : Interaction) : Interaction :=
  match k.WQ2FromXY i with
  | some (W, Q2) => { i with W := W, Q2 := Q2 }
  | none => i

/-- Method `KPhaseSpace::WLim` (KPhaseSpace.cxx, lines 440-508). -/
def WLim (c : Constants) (k : KineUtils) (i : Interaction) : Range1D_t :=
  let pi := i.ProcInfo
  let is_em := pi.IsEM
  let is_qel := pi.IsQuasiElastic || pi.IsInverseBetaDecay || pi.IsDarkMatterElastic
  let is_inel := pi.IsDeepInelastic || pi.IsResonant || pi.IsDiffractive
  let is_dmdis := pi.IsDarkMatterDeepInelastic
  if is_qel then
    let MR := i.RecoilNucleonMass
    ⟨MR, MR⟩
  else if is_inel then
    let Ev := i.ProbeE_HitNucRest
    let M := i.HitNucP4M
    let ml := i.FSPrimLeptonMass
    let Wl := if is_em then k.em_InelWLim Ev ml M else k.InelWLim Ev M ml
    let Wl1 : Range1D_t :=
      if i.IsCharmEvent then ⟨max Wl.min (c.kNeutronMass + c.kLightestChmHad), Wl.max⟩
      else if pi.IsDiffractive then ⟨max Wl.min (c.kNeutronMass + c.kPionMass), Wl.max⟩
      else if pi.IsDeepInelastic then ⟨max Wl.min (c.kNeutronMass + c.kPionMass), Wl.max⟩
      else Wl
    if Wl1.min > Wl1.max then ⟨-1, -1⟩ else Wl1
  else if is_dmdis then
    let Ev := i.ProbeE_HitNucRest
    let M := i.HitNucP4M
    let ml := i.FSPrimLeptonMass
    let Wl := k.DarkWLim Ev M ml
    let Wl1 : Range1D_t :=
      if i.IsCharmEvent then ⟨max Wl.min (c.kNeutronMass + c.kLightestChmHad), Wl.max⟩
      else if pi.IsDiffractive then ⟨max Wl.min (c.kNeutronMass + c.kPionMass), Wl.max⟩
      else Wl
    if Wl1.min > Wl1.max then ⟨-1, -1⟩ else Wl1
  else ⟨-1, -1⟩

/-- The W range of the inelastic family and of dark-matter DIS before the
sanity check of `WLim`, in the words of the spec: the W bounds of the
kinematics utilities with the minimum "raised at the floor" to neutron mass
plus lightest charm hadron mass for a charm event, and otherwise to neutron
mass plus pion mass for diffractive and deep-inelastic processes. -/
def floorRaisedWLim (c : Constants) (k : KineUtils) (i : Interaction) : Range1D_t :=
  let Ev := i.ProbeE_HitNucRest
  let M := i.HitNucP4M
  let ml := i.FSPrimLeptonMass
  let raw :=
    if i.ProcInfo.IsDarkMatterDeepInelastic then k.DarkWLim Ev M ml
    else if i.ProcInfo.IsEM then k.em_InelWLim Ev ml M
    else k.InelWLim Ev M ml
  if i.IsCharmEvent then ⟨max raw.min (c.kNeutronMass + c.kLightestChmHad), raw.max⟩
  else if i.ProcInfo.IsDiffractive || i.ProcInfo.IsDeepInelastic then
    ⟨max raw.min (c.kNeutronMass + c.kPionMass), raw.max⟩
  else raw

/-- Method `KPhaseSpace::Q2Lim` (KPhaseSpace.cxx, lines 571-678).  The branches are
kept in the order of the source, the MEC branch after the early return
included. -/
def Q2Lim (c : Constants) (k : KineUtils) (i : Interaction) : Range1D_t :=
  let pi := i.ProcInfo
  let is_em := pi.IsEM
  let is_qel := pi.IsQuasiElastic || pi.IsInverseBetaDecay
  let is_inel := pi.IsDeepInelastic || pi.IsResonant
  let is_coh := pi.IsCoherentProduction
  let is_cevns := pi.IsCoherentElastic
  let is_dme := pi.IsDarkMatterElastic
  let is_dmdis := pi.IsDarkMatterDeepInelastic
  if !is_qel && !is_inel && !is_coh && !is_cevns && !is_dme && !is_dmdis then ⟨-1, -1⟩
  else
    let Ev := i.ProbeE_HitNucRest
    let M := i.HitNucP4M
    let ml := i.FSPrimLeptonMass
    if is_cevns then
      let Ev_lab := i.ProbeE_Lab
      k.CEvNSQ2Lim Ev_lab
    else if is_coh then
      let m_other :=
        if i.NPions > 0 then (if pi.IsWeakCC then c.kPionMass else c.kPi0Mass)
        else c.kASmallNum
      k.CohQ2Lim M m_other ml Ev
    else if is_qel then
      let W :=
        if i.IsCharmEvent then c.pdgMass i.CharmHadronPdg
        else if i.IsStrangeEvent then c.pdgMass i.StrangeHadronPdg
        else i.RecoilNucleonMass
      if pi.IsInverseBetaDecay then k.InelQ2Lim_W_cut Ev M ml W c.kMinQ2Limit_VLE
      else if is_em then k.em_InelQ2Lim_W Ev ml M W else k.InelQ2Lim_W Ev M ml W
    else if is_dme then
      let W :=
        if i.IsCharmEvent then c.pdgMass i.CharmHadronPdg
        else if i.IsStrangeEvent then c.pdgMass i.StrangeHadronPdg
        else i.RecoilNucleonMass
      if pi.IsInverseBetaDecay then k.DarkQ2Lim_W_cut Ev M ml W c.kMinQ2Limit_VLE
      else k.DarkQ2Lim_W Ev M ml W
    else if pi.IsMEC then
      let W := i.RecoilNucleonMass
      let Q2l := if is_em then k.em_InelQ2Lim_W Ev ml M W else k.InelQ2Lim_W Ev M ml W
      let Q2maxConfig : ℚ := 1.44
      if Q2l.max > Q2maxConfig then ⟨Q2l.min, Q2maxConfig⟩ else Q2l
    else if is_dmdis then k.DarkQ2Lim Ev M ml
    else if is_em then k.em_InelQ2Lim Ev ml M else k.InelQ2Lim Ev M ml

/-- Method `KPhaseSpace::Q2Lim_W` (KPhaseSpace.cxx, lines 510-558). -/
def Q2Lim_W (c : Constants) (k : KineUtils) (i : Interaction) : Range1D_t :=
  let pi := i.ProcInfo
  let is_em := pi.IsEM
  let is_qel := pi.IsQuasiElastic || pi.IsInverseBetaDecay
  let is_inel := pi.IsDeepInelastic || pi.IsResonant || pi.IsDiffractive
  let is_coh := pi.IsCoherentProduction
  let is_dme := pi.IsDarkMatterElastic
  let is_dmdis := pi.IsDarkMatterDeepInelastic
  if !is_qel && !is_inel && !is_coh && !is_dme && !is_dmdis then ⟨-1, -1⟩
  else if is_coh then Q2Lim c k i
  else
    let Ev := i.ProbeE_HitNucRest
    let M := i.HitNucP4M
    let ml := i.FSPrimLeptonMass
    let W := if is_qel || is_dme then i.RecoilNucleonMass else k.W i
    if pi.IsInverseBetaDecay then k.InelQ2Lim_W_cut Ev M ml W c.kMinQ2Limit_VLE
    else if is_dme || is_dmdis then k.DarkQ2Lim_W Ev M ml W
    else if is_em then k.em_InelQ2Lim_W Ev ml M W else k.InelQ2Lim_W Ev M ml W

/-- Method `KPhaseSpace::q2Lim_W` (KPhaseSpace.cxx, lines 560-569). -/
def q2Lim_W (c : Constants) (k : KineUtils) (i : Interaction) : Range1D_t :=
  let Q2 := Q2Lim_W c k i
  ⟨-Q2.max, -Q2.min⟩

/-- Method `KPhaseSpace::q2Lim` (KPhaseSpace.cxx, lines 680-689). -/
def q2Lim (c : Constants) (k : KineUtils) (i : Interaction) : Range1D_t :=
  let Q2 := Q2Lim c k i
  ⟨-Q2.max, -Q2.min⟩

/-- Method `KPhaseSpace::XLim` (KPhaseSpace.cxx, lines 691-743). -/
def XLim (c : Constants) (k : KineUtils) (i : Interaction) : Range1D_t :=
  let pi := i.ProcInfo
  let is_em := pi.IsEM
  let is_inel := pi.IsDeepInelastic || pi.IsResonant
  if is_inel then
    let Ev := i.ProbeE_HitNucRest
    let M := i.HitNucP4M
    let ml := i.FSPrimLeptonMass
    if is_em then k.em_InelXLim Ev ml M else k.InelXLim Ev M ml
  else if pi.IsDarkMatterDeepInelastic then
    k.DarkXLim i.ProbeE_HitNucRest i.HitNucP4M i.FSPrimLeptonMass
  else if pi.IsCoherentProduction then k.CohXLim
  else if pi.IsQuasiElastic || pi.IsInverseBetaDecay || pi.IsDarkMatterElastic then ⟨1, 1⟩
  else if pi.IsDiffractive then ⟨c.kASmallNum, 1 - c.kASmallNum⟩
  else ⟨-1, -1⟩

/-- Method `KPhaseSpace::YLim()` (KPhaseSpace.cxx, lines 745-813). -/
def YLim (c : Constants) (k : KineUtils) (i : Interaction) : Range1D_t :=
  let pi := i.ProcInfo
  let is_em := pi.IsEM
  let is_inel := pi.IsDeepInelastic || pi.IsResonant
  if is_inel then
    let Ev := i.ProbeE_HitNucRest
    let M := i.HitNucP4M
    let ml := i.FSPrimLeptonMass
    if is_em then k.em_InelYLim Ev ml M else k.InelYLim Ev M ml
  else if pi.IsDarkMatterDeepInelastic then
    k.DarkYLim i.ProbeE_HitNucRest i.HitNucP4M i.FSPrimLeptonMass
  else if pi.IsCoherentProduction then
    k.CohYLim i.ProbeE_Lab i.FSPrimLeptonMass
  else if pi.IsInverseMuDecay || pi.IsIMDAnnihilation || pi.IsNuElectronElastic then
    let Ev := i.ProbeE_Lab
    let ml := i.FSPrimLeptonMass
    let me := c.kElectronMass
    ⟨c.kASmallNum, 1 - (ml * ml + me * me) / (2 * me * Ev) - c.kASmallNum⟩
  else if pi.IsDarkMatterElectronElastic then
    let Ev := i.ProbeE_Lab
    let ml := i.FSPrimLeptonMass
    let me := c.kElectronMass
    ⟨(Ev * me * me + ml * ml * (Ev + 2.0 * me)) / (Ev * (2.0 * Ev * me + me * me + ml * ml))
        + c.kASmallNum,
     1.0 - c.kASmallNum⟩
  else if pi.IsDiffractive then
    let Ev := i.ProbeE_HitNucRest
    let ml := i.FSPrimLeptonMass
    ⟨c.kPionMass / Ev + c.kASmallNum, 1 - ml / Ev - c.kASmallNum⟩
  else ⟨-1, -1⟩

/-- The diffractive t-minimum `std::abs((A2 + sqrt(A2*A2 - A1*A3)) / A1)`
(KPhaseSpace.cxx, line 971); `none` stands for not-a-number, which arises
from the square root or from a `0/0` quotient.  A non-zero numerator over
`A1 = 0` is `+inf` in the source and is not represented: the rational
quotient is `0` there, so the value is meaningful for `A1 ≠ 0` only. -/
def dfrTMin (k : KineUtils) (A1 A2 A3 : ℚ) : Option ℚ :=
  match k.sqrt (A2 * A2 - A1 * A3) with
  | none => none
  | some r => if A1 = 0 ∧ A2 + r = 0 then none else some |(A2 + r) / A1|

/-- Method `KPhaseSpace::TLim` (KPhaseSpace.cxx, lines 915-997).  The call
first updates the running W and Q2 of the interaction, so the interaction
after the call is returned with the result. -/
def TLim (c : Constants) (k : KineUtils) (i0 : Interaction) :
    Interaction × Except Failure Range1D_t :=
  let i := UpdateWQ2FromXY k i0
  let pi := i.ProcInfo
  let Ev := i.ProbeE_HitNucRest
  let Q2 := i.Q2
  let nu := Ev * i.y
  if pi.IsCoherentProduction then
    let m_other :=
      if i.NPions > 0 then (if pi.IsWeakCC then c.kPionMass else c.kPi0Mass)
      else c.kASmallNum
    let m_other2 := m_other * m_other
    (i, .ok ⟨1.0 * (Q2 + m_other2) / (2.0 * nu) * (Q2 + m_other2) / (2.0 * nu), 0.05⟩)
  else if pi.IsDiffractive then
    let mpi := if pi.IsWeakCC then c.kPionMass else c.kPi0Mass
    let mpi2 := mpi * mpi
    let M := i.HitNucMass
    let M2 := M * M
    let nuSqPlusQ2 := nu * nu + Q2
    let nuOverM := nu / M
    let mpiQ2term := mpi2 - Q2 - 2 * nu * nu
    let A1 := 1 + 2 * nuOverM + nuOverM * nuOverM - nuSqPlusQ2 / M2
    let A2 := (1 + nuOverM) * mpiQ2term + 2 * nuOverM * nuSqPlusQ2
    let A3 := mpiQ2term * mpiQ2term - 4 * nuSqPlusQ2 * (nu * nu - mpi2)
    match dfrTMin k A1 A2 A3 with
    | none => (i, .error (.exception .nanTminDiffractive))
    | some tmin => (i, .ok ⟨tmin, c.DFR_tMax⟩)
  else (i, .ok ⟨-1, -1⟩)

/-- Method `KPhaseSpace::IsAllowed` (KPhaseSpace.cxx, lines 323-438), with the
interaction as the call leaves it (only the diffractive branch touches it). -/
def IsAllowedSt (c : Constants) (k : KineUtils) (i : Interaction) :
    Interaction × Except Failure Bool :=
  let pi := i.ProcInfo
  if pi.IsSingleKaon then (i, .ok true)
  else if pi.IsQuasiElastic || pi.IsInverseBetaDecay || pi.IsDarkMatterElastic then
    let Q2l := Q2Lim c k i
    let Q2 := i.Q2
    (i, .ok (IsWithinLimits Q2 Q2l))
  else if pi.IsResonant then
    let Wl := WLim c k i
    let Q2l := Q2Lim_W c k i
    let W := i.W
    let Q2 := i.Q2
    (i, .ok (IsWithinLimits Q2 Q2l && IsWithinLimits W Wl))
  else if pi.IsDeepInelastic || pi.IsDarkMatterDeepInelastic then
    let Wl := WLim c k i
    let Q2l := Q2Lim_W c k i
    let W := i.W
    let Q2 := i.Q2
    (i, .ok (IsWithinLimits Q2 Q2l && IsWithinLimits W Wl))
  else if pi.IsInverseMuDecay || pi.IsIMDAnnihilation || pi.IsNuElectronElastic ||
          pi.IsDarkMatterElectronElastic then
    let yl := YLim c k i
    let y := i.y
    (i, .ok (IsWithinLimits y yl))
  else if pi.IsCoherentProduction then
    let xl := XLim c k i
    let yl := YLim c k i
    let x := i.x
    let y := i.y
    (i, .ok (IsWithinLimits x xl && IsWithinLimits y yl))
  else if pi.IsCoherentElastic then
    let Q2 := i.Q2
    (i, .ok (decide (Q2 > 0)))
  else if pi.IsDiffractive then
    let Wl := WLim c k i
    let Q2l := Q2Lim_W c k i
    let i1 := UpdateWQ2FromXY k i
    let W := i1.W
    let Q2 := i1.Q2
    let in_phys := IsWithinLimits W Wl && IsWithinLimits Q2 Q2l
    if in_phys then
      let t := i1.t
      match TLim c k i1 with
      | (i2, .error e) => (i2, .error e)
      | (i2, .ok tl) => (i2, .ok (in_phys && IsWithinLimits t tl))
    else (i1, .ok in_phys)
  else if pi.IsMEC then
    let Q2l := Q2Lim c k i
    let Q2 := i.Q2
    (i, .ok (IsWithinLimits Q2 Q2l))
  else (i, .ok false)

/-- The value `KPhaseSpace::IsAllowed` returns (or the exception it throws). -/
def IsAllowed (c : Constants) (k : KineUtils) (i : Interaction) :
    Except Failure Bool :=
  (IsAllowedSt c k i).2

/-- The process kinds that `KPhaseSpace::IsAllowed` names in one of its
branches (KPhaseSpace.cxx, lines 323-438); every other kind falls through to
the final `return false`. -/
def isAllowedDispatchKinds : List ScatteringType :=
  [.kScSingleKaon, .kScQuasiElastic, .kScInverseBetaDecay, .kScDarkMatterElastic,
   .kScResonant, .kScDeepInelastic, .kScDarkMatterDeepInelastic, .kScInverseMuDecay,
   .kScIMDAnnihilation, .kScNuElectronElastic, .kScDarkMatterElectronElastic,
   .kScCoherentProduction, .kScCoherentElastic, .kScDiffractive, .kScMEC]

/-- The process kinds that pass the early return of `KPhaseSpace::Q2Lim`
(KPhaseSpace.cxx, lines 584-591); every other kind gets the range
`{-1, -1}` the function starts from. -/
def q2LimKinds : List ScatteringType :=
  [.kScQuasiElastic, .kScInverseBetaDecay, .kScDeepInelastic, .kScResonant,
   .kScCoherentProduction, .kScCoherentElastic, .kScDarkMatterElastic,
   .kScDarkMatterDeepInelastic]

/-- The coefficients `A1`, `A2`, `A3` of the diffractive t-minimum
(KPhaseSpace.cxx, lines 929-931 and 958-969), read off the interaction as
`UpdateWQ2FromXY` has left it. -/
def dfrCoefficients (c : Constants) (i : Interaction) : ℚ × ℚ × ℚ :=
  let pi := i.ProcInfo
  let Ev := i.ProbeE_HitNucRest
  let Q2 := i.Q2
  let nu := Ev * i.y
  let mpi := if pi.IsWeakCC then c.kPionMass else c.kPi0Mass
  let mpi2 := mpi * mpi
  let M := i.HitNucMass
  let M2 := M * M
  let nuSqPlusQ2 := nu * nu + Q2
  let nuOverM := nu / M
  let mpiQ2term := mpi2 - Q2 - 2 * nu * nu
  let A1 := 1 + 2 * nuOverM + nuOverM * nuOverM - nuSqPlusQ2 / M2
  let A2 := (1 + nuOverM) * mpiQ2term + 2 * nuOverM * nuSqPlusQ2
  let A3 := mpiQ2term * mpiQ2term - 4 * nuSqPlusQ2 * (nu * nu - mpi2)
  (A1, A2, A3)

/-- Modelled from the spec: "per-variable `Limits(variable)`: dispatches on
variable tag {W, Q², signed-q², x, y, t}" (the enumeration `KineVar_t` is
declared in `Framework/Conventions/KineVar.h`, which is not among the
sources).  The six tags are those `KPhaseSpace::Limits` names; `other`
stands for every other tag of the enumeration. -/
inductive KineVar_t
  | kKVW | kKVQ2 | kKVq2 | kKVx | kKVy | kKVt
  | other (tag : Nat)
  deriving DecidableEq, Repr

/-- Method `KPhaseSpace::Limits` (KPhaseSpace.cxx, lines 250-270), with the
interaction as the call leaves it (only `TLim` touches it).  The `default`
label logs an error and returns `Range1D_t R(-1.,-1)`. -/
def LimitsSt (c : Constants) (k : KineUtils) (i : Interaction) (kvar : KineVar_t) :
    Interaction × Except Failure Range1D_t :=
  match kvar with
  | .kKVW => (i, .ok (WLim c k i))
  | .kKVQ2 => (i, .ok (Q2Lim c k i))
  | .kKVq2 => (i, .ok (q2Lim c k i))
  | .kKVx => (i, .ok (XLim c k i))
  | .kKVy => (i, .ok (YLim c k i))
  | .kKVt => TLim c k i
  | .other _ => (i, .ok ⟨-1, -1⟩)

/-- The value `KPhaseSpace::Limits` returns (or the exception it throws). -/
def Limits (c : Constants) (k : KineUtils) (i : Interaction) (kvar : KineVar_t) :
    Except Failure Range1D_t :=
  (LimitsSt c k i kvar).2

/-- Method `KPhaseSpace::Minimum` (KPhaseSpace.cxx, lines 272-276). -/
def Minimum (c : Constants) (k : KineUtils) (i : Interaction) (kvar : KineVar_t) :
    Except Failure ℚ :=
  match Limits c k i kvar with
  | .error e => .error e
  | .ok lim => .ok lim.min

/-- Method `KPhaseSpace::Maximum` (KPhaseSpace.cxx, lines 278-282). -/
def Maximum (c : Constants) (k : KineUtils) (i : Interaction) (kvar : KineVar_t) :
    Except Failure ℚ :=
  match Limits c k i kvar with
  | .error e => .error e
  | .ok lim => .ok lim.max

/-- Method `KPhaseSpace::YLim_X()` (KPhaseSpace.cxx, lines 815-858). -/
def YLim_X (k : KineUtils) (i : Interaction) : Range1D_t :=
  let pi := i.ProcInfo
  let is_em := pi.IsEM
  let is_inel := pi.IsDeepInelastic || pi.IsResonant
  if is_inel then
    let Ev := i.ProbeE_HitNucRest
    let M := i.HitNucP4M
    let ml := i.FSPrimLeptonMass
    let x := i.x
    if is_em then k.em_InelYLim_X Ev ml M x else k.InelYLim_X Ev M ml x
  else if pi.IsDarkMatterDeepInelastic then
    k.DarkYLim_X i.ProbeE_HitNucRest i.HitNucP4M i.FSPrimLeptonMass i.x
  else if pi.IsCoherentProduction then
    k.CohYLim i.ProbeE_Lab i.FSPrimLeptonMass
  else ⟨-1, -1⟩

/-- Method `KPhaseSpace::YLim(double xsi)` (KPhaseSpace.cxx, lines 860-897). -/
def YLim_xsi (c : Constants) (k : KineUtils) (i : Interaction) (xsi : ℚ) : Range1D_t :=
  let pi := i.ProcInfo
  if pi.IsCoherentProduction then
    let Ev := i.ProbeE_HitNucRest
    let Q2 := i.Q2
    let Mn := i.TgtMass
    let mlep := i.FSPrimLeptonMass
    let m_other :=
      if i.NPions > 0 then (if pi.IsWeakCC then c.kPionMass else c.kPi0Mass)
      else c.kASmallNum
    k.CohYLim_xsi Mn m_other mlep Ev Q2 xsi
  else YLim c k i

/-- Method `KPhaseSpace::YLim_X(double xsi)` (KPhaseSpace.cxx, lines 899-913). -/
def YLim_X_xsi (c : Constants) (k : KineUtils) (i : Interaction) (xsi : ℚ) : Range1D_t :=
  if i.ProcInfo.IsCoherentProduction then YLim_xsi c k i xsi else YLim_X k i

/-! ## Single-pion-production limits -/

/-- The functions of `Framework/Interaction/SppChannel.h` that
`KPhaseSpace.cxx` calls, each composed with `SppChannel::FromInteraction`;
the file is not among the sources, so each function is a parameter giving
the PDG code for the channel of the interaction. -/
structure SppChannel where
  InitStateNucleon : Interaction → Int
  FinStateNucleon : Interaction → Int
  FinStatePion : Interaction → Int

/-- The value of `std::numeric_limits<double>::epsilon()`, `2^-52`. -/
def epsilon : ℚ := 1 / 2 ^ 52

/-! ## The max-cross-section cache (`KineGeneratorWithCache`) -/

/-- Modelled from the spec: "Spline: domain bounds (`XMin`, `XMax`) and point
evaluation, built from an ordered set of (x,y) samples" (class `Spline` is not
among the sources). -/
structure Spline where
  XMin : ℚ
  XMax : ℚ
  Evaluate : ℚ → ℚ

/-- Modelled from the spec: the cache branch, a "mapping from probe energy
(double, sorted) to a scalar", promotable to a spline (class `CacheBranchFx`
is not among the sources).  `fFx` is the `std::map<double,double>` that
`Map()` returns, as the list of its entries in ascending key order; `fSpline`
is what `Spl()` returns, `none` for a null pointer. -/
structure CacheBranchFx where
  fFx : List (ℚ × ℚ)
  fSpline : Option Spline

/-- Insertion into a `std::map<double,double>` held as an ascending list: the
entry goes to its place in key order, and an entry whose key is already
present is left as it is (entries are append-only). -/
def mapInsert (x y : ℚ) : List (ℚ × ℚ) → List (ℚ × ℚ)
  | [] => [(x, y)]
  | (a, b) :: rest =>
    if x < a then (x, y) :: (a, b) :: rest
    else if x = a then (a, b) :: rest
    else (a, b) :: mapInsert x y rest

/-- The entry `std::map::lower_bound(E)` points to: the first entry whose key
is not less than `E`; `none` is `end()`. -/
def lower_bound (E : ℚ) (fmap : List (ℚ × ℚ)) : Option (ℚ × ℚ) :=
  fmap.find? (fun p => decide (E ≤ p.1))

namespace CacheBranchFx

/-- Modelled from the spec: "append (energy, value) to the branch"
(`CacheBranchFx::AddValues`). -/
def AddValues (cb : CacheBranchFx) (x y : ℚ) : CacheBranchFx :=
  { cb with fFx := mapInsert x y cb.fFx }

/-- Modelled from the spec: build the interpolating spline over the sampled
points (`CacheBranchFx::CreateSpline`); the spline constructor `mkSpline`
is a parameter. -/
def CreateSpline (mkSpline : String → List (ℚ × ℚ) → Spline) (cb : CacheBranchFx)
    (type : String) : CacheBranchFx :=
  { cb with fSpline := some (mkSpline type cb.fFx) }

end CacheBranchFx

/-- The composite cache-branch key: algorithm identity and configuration,
interaction string, sub-key index. -/
abbrev CacheKey := String × String × Int

/-- Modelled from the spec: the process-wide cache, a store of branches by
key (class `Cache` is not among the sources); `none` is a branch not yet
created. -/
abbrev Cache := CacheKey → Option CacheBranchFx

/-- The configuration and virtual methods of a `KineGeneratorWithCache`. -/
structure KineGeneratorWithCache where
  /-- Value of `Id().Key()`. -/
  algKey : String
  fEMin : ℚ
  fMaxXSecDiffTolerance : ℚ
  fNumOfSafetyFactors : Int
  vSafetyFactors : List ℚ
  fNumOfInterpolatorTypes : Int
  vInterpolatorTypes : List String
  /-- The pure virtual `ComputeMaxXSec(interaction)`. -/
  ComputeMaxXSec : Interaction → ℚ
  /-- The constructor of `Spline` from an interpolator type and the samples. -/
  mkSpline : String → List (ℚ × ℚ) → Spline
  /-- The virtual `ComputeMaxXSec(interaction, nkey)`; unless a generator
  overrides it, it is the body of lines 283-293. -/
  ComputeMaxXSecKey : Interaction → Int → ℚ :=
    fun in_ nkey => if nkey = 0 then ComputeMaxXSec in_ else -1

namespace KineGeneratorWithCache

/-- Method `KineGeneratorWithCache::Energy` (lines 213-222). -/
def Energy (_g : KineGeneratorWithCache) (interaction : Interaction) : ℚ :=
  interaction.ProbeE_HitNucRest

/-- The key `AccessCacheBranch` builds (lines 232-235). -/
def branchKey (g : KineGeneratorWithCache) (interaction : Interaction) (nkey : Int) : CacheKey :=
  (g.algKey, interaction.AsString, nkey)

/-- Method `KineGeneratorWithCache::AccessCacheBranch` (lines 224-250): the
branch for this algorithm, interaction and sub-key, created empty when absent;
returned with the cache after the call. -/
def AccessCacheBranch (g : KineGeneratorWithCache) (cache : Cache) (interaction : Interaction)
    (nkey : Int) : CacheBranchFx × Cache :=
  let key := g.branchKey interaction nkey
  match cache key with
  | some cache_branch => (cache_branch, cache)
  | none =>
    let cache_branch : CacheBranchFx := ⟨[], none⟩
    (cache_branch, Function.update cache key (some cache_branch))

/-- Method `KineGeneratorWithCache::FindMaxXSec` (lines 105-148): the value
returned and the cache after the call. -/
def FindMaxXSec (g : KineGeneratorWithCache) (cache : Cache) (interaction : Interaction)
    (nkey : Int) : ℚ × Cache :=
  let E := g.Energy interaction
  if E < g.fEMin then (-1, cache)
  else
    let (cb, cache1) := g.AccessCacheBranch cache interaction nkey
    match cb.fSpline with
    | some spl =>
      if E ≥ spl.XMin ∧ E ≤ spl.XMax then (spl.Evaluate E, cache1)
      else (-1, cache1)
    | none =>
      let dE := min 0.25 (0.05 * E)
      match lower_bound E cb.fFx with
      | some iter => if |E - iter.1| < dE then (iter.2, cache1) else (-1, cache1)
      | none => (-1, cache1)

/-- The interpolator type passed to `CreateSpline` (lines 203 and 208). -/
def interpolatorType (g : KineGeneratorWithCache) (nkey : Int) : String :=
  if nkey ≤ g.fNumOfInterpolatorTypes - 1 then g.vInterpolatorTypes.getD nkey.toNat "" else ""

/-- Lines 201-204 of `CacheMaxXSec`: without a spline, one is created once
the map holds more than 40 entries. -/
def createSplineIfEnough (g : KineGeneratorWithCache) (nkey : Int) (cb : CacheBranchFx) :
    CacheBranchFx :=
  match cb.fSpline with
  | none =>
    if cb.fFx.length > 40 then cb.CreateSpline g.mkSpline (g.interpolatorType nkey) else cb
  | some _ => cb

/-- Lines 206-210 of `CacheMaxXSec`: a spline whose domain does not contain
`E` is created anew. -/
def recreateSplineIfOutside (g : KineGeneratorWithCache) (nkey : Int) (E : ℚ)
    (cb : CacheBranchFx) : CacheBranchFx :=
  match cb.fSpline with
  | some spl =>
    if E < spl.XMin ∨ E > spl.XMax then cb.CreateSpline g.mkSpline (g.interpolatorType nkey)
    else cb
  | none => cb

/-- Method `KineGeneratorWithCache::CacheMaxXSec` (lines 190-211): the cache
after the call. -/
def CacheMaxXSec (g : KineGeneratorWithCache) (cache : Cache) (interaction : Interaction)
    (max_xsec : ℚ) (nkey : Int) : Cache :=
  let (cb, cache1) := g.AccessCacheBranch cache interaction nkey
  let E := g.Energy interaction
  if E < g.fEMin then cache1
  else
    let cb1 := if max_xsec > 0 then cb.AddValues E max_xsec else cb
    let cb2 := g.createSplineIfEnough nkey cb1
    let cb3 := g.recreateSplineIfOutside nkey E cb2
    Function.update cache1 (g.branchKey interaction nkey) (some cb3)

/-- Log levels used by `AssertXSecLimits`. -/
inductive LogLevel where
  | pFATAL
  | pERROR
  | pWARN
  deriving DecidableEq, Repr

/-- What a call of `AssertXSecLimits` does: the messages it logs, in order,
and whether it ends in `std::terminate()`. -/
structure AssertOutcome where
  log : List LogLevel
  terminated : Bool
  deriving DecidableEq, Repr

/-- The test `f > fMaxXSecDiffTolerance` of line 260 for
`f = 200*(xsec-xsec_max)/(xsec_max+xsec)`, reached only with
`xsec > xsec_max`: the numerator is then positive, so with a zero denominator
`f` is plus infinity in double arithmetic and exceeds every tolerance. -/
def deviationExceeds (xsec xsec_max tolerance : ℚ) : Bool :=
  if xsec_max + xsec = 0 then true
  else decide (200 * (xsec - xsec_max) / (xsec_max + xsec) > tolerance)

/-- Method `KineGeneratorWithCache::AssertXSecLimits` (lines 252-281). -/
def AssertXSecLimits (g : KineGeneratorWithCache) (xsec xsec_max : ℚ) : AssertOutcome :=
  let negative : List LogLevel := if xsec < 0 then [.pERROR] else []
  if xsec > xsec_max then
    if deviationExceeds xsec xsec_max g.fMaxXSecDiffTolerance then ⟨[.pFATAL, .pFATAL], true⟩
    else ⟨[.pWARN, .pWARN] ++ negative, false⟩
  else ⟨negative, false⟩

/-- The kinematic phase-space tag passed to `SetDiffXSec`
(`KinePhaseSpace_t`); only `kPSNull` is named in the sources. -/
inductive KinePhaseSpace_t where
  | kPSNull
  | kPSQ2fE
  | kPSWQ2fE
  | kPSxyfE
  deriving DecidableEq, Repr

/-- Modelled from the spec: the event record as `MaxXSec` touches it (class
`GHepRecord` is not among the sources): the interaction summary, the
differential cross section with its phase-space tag, and the
"kinematics generation error" event flag. -/
structure GHepRecord where
  /-- Accessor `Summary()`. -/
  Summary : Interaction
  fDiffXSec : ℚ
  fDiffXSecPhSp : KinePhaseSpace_t
  /-- Bit `kKineGenErr` of `EventFlags()`. -/
  kKineGenErr : Bool

/-- Modelled from the spec: the "fast-forwardable generation exception"
(`genie::exceptions::EVGThreadException`, not among the sources): a reason
and the fast-forward and step-back switches, both off when constructed. -/
structure EVGThreadException where
  fReason : String
  fFastForward : Bool
  fStepBack : Bool
  deriving DecidableEq, Repr

/-- What a call of `MaxXSec` leaves: the value returned or the exception
thrown, the event record and the cache. -/
structure MaxXSecOutcome where
  result : Except EVGThreadException ℚ
  event : GHepRecord
  cache : Cache

/-- The return expression of lines 68 and 84:
`nkey<=fNumOfSafetyFactors-1 ? vSafetyFactors[nkey]*xsec_max : xsec_max`.
An index outside the vector, undefined in the source, reads the factor 1. -/
def safetyScaled (g : KineGeneratorWithCache) (nkey : Int) (xsec_max : ℚ) : ℚ :=
  if nkey ≤ g.fNumOfSafetyFactors - 1 then g.vSafetyFactors.getD nkey.toNat 1 * xsec_max
  else xsec_max

/-- The maximum that `MaxXSec` computes when the cache has none
(lines 72-79). -/
def computedMaxXSec (g : KineGeneratorWithCache) (interaction : Interaction) (nkey : Int) : ℚ :=
  if nkey = 0 then g.ComputeMaxXSec interaction else g.ComputeMaxXSecKey interaction nkey

/-- Method `KineGeneratorWithCache::MaxXSec` (lines 57-103). -/
def MaxXSec (g : KineGeneratorWithCache) (cache : Cache) (event_rec : GHepRecord)
    (nkey : Int) : MaxXSecOutcome :=
  let interaction := event_rec.Summary
  let (xsec_max, cache1) := g.FindMaxXSec cache interaction nkey
  if xsec_max > 0 then ⟨.ok (g.safetyScaled nkey xsec_max), event_rec, cache1⟩
  else
    let xsec_max := g.computedMaxXSec interaction nkey
    if xsec_max > 0 then
      let cache2 := g.CacheMaxXSec cache1 interaction xsec_max nkey
      ⟨.ok (g.safetyScaled nkey xsec_max), event_rec, cache2⟩
    else
      let interaction1 : Interaction :=
        { interaction with kISkipProcessChk := false, kISkipKinematicChk := false }
      let event_rec1 : GHepRecord :=
        { event_rec with
          Summary := interaction1
          fDiffXSec := 0
          fDiffXSecPhSp := .kPSNull
          kKineGenErr := true }
      ⟨.error ⟨"kinematics generation: max_xsec<=0", true, false⟩, event_rec1, cache1⟩

end KineGeneratorWithCache

/-- What a cache holds at a key, a branch not yet created counting as an
empty one. -/
def branchOrEmpty (cache : Cache) (key : CacheKey) : CacheBranchFx :=
  (cache key).getD ⟨[], none⟩

/-! ## `DMDISXSec::Integrate` -/

/-- PDG code of the free-proton target (`kPdgTgtFreeP`). -/
def kPdgTgtFreeP : Int := 1000010010

/-- PDG code of the free-neutron target (`kPdgTgtFreeN`). -/
def kPdgTgtFreeN : Int := 1000000010

/-- Function `pdg::IsProton` (`PDGUtils.h`). -/
def pdg.IsProton (pdgc : Int) : Bool := pdgc = kPdgProton

/-- Modelled from the spec: the differential cross-section model, "callable
`(interaction) → double`, with a `ValidProcess(interaction)` applicability
predicate" (`XSecAlgorithmI` is not among the sources).  The callable is
reached only through the integrator, which is a parameter of `DMDISXSec`. -/
structure XSecAlgorithmI where
  /-- Value of `Id().Key()`. -/
  algKey : String
  ValidProcess : Interaction → Bool

/-- Modelled from the spec: the list of cross-section splines
(`XSecSplineList`, not among the sources), one spline per pair of model key
and interaction string. -/
structure XSecSplineList where
  fSplineMap : List ((String × String) × Spline)

namespace XSecSplineList

/-- The key of the spline of a model and an interaction. -/
def BuildSplineKey (alg : XSecAlgorithmI) (interaction : Interaction) : String × String :=
  (alg.algKey, interaction.AsString)

/-- Method `XSecSplineList::IsEmpty`: the list holds no spline. -/
def IsEmpty (xsl : XSecSplineList) : Bool := xsl.fSplineMap.isEmpty

/-- Method `XSecSplineList::GetSpline`: the spline stored under the key of
the model and the interaction, `none` when there is none. -/
def GetSpline (xsl : XSecSplineList) (alg : XSecAlgorithmI) (interaction : Interaction) :
    Option Spline :=
  (xsl.fSplineMap.find? (fun e => decide (e.1 = BuildSplineKey alg interaction))).map (·.2)

/-- Method `XSecSplineList::SplineExists`. -/
def SplineExists (xsl : XSecSplineList) (alg : XSecAlgorithmI) (interaction : Interaction) :
    Bool :=
  (xsl.GetSpline alg interaction).isSome

end XSecSplineList

/-- The branches of the process-wide cache that `DMDISXSec` uses, under the
two-part key of `CacheBranchName` (model key, interaction string). -/
abbrev XSecCache := String × String → Option CacheBranchFx

/-- The collaborators a call of `Integrate` can consult. -/
inductive Effect where
  /-- A query of the spline list (`IsEmpty`, `SplineExists`, `GetSpline`). -/
  | splineList
  /-- A lookup in the cache (`FindCacheBranch`). -/
  | cache
  /-- A call `ig.Integral(kine_min, kine_max)` of the numerical integrator,
  with its two corners (W, Q2). -/
  | integrator (kine_min kine_max : ℚ × ℚ)
  deriving DecidableEq, Repr

/-- The configuration of a `DMDISXSec` and the collaborators it reaches that
are not among the sources, as parameters. -/
structure DMDISXSec where
  /-- Value of `RunOpt::Instance()->BareXSecPreCalc()`. -/
  BareXSecPreCalc : Bool
  /-- Whether `fGSLIntgType` names the adaptive integrator. -/
  adaptive : Bool
  /-- The factor `1E-38 * units::cm2`. -/
  unit : ℚ
  /-- Value of `ig.Integral(kine_min, kine_max)` for the integrand
  `d2XSec_dWdQ2_E(model, interaction)`; the first argument says whether
  `SetMinPts(fGSLMinEval)` was applied. -/
  Integral : Bool → XSecAlgorithmI → Interaction → ℚ × ℚ → ℚ × ℚ → ℚ
  /-- The interaction after `target->SetId(pdgc)`. -/
  TgtSetId : Interaction → Int → Interaction
  /-- The interaction after `SetProbeP4(TLorentzVector(0,0,pd,Ed))`. -/
  SetProbeP4 : Interaction → ℚ → ℚ → Interaction
  /-- The knot energies `E[0], ..., E[nknots-1]` of lines 243-264, a
  logarithmic grid computed in double arithmetic from the threshold and the
  configured validity range. -/
  knots : ℚ → List ℚ
  /-- Function `TMath::Sqrt` on a non-negative double. -/
  sqrt : ℚ → ℚ
  /-- The constructor of `Spline` from an interpolator type and the samples. -/
  mkSpline : String → List (ℚ × ℚ) → Spline

namespace DMDISXSec

/-- Modelled from the spec: the "interaction copies for
free-nucleon-equivalent probing", `new Interaction(*in)` followed by
`target->SetId(pdgc)`: what the target accessors, the frame-dependent
energies and the string form return is taken from `TgtSetId`; the process,
the exclusive tag, the lepton, the running kinematics and the bits are
those of the original. -/
def freeNucleonCopy (d : DMDISXSec) (i : Interaction) (pdgc : Int) : Interaction :=
  let j := d.TgtSetId i pdgc
  { i with
    TgtPdg := j.TgtPdg
    TgtMass := j.TgtMass
    TgtZ := j.TgtZ
    TgtN := j.TgtN
    TgtIsNucleus := j.TgtIsNucleus
    HitNucIsSet := j.HitNucIsSet
    HitNucPdg := j.HitNucPdg
    HitNucP4M := j.HitNucP4M
    HitNucMass := j.HitNucMass
    ProbeE_Lab := j.ProbeE_Lab
    ProbeE_HitNucRest := j.ProbeE_HitNucRest
    CMEnergy := j.CMEnergy
    AsString := j.AsString }

/-- Method `DMDISXSec::CacheBranchName` (lines 324-335). -/
def CacheBranchName (model : XSecAlgorithmI) (interaction : Interaction) : String × String :=
  (model.algKey, interaction.AsString)

/-- The test `phsp_ok` of lines 156-158 and 289-291. -/
def phsp_ok (Wl Q2l : Range1D_t) : Bool :=
  decide (Q2l.min ≥ 0) && decide (Q2l.max ≥ 0) && decide (Q2l.max ≥ Q2l.min) &&
  decide (Wl.min ≥ 0) && decide (Wl.max ≥ 0) && decide (Wl.max ≥ Wl.min)

/-- Modelled from the spec: "evaluate/interpolate at the current energy"
(`CacheBranchFx::operator()`): the value of the branch spline, 0 without a
spline. -/
def evalBranch (cb : CacheBranchFx) (x : ℚ) : ℚ :=
  match cb.fSpline with
  | some spl => spl.Evaluate x
  | none => 0

/-- One pass of the loop of lines 273-315 of `CacheFreeNucleonXSec`, on the
interaction, the branch and the effects so far. -/
def cacheKnot (d : DMDISXSec) (c : Constants) (k : KineUtils) (model : XSecAlgorithmI)
    (Ethr Md2 : ℚ) (st : Interaction × CacheBranchFx × List Effect) (Ed : ℚ) :
    Interaction × CacheBranchFx × List Effect :=
  let pd := d.sqrt (max (Ed * Ed - Md2) 0)
  let interaction := d.SetProbeP4 st.1 pd Ed
  let Wl := WLim c k interaction
  let Q2l := Q2Lim c k interaction
  if Ed > Ethr + c.kASmallNum ∧ phsp_ok Wl Q2l = true then
    let xsec :=
      d.Integral d.adaptive model interaction (Wl.min, Q2l.min) (Wl.max, Q2l.max) * d.unit
    (interaction, st.2.1.AddValues Ed xsec,
      st.2.2 ++ [.integrator (Wl.min, Q2l.min) (Wl.max, Q2l.max)])
  else (interaction, st.2.1.AddValues Ed 0, st.2.2)

/-- Method `DMDISXSec::CacheFreeNucleonXSec` (lines 216-322): the cache with
the new branch and the integrator calls made, or the exception of
`Threshold`. -/
def CacheFreeNucleonXSec (d : DMDISXSec) (c : Constants) (k : KineUtils) (cache : XSecCache)
    (model : XSecAlgorithmI) (interaction : Interaction) :
    Except Failure (XSecCache × List Effect) :=
  let key := CacheBranchName model interaction
  let cache_branch : CacheBranchFx := ⟨[], none⟩
  let nucpdgc := interaction.HitNucPdg
  let interaction1 :=
    d.freeNucleonCopy interaction (if pdg.IsProton nucpdgc then kPdgTgtFreeP else kPdgTgtFreeN)
  match Threshold c interaction1 with
  | .error e => .error e
  | .ok Ethr =>
    let E := d.knots Ethr
    let Md := interaction1.ProbeMass
    let Md2 := Md * Md
    let st := E.foldl (d.cacheKnot c k model Ethr Md2) (interaction1, cache_branch, [])
    let cb := st.2.1.CreateSpline d.mkSpline ""
    .ok (Function.update cache key (some cb), st.2.2)

/-- What a call of `Integrate` leaves: the value returned, the cache, and
the collaborators consulted, in order. -/
structure IntegrateOutcome where
  xsec : ℚ
  cache : XSecCache
  effects : List Effect

/-- Method `DMDISXSec::Integrate` (lines 60-183). -/
def Integrate (d : DMDISXSec) (c : Constants) (k : KineUtils) (xsl : XSecSplineList)
    (cache : XSecCache) (model : XSecAlgorithmI) (in_ : Interaction) :
    Except Failure IntegrateOutcome :=
  if !model.ValidProcess in_ then .ok ⟨0, cache, []⟩
  else
    match IsAboveThreshold c in_ with
    | .error e => .error e
    | .ok false => .ok ⟨0, cache, []⟩
    | .ok true =>
      let Ed := in_.ProbeE_HitNucRest
      let nucpdgc := in_.HitNucPdg
      let NNucl : Int := if pdg.IsProton nucpdgc then in_.TgtZ else in_.TgtN
      let freeCopy :=
        d.freeNucleonCopy in_ (if pdg.IsProton nucpdgc then kPdgTgtFreeP else kPdgTgtFreeN)
      let fromList : Option Spline :=
        if in_.TgtIsNucleus && !xsl.IsEmpty then xsl.GetSpline model freeCopy else none
      let eff0 : List Effect := if in_.TgtIsNucleus then [.splineList] else []
      match fromList with
      | some spl =>
        let xsec := spl.Evaluate Ed
        .ok ⟨if !freeCopy.kIAssumeFreeNucleon then xsec * (NNucl : ℚ) else xsec, cache, eff0⟩
      | none =>
        if d.BareXSecPreCalc then
          let interaction := in_
          let key := CacheBranchName model interaction
          match cache key with
          | some cb =>
            let xsec := evalBranch cb Ed
            .ok ⟨if !interaction.kIAssumeFreeNucleon then xsec * (NNucl : ℚ) else xsec,
                 cache, eff0 ++ [.cache]⟩
          | none =>
            match d.CacheFreeNucleonXSec c k cache model interaction with
            | .error e => .error e
            | .ok (cache1, eff1) =>
              match cache1 key with
              | none => .error .assertion
              | some cb =>
                let xsec := evalBranch cb Ed
                .ok ⟨if !interaction.kIAssumeFreeNucleon then xsec * (NNucl : ℚ) else xsec,
                     cache1, eff0 ++ [.cache] ++ eff1 ++ [.cache]⟩
        else
          let interaction : Interaction :=
            { in_ with kISkipProcessChk := true, kINoNuclearCorrection := true }
          let Wl := WLim c k in_
          let Q2l := Q2Lim c k in_
          if phsp_ok Wl Q2l then
            let xsec :=
              d.Integral false model interaction (Wl.min, Q2l.min) (Wl.max, Q2l.max) * d.unit
            .ok ⟨xsec, cache, eff0 ++ [.integrator (Wl.min, Q2l.min) (Wl.max, Q2l.max)]⟩
          else .ok ⟨0, cache, eff0⟩

end DMDISXSec

/-! ## Binary64 arithmetic

The definitions above take a `double` as an exact rational.  The definitions
of this section redo, operation by operation, the computations whose result
depends on rounding: every arithmetic operation of the source is followed by
`roundToDouble`, in the order in which C++ evaluates the expression, each
operation rounded on its own (no fused multiply-add, no extended precision).
A value read from the mass table or from the interaction is rounded where it
is read, as the `double` that stores it. -/

/-- Rounding of a rational to the nearest integer, a tie going to the even
one. -/
def roundHalfEven (t : ℚ) : Int :=
  if t - ⌊t⌋ < 1 / 2 then ⌊t⌋
  else if 1 / 2 < t - ⌊t⌋ then ⌊t⌋ + 1
  else if ⌊t⌋ % 2 = 0 then ⌊t⌋ else ⌊t⌋ + 1

/-- The binary64 value nearest to a rational (IEEE 754 round to nearest, ties
to even, 53 significant bits): for `2^e ≤ |x| < 2^(e+1)` the multiple of
`2^(e-52)` nearest to `x`.  The exponent range is not bounded, so the value
is the one of C++ `double` arithmetic as long as the exact result is zero or
has a magnitude between `2^-1022` and `2^1024`; overflow to infinity and
gradual underflow are outside the model. -/
def roundToDouble (x : ℚ) : ℚ :=
  if x = 0 then 0
  else (roundHalfEven (x / 2 ^ (Int.log 2 |x| - 52)) : ℚ) * 2 ^ (Int.log 2 |x| - 52)

/-- A binary64 value of moderate magnitude: a rational that is its own
rounding and is zero or of magnitude between `2^-200` and `2^200`.  Products,
quotients and differences of a few such values stay clear of the overflow and
underflow thresholds that `roundToDouble` does not model. -/
def isModerateDouble (x : ℚ) : Prop :=
  roundToDouble x = x ∧ (x = 0 ∨ (1 / 2 ^ 200 ≤ |x| ∧ |x| ≤ 2 ^ 200))

/-- The function `TMath::Sqrt` on binary64 values: the correctly rounded
square root, `none` (not-a-number) on a negative argument.  For
`2^h ≤ sqrt x < 2^(h+1)` the result is the multiple `n * 2^(h-52)` nearest to
the square root, found from the integer square root of `x / 4^(h-52)`. -/
def sqrtDouble (x : ℚ) : Option ℚ :=
  if x < 0 then none
  else if x = 0 then some 0
  else
    let h : Int := ⌊(Int.log 2 x : ℚ) / 2⌋
    let q : ℚ := 2 ^ (h - 52)
    let t : ℚ := x / (q * q)
    let n : Nat := Nat.sqrt ⌊t⌋₊
    let up : Bool :=
      if (2 * (n : ℚ) + 1) ^ 2 < 4 * t then true
      else if 4 * t < (2 * (n : ℚ) + 1) ^ 2 then false
      else decide (n % 2 = 1)
    some ((if up then (n : ℚ) + 1 else (n : ℚ)) * q)

/-- The fractional deviation `f = 200*(xsec-xsec_max)/(xsec_max+xsec)` of
line 259 of `KineGeneratorWithCache.cxx` in binary64 arithmetic, for a
non-zero denominator. -/
def fractionalDeviation_binary64 (xsec xsec_max : ℚ) : ℚ :=
  roundToDouble (roundToDouble (200 * roundToDouble (xsec - xsec_max)) /
    roundToDouble (xsec_max + xsec))

/-- The test `f > fMaxXSecDiffTolerance` of line 260 in binary64 arithmetic,
reached only with `xsec > xsec_max`: with a zero denominator `f` is plus
infinity and exceeds every tolerance. -/
def deviationExceeds_binary64 (xsec xsec_max tolerance : ℚ) : Bool :=
  if roundToDouble (xsec_max + xsec) = 0 then true
  else decide (fractionalDeviation_binary64 xsec xsec_max > tolerance)

/-- Method `KineGeneratorWithCache::AssertXSecLimits` (lines 252-281) with the
fractional deviation computed in binary64 arithmetic. -/
def KineGeneratorWithCache.AssertXSecLimits_binary64 (g : KineGeneratorWithCache)
    (xsec xsec_max : ℚ) : AssertOutcome :=
  let negative : List LogLevel := if xsec < 0 then [.pERROR] else []
  if xsec > xsec_max then
    if deviationExceeds_binary64 xsec xsec_max g.fMaxXSecDiffTolerance then
      ⟨[.pFATAL, .pFATAL], true⟩
    else ⟨[.pWARN, .pWARN] ++ negative, false⟩
  else ⟨negative, false⟩

/-- The harmonic mean `2*max*min/(max + min)` of lines 1030, 1060, 1098 and
1137 in binary64 arithmetic, for a non-zero rounded sum `max + min`. -/
def harmonicMean_binary64 (min max : ℚ) : ℚ :=
  roundToDouble (roundToDouble (roundToDouble (2 * max) * min) / roundToDouble (max + min))

/-- The test `(max - min) < (max + min)*epsilon` of lines 1028, 1058, 1096
and 1135 in binary64 arithmetic. -/
def isNarrow_binary64 (raw : Range1D_t) : Bool :=
  decide (roundToDouble (raw.max - raw.min) <
    roundToDouble (roundToDouble (raw.max + raw.min) * epsilon))

/-- The closing block of the four single-pion limit functions
(KPhaseSpace.cxx, lines 1028-1037, 1058-1067, 1096-1105 and 1135-1144) in
binary64 arithmetic, applied to the raw bounds computed before it.  In the
first branch a zero sum `max + min` makes the quotient infinite: `none`. -/
def snapOrShrink_binary64 (raw : Range1D_t) : Option Range1D_t :=
  if isNarrow_binary64 raw then
    if roundToDouble (raw.max + raw.min) = 0 then none
    else some ⟨harmonicMean_binary64 raw.min raw.max, harmonicMean_binary64 raw.min raw.max⟩
  else
    some ⟨roundToDouble (raw.min * roundToDouble (1 + epsilon)),
          roundToDouble (raw.max * roundToDouble (1 - epsilon))⟩

/-- The isospin-averaged nucleon mass `M` of lines 1006, 1048 and 1116 in
binary64 arithmetic. -/
def isoNucleonMass_binary64 (c : Constants) : ℚ :=
  roundToDouble (roundToDouble (roundToDouble (c.pdgMass kPdgProton) +
    roundToDouble (c.pdgMass kPdgNeutron)) / 2)

/-- The isospin-averaged pion mass `mpi` of lines 1005 and 1049 in binary64
arithmetic. -/
def isoPionMass_binary64 (c : Constants) : ℚ :=
  roundToDouble (roundToDouble (roundToDouble (roundToDouble (c.pdgMass kPdgPiP) +
    roundToDouble (c.pdgMass kPdgPi0)) + roundToDouble (c.pdgMass kPdgPiM)) / 3)

/-- The total final-state mass `mtot = M + mf + mpi` of line 1009 in binary64
arithmetic. -/
def isoTotalMass_binary64 (c : Constants) (i : Interaction) : ℚ :=
  roundToDouble (roundToDouble (isoNucleonMass_binary64 c + roundToDouble i.FSPrimLeptonMass) +
    isoPionMass_binary64 c)

/-- Method `KPhaseSpace::Threshold_SPP_iso` (KPhaseSpace.cxx, lines 999-1012)
in binary64 arithmetic. -/
def Threshold_SPP_iso_binary64 (c : Constants) (i : Interaction) : ℚ :=
  let M := isoNucleonMass_binary64 c
  let mi := roundToDouble (c.pdgMass i.ProbePdg)
  let mtot := isoTotalMass_binary64 c i
  roundToDouble (roundToDouble (roundToDouble (roundToDouble (roundToDouble (mtot * mtot) -
    roundToDouble (M * M)) - roundToDouble (mi * mi)) / 2) / M)

/-- The raw W bounds of `KPhaseSpace::WLim_SPP` (KPhaseSpace.cxx,
lines 1017-1026) in binary64 arithmetic. -/
def WLim_SPP_raw_binary64 (c : Constants) (s : SppChannel) (i : Interaction) : Range1D_t :=
  let Mf := roundToDouble (c.pdgMass (s.FinStateNucleon i))
  let mpi := roundToDouble (c.pdgMass (s.FinStatePion i))
  let mf := roundToDouble i.FSPrimLeptonMass
  let ECM := roundToDouble i.CMEnergy
  ⟨roundToDouble (Mf + mpi), roundToDouble (ECM - mf)⟩

/-- Method `KPhaseSpace::WLim_SPP` (KPhaseSpace.cxx, lines 1014-1040) in
binary64 arithmetic. -/
def WLim_SPP_binary64 (c : Constants) (s : SppChannel) (i : Interaction) : Option Range1D_t :=
  snapOrShrink_binary64 (WLim_SPP_raw_binary64 c s i)

/-- The squared centre-of-mass energy `M*(M + 2*Ei) + mi*mi` of lines 1053
and 1124 in binary64 arithmetic, for a probe energy `Ei` in the hit-nucleon
rest frame. -/
def isoInvariantMass2_binary64 (c : Constants) (i : Interaction) (Ei : ℚ) : ℚ :=
  let M := isoNucleonMass_binary64 c
  let mi := roundToDouble (c.pdgMass i.ProbePdg)
  roundToDouble (roundToDouble (M * roundToDouble (M + roundToDouble (2 * Ei))) +
    roundToDouble (mi * mi))

/-- The centre-of-mass energy `TMath::Sqrt(M*(M + 2*Ei) + mi*mi)` of line 1053
in binary64 arithmetic, for a probe energy `Ei` in the hit-nucleon rest
frame; `none` when it is not-a-number. -/
def isoCMEnergy_binary64 (c : Constants) (i : Interaction) (Ei : ℚ) : Option ℚ :=
  sqrtDouble (isoInvariantMass2_binary64 c i Ei)

/-- The raw W bounds of `KPhaseSpace::WLim_SPP_iso` (KPhaseSpace.cxx,
lines 1045-1056) in binary64 arithmetic; `none` when the centre-of-mass
energy is not-a-number. -/
def WLim_SPP_iso_raw_binary64 (c : Constants) (i : Interaction) : Option Range1D_t :=
  let M := isoNucleonMass_binary64 c
  let mpi := isoPionMass_binary64 c
  let mf := roundToDouble i.FSPrimLeptonMass
  let Ei := roundToDouble i.ProbeE_HitNucRest
  match isoCMEnergy_binary64 c i Ei with
  | none => none
  | some ECM => some ⟨roundToDouble (M + mpi), roundToDouble (ECM - mf)⟩

/-- Method `KPhaseSpace::WLim_SPP_iso` (KPhaseSpace.cxx, lines 1042-1070) in
binary64 arithmetic. -/
def WLim_SPP_iso_binary64 (c : Constants) (i : Interaction) : Option Range1D_t :=
  (WLim_SPP_iso_raw_binary64 c i).bind snapOrShrink_binary64

/-- The centre-of-mass momentum `(E - m)<0 ? 0 : TMath::Sqrt(E*E - m2)` of
lines 1090-1091 and 1129-1130 in binary64 arithmetic; `none` when the square
root is not-a-number. -/
def momentumCM_binary64 (E m m2 : ℚ) : Option ℚ :=
  if roundToDouble (E - m) < 0 then some 0
  else sqrtDouble (roundToDouble (roundToDouble (E * E) - m2))

/-- The raw Q2 bounds of lines 1093-1094 and 1132-1133 in binary64
arithmetic, from the centre-of-mass energies; `none` when a momentum is
not-a-number. -/
def q2BoundsCM_binary64 (Ei_CM Ef_CM mi mf mi2 mf2 : ℚ) : Option Range1D_t :=
  match momentumCM_binary64 Ei_CM mi mi2, momentumCM_binary64 Ef_CM mf mf2 with
  | some Pi_CM, some Pf_CM =>
    let EE := roundToDouble (Ei_CM * Ef_CM)
    let PP := roundToDouble (Pi_CM * Pf_CM)
    some ⟨roundToDouble (roundToDouble (roundToDouble (2 * roundToDouble (EE - PP)) - mi2) - mf2),
          roundToDouble (roundToDouble (roundToDouble (2 * roundToDouble (EE + PP)) - mi2) - mf2)⟩
  | _, _ => none

/-- The centre-of-mass energy `(s + m2 - X*X)/2/ECM` of lines 1088-1089 and
1127-1128 in binary64 arithmetic, for a non-zero `ECM`. -/
def energyCM_binary64 (s m2 X ECM : ℚ) : ℚ :=
  roundToDouble (roundToDouble (roundToDouble (roundToDouble (s + m2) -
    roundToDouble (X * X)) / 2) / ECM)

/-- The raw Q2 bounds of `KPhaseSpace::Q2Lim_W_SPP` (KPhaseSpace.cxx,
lines 1075-1094) in binary64 arithmetic; `none` when a bound is
not-a-number or `ECM` is zero. -/
def Q2Lim_W_SPP_raw_binary64 (c : Constants) (k : KineUtils) (s : SppChannel)
    (i : Interaction) : Option Range1D_t :=
  let Mi := roundToDouble (c.pdgMass (s.InitStateNucleon i))
  let mi := roundToDouble (c.pdgMass i.ProbePdg)
  let mf := roundToDouble i.FSPrimLeptonMass
  let mi2 := roundToDouble (mi * mi)
  let mf2 := roundToDouble (mf * mf)
  let W := roundToDouble (k.W i)
  let ECM := roundToDouble i.CMEnergy
  let s := roundToDouble (ECM * ECM)
  if ECM = 0 then none
  else
    let Ei_CM := energyCM_binary64 s mi2 Mi ECM
    let Ef_CM := energyCM_binary64 s mf2 W ECM
    q2BoundsCM_binary64 Ei_CM Ef_CM mi mf mi2 mf2

/-- Method `KPhaseSpace::Q2Lim_W_SPP` (KPhaseSpace.cxx, lines 1072-1108) in
binary64 arithmetic. -/
def Q2Lim_W_SPP_binary64 (c : Constants) (k : KineUtils) (s : SppChannel)
    (i : Interaction) : Option Range1D_t :=
  (Q2Lim_W_SPP_raw_binary64 c k s i).bind snapOrShrink_binary64

/-- The raw Q2 bounds of `KPhaseSpace::Q2Lim_W_SPP_iso` (KPhaseSpace.cxx,
lines 1113-1133) in binary64 arithmetic; `none` when a bound is
not-a-number or `ECM` is zero. -/
def Q2Lim_W_SPP_iso_raw_binary64 (c : Constants) (k : KineUtils) (i : Interaction) :
    Option Range1D_t :=
  let M := isoNucleonMass_binary64 c
  let mi := roundToDouble (c.pdgMass i.ProbePdg)
  let mf := roundToDouble i.FSPrimLeptonMass
  let mi2 := roundToDouble (mi * mi)
  let mf2 := roundToDouble (mf * mf)
  let W := roundToDouble (k.W i)
  let Ei := roundToDouble i.ProbeE_HitNucRest
  let s := isoInvariantMass2_binary64 c i Ei
  match sqrtDouble s with
  | none => none
  | some ECM =>
    if ECM = 0 then none
    else
      let Ei_CM := energyCM_binary64 s mi2 M ECM
      let Ef_CM := energyCM_binary64 s mf2 W ECM
      q2BoundsCM_binary64 Ei_CM Ef_CM mi mf mi2 mf2

/-- Method `KPhaseSpace::Q2Lim_W_SPP_iso` (KPhaseSpace.cxx, lines 1110-1147)
in binary64 arithmetic. -/
def Q2Lim_W_SPP_iso_binary64 (c : Constants) (k : KineUtils) (i : Interaction) :
    Option Range1D_t :=
  (Q2Lim_W_SPP_iso_raw_binary64 c k i).bind snapOrShrink_binary64

/-! ## Concrete inputs

Values used to evaluate the definitions at explicit points. -/

/-- The constants with their values in `Constants.h` and `Controls.h`
(GeV), and a mass table for the particles the examples use. -/
def exampleConstants : Constants where
  kProtonMass := 0.9382720813
  kNeutronMass := 0.9395654133
  kNucleonMass := (0.9382720813 + 0.9395654133) / 2
  kPionMass := 0.13957
  kPi0Mass := 0.1349766
  kPhotontest := 0.000001
  kLightestChmHad := 1.870
  kElectronMass := 0.0005109989461
  kElectronMass2 := 0.0005109989461 ^ 2
  kMuonMass := 0.1056583745
  kMuonMass2 := 0.1056583745 ^ 2
  kTauMass := 1.77686
  kMw := 80.379
  kASmallNum := 0.000001
  kMinQ2Limit_VLE := 0.0000000001
  pdgMass := fun pdgc =>
    if pdgc = kPdgProton then 0.9382720813
    else if pdgc = kPdgNeutron then 0.9395654133
    else if pdgc = kPdgPi0 then 0.1349766
    else if pdgc = kPdgPiP ∨ pdgc = kPdgPiM then 0.13957
    else if pdgc = 13 ∨ pdgc = -13 then 0.1056583745
    else 0
  DFR_tMax := 1

/-- A stand-in for the `kinematics::` utilities: every limit function returns
the range `[0, 2]`, `W` reads the running W, and W, Q2 are never recomputed. -/
def exampleKineUtils : KineUtils where
  InelWLim := fun _ _ _ => ⟨0, 2⟩
  em_InelWLim := fun _ _ _ => ⟨0, 2⟩
  DarkWLim := fun _ _ _ => ⟨0, 2⟩
  InelQ2Lim_W := fun _ _ _ _ => ⟨0, 2⟩
  InelQ2Lim_W_cut := fun _ _ _ _ _ => ⟨0, 2⟩
  em_InelQ2Lim_W := fun _ _ _ _ => ⟨0, 2⟩
  DarkQ2Lim_W := fun _ _ _ _ => ⟨0, 2⟩
  DarkQ2Lim_W_cut := fun _ _ _ _ _ => ⟨0, 2⟩
  CEvNSQ2Lim := fun _ => ⟨0, 2⟩
  CohQ2Lim := fun _ _ _ _ => ⟨0, 2⟩
  DarkQ2Lim := fun _ _ _ => ⟨0, 2⟩
  InelQ2Lim := fun _ _ _ => ⟨0, 2⟩
  em_InelQ2Lim := fun _ _ _ => ⟨0, 2⟩
  InelXLim := fun _ _ _ => ⟨0, 2⟩
  em_InelXLim := fun _ _ _ => ⟨0, 2⟩
  DarkXLim := fun _ _ _ => ⟨0, 2⟩
  CohXLim := ⟨0, 2⟩
  InelYLim := fun _ _ _ => ⟨0, 2⟩
  em_InelYLim := fun _ _ _ => ⟨0, 2⟩
  DarkYLim := fun _ _ _ => ⟨0, 2⟩
  CohYLim := fun _ _ => ⟨0, 2⟩
  CohYLim_xsi := fun _ _ _ _ _ _ => ⟨0, 2⟩
  InelYLim_X := fun _ _ _ _ => ⟨0, 2⟩
  em_InelYLim_X := fun _ _ _ _ => ⟨0, 2⟩
  DarkYLim_X := fun _ _ _ _ => ⟨0, 2⟩
  W := fun i => i.W
  WQ2FromXY := fun _ => none
  sqrt := fun _ => none

/-- A muon-neutrino (PDG 14) interaction on a proton bound in carbon-12, of
the given scattering and current type: probe energy 1 GeV in both frames,
on-shell hit proton, massless final-state lepton, no exclusive tag, and the
running point W = 1, Q2 = 0.5, x = y = 0.5, t = 0.01. -/
def exampleInteraction (sc : ScatteringType) (it : InteractionType) : Interaction where
  ProcInfo := ⟨sc, it, true⟩
  ProbePdg := 14
  ProbeE_Lab := 1
  ProbeE_HitNucRest := 1
  CMEnergy := 1.67
  TgtPdg := 1000060120
  TgtMass := 11.175
  TgtZ := 6
  TgtN := 6
  HitNucIsSet := true
  HitNucPdg := kPdgProton
  HitNucP4M := 0.9382720813
  HitNucMass := 0.9382720813
  NProtons := 0
  NPiPlus := 0
  NPiMinus := 0
  NPi0 := 0
  NPions := 0
  IsCharmEvent := false
  IsInclusiveCharm := false
  CharmHadronPdg := 0
  IsStrangeEvent := false
  StrangeHadronPdg := 0
  FSPrimLeptonMass := 0
  RecoilNucleonMass := 0.9382720813
  AsString := "nu:14;tgt:1000060120;N:2212"
  W := 1
  Q2 := 0.5
  x := 0.5
  y := 0.5
  t := 0.01
  ProbeMass := 0
  TgtIsNucleus := true
  kISkipProcessChk := false
  kISkipKinematicChk := false
  kIAssumeFreeNucleon := false
  kINoNuclearCorrection := false

/-- A neutral-current single-pion interaction (one proton and one neutral
pion in the final state) whose hit nucleon is off the mass shell at 2 GeV. -/
def heavyOffShellSinglePion : Interaction :=
  { exampleInteraction .kScSinglePion .kIntWeakNC with
    NProtons := 1, NPi0 := 1, NPions := 1, HitNucP4M := 2 }

/-- An interaction whose process info is not known. -/
def unknownInteraction : Interaction :=
  { exampleInteraction .kScUnknown .kIntNull with ProcInfo := ⟨.kScUnknown, .kIntNull, false⟩ }

/-- A kinematics stand-in below threshold: the inelastic W window is inverted
(`[2, 1]`) and the weak-current fixed-W Q2 function reports the sentinel. -/
def belowThresholdKineUtils : KineUtils :=
  { exampleKineUtils with
    InelWLim := fun _ _ _ => ⟨2, 1⟩
    InelQ2Lim_W := fun _ _ _ _ => ⟨-1, -1⟩ }

/-- A kinematics stand-in whose inelastic W window is inverted (`[2, 1]`)
while every other limit function returns `[0, 2]`. -/
def invertedWKineUtils : KineUtils :=
  { exampleKineUtils with InelWLim := fun _ _ _ => ⟨2, 1⟩ }

/-- A charged-current resonant interaction whose running W is -1. -/
def resonantInteractionWMinusOne : Interaction :=
  { exampleInteraction .kScResonant .kIntWeakCC with W := -1 }

/-- A step-function stand-in for the `Spline` constructor: the domain runs
from the first to the last sample and the value at `x` is the value of the
first sample at or above `x`. -/
def stepSpline (_type : String) (pts : List (ℚ × ℚ)) : Spline where
  XMin := (pts.head?.map (·.1)).getD 0
  XMax := (pts.getLast?.map (·.1)).getD 0
  Evaluate := fun x => ((lower_bound x pts).map (·.2)).getD 0

/-- A generator with minimum cached energy 1 GeV, tolerance 999999 percent,
one safety factor 1.25 and a constant `ComputeMaxXSec`. -/
def exampleGenerator : KineGeneratorWithCache where
  algKey := "genie::QELKinematicsGenerator/Default"
  fEMin := 1
  fMaxXSecDiffTolerance := 999999
  fNumOfSafetyFactors := 1
  vSafetyFactors := [1.25]
  fNumOfInterpolatorTypes := 0
  vInterpolatorTypes := []
  ComputeMaxXSec := fun _ => 3
  mkSpline := stepSpline

/-- The example generator with a `ComputeMaxXSec` that finds no positive
maximum. -/
def barrenGenerator : KineGeneratorWithCache :=
  { exampleGenerator with ComputeMaxXSec := fun _ => 0 }

/-- The cache holding one branch, `cb`, at the key of the given interaction
and sub-key. -/
def cacheWith (g : KineGeneratorWithCache) (i : Interaction) (nkey : Int)
    (cb : CacheBranchFx) : Cache :=
  Function.update (fun _ => none) (g.branchKey i nkey) (some cb)

/-- The quasi-elastic example interaction at the given probe energy in the
hit-nucleon rest frame. -/
def qelAt (E : ℚ) : Interaction :=
  { exampleInteraction .kScQuasiElastic .kIntWeakCC with ProbeE_HitNucRest := E }

/-- The samples `(1, 5), (2, 5), ..., (n, 5)`. -/
def flatSamples (n : Nat) : List (ℚ × ℚ) :=
  (List.range n).map (fun (j : Nat) => ((j : ℚ) + 1, (5 : ℚ)))

/-- A matured branch: 41 samples of value 5 at 1, ..., 41 GeV and the spline
through them, which is constantly 5 on `[1, 41]`. -/
def maturedBranch : CacheBranchFx :=
  ⟨flatSamples 41, some ⟨1, 41, fun _ => 5⟩⟩

/-- A branch filled under a lower minimum energy than that of
`exampleGenerator`: 41 samples of value 5 at 0.5, 1, ..., 20.5 GeV and the
spline through them, constantly 5 on `[1/2, 41/2]`. -/
def lowReachingBranch : CacheBranchFx :=
  ⟨(List.range 41).map (fun (j : Nat) => (((j : ℚ) + 1) / 2, (5 : ℚ))),
   some ⟨1/2, 41/2, fun _ => 5⟩⟩


/-- A dark-matter deep-inelastic interaction on a proton bound in carbon-12:
dark-matter probe (PDG 2000010000) of mass 0.5 GeV and energy 1 GeV, the
final-state dark-matter particle having the same mass. -/
def dmdisInteraction : Interaction :=
  { exampleInteraction .kScDarkMatterDeepInelastic .kIntDarkMatter with
    ProbePdg := 2000010000
    ProbeMass := 0.5
    FSPrimLeptonMass := 0.5
    AsString := "dm:2000010000;tgt:1000060120;N:2212;proc:DMDIS" }

/-- A model that accepts the dark-matter deep-inelastic interactions. -/
def exampleModel : XSecAlgorithmI where
  algKey := "genie::DMDISPXSec/Default"
  ValidProcess := fun i => i.ProcInfo.IsDarkMatterDeepInelastic

/-- A model, with the key of `exampleModel`, that accepts no interaction. -/
def rejectingModel : XSecAlgorithmI where
  algKey := "genie::DMDISPXSec/Default"
  ValidProcess := fun _ => false

/-- A stand-in for `DMDISXSec` and its collaborators: no pre-calculation of
bare cross sections, unit factor 1, an integrator that returns 7, a target
re-identification that makes the target a free nucleon at rest, and two knots
at 1 and 10 GeV. -/
def exampleDMDISXSec : DMDISXSec where
  BareXSecPreCalc := false
  adaptive := true
  unit := 1
  Integral := fun _ _ _ _ _ => 7
  TgtSetId := fun i pdgc =>
    { i with
      TgtPdg := pdgc
      TgtZ := if pdgc = kPdgTgtFreeP then 1 else 0
      TgtN := if pdgc = kPdgTgtFreeP then 0 else 1
      TgtIsNucleus := false
      TgtMass := i.HitNucMass
      AsString := if pdgc = kPdgTgtFreeP then "dm:2000010000;tgt:1000010010;N:2212;proc:DMDIS"
                  else "dm:2000010000;tgt:1000000010;N:2112;proc:DMDIS" }
  SetProbeP4 := fun i _ Ed => { i with ProbeE_Lab := Ed, ProbeE_HitNucRest := Ed }
  knots := fun _ => [1, 10]
  sqrt := fun x => x
  mkSpline := stepSpline

/-- A spline list holding the free-proton spline of `exampleModel` for the
dark-matter deep-inelastic interaction, constantly 5 on `[1/10, 100]`. -/
def freeProtonSplines : XSecSplineList where
  fSplineMap :=
    [(("genie::DMDISPXSec/Default", "dm:2000010000;tgt:1000010010;N:2212;proc:DMDIS"),
      ⟨1/10, 100, fun _ => 5⟩)]

/-- A kinematics stand-in whose dark-matter Q2 range is inverted (`[2, 1]`). -/
def invertedQ2KineUtils : KineUtils :=
  { exampleKineUtils with DarkQ2Lim := fun _ _ _ => ⟨2, 1⟩ }

/-- The example constants with the mass table extended by the charged kaon
(PDG 321) and the charmed lambda baryon (PDG 4122). -/
def strangeCharmConstants : Constants :=
  { exampleConstants with
    pdgMass := fun pdgc =>
      if pdgc = 321 then 0.493677
      else if pdgc = 4122 then 2.28646
      else exampleConstants.pdgMass pdgc }

/-- A single-kaon interaction with a massive probe: a muon (PDG 13) on a
proton, one proton and a charged kaon in the final state, and a final-state
lepton of the muon mass. -/
def muonSingleKaon : Interaction :=
  { exampleInteraction .kScSingleKaon .kIntEM with
    ProbePdg := 13
    ProbeMass := 0.1056583745
    NProtons := 1
    IsStrangeEvent := true
    StrangeHadronPdg := 321
    FSPrimLeptonMass := 0.1056583745 }

/-- A dark-matter elastic interaction (probe and final-state particle of mass
0.5 GeV) whose exclusive tag names the charmed lambda baryon. -/
def charmDarkMatterElastic : Interaction :=
  { exampleInteraction .kScDarkMatterElastic .kIntDarkMatter with
    ProbePdg := 2000010000
    ProbeMass := 0.5
    FSPrimLeptonMass := 0.5
    IsCharmEvent := true
    CharmHadronPdg := 4122 }

/-- A charged-current deep-inelastic interaction tagged as inclusive charm
production. -/
def inclusiveCharmDIS : Interaction :=
  { exampleInteraction .kScDeepInelastic .kIntWeakCC with
    IsCharmEvent := true
    IsInclusiveCharm := true }

/-- A charged-current quasi-elastic interaction on a neutron whose exclusive
tag names the charmed lambda baryon; the recoil nucleon is a proton and the
final-state lepton a muon. -/
def charmQuasiElastic : Interaction :=
  { exampleInteraction .kScQuasiElastic .kIntWeakCC with
    HitNucPdg := kPdgNeutron
    HitNucP4M := 0.9395654133
    HitNucMass := 0.9395654133
    ProbeE_Lab := 10
    ProbeE_HitNucRest := 10
    FSPrimLeptonMass := 0.1056583745
    IsCharmEvent := true
    CharmHadronPdg := 4122 }

/-- A kinematics stand-in whose weak-current fixed-W Q2 function depends on
the invariant mass it is given: it reports `[0, W]`. -/
def wSensitiveKineUtils : KineUtils :=
  { exampleKineUtils with InelQ2Lim_W := fun _ _ _ W => ⟨0, W⟩ }

/-- A rational stand-in for the `cmath` square root: not-a-number on a
negative argument, and otherwise the integer square root of
numerator times denominator, over the denominator. -/
def floorSqrt (x : ℚ) : Option ℚ :=
  if x < 0 then none else some ((Nat.sqrt (x.num.toNat * x.den) : ℚ) / (x.den : ℚ))

/-- The example kinematics with `floorSqrt` for the square root. -/
def sqrtKineUtils : KineUtils :=
  { exampleKineUtils with sqrt := floorSqrt }

/-- A kinematics stand-in for a stale running W: the square root is
`floorSqrt`, the update from (x, y) always sets W = 1.2 and Q2 = 0.001, and
the lower bound of the weak-current fixed-W Q2 range grows with the
invariant mass it is given, the range being `[(W - 1)/100, 2]`. -/
def staleWKineUtils : KineUtils :=
  { sqrtKineUtils with
    InelQ2Lim_W := fun _ _ _ W => ⟨(W - 1) / 100, 2⟩
    WQ2FromXY := fun _ => some (1.2, 0.001) }

/-- A charged-current diffractive interaction at y = 0.1 whose running W, 1,
and running Q2, 0.5, are not the ones that follow from (x, y). -/
def staleDiffractive : Interaction :=
  { exampleInteraction .kScDiffractive .kIntWeakCC with y := 0.1 }

/-- A single-pion channel table for the examples: the initial nucleon is the
hit nucleon, the final state holds a proton and a positive pion. -/
def exampleSppChannel : SppChannel where
  InitStateNucleon := fun i => i.HitNucPdg
  FinStateNucleon := fun _ => kPdgProton
  FinStatePion := fun _ => kPdgPiP

/-- A charged-current tau-neutrino (PDG 16) single-pion interaction below the
tau production threshold: final-state lepton of the tau mass, 1.77686 GeV,
and a centre-of-mass energy of 1.4353042286353914 GeV. -/
def tauBelowThresholdSPP : Interaction :=
  { exampleInteraction .kScSinglePion .kIntWeakCC with
    ProbePdg := 16
    FSPrimLeptonMass := 1.77686
    CMEnergy := 1.4353042286353914
    NProtons := 1
    NPiPlus := 1
    NPions := 1 }

/-- The binary64 value that prints as `85687.73200841111`
(hexadecimal `0x1.4eb7bb64e8511p+16`). -/
def xsecRoundingUp : ℚ := 2944208053156305 / 2 ^ 35

/-- The binary64 value that prints as `1.2981318804954378e-06`. -/
def xsecRoundingDown : ℚ := 6130254482796199 / 2 ^ 72

/-- A charged-current muon-neutrino single-pion interaction at a
centre-of-mass energy of 4.326 GeV whose running W, 4.2263 GeV, lies above
`ECM - m_mu`; the final-state lepton has the muon mass. -/
def muonSinglePionHighW : Interaction :=
  { exampleInteraction .kScSinglePion .kIntWeakCC with
    FSPrimLeptonMass := 0.1056583745
    CMEnergy := 4.326
    W := 4.2263
    NProtons := 1
    NPiPlus := 1
    NPions := 1 }

/-- A neutral-current single-pion interaction (massless final-state lepton)
whose centre-of-mass energy, 1.0778420813000005 GeV, is two units in the
last place above the binary64 sum of the proton and charged-pion masses. -/
def singlePionNarrowWindow : Interaction :=
  { exampleInteraction .kScSinglePion .kIntWeakNC with
    CMEnergy := 1.0778420813000005
    NProtons := 1
    NPiPlus := 1
    NPions := 1 }

/-- The example mass table with the charged-pion mass given to eight digits,
0.13957018 GeV. -/
def eightDigitPionConstants : Constants :=
  { exampleConstants with
    pdgMass := fun pdgc =>
      if pdgc = kPdgPiP ∨ pdgc = kPdgPiM then 0.13957018 else exampleConstants.pdgMass pdgc }


/-- A charged-current muon-neutrino single-pion interaction whose probe
energy in the hit-nucleon rest frame, 0.2753231648810584 GeV, is the binary64
value of `Threshold_SPP_iso` for the example mass table; the final-state
lepton has the muon mass. -/
def muonSinglePionAtIsoThreshold : Interaction :=
  { exampleInteraction .kScSinglePion .kIntWeakCC with
    FSPrimLeptonMass := 0.1056583745
    ProbeE_HitNucRest := 0.2753231648810584 }

/-- A charged-current electron-neutrino single-pion interaction (final-state
electron) whose probe energy in the hit-nucleon rest frame,
0.14877243487608086 GeV, is one unit in the last place above the binary64
value 0.14877243487608083 of `Threshold_SPP_iso` for the mass table with the
eight-digit charged-pion mass. -/
def electronSinglePionAboveIsoThreshold : Interaction :=
  { exampleInteraction .kScSinglePion .kIntWeakCC with
    ProbePdg := 12
    FSPrimLeptonMass := 0.0005109989461
    ProbeE_HitNucRest := 0.14877243487608086 }
/-! ## Theorems -/

/-- C1 (evaluation at the failing input): for the single-pion interaction
`heavyOffShellSinglePion` (hit-nucleon mass 2 GeV, massless lepton and probe)
`Threshold` returns a value, and the value is negative: the single-pion
branch returns its formula without the clamp `max(0, .)` of the other
branches. -/
theorem Threshold_singlePion_negative :
    ∃ Ethr, Threshold exampleConstants heavyOffShellSinglePion = .ok Ethr ∧ Ethr < 0 := by
  refine ⟨_, rfl, ?_⟩
  norm_num [heavyOffShellSinglePion, exampleInteraction, exampleConstants, kPdgPi0,
    kPdgProton, kPdgNeutron, kPdgPiP, kPdgPiM]

/-- Every branch of `Threshold` other than the single-pion and the
single-kaon one yields a non-negative value (lepton mass and target mass
non-negative): they end in `max(0, .)` or return a sum of non-negative
terms. -/
theorem Threshold_nonneg_of_clamped (c : Constants) (i : Interaction)
    (hpi : i.ProcInfo.fScatteringType ≠ .kScSinglePion)
    (hka : i.ProcInfo.fScatteringType ≠ .kScSingleKaon)
    (hml : 0 ≤ i.FSPrimLeptonMass) (hM : 0 ≤ i.TgtMass)
    (Ethr : ℚ) (h : Threshold c i = .ok Ethr) : 0 ≤ Ethr := by
  unfold Threshold at h
  cases hk : i.ProcInfo.fScatteringType <;>
    simp only [hk, ProcessInfo.IsKnown, ProcessInfo.IsQuasiElastic, ProcessInfo.IsSingleKaon,
      ProcessInfo.IsDeepInelastic, ProcessInfo.IsResonant, ProcessInfo.IsCoherentProduction,
      ProcessInfo.IsDiffractive, ProcessInfo.IsNuElectronElastic, ProcessInfo.IsInverseMuDecay,
      ProcessInfo.IsAMNuGamma, ProcessInfo.IsMEC, ProcessInfo.IsCoherentElastic,
      ProcessInfo.IsInverseBetaDecay, ProcessInfo.IsGlashowResonance,
      ProcessInfo.IsIMDAnnihilation, ProcessInfo.IsPhotonCoherent, ProcessInfo.IsPhotonResonance,
      ProcessInfo.IsSinglePion, ProcessInfo.IsDarkMatterElastic,
      ProcessInfo.IsDarkMatterDeepInelastic, ProcessInfo.IsDarkMatterElectronElastic,
      ProcessInfo.IsNorm, reduceCtorEq, decide_False, decide_True, Bool.or_false, Bool.false_or,
      Bool.or_true, Bool.true_or, Bool.false_eq_true, if_false, if_true, ite_true, ite_false] at h
  all_goals first | exact absurd hk hpi | exact absurd hk hka | skip
  all_goals
    (split_ifs at h <;> simp only [Except.ok.injEq, reduceCtorEq] at h <;> subst h <;>
      first | exact le_rfl | exact le_max_left _ _ | positivity)

/-- A recognised process kind other than single-pion always has a threshold
(the hit nucleon being set where the rule asserts it): `Threshold` returns a
value. -/
theorem Threshold_ok_of_kind (c : Constants) (i : Interaction)
    (h1 : i.ProcInfo.fScatteringType ≠ .kScSinglePion)
    (h2 : i.ProcInfo.fScatteringType ≠ .kScUnknown)
    (h3 : i.ProcInfo.fScatteringType ≠ .kScNull)
    (hset : i.ProcInfo.fScatteringType ∈ hitNucAssertingKinds → i.HitNucIsSet = true) :
    ∃ Ethr, Threshold c i = .ok Ethr := by
  unfold Threshold
  cases hk : i.ProcInfo.fScatteringType <;> simp_all [hitNucAssertingKinds] <;>
    (split_ifs <;> exact ⟨_, rfl⟩)

/-- C2: for every interaction whose process kind has a probe energy assigned
(lab frame for the coherent / elastic-type kinds of `labFrameKinds`,
hit-nucleon rest frame for the inelastic-type kinds of `hitNucRestFrameKinds`),
with the hit nucleon set where the threshold rule asserts it, `Threshold`
returns a value `Ethr` and `IsAboveThreshold` is the strict comparison
`E > Ethr` of that energy with it: true exactly when `E > Ethr`, false
exactly when `E ≤ Ethr`, in particular false at `E = Ethr`. -/
theorem IsAboveThreshold_strict (c : Constants) (i : Interaction)
    (h : i.ProcInfo.fScatteringType ∈ labFrameKinds ∨
         i.ProcInfo.fScatteringType ∈ hitNucRestFrameKinds)
    (hset : i.ProcInfo.fScatteringType ∈ hitNucAssertingKinds → i.HitNucIsSet = true) :
    ∃ Ethr, Threshold c i = .ok Ethr ∧
      (IsAboveThreshold c i = .ok true ↔
        Ethr < (if i.ProcInfo.fScatteringType ∈ labFrameKinds then i.ProbeE_Lab
                else i.ProbeE_HitNucRest)) ∧
      (IsAboveThreshold c i = .ok false ↔
        (if i.ProcInfo.fScatteringType ∈ labFrameKinds then i.ProbeE_Lab
         else i.ProbeE_HitNucRest) ≤ Ethr) := by
  obtain ⟨Ethr, hT⟩ : ∃ Ethr, Threshold c i = .ok Ethr := by
    refine Threshold_ok_of_kind c i ?_ ?_ ?_ hset <;> intro hk <;>
      simp [hk, labFrameKinds, hitNucRestFrameKinds] at h
  refine ⟨Ethr, hT, ?_⟩
  unfold IsAboveThreshold
  rw [hT]
  simp only [labFrameKinds, hitNucRestFrameKinds, List.mem_cons, List.mem_singleton,
    List.not_mem_nil, or_false] at h ⊢
  rcases h with (h | h | h | h | h | h | h | h | h | h) | (h | h | h | h | h | h | h | h | h) <;>
    simp [h, not_lt]

/-- C2 (witness): a resonant interaction with probe energy 1 GeV in the
hit-nucleon rest frame has a threshold below 1 GeV and is above threshold. -/
theorem IsAboveThreshold_strict_witness :
    ∃ Ethr, Threshold exampleConstants (exampleInteraction .kScResonant .kIntWeakCC) = .ok Ethr ∧
      (IsAboveThreshold exampleConstants (exampleInteraction .kScResonant .kIntWeakCC) = .ok true ↔
        Ethr < (if (exampleInteraction .kScResonant .kIntWeakCC).ProcInfo.fScatteringType
                    ∈ labFrameKinds
                then (exampleInteraction .kScResonant .kIntWeakCC).ProbeE_Lab
                else (exampleInteraction .kScResonant .kIntWeakCC).ProbeE_HitNucRest)) ∧
      (IsAboveThreshold exampleConstants (exampleInteraction .kScResonant .kIntWeakCC) = .ok false ↔
        (if (exampleInteraction .kScResonant .kIntWeakCC).ProcInfo.fScatteringType
              ∈ labFrameKinds
         then (exampleInteraction .kScResonant .kIntWeakCC).ProbeE_Lab
         else (exampleInteraction .kScResonant .kIntWeakCC).ProbeE_HitNucRest) ≤ Ethr) :=
  IsAboveThreshold_strict exampleConstants (exampleInteraction .kScResonant .kIntWeakCC)
    (Or.inr (by simp [exampleInteraction, hitNucRestFrameKinds])) (fun _ => rfl)

/-- C3 (counterexample): for a process that is not known, `Threshold` does
not fail: it returns the number 0. -/
theorem Threshold_unknown_returns_zero :
    Threshold exampleConstants unknownInteraction = .ok 0 ∧
    Threshold exampleConstants unknownInteraction ≠ .error (.exception .cantComputeThreshold) := by
  constructor
  · rfl
  · simp [Threshold, unknownInteraction]

/-- C3 (amended): `Threshold` called on a process whose info is not known
returns 0; called on a known process that matches none of the channel rules
(no scattering type) it fails with the "Can not compute threshold" exception
and returns no number. -/
theorem Threshold_unknown_or_unrecognized (c : Constants) (i : Interaction) :
    (i.ProcInfo.IsKnown = false → Threshold c i = .ok 0) ∧
    (i.ProcInfo.IsKnown = true →
      (i.ProcInfo.fScatteringType = .kScUnknown ∨ i.ProcInfo.fScatteringType = .kScNull) →
      Threshold c i = .error (.exception .cantComputeThreshold)) := by
  constructor
  · intro hk
    simp_all [Threshold]
  · intro hk hs
    unfold Threshold
    rcases hs with hs | hs <;> simp_all

/-- C3 (witness): the unknown interaction has threshold 0, and a known
process without a scattering type has none. -/
theorem Threshold_unknown_or_unrecognized_witness :
    Threshold exampleConstants unknownInteraction = .ok 0 ∧
    Threshold exampleConstants (exampleInteraction .kScNull .kIntWeakCC)
      = .error (.exception .cantComputeThreshold) :=
  ⟨(Threshold_unknown_or_unrecognized exampleConstants unknownInteraction).1 rfl,
   (Threshold_unknown_or_unrecognized exampleConstants
      (exampleInteraction .kScNull .kIntWeakCC)).2 rfl (Or.inr rfl)⟩

/-! ### Allowed phase space and Q2 limits -/

/-- The sentinel range passes the closed-interval test at the single value -1. -/
theorem IsWithinLimits_sentinel (x : ℚ) :
    IsWithinLimits x ⟨-1, -1⟩ = decide (x = -1) := by
  unfold IsWithinLimits
  by_cases h : x = -1
  · subst h; simp
  · have : ¬ (-1 ≤ x ∧ x ≤ -1) := fun ⟨h1, h2⟩ => h (le_antisymm h2 h1)
    simp only [ge_iff_le, h, decide_False]
    by_cases h1 : -1 ≤ x
    · have h2 : ¬ x ≤ -1 := fun h2 => this ⟨h1, h2⟩
      simp [h1, h2]
    · simp [h1]

/-- C4 (counterexample): a resonant interaction below threshold has the
sentinel as its W limits, and `IsAllowed` still returns true at the running
point W = -1 (Q2 = 0.5 within `[0, 2]`). -/
theorem IsAllowed_sentinel_admits_minus_one :
    WLim exampleConstants invertedWKineUtils resonantInteractionWMinusOne
      = Range1D_t.sentinel ∧
    IsAllowed exampleConstants invertedWKineUtils resonantInteractionWMinusOne = .ok true := by
  constructor
  · simp [WLim, resonantInteractionWMinusOne, exampleInteraction, invertedWKineUtils,
      exampleKineUtils, Range1D_t.sentinel]
  · simp [IsAllowed, IsAllowedSt, WLim, Q2Lim_W, IsWithinLimits, resonantInteractionWMinusOne,
      exampleInteraction, invertedWKineUtils, exampleKineUtils]
    norm_num

/-- C4 (amended): whenever the W limits or the Q2 limits that `IsAllowed`
consults for the channel are the sentinel `{-1,-1}`, `IsAllowed` returns false
at every running point whose W, respectively Q2, value is not -1.  The
channels that consult such limits are the quasi-elastic family and MEC
(`Q2Lim`), resonant and (dark-matter) deep-inelastic (`WLim`, `Q2Lim_W`) and
diffractive (`WLim`, `Q2Lim_W`, tested at the recomputed W and Q2). -/
theorem IsAllowed_sentinel_rejects (c : Constants) (k : KineUtils) (i : Interaction) :
    ((i.ProcInfo.fScatteringType = .kScQuasiElastic ∨
        i.ProcInfo.fScatteringType = .kScInverseBetaDecay ∨
        i.ProcInfo.fScatteringType = .kScDarkMatterElastic ∨
        i.ProcInfo.fScatteringType = .kScMEC) →
      Q2Lim c k i = Range1D_t.sentinel → i.Q2 ≠ -1 → IsAllowed c k i = .ok false) ∧
    ((i.ProcInfo.fScatteringType = .kScResonant ∨
        i.ProcInfo.fScatteringType = .kScDeepInelastic ∨
        i.ProcInfo.fScatteringType = .kScDarkMatterDeepInelastic) →
      ((WLim c k i = Range1D_t.sentinel ∧ i.W ≠ -1) ∨
       (Q2Lim_W c k i = Range1D_t.sentinel ∧ i.Q2 ≠ -1)) →
      IsAllowed c k i = .ok false) ∧
    (i.ProcInfo.fScatteringType = .kScDiffractive →
      ((WLim c k i = Range1D_t.sentinel ∧ (UpdateWQ2FromXY k i).W ≠ -1) ∨
       (Q2Lim_W c k i = Range1D_t.sentinel ∧ (UpdateWQ2FromXY k i).Q2 ≠ -1)) →
      IsAllowed c k i = .ok false) := by
  refine ⟨?_, ?_, ?_⟩
  · intro hk hQ hne
    unfold IsAllowed IsAllowedSt
    rw [hQ]
    rcases hk with hk | hk | hk | hk <;>
      simp [hk, Range1D_t.sentinel, IsWithinLimits_sentinel, hne]
  · intro hk hs
    unfold IsAllowed IsAllowedSt
    rcases hs with ⟨hW, hne⟩ | ⟨hQ, hne⟩
    · rw [hW]
      rcases hk with hk | hk | hk <;>
        simp [hk, Range1D_t.sentinel, IsWithinLimits_sentinel, hne]
    · rw [hQ]
      rcases hk with hk | hk | hk <;>
        simp [hk, Range1D_t.sentinel, IsWithinLimits_sentinel, hne]
  · intro hk hs
    unfold IsAllowed IsAllowedSt
    rcases hs with ⟨hW, hne⟩ | ⟨hQ, hne⟩
    · rw [hW]
      simp [hk, Range1D_t.sentinel, IsWithinLimits_sentinel, hne]
    · rw [hQ]
      simp [hk, Range1D_t.sentinel, IsWithinLimits_sentinel, hne]

/-- C4 (witness): a quasi-elastic interaction whose Q2 limits are the sentinel
(running Q2 = 0.5), and a resonant and a diffractive interaction whose W
limits are the sentinel (running W = 1), are not allowed. -/
theorem IsAllowed_sentinel_rejects_witness :
    IsAllowed exampleConstants belowThresholdKineUtils
      (exampleInteraction .kScQuasiElastic .kIntWeakCC) = .ok false ∧
    IsAllowed exampleConstants invertedWKineUtils
      (exampleInteraction .kScResonant .kIntWeakCC) = .ok false ∧
    IsAllowed exampleConstants invertedWKineUtils
      (exampleInteraction .kScDiffractive .kIntWeakCC) = .ok false :=
  ⟨(IsAllowed_sentinel_rejects exampleConstants belowThresholdKineUtils
      (exampleInteraction .kScQuasiElastic .kIntWeakCC)).1 (Or.inl rfl)
      (by simp [Q2Lim, exampleInteraction, belowThresholdKineUtils, Range1D_t.sentinel])
      (by norm_num [exampleInteraction]),
   (IsAllowed_sentinel_rejects exampleConstants invertedWKineUtils
      (exampleInteraction .kScResonant .kIntWeakCC)).2.1 (Or.inl rfl)
      (Or.inl ⟨by simp [WLim, exampleInteraction, invertedWKineUtils, exampleKineUtils,
                 Range1D_t.sentinel],
               by norm_num [exampleInteraction]⟩),
   (IsAllowed_sentinel_rejects exampleConstants invertedWKineUtils
      (exampleInteraction .kScDiffractive .kIntWeakCC)).2.2 rfl
      (Or.inl ⟨by simp [WLim, exampleInteraction, invertedWKineUtils, exampleKineUtils,
                 exampleConstants, Range1D_t.sentinel],
               by norm_num [UpdateWQ2FromXY, exampleInteraction, invertedWKineUtils,
                 exampleKineUtils]⟩)⟩

/-- C5 (the code at every MEC interaction): `Q2Lim` returns the sentinel
`{-1,-1}`.  MEC is none of the kinds admitted by the early return of line
591, so the MEC branch of lines 662-668 is never reached. -/
theorem Q2Lim_MEC_is_sentinel (c : Constants) (k : KineUtils) (i : Interaction)
    (h : i.ProcInfo.fScatteringType = .kScMEC) : Q2Lim c k i = ⟨-1, -1⟩ := by
  simp [Q2Lim, h]

/-- C5 (evaluation at the failing input): for the charged-current MEC example
interaction, with fixed-W inelastic Q2 limits `[0, 2]`, `Q2Lim` returns the
sentinel and not the capped range `[0, 1.44]`. -/
theorem Q2Lim_MEC_is_sentinel_witness :
    Q2Lim exampleConstants exampleKineUtils (exampleInteraction .kScMEC .kIntWeakCC) = ⟨-1, -1⟩ ∧
    exampleKineUtils.InelQ2Lim_W 1 0.9382720813 0 0.9382720813 = ⟨0, 2⟩ :=
  ⟨Q2Lim_MEC_is_sentinel exampleConstants exampleKineUtils
    (exampleInteraction .kScMEC .kIntWeakCC) rfl, rfl⟩

/-! ### The max-cross-section cache -/

open KineGeneratorWithCache

/-- After `AccessCacheBranch` the cache holds the returned branch at the key. -/
theorem AccessCacheBranch_snd_key (g : KineGeneratorWithCache) (cache : Cache)
    (i : Interaction) (nkey : Int) :
    (g.AccessCacheBranch cache i nkey).2 (g.branchKey i nkey)
      = some (g.AccessCacheBranch cache i nkey).1 := by
  unfold AccessCacheBranch
  cases h : cache (g.branchKey i nkey) <;> simp [h]

/-- Accessing a branch that the cache holds returns it and leaves the cache
as it is. -/
theorem AccessCacheBranch_of_some (g : KineGeneratorWithCache) (cache : Cache)
    (i : Interaction) (nkey : Int) (cb : CacheBranchFx)
    (h : cache (g.branchKey i nkey) = some cb) :
    g.AccessCacheBranch cache i nkey = (cb, cache) := by
  unfold AccessCacheBranch
  simp [h]

theorem createSplineIfEnough_fFx (g : KineGeneratorWithCache) (nkey : Int)
    (cb : CacheBranchFx) : (g.createSplineIfEnough nkey cb).fFx = cb.fFx := by
  unfold createSplineIfEnough
  split <;> [split_ifs <;> simp [CacheBranchFx.CreateSpline]; rfl]

theorem recreateSplineIfOutside_fFx (g : KineGeneratorWithCache) (nkey : Int) (E : ℚ)
    (cb : CacheBranchFx) : (g.recreateSplineIfOutside nkey E cb).fFx = cb.fFx := by
  unfold recreateSplineIfOutside
  split <;> [split_ifs <;> simp [CacheBranchFx.CreateSpline]; rfl]

theorem createSplineIfEnough_isSome (g : KineGeneratorWithCache) (nkey : Int)
    (cb : CacheBranchFx) (h : 40 < cb.fFx.length) :
    (g.createSplineIfEnough nkey cb).fSpline.isSome = true := by
  unfold createSplineIfEnough
  split
  · simp [h, CacheBranchFx.CreateSpline]
  · simp_all

theorem recreateSplineIfOutside_isSome (g : KineGeneratorWithCache) (nkey : Int) (E : ℚ)
    (cb : CacheBranchFx) (h : cb.fSpline.isSome = true) :
    (g.recreateSplineIfOutside nkey E cb).fSpline.isSome = true := by
  unfold recreateSplineIfOutside
  split
  · split_ifs <;> simp_all [CacheBranchFx.CreateSpline]
  · simp_all

theorem createSplineIfEnough_none (g : KineGeneratorWithCache) (nkey : Int)
    (cb : CacheBranchFx) (hs : cb.fSpline = none) (h : cb.fFx.length ≤ 40) :
    g.createSplineIfEnough nkey cb = cb := by
  unfold createSplineIfEnough
  simp [hs, not_lt.mpr h]

theorem recreateSplineIfOutside_none (g : KineGeneratorWithCache) (nkey : Int) (E : ℚ)
    (cb : CacheBranchFx) (hs : cb.fSpline = none) :
    g.recreateSplineIfOutside nkey E cb = cb := by
  unfold recreateSplineIfOutside
  simp [hs]

/-- The cache `CacheMaxXSec` leaves, at the key of the call, for an energy
not below the minimum. -/
theorem CacheMaxXSec_key (g : KineGeneratorWithCache) (cache : Cache) (i : Interaction)
    (v : ℚ) (nkey : Int) (hE : g.fEMin ≤ g.Energy i) :
    g.CacheMaxXSec cache i v nkey (g.branchKey i nkey) =
      some (g.recreateSplineIfOutside nkey (g.Energy i) (g.createSplineIfEnough nkey
        (if v > 0 then (g.AccessCacheBranch cache i nkey).1.AddValues (g.Energy i) v
         else (g.AccessCacheBranch cache i nkey).1))) := by
  unfold CacheMaxXSec
  simp [not_lt.mpr hE]

/-- Looking up the energy just inserted finds the inserted entry, when the
energy was not a key before. -/
theorem lower_bound_mapInsert (E v : ℚ) (l : List (ℚ × ℚ)) (hnew : ∀ p ∈ l, p.1 ≠ E) :
    lower_bound E (mapInsert E v l) = some (E, v) := by
  induction l with
  | nil => simp [mapInsert, lower_bound]
  | cons a rest ih =>
    obtain ⟨a1, a2⟩ := a
    have hne : a1 ≠ E := hnew (a1, a2) (List.mem_cons_self _ _)
    have ih' := ih (fun p hp => hnew p (List.mem_cons_of_mem _ hp))
    unfold mapInsert
    by_cases h1 : E < a1
    · simp [h1, lower_bound]
    · have h2 : ¬ E = a1 := fun h => hne h.symm
      have h3 : ¬ E ≤ a1 := fun h => h1 (lt_of_le_of_ne h h2)
      simp only [h1, h2, if_false]
      unfold lower_bound at ih' ⊢
      simp [List.find?_cons, h3, ih']


/-- The value `FindMaxXSec` returns when the cache holds the branch `cb` at
the key and the energy is not below the minimum. -/
theorem FindMaxXSec_of_branch (g : KineGeneratorWithCache) (cache : Cache) (i : Interaction)
    (nkey : Int) (cb : CacheBranchFx) (hcb : cache (g.branchKey i nkey) = some cb)
    (hE : g.fEMin ≤ g.Energy i) :
    (g.FindMaxXSec cache i nkey).1 =
      match cb.fSpline with
      | some spl =>
        if g.Energy i ≥ spl.XMin ∧ g.Energy i ≤ spl.XMax then spl.Evaluate (g.Energy i) else -1
      | none =>
        match lower_bound (g.Energy i) cb.fFx with
        | some iter =>
          if |g.Energy i - iter.1| < min 0.25 (0.05 * g.Energy i) then iter.2 else -1
        | none => -1 := by
  unfold FindMaxXSec
  rw [AccessCacheBranch_of_some g cache i nkey cb hcb]
  simp only [not_lt.mpr hE, if_false]
  cases cb.fSpline with
  | some spl => simp only []; split_ifs <;> rfl
  | none =>
    simp only []
    cases lower_bound (g.Energy i) cb.fFx with
    | none => rfl
    | some iter => simp only []; split_ifs <;> rfl

/-- C6 (counterexample): on the matured branch (spline constantly 5 on
`[1, 41]`), storing the value 7 at E = 2.5 GeV and querying at the same
energy and key returns the value 5 of the old spline, not the stored 7. -/
theorem cache_roundtrip_fails_under_spline :
    (exampleGenerator.FindMaxXSec
      (exampleGenerator.CacheMaxXSec (cacheWith exampleGenerator (qelAt 2.5) 0 maturedBranch)
        (qelAt 2.5) 7 0) (qelAt 2.5) 0).1 = 5 := by
  have hE : exampleGenerator.fEMin ≤ exampleGenerator.Energy (qelAt 2.5) := by
    norm_num [exampleGenerator, Energy, qelAt, exampleInteraction]
  rw [FindMaxXSec_of_branch _ _ _ _ _ (CacheMaxXSec_key _ _ _ _ _ hE) hE]
  rw [AccessCacheBranch_of_some _ _ _ _ maturedBranch (by simp [cacheWith])]
  norm_num [maturedBranch, createSplineIfEnough, recreateSplineIfOutside,
    CacheBranchFx.AddValues, Energy, qelAt, exampleInteraction]

/-- C6 (amended): for every key, every energy E at or above the minimum with
E > 0 and every value v > 0, if the branch has no spline, holds at most 40
entries after the store and had no entry at E before, then `CacheMaxXSec`
followed by `FindMaxXSec` at the same energy and key returns v (a positive
value, so it is reported as found). -/
theorem cache_roundtrip (g : KineGeneratorWithCache) (cache : Cache) (i : Interaction)
    (v : ℚ) (nkey : Int)
    (hE : g.fEMin ≤ g.Energy i) (hpos : 0 < g.Energy i) (hv : 0 < v)
    (hspl : (g.AccessCacheBranch cache i nkey).1.fSpline = none)
    (hlen : (mapInsert (g.Energy i) v (g.AccessCacheBranch cache i nkey).1.fFx).length ≤ 40)
    (hnew : ∀ p ∈ (g.AccessCacheBranch cache i nkey).1.fFx, p.1 ≠ g.Energy i) :
    (g.FindMaxXSec (g.CacheMaxXSec cache i v nkey) i nkey).1 = v ∧
    0 < (g.FindMaxXSec (g.CacheMaxXSec cache i v nkey) i nkey).1 := by
  have key := CacheMaxXSec_key g cache i v nkey hE
  have h1 : g.createSplineIfEnough nkey
      ((g.AccessCacheBranch cache i nkey).1.AddValues (g.Energy i) v)
      = (g.AccessCacheBranch cache i nkey).1.AddValues (g.Energy i) v :=
    createSplineIfEnough_none g nkey _ (by simpa [CacheBranchFx.AddValues] using hspl)
      (by simpa [CacheBranchFx.AddValues] using hlen)
  have h2 : g.recreateSplineIfOutside nkey (g.Energy i)
      ((g.AccessCacheBranch cache i nkey).1.AddValues (g.Energy i) v)
      = (g.AccessCacheBranch cache i nkey).1.AddValues (g.Energy i) v :=
    recreateSplineIfOutside_none g nkey _ _ (by simpa [CacheBranchFx.AddValues] using hspl)
  simp only [gt_iff_lt, hv, if_true, h1, h2] at key
  have hfind := FindMaxXSec_of_branch g _ i nkey _ key hE
  have hdE : (0 : ℚ) < min 0.25 (0.05 * g.Energy i) := lt_min (by norm_num) (by positivity)
  have hval : (g.FindMaxXSec (g.CacheMaxXSec cache i v nkey) i nkey).1 = v := by
    rw [hfind]
    simp [CacheBranchFx.AddValues, hspl, lower_bound_mapInsert _ _ _ hnew, hdE]
  exact ⟨hval, by rw [hval]; exact hv⟩


/-- C6 (witness): on an empty cache, storing 3 at 2 GeV and querying again
returns 3. -/
theorem cache_roundtrip_witness :
    (exampleGenerator.FindMaxXSec
      (exampleGenerator.CacheMaxXSec (fun _ => none) (qelAt 2) 3 0) (qelAt 2) 0).1 = 3 ∧
    0 < (exampleGenerator.FindMaxXSec
      (exampleGenerator.CacheMaxXSec (fun _ => none) (qelAt 2) 3 0) (qelAt 2) 0).1 :=
  cache_roundtrip exampleGenerator (fun _ => none) (qelAt 2) 3 0
    (by norm_num [exampleGenerator, Energy, qelAt, exampleInteraction])
    (by norm_num [Energy, qelAt, exampleInteraction])
    (by norm_num)
    (by simp [AccessCacheBranch])
    (by simp [AccessCacheBranch, mapInsert])
    (by simp [AccessCacheBranch])

/-- C7 (counterexample): with minimum energy 1 GeV and a spline whose domain
`[1/2, 41/2]` contains the query energy 0.7 GeV, `FindMaxXSec` returns -1 and
not the spline value 5. -/
theorem FindMaxXSec_inside_domain_below_EMin :
    (exampleGenerator.FindMaxXSec (cacheWith exampleGenerator (qelAt 0.7) 0 lowReachingBranch)
      (qelAt 0.7) 0).1 = -1 ∧
    (exampleGenerator.AccessCacheBranch
      (cacheWith exampleGenerator (qelAt 0.7) 0 lowReachingBranch) (qelAt 0.7) 0).1.fSpline.isSome
        = true := by
  constructor
  · norm_num [FindMaxXSec, exampleGenerator, Energy, qelAt, exampleInteraction]
  · rw [AccessCacheBranch_of_some _ _ _ _ lowReachingBranch (by simp [cacheWith])]
    rfl

/-- C7 (amended): whenever the cache branch has a spline, `FindMaxXSec`
returns -1 for a query energy outside `[XMin, XMax]`, and for a query energy
inside the domain that is not below the minimum energy `fEMin` it returns the
spline value at E. -/
theorem FindMaxXSec_spline (g : KineGeneratorWithCache) (cache : Cache) (i : Interaction)
    (nkey : Int) (spl : Spline)
    (hspl : (g.AccessCacheBranch cache i nkey).1.fSpline = some spl) :
    ((g.Energy i < spl.XMin ∨ spl.XMax < g.Energy i) → (g.FindMaxXSec cache i nkey).1 = -1) ∧
    (g.fEMin ≤ g.Energy i → spl.XMin ≤ g.Energy i → g.Energy i ≤ spl.XMax →
      (g.FindMaxXSec cache i nkey).1 = spl.Evaluate (g.Energy i)) := by
  constructor
  · intro hout
    unfold FindMaxXSec
    by_cases h : g.Energy i < g.fEMin
    · simp [h]
    · rcases hout with ho | ho
      · simp [h, hspl, not_le.mpr ho]
      · simp [h, hspl, not_le.mpr ho]
  · intro hE h1 h2
    unfold FindMaxXSec
    simp [not_lt.mpr hE, hspl, h1, h2]

/-- C7 (witness): on the matured branch the query at 50 GeV, outside
`[1, 41]`, gives -1 and the query at 2.5 GeV gives the spline value 5. -/
theorem FindMaxXSec_spline_witness :
    (exampleGenerator.FindMaxXSec (cacheWith exampleGenerator (qelAt 50) 0 maturedBranch)
      (qelAt 50) 0).1 = -1 ∧
    (exampleGenerator.FindMaxXSec (cacheWith exampleGenerator (qelAt 2.5) 0 maturedBranch)
      (qelAt 2.5) 0).1 = 5 :=
  ⟨(FindMaxXSec_spline exampleGenerator (cacheWith exampleGenerator (qelAt 50) 0 maturedBranch)
      (qelAt 50) 0 ⟨1, 41, fun _ => 5⟩
      (by rw [AccessCacheBranch_of_some _ _ _ _ maturedBranch (by simp [cacheWith])]; rfl)).1
      (Or.inr (by norm_num [Energy, qelAt, exampleInteraction])),
   (FindMaxXSec_spline exampleGenerator (cacheWith exampleGenerator (qelAt 2.5) 0 maturedBranch)
      (qelAt 2.5) 0 ⟨1, 41, fun _ => 5⟩
      (by rw [AccessCacheBranch_of_some _ _ _ _ maturedBranch (by simp [cacheWith])]; rfl)).2
      (by norm_num [exampleGenerator, Energy, qelAt, exampleInteraction])
      (by norm_num [Energy, qelAt, exampleInteraction])
      (by norm_num [Energy, qelAt, exampleInteraction])⟩

/-- In a map with strictly ascending keys, `lower_bound` returns an entry
whose key is the least key not below `E`. -/
theorem lower_bound_least (E : ℚ) (l : List (ℚ × ℚ))
    (hs : l.Pairwise (fun p q => p.1 < q.1)) (r : ℚ × ℚ) (hr : lower_bound E l = some r) :
    ∀ p ∈ l, E ≤ p.1 → r.1 ≤ p.1 := by
  induction l with
  | nil => simp [lower_bound] at hr
  | cons a rest ih =>
    rw [List.pairwise_cons] at hs
    unfold lower_bound at hr ih
    rw [List.find?_cons] at hr
    by_cases ha : E ≤ a.1
    · simp only [ha, decide_True] at hr
      cases hr
      intro p hp _
      rcases List.mem_cons.mp hp with h | h
      · rw [h]
      · exact le_of_lt (hs.1 p h)
    · simp only [ha, decide_False] at hr
      intro p hp hpE
      rcases List.mem_cons.mp hp with h | h
      · rw [h] at hpE; exact absurd hpE ha
      · exact ih hs.2 hr p h hpE

/-- In a map with strictly ascending keys, two entries with the same key are
the same entry. -/
theorem entry_eq_of_key_eq (l : List (ℚ × ℚ)) (hs : l.Pairwise (fun p q => p.1 < q.1))
    (p q : ℚ × ℚ) (hp : p ∈ l) (hq : q ∈ l) (h : p.1 = q.1) : p = q := by
  induction l with
  | nil => simp at hp
  | cons a rest ih =>
    rw [List.pairwise_cons] at hs
    rcases List.mem_cons.mp hp with h1 | h1 <;> rcases List.mem_cons.mp hq with h2 | h2
    · rw [h1, h2]
    · have := hs.1 q h2; rw [← h1, h] at this; exact absurd this (lt_irrefl _)
    · have := hs.1 p h1; rw [← h2, h] at this; exact absurd this (lt_irrefl _)
    · exact ih hs.2 h1 h2

/-- C8 (counterexample): with no spline and the single cached point at
E' = 1 GeV, the query at E = 1.01 GeV has |E - E'| = 0.01 < min(0.25, 0.05 E),
and `FindMaxXSec` nevertheless returns -1: the cached point lies below E. -/
theorem FindMaxXSec_ignores_point_below :
    |(1.01 : ℚ) - 1| < min 0.25 (0.05 * 1.01) ∧
    (exampleGenerator.FindMaxXSec (cacheWith exampleGenerator (qelAt 1.01) 0 ⟨[(1, 5)], none⟩)
      (qelAt 1.01) 0).1 = -1 := by
  constructor
  · norm_num [abs_lt]
  · unfold FindMaxXSec
    rw [AccessCacheBranch_of_some _ _ _ _ ⟨[(1, 5)], none⟩ (by simp [cacheWith])]
    norm_num [exampleGenerator, Energy, qelAt, exampleInteraction, lower_bound]

/-- C8 (amended): when the cache branch has no spline and E is not below
`fEMin`, `FindMaxXSec` looks only at the cached point with the smallest
energy E' ≥ E: it returns that point's value if E' - E < min(0.25, 0.05 E)
and -1 otherwise; when every cached energy is below E it returns -1. -/
theorem FindMaxXSec_window (g : KineGeneratorWithCache) (cache : Cache) (i : Interaction)
    (nkey : Int) (hE : g.fEMin ≤ g.Energy i)
    (hspl : (g.AccessCacheBranch cache i nkey).1.fSpline = none)
    (hsorted : (g.AccessCacheBranch cache i nkey).1.fFx.Pairwise (fun p q => p.1 < q.1)) :
    (∀ q ∈ (g.AccessCacheBranch cache i nkey).1.fFx, g.Energy i ≤ q.1 →
      (∀ p ∈ (g.AccessCacheBranch cache i nkey).1.fFx, g.Energy i ≤ p.1 → q.1 ≤ p.1) →
      (g.FindMaxXSec cache i nkey).1 =
        if q.1 - g.Energy i < min 0.25 (0.05 * g.Energy i) then q.2 else -1) ∧
    ((∀ p ∈ (g.AccessCacheBranch cache i nkey).1.fFx, p.1 < g.Energy i) →
      (g.FindMaxXSec cache i nkey).1 = -1) := by
  have hfind : (g.FindMaxXSec cache i nkey).1 =
      match lower_bound (g.Energy i) (g.AccessCacheBranch cache i nkey).1.fFx with
      | some iter =>
        if |g.Energy i - iter.1| < min 0.25 (0.05 * g.Energy i) then iter.2 else -1
      | none => -1 := by
    unfold FindMaxXSec
    simp only [not_lt.mpr hE, if_false, hspl]
    cases lower_bound (g.Energy i) (g.AccessCacheBranch cache i nkey).1.fFx with
    | none => rfl
    | some iter => simp only []; split_ifs <;> rfl
  constructor
  · intro q hq hqE hleast
    cases hlb : lower_bound (g.Energy i) (g.AccessCacheBranch cache i nkey).1.fFx with
    | none =>
      unfold lower_bound at hlb
      rw [List.find?_eq_none] at hlb
      exact absurd hqE (by simpa using hlb q hq)
    | some r =>
      have hrmem : r ∈ (g.AccessCacheBranch cache i nkey).1.fFx := by
        unfold lower_bound at hlb
        exact List.mem_of_find?_eq_some hlb
      have hrE : g.Energy i ≤ r.1 := by
        unfold lower_bound at hlb
        simpa using List.find?_some hlb
      have h1 : r.1 ≤ q.1 := lower_bound_least _ _ hsorted r hlb q hq hqE
      have h2 : q.1 ≤ r.1 := hleast r hrmem hrE
      have hrq : r = q := entry_eq_of_key_eq _ hsorted r q hrmem hq (le_antisymm h1 h2)
      rw [hfind, hlb, hrq]
      have habs : |g.Energy i - q.1| = q.1 - g.Energy i := by
        rw [abs_of_nonpos (sub_nonpos.mpr hqE), neg_sub]
      simp only [habs]
  · intro hall
    cases hlb : lower_bound (g.Energy i) (g.AccessCacheBranch cache i nkey).1.fFx with
    | none => rw [hfind, hlb]
    | some r =>
      have hrmem : r ∈ (g.AccessCacheBranch cache i nkey).1.fFx := by
        unfold lower_bound at hlb
        exact List.mem_of_find?_eq_some hlb
      have hrE : g.Energy i ≤ r.1 := by
        unfold lower_bound at hlb
        simpa using List.find?_some hlb
      exact absurd (hall r hrmem) (not_lt.mpr hrE)

/-- C8 (witness): with cached points at 1 and 2 GeV, the query at 1.96 GeV
reuses the value cached at 2 GeV, and the query at 3 GeV, above every cached
energy, gives -1. -/
theorem FindMaxXSec_window_witness :
    (exampleGenerator.FindMaxXSec
      (cacheWith exampleGenerator (qelAt 1.96) 0 ⟨[(1, 5), (2, 6)], none⟩) (qelAt 1.96) 0).1 = 6 ∧
    (exampleGenerator.FindMaxXSec
      (cacheWith exampleGenerator (qelAt 3) 0 ⟨[(1, 5), (2, 6)], none⟩) (qelAt 3) 0).1 = -1 := by
  have hA : ∀ E, exampleGenerator.AccessCacheBranch
      (cacheWith exampleGenerator (qelAt E) 0 ⟨[(1, 5), (2, 6)], none⟩) (qelAt E) 0
      = (⟨[(1, 5), (2, 6)], none⟩, cacheWith exampleGenerator (qelAt E) 0 ⟨[(1, 5), (2, 6)], none⟩) :=
    fun E => AccessCacheBranch_of_some _ _ _ _ _ (by simp [cacheWith])
  constructor
  · refine ((FindMaxXSec_window exampleGenerator
      (cacheWith exampleGenerator (qelAt 1.96) 0 ⟨[(1, 5), (2, 6)], none⟩) (qelAt 1.96) 0
      (by norm_num [exampleGenerator, Energy, qelAt, exampleInteraction])
      (by rw [hA]) (by rw [hA]; norm_num)).1 (2, 6) (by rw [hA]; simp)
      (by norm_num [Energy, qelAt, exampleInteraction]) ?_).trans ?_
    · rw [hA]
      intro p hp hpE
      simp only [List.mem_cons, List.mem_singleton, List.not_mem_nil, or_false] at hp
      rcases hp with rfl | rfl
      · norm_num [Energy, qelAt, exampleInteraction] at hpE
      · exact le_rfl
    · norm_num [Energy, qelAt, exampleInteraction]
  · refine (FindMaxXSec_window exampleGenerator
      (cacheWith exampleGenerator (qelAt 3) 0 ⟨[(1, 5), (2, 6)], none⟩) (qelAt 3) 0
      (by norm_num [exampleGenerator, Energy, qelAt, exampleInteraction])
      (by rw [hA]) (by rw [hA]; norm_num)).2 ?_
    rw [hA]
    intro p hp
    simp only [List.mem_cons, List.mem_singleton, List.not_mem_nil, or_false] at hp
    rcases hp with rfl | rfl <;> norm_num [Energy, qelAt, exampleInteraction]

/-- Inserting above every key appends the entry. -/
theorem mapInsert_of_all_lt (x y : ℚ) (l : List (ℚ × ℚ)) (h : ∀ p ∈ l, p.1 < x) :
    mapInsert x y l = l ++ [(x, y)] := by
  induction l with
  | nil => rfl
  | cons a rest ih =>
    obtain ⟨a1, a2⟩ := a
    have ha : a1 < x := h (a1, a2) (List.mem_cons_self _ _)
    unfold mapInsert
    simp [not_lt.mpr (le_of_lt ha), ne_of_gt ha, ih (fun p hp => h p (List.mem_cons_of_mem _ hp))]

theorem flatSamples_key_lt (n : Nat) (x : ℚ) (hx : (n : ℚ) < x) :
    ∀ p ∈ flatSamples n, p.1 < x := by
  intro p hp
  simp only [flatSamples, List.mem_map, List.mem_range] at hp
  obtain ⟨j, hj, rfl⟩ := hp
  have : (j : ℚ) + 1 ≤ n := by exact_mod_cast hj
  exact lt_of_le_of_lt this hx

theorem flatSamples_length (n : Nat) : (flatSamples n).length = n := by
  simp [flatSamples]

/-- C9 (counterexample): a branch without a spline holding 39 points receives
a 40th point at 40 GeV (not below `fEMin` = 1 GeV); afterwards it holds 40
points and still has no spline. -/
theorem CacheMaxXSec_no_spline_at_40 :
    ∃ cb, exampleGenerator.CacheMaxXSec
        (cacheWith exampleGenerator (qelAt 40) 0 ⟨flatSamples 39, none⟩) (qelAt 40) 5 0
        (exampleGenerator.branchKey (qelAt 40) 0) = some cb ∧
      cb.fFx.length = 40 ∧ cb.fSpline.isSome = false := by
  have hE : exampleGenerator.fEMin ≤ exampleGenerator.Energy (qelAt 40) := by
    norm_num [exampleGenerator, Energy, qelAt, exampleInteraction]
  have hins : mapInsert 40 5 (flatSamples 39) = flatSamples 39 ++ [(40, 5)] :=
    mapInsert_of_all_lt 40 5 _ (flatSamples_key_lt 39 40 (by norm_num))
  refine ⟨_, CacheMaxXSec_key _ _ _ _ _ hE, ?_, ?_⟩
  · rw [recreateSplineIfOutside_fFx, createSplineIfEnough_fFx,
      AccessCacheBranch_of_some _ _ _ _ ⟨flatSamples 39, none⟩ (by simp [cacheWith])]
    have : exampleGenerator.Energy (qelAt 40) = 40 := by
      norm_num [Energy, qelAt, exampleInteraction]
    simp [CacheBranchFx.AddValues, this, hins, flatSamples_length]
  · rw [AccessCacheBranch_of_some _ _ _ _ ⟨flatSamples 39, none⟩ (by simp [cacheWith])]
    have : exampleGenerator.Energy (qelAt 40) = 40 := by
      norm_num [Energy, qelAt, exampleInteraction]
    have h1 : (5 : ℚ) > 0 := by norm_num
    simp only [h1, if_true, this, CacheBranchFx.AddValues, hins]
    rw [createSplineIfEnough_none _ _ _ rfl (by simp [flatSamples_length]),
      recreateSplineIfOutside_none _ _ _ _ rfl]
    rfl

/-- C9 (amended): after any `CacheMaxXSec` call at an energy not below
`fEMin`, the branch of the call exists, and if it holds more than 40 points
(at least 41) it has a spline. -/
theorem CacheMaxXSec_spline_above_40 (g : KineGeneratorWithCache) (cache : Cache)
    (i : Interaction) (v : ℚ) (nkey : Int) (hE : g.fEMin ≤ g.Energy i) :
    ∃ cb, g.CacheMaxXSec cache i v nkey (g.branchKey i nkey) = some cb ∧
      (40 < cb.fFx.length → cb.fSpline.isSome = true) := by
  refine ⟨_, CacheMaxXSec_key g cache i v nkey hE, ?_⟩
  intro hlen
  rw [recreateSplineIfOutside_fFx, createSplineIfEnough_fFx] at hlen
  exact recreateSplineIfOutside_isSome _ _ _ _ (createSplineIfEnough_isSome _ _ _ hlen)

/-- C9 (witness): a branch without a spline holding 40 points receives a
41st point at 41 GeV; afterwards it holds 41 points and has a spline. -/
theorem CacheMaxXSec_spline_above_40_witness :
    ∃ cb, exampleGenerator.CacheMaxXSec
        (cacheWith exampleGenerator (qelAt 41) 0 ⟨flatSamples 40, none⟩) (qelAt 41) 5 0
        (exampleGenerator.branchKey (qelAt 41) 0) = some cb ∧
      cb.fFx.length = 41 ∧ cb.fSpline.isSome = true := by
  have hE : exampleGenerator.fEMin ≤ exampleGenerator.Energy (qelAt 41) := by
    norm_num [exampleGenerator, Energy, qelAt, exampleInteraction]
  obtain ⟨cb, hcb, hspl⟩ := CacheMaxXSec_spline_above_40 exampleGenerator
    (cacheWith exampleGenerator (qelAt 41) 0 ⟨flatSamples 40, none⟩) (qelAt 41) 5 0 hE
  have hlen : cb.fFx.length = 41 := by
    have hk := CacheMaxXSec_key exampleGenerator
      (cacheWith exampleGenerator (qelAt 41) 0 ⟨flatSamples 40, none⟩) (qelAt 41) 5 0 hE
    rw [hcb] at hk
    rw [Option.some.inj hk, recreateSplineIfOutside_fFx, createSplineIfEnough_fFx,
      AccessCacheBranch_of_some _ _ _ _ ⟨flatSamples 40, none⟩ (by simp [cacheWith])]
    have hEq : exampleGenerator.Energy (qelAt 41) = 41 := by
      norm_num [Energy, qelAt, exampleInteraction]
    have hins : mapInsert 41 5 (flatSamples 40) = flatSamples 40 ++ [(41, 5)] :=
      mapInsert_of_all_lt 41 5 _ (flatSamples_key_lt 40 41 (by norm_num))
    simp [CacheBranchFx.AddValues, hEq, hins, flatSamples_length]
  exact ⟨cb, hcb, hlen, hspl (by omega)⟩

/-- C11: for every negative `xsec`, every `xsec_max` and every non-negative
tolerance, `AssertXSecLimits` returns normally: it never terminates and logs
no fatal message; it logs the error for the negative cross section, preceded
by the within-tolerance warning when `xsec > xsec_max`. -/
theorem AssertXSecLimits_negative_not_fatal (g : KineGeneratorWithCache) (xsec xsec_max : ℚ)
    (hneg : xsec < 0) (htol : 0 ≤ g.fMaxXSecDiffTolerance) :
    (g.AssertXSecLimits xsec xsec_max).terminated = false ∧
    LogLevel.pFATAL ∉ (g.AssertXSecLimits xsec xsec_max).log ∧
    (g.AssertXSecLimits xsec xsec_max).log =
      (if xsec > xsec_max then [LogLevel.pWARN, LogLevel.pWARN] else []) ++ [LogLevel.pERROR] := by
  unfold AssertXSecLimits deviationExceeds
  by_cases h1 : xsec > xsec_max
  · have hsum : xsec_max + xsec < 0 := by linarith
    have hne : xsec_max + xsec ≠ 0 := ne_of_lt hsum
    have hf : ¬ 200 * (xsec - xsec_max) / (xsec_max + xsec) > g.fMaxXSecDiffTolerance := by
      have hnum : 0 < 200 * (xsec - xsec_max) := by linarith
      have : 200 * (xsec - xsec_max) / (xsec_max + xsec) < 0 := div_neg_of_pos_of_neg hnum hsum
      linarith
    simp [h1, hne, hf, hneg]
  · simp [h1, hneg]

/-- C11 (witness): with tolerance 999999 percent, the negative value -1 is
not fatal against the bound 1 (error only) nor against the bound -3 (warning
and error). -/
theorem AssertXSecLimits_negative_not_fatal_witness :
    (exampleGenerator.AssertXSecLimits (-1) 1).terminated = false ∧
    (exampleGenerator.AssertXSecLimits (-1) 1).log = [LogLevel.pERROR] ∧
    (exampleGenerator.AssertXSecLimits (-1) (-3)).terminated = false ∧
    (exampleGenerator.AssertXSecLimits (-1) (-3)).log
      = [LogLevel.pWARN, LogLevel.pWARN, LogLevel.pERROR] := by
  have h1 := AssertXSecLimits_negative_not_fatal exampleGenerator (-1) 1 (by norm_num)
    (by norm_num [exampleGenerator])
  have h2 := AssertXSecLimits_negative_not_fatal exampleGenerator (-1) (-3) (by norm_num)
    (by norm_num [exampleGenerator])
  refine ⟨h1.1, ?_, h2.1, ?_⟩
  · rw [h1.2.2]; norm_num
  · rw [h2.2.2]; norm_num

/-- The cache that `FindMaxXSec` leaves: untouched below the minimum energy,
otherwise the one `AccessCacheBranch` leaves. -/
theorem FindMaxXSec_snd (g : KineGeneratorWithCache) (cache : Cache) (i : Interaction)
    (nkey : Int) :
    (g.FindMaxXSec cache i nkey).2 =
      if g.Energy i < g.fEMin then cache else (g.AccessCacheBranch cache i nkey).2 := by
  unfold FindMaxXSec
  by_cases hE : g.Energy i < g.fEMin
  · simp [hE]
  · simp only [hE, if_false]
    rcases g.AccessCacheBranch cache i nkey with ⟨cb, cache1⟩
    simp only []
    cases cb.fSpline with
    | some spl => simp only []; split_ifs <;> rfl
    | none =>
      simp only []
      cases lower_bound (g.Energy i) cb.fFx with
      | none => rfl
      | some iter => simp only []; split_ifs <;> rfl

/-- The cache that `FindMaxXSec` leaves is the cache it was given, or that
cache with the branch of the call created empty. -/
theorem FindMaxXSec_cache (g : KineGeneratorWithCache) (cache : Cache) (i : Interaction)
    (nkey : Int) :
    (g.FindMaxXSec cache i nkey).2 = cache ∨
    (cache (g.branchKey i nkey) = none ∧
      (g.FindMaxXSec cache i nkey).2
        = Function.update cache (g.branchKey i nkey) (some ⟨[], none⟩)) := by
  rw [FindMaxXSec_snd]
  by_cases hE : g.Energy i < g.fEMin
  · left; simp [hE]
  · simp only [hE, if_false]
    unfold AccessCacheBranch
    cases hc : cache (g.branchKey i nkey) with
    | some cb => left; simp [hc]
    | none => right; exact ⟨rfl, by simp [hc]⟩

/-- The lookup of `FindMaxXSec` adds no point and no spline to any branch. -/
theorem FindMaxXSec_branchOrEmpty (g : KineGeneratorWithCache) (cache : Cache)
    (i : Interaction) (nkey : Int) (key : CacheKey) :
    branchOrEmpty (g.FindMaxXSec cache i nkey).2 key = branchOrEmpty cache key := by
  rcases FindMaxXSec_cache g cache i nkey with h | ⟨hnone, h⟩
  · rw [h]
  · rw [h]
    unfold branchOrEmpty
    by_cases hk : key = g.branchKey i nkey
    · subst hk; simp [hnone]
    · simp [Function.update_noteq hk]

/-- C12 (counterexample): on an empty cache, for a generator whose computed
maximum is 0 and an energy of 2 GeV (not below the minimum), `MaxXSec` fails
and the cache it leaves holds a branch, created by the lookup, at the key of
the call, where the cache it was given held none. -/
theorem MaxXSec_failure_creates_branch :
    (barrenGenerator.MaxXSec (fun _ => none) ⟨qelAt 2, 1, .kPSQ2fE, false⟩ 0).result
      = .error ⟨"kinematics generation: max_xsec<=0", true, false⟩ ∧
    ((barrenGenerator.MaxXSec (fun _ => none) ⟨qelAt 2, 1, .kPSQ2fE, false⟩ 0).cache
      (barrenGenerator.branchKey (qelAt 2) 0)).isSome = true ∧
    ((fun _ => none : Cache) (barrenGenerator.branchKey (qelAt 2) 0)).isSome = false := by
  refine ⟨?_, ?_, rfl⟩
  · norm_num [MaxXSec, FindMaxXSec, AccessCacheBranch, computedMaxXSec, barrenGenerator,
      exampleGenerator, Energy, qelAt, exampleInteraction, lower_bound]
  · norm_num [MaxXSec, FindMaxXSec, AccessCacheBranch, computedMaxXSec, barrenGenerator,
      exampleGenerator, Energy, qelAt, exampleInteraction, lower_bound]

/-- C12 (amended): if `MaxXSec` finds no cached positive maximum and the
computed maximum is not positive, it fails with the fast-forward generation
exception, leaving the event with differential cross section 0 (phase space
`kPSNull`), the kinematics-generation-error flag set and the
skip-process-check and skip-kinematic-check bits of the interaction reset;
no value is added to the cache: the cache is the one the lookup left, in
which every branch holds the points and the spline it held before (the
lookup may have created the branch of the call, empty).  In every other
case it returns a value: the found, respectively the computed, maximum
scaled by the safety factor. -/
theorem MaxXSec_outcome (g : KineGeneratorWithCache) (cache : Cache) (event_rec : GHepRecord)
    (nkey : Int) :
    ((g.FindMaxXSec cache event_rec.Summary nkey).1 ≤ 0 →
      g.computedMaxXSec event_rec.Summary nkey ≤ 0 →
      (g.MaxXSec cache event_rec nkey).result
        = .error ⟨"kinematics generation: max_xsec<=0", true, false⟩ ∧
      (g.MaxXSec cache event_rec nkey).event =
        { event_rec with
          Summary := { event_rec.Summary with
                       kISkipProcessChk := false, kISkipKinematicChk := false }
          fDiffXSec := 0
          fDiffXSecPhSp := .kPSNull
          kKineGenErr := true } ∧
      (g.MaxXSec cache event_rec nkey).cache = (g.FindMaxXSec cache event_rec.Summary nkey).2 ∧
      ∀ key, branchOrEmpty (g.MaxXSec cache event_rec nkey).cache key
        = branchOrEmpty cache key) ∧
    (0 < (g.FindMaxXSec cache event_rec.Summary nkey).1 →
      (g.MaxXSec cache event_rec nkey).result
        = .ok (g.safetyScaled nkey (g.FindMaxXSec cache event_rec.Summary nkey).1) ∧
      (g.MaxXSec cache event_rec nkey).event = event_rec) ∧
    ((g.FindMaxXSec cache event_rec.Summary nkey).1 ≤ 0 →
      0 < g.computedMaxXSec event_rec.Summary nkey →
      (g.MaxXSec cache event_rec nkey).result
        = .ok (g.safetyScaled nkey (g.computedMaxXSec event_rec.Summary nkey)) ∧
      (g.MaxXSec cache event_rec nkey).event = event_rec) := by
  refine ⟨?_, ?_, ?_⟩
  · intro hf hc
    have hcache : (g.MaxXSec cache event_rec nkey).cache
        = (g.FindMaxXSec cache event_rec.Summary nkey).2 := by
      unfold MaxXSec
      simp [not_lt.mpr hf, not_lt.mpr hc]
    refine ⟨?_, ?_, hcache, ?_⟩
    · unfold MaxXSec
      simp [not_lt.mpr hf, not_lt.mpr hc]
    · unfold MaxXSec
      simp [not_lt.mpr hf, not_lt.mpr hc]
    · intro key
      rw [hcache]
      exact FindMaxXSec_branchOrEmpty g cache event_rec.Summary nkey key
  · intro hf
    unfold MaxXSec
    simp [hf]
  · intro hf hc
    unfold MaxXSec
    simp [not_lt.mpr hf, hc]

/-- C12 (witness): the failing call of the barren generator on an empty cache
at 2 GeV, a call that finds the cached value 3 at 2 GeV, and a call of the
example generator that computes 3 on an empty cache. -/
theorem MaxXSec_outcome_witness :
    (barrenGenerator.MaxXSec (fun _ => none) ⟨qelAt 2, 1, .kPSQ2fE, false⟩ 0).result
      = .error ⟨"kinematics generation: max_xsec<=0", true, false⟩ ∧
    (barrenGenerator.MaxXSec (fun _ => none) ⟨qelAt 2, 1, .kPSQ2fE, false⟩ 0).event.kKineGenErr
      = true ∧
    (exampleGenerator.MaxXSec (cacheWith exampleGenerator (qelAt 2) 0 ⟨[(2, 3)], none⟩)
        ⟨qelAt 2, 1, .kPSQ2fE, false⟩ 0).result = .ok (1.25 * 3) ∧
    (exampleGenerator.MaxXSec (fun _ => none) ⟨qelAt 2, 1, .kPSQ2fE, false⟩ 0).result
      = .ok (1.25 * 3) := by
  have hfind0 : ∀ g : KineGeneratorWithCache, g.fEMin = 1 →
      (g.FindMaxXSec (fun _ => none) (qelAt 2) 0).1 = -1 := by
    intro g hg
    norm_num [FindMaxXSec, AccessCacheBranch, Energy, qelAt, exampleInteraction, lower_bound, hg]
  have hfind1 : (exampleGenerator.FindMaxXSec
      (cacheWith exampleGenerator (qelAt 2) 0 ⟨[(2, 3)], none⟩) (qelAt 2) 0).1 = 3 := by
    norm_num [FindMaxXSec, AccessCacheBranch, cacheWith, Energy, qelAt, exampleInteraction,
      lower_bound, exampleGenerator]
  have h1 := (MaxXSec_outcome barrenGenerator (fun _ => none) ⟨qelAt 2, 1, .kPSQ2fE, false⟩ 0).1
    (by rw [hfind0 _ rfl]; norm_num) (by norm_num [computedMaxXSec, barrenGenerator])
  have h2 := (MaxXSec_outcome exampleGenerator
    (cacheWith exampleGenerator (qelAt 2) 0 ⟨[(2, 3)], none⟩)
    ⟨qelAt 2, 1, .kPSQ2fE, false⟩ 0).2.1 (by rw [hfind1]; norm_num)
  have h3 := (MaxXSec_outcome exampleGenerator (fun _ => none)
    ⟨qelAt 2, 1, .kPSQ2fE, false⟩ 0).2.2
    (by rw [hfind0 _ rfl]; norm_num) (by norm_num [computedMaxXSec, exampleGenerator])
  refine ⟨h1.1, ?_, ?_, ?_⟩
  · rw [h1.2.1]
  · rw [h2.1, hfind1]; norm_num [safetyScaled, exampleGenerator]
  · rw [h3.1]; norm_num [safetyScaled, computedMaxXSec, exampleGenerator]

/-! ### `DMDISXSec::Integrate` -/

open DMDISXSec

/-- A spline that the list returns shows that the list is not empty. -/
theorem XSecSplineList.IsEmpty_of_GetSpline (xsl : XSecSplineList) (alg : XSecAlgorithmI)
    (interaction : Interaction) (spl : Spline)
    (h : xsl.GetSpline alg interaction = some spl) : xsl.IsEmpty = false := by
  unfold XSecSplineList.GetSpline at h
  unfold XSecSplineList.IsEmpty
  cases hl : xsl.fSplineMap with
  | nil => rw [hl] at h; simp at h
  | cons a rest => rfl

/-- C13: `Integrate` returns exactly 0 when `ValidProcess` rejects the
interaction, and exactly 0 when the interaction is accepted but not above
threshold; in both cases the cache is left as it was and neither the spline
list, the cache nor the integrator is consulted. -/
theorem Integrate_zero_without_consulting (d : DMDISXSec) (c : Constants) (k : KineUtils)
    (xsl : XSecSplineList) (cache : XSecCache) (model : XSecAlgorithmI) (in_ : Interaction) :
    (model.ValidProcess in_ = false →
      d.Integrate c k xsl cache model in_ = .ok ⟨0, cache, []⟩) ∧
    (model.ValidProcess in_ = true → IsAboveThreshold c in_ = .ok false →
      d.Integrate c k xsl cache model in_ = .ok ⟨0, cache, []⟩) := by
  constructor
  · intro hv
    unfold Integrate
    simp [hv]
  · intro hv ha
    unfold Integrate
    simp [hv, ha]


/-- C13 (witness): the rejecting model gets 0, and the accepting model gets
0 for the dark-matter interaction at 0.4 GeV, below its threshold of
0.5 GeV; the spline list holds a usable spline in both cases and nothing is
consulted. -/
theorem Integrate_zero_without_consulting_witness :
    exampleDMDISXSec.Integrate exampleConstants exampleKineUtils freeProtonSplines
      (fun _ => none) rejectingModel dmdisInteraction = .ok ⟨0, fun _ => none, []⟩ ∧
    exampleDMDISXSec.Integrate exampleConstants exampleKineUtils freeProtonSplines
      (fun _ => none) exampleModel { dmdisInteraction with ProbeE_HitNucRest := 0.4 }
      = .ok ⟨0, fun _ => none, []⟩ :=
  ⟨(Integrate_zero_without_consulting exampleDMDISXSec exampleConstants exampleKineUtils
      freeProtonSplines (fun _ => none) rejectingModel dmdisInteraction).1 rfl,
   (Integrate_zero_without_consulting exampleDMDISXSec exampleConstants exampleKineUtils
      freeProtonSplines (fun _ => none) exampleModel
      { dmdisInteraction with ProbeE_HitNucRest := 0.4 }).2
      (by simp [exampleModel, dmdisInteraction, exampleInteraction])
      (by simp [IsAboveThreshold, Threshold, dmdisInteraction, exampleInteraction]; norm_num)⟩

/-- C14 (counterexample): for the accepted, above-threshold dark-matter
deep-inelastic interaction on carbon-12, with an inverted Q2 range `[2, 1]`,
`Integrate` returns 30 (the free-proton spline value 5 times Z = 6), not 0. -/
theorem Integrate_inverted_Q2_fast_path :
    (Q2Lim exampleConstants invertedQ2KineUtils dmdisInteraction).max
      < (Q2Lim exampleConstants invertedQ2KineUtils dmdisInteraction).min ∧
    exampleModel.ValidProcess dmdisInteraction = true ∧
    IsAboveThreshold exampleConstants dmdisInteraction = .ok true ∧
    exampleDMDISXSec.Integrate exampleConstants invertedQ2KineUtils freeProtonSplines
      (fun _ => none) exampleModel dmdisInteraction = .ok ⟨30, fun _ => none, [.splineList]⟩ := by
  have hthr : IsAboveThreshold exampleConstants dmdisInteraction = .ok true := by
    simp [IsAboveThreshold, Threshold, dmdisInteraction, exampleInteraction]
    norm_num
  refine ⟨?_, ?_, hthr, ?_⟩
  · simp [Q2Lim, dmdisInteraction, exampleInteraction, invertedQ2KineUtils, exampleKineUtils]
  · simp [exampleModel, dmdisInteraction, exampleInteraction]
  · unfold Integrate
    rw [hthr]
    simp [exampleModel, dmdisInteraction, exampleInteraction, freeProtonSplines,
      exampleDMDISXSec, freeNucleonCopy, XSecSplineList.IsEmpty, XSecSplineList.GetSpline,
      XSecSplineList.BuildSplineKey, pdg.IsProton, kPdgTgtFreeP, kPdgProton]
    norm_num

/-- C14 (amended): on the direct-integration path, that is for an
above-threshold interaction accepted by the model for which no free-nucleon
spline is used and pre-calculation of bare cross sections is disabled,
whenever the Q2 range or the W range the facade returns is inverted or has a
negative bound, `Integrate` returns exactly 0, leaves the cache as it was and
does not invoke the integrator. -/
theorem Integrate_direct_empty_region (d : DMDISXSec) (c : Constants) (k : KineUtils)
    (xsl : XSecSplineList) (cache : XSecCache) (model : XSecAlgorithmI) (in_ : Interaction)
    (hv : model.ValidProcess in_ = true)
    (ha : IsAboveThreshold c in_ = .ok true)
    (hfast : in_.TgtIsNucleus = false ∨ xsl.IsEmpty = true ∨
      xsl.GetSpline model (d.freeNucleonCopy in_
        (if pdg.IsProton in_.HitNucPdg then kPdgTgtFreeP else kPdgTgtFreeN)) = none)
    (hpre : d.BareXSecPreCalc = false)
    (hbad : (Q2Lim c k in_).max < (Q2Lim c k in_).min ∨ (WLim c k in_).max < (WLim c k in_).min ∨
      (Q2Lim c k in_).min < 0 ∨ (Q2Lim c k in_).max < 0 ∨
      (WLim c k in_).min < 0 ∨ (WLim c k in_).max < 0) :
    ∃ out, d.Integrate c k xsl cache model in_ = .ok out ∧ out.xsec = 0 ∧ out.cache = cache ∧
      ∀ kine_min kine_max, Effect.integrator kine_min kine_max ∉ out.effects := by
  have hphsp : phsp_ok (WLim c k in_) (Q2Lim c k in_) = false := by
    unfold phsp_ok
    rcases hbad with h | h | h | h | h | h <;> simp [not_le.mpr h]
  have hlist : (if in_.TgtIsNucleus && !xsl.IsEmpty then
      xsl.GetSpline model (d.freeNucleonCopy in_
        (if pdg.IsProton in_.HitNucPdg then kPdgTgtFreeP else kPdgTgtFreeN)) else none) = none := by
    rcases hfast with h | h | h
    · simp [h]
    · simp [h]
    · simp [h]
  refine ⟨⟨0, cache, if in_.TgtIsNucleus then [.splineList] else []⟩, ?_, rfl, rfl, ?_⟩
  · unfold Integrate
    simp only [hv, ha, hlist, hpre, hphsp]
    simp
  · intro a b
    split_ifs <;> simp

/-- C14 (witness): without a spline list and without pre-calculation, the
above-threshold interaction with the inverted Q2 range `[2, 1]` integrates to
0 and the integrator is not invoked. -/
theorem Integrate_direct_empty_region_witness :
    ∃ out, exampleDMDISXSec.Integrate exampleConstants invertedQ2KineUtils ⟨[]⟩ (fun _ => none)
        exampleModel dmdisInteraction = .ok out ∧ out.xsec = 0 ∧ out.cache = (fun _ => none) ∧
      ∀ kine_min kine_max, Effect.integrator kine_min kine_max ∉ out.effects :=
  Integrate_direct_empty_region exampleDMDISXSec exampleConstants invertedQ2KineUtils ⟨[]⟩
    (fun _ => none) exampleModel dmdisInteraction
    (by simp [exampleModel, dmdisInteraction, exampleInteraction])
    (by simp [IsAboveThreshold, Threshold, dmdisInteraction, exampleInteraction]; norm_num)
    (Or.inr (Or.inl rfl))
    rfl
    (Or.inl (by
      simp [Q2Lim, dmdisInteraction, exampleInteraction, invertedQ2KineUtils, exampleKineUtils]))

/-- C15 (counterexample): the above-threshold interaction on carbon-12 has a
free-proton spline in the list under the key of `rejectingModel`, which
rejects the interaction: `Integrate` returns 0, not the spline value 5
times Z. -/
theorem Integrate_rejected_despite_spline :
    IsAboveThreshold exampleConstants dmdisInteraction = .ok true ∧
    dmdisInteraction.TgtIsNucleus = true ∧
    (freeProtonSplines.GetSpline rejectingModel
      (exampleDMDISXSec.freeNucleonCopy dmdisInteraction
        (if pdg.IsProton dmdisInteraction.HitNucPdg then kPdgTgtFreeP else kPdgTgtFreeN))).isSome
      = true ∧
    exampleDMDISXSec.Integrate exampleConstants exampleKineUtils freeProtonSplines
      (fun _ => none) rejectingModel dmdisInteraction = .ok ⟨0, fun _ => none, []⟩ := by
  refine ⟨?_, rfl, ?_, ?_⟩
  · simp [IsAboveThreshold, Threshold, dmdisInteraction, exampleInteraction]
    norm_num
  · simp [rejectingModel, dmdisInteraction, exampleInteraction, freeProtonSplines,
      exampleDMDISXSec, freeNucleonCopy, XSecSplineList.GetSpline,
      XSecSplineList.BuildSplineKey, pdg.IsProton, kPdgTgtFreeP, kPdgProton]
  · simp [Integrate, rejectingModel]

/-- C15 (amended): fast path of `Integrate`: for an interaction accepted by
the model, above threshold and on a nuclear target, for which the spline list
holds a spline of the equivalent free-proton (hit proton) or free-neutron
(any other hit nucleon) interaction, the result is that spline evaluated at
the hit-nucleon-rest-frame probe energy times the number of like nucleons (Z
for a hit proton, N otherwise), or the unscaled spline value when the
interaction carries the assume-free-nucleon bit; the cache is left as it was
and only the spline list is consulted. -/
theorem Integrate_fast_path (d : DMDISXSec) (c : Constants) (k : KineUtils)
    (xsl : XSecSplineList) (cache : XSecCache) (model : XSecAlgorithmI) (in_ : Interaction)
    (spl : Spline)
    (hv : model.ValidProcess in_ = true)
    (ha : IsAboveThreshold c in_ = .ok true)
    (hnuc : in_.TgtIsNucleus = true)
    (hspl : xsl.GetSpline model (d.freeNucleonCopy in_
        (if pdg.IsProton in_.HitNucPdg then kPdgTgtFreeP else kPdgTgtFreeN)) = some spl) :
    d.Integrate c k xsl cache model in_ =
      .ok ⟨if in_.kIAssumeFreeNucleon then spl.Evaluate in_.ProbeE_HitNucRest
           else spl.Evaluate in_.ProbeE_HitNucRest *
             ((if in_.HitNucPdg = kPdgProton then in_.TgtZ else in_.TgtN : Int) : ℚ),
           cache, [.splineList]⟩ := by
  have hne := XSecSplineList.IsEmpty_of_GetSpline xsl model _ spl hspl
  unfold Integrate
  simp only [hv, ha, hnuc, hne, hspl]
  by_cases hb : in_.kIAssumeFreeNucleon = true
  · simp [hb, freeNucleonCopy]
  · simp [hb, freeNucleonCopy, pdg.IsProton]

/-- C15 (witness): the accepted, above-threshold interaction on carbon-12
with hit proton and the free-proton spline of value 5 integrates to 5 times
Z = 6. -/
theorem Integrate_fast_path_witness :
    exampleDMDISXSec.Integrate exampleConstants exampleKineUtils freeProtonSplines
      (fun _ => none) exampleModel dmdisInteraction = .ok ⟨5 * 6, fun _ => none, [.splineList]⟩ :=
  (Integrate_fast_path exampleDMDISXSec exampleConstants exampleKineUtils freeProtonSplines
    (fun _ => none) exampleModel dmdisInteraction ⟨1/10, 100, fun _ => 5⟩
    (by simp [exampleModel, dmdisInteraction, exampleInteraction])
    (by simp [IsAboveThreshold, Threshold, dmdisInteraction, exampleInteraction]; norm_num)
    rfl
    (by simp [exampleModel, dmdisInteraction, exampleInteraction, freeProtonSplines,
      exampleDMDISXSec, freeNucleonCopy, XSecSplineList.GetSpline,
      XSecSplineList.BuildSplineKey, pdg.IsProton, kPdgTgtFreeP, kPdgProton])).trans
    (by simp [dmdisInteraction, exampleInteraction, kPdgProton])

/-! ### Reflection, W limits and threshold formulas -/

/-- C16: for every interaction `q2Lim` is the sign-reflected `Q2Lim` and
`q2Lim_W` the sign-reflected `Q2Lim_W` (`min = -max`, `max = -min`); hence
`q2Lim().min ≤ q2Lim().max` whenever `Q2Lim().min ≤ Q2Lim().max` (likewise at
fixed W), and reflecting `q2Lim` gives back `Q2Lim` (likewise at fixed W). -/
theorem q2Lim_reflection (c : Constants) (k : KineUtils) (i : Interaction) :
    (q2Lim c k i).min = -(Q2Lim c k i).max ∧ (q2Lim c k i).max = -(Q2Lim c k i).min ∧
    (q2Lim_W c k i).min = -(Q2Lim_W c k i).max ∧ (q2Lim_W c k i).max = -(Q2Lim_W c k i).min ∧
    ((Q2Lim c k i).min ≤ (Q2Lim c k i).max → (q2Lim c k i).min ≤ (q2Lim c k i).max) ∧
    ((Q2Lim_W c k i).min ≤ (Q2Lim_W c k i).max → (q2Lim_W c k i).min ≤ (q2Lim_W c k i).max) ∧
    (⟨-(q2Lim c k i).max, -(q2Lim c k i).min⟩ : Range1D_t) = Q2Lim c k i ∧
    (⟨-(q2Lim_W c k i).max, -(q2Lim_W c k i).min⟩ : Range1D_t) = Q2Lim_W c k i := by
  refine ⟨rfl, rfl, rfl, rfl, ?_, ?_, ?_, ?_⟩
  · intro h; simpa [q2Lim] using h
  · intro h; simpa [q2Lim_W] using h
  · simp [q2Lim]
  · simp [q2Lim_W]

/-- C16 (witness): for the quasi-elastic example interaction, with Q2 limits
`[0, 2]`, the signed limits are `[-2, 0]`, an ordered range. -/
theorem q2Lim_reflection_witness :
    q2Lim exampleConstants exampleKineUtils (exampleInteraction .kScQuasiElastic .kIntWeakCC)
      = ⟨-2, 0⟩ ∧
    (q2Lim exampleConstants exampleKineUtils (exampleInteraction .kScQuasiElastic .kIntWeakCC)).min
      ≤ (q2Lim exampleConstants exampleKineUtils
          (exampleInteraction .kScQuasiElastic .kIntWeakCC)).max :=
  ⟨by simp [q2Lim, Q2Lim, exampleInteraction, exampleKineUtils],
   (q2Lim_reflection exampleConstants exampleKineUtils
      (exampleInteraction .kScQuasiElastic .kIntWeakCC)).2.2.2.2.1
      (by simp [Q2Lim, exampleInteraction, exampleKineUtils])⟩

/-- C17: for every interaction of the quasi-elastic family (quasi-elastic,
inverse beta decay, dark-matter elastic) `WLim` is the degenerate range at
the recoil-nucleon mass, whatever the probe energy, the current type and the
exclusive tag. -/
theorem WLim_qel_degenerate (c : Constants) (k : KineUtils) (i : Interaction)
    (h : i.ProcInfo.fScatteringType = .kScQuasiElastic ∨
         i.ProcInfo.fScatteringType = .kScInverseBetaDecay ∨
         i.ProcInfo.fScatteringType = .kScDarkMatterElastic) :
    WLim c k i = ⟨i.RecoilNucleonMass, i.RecoilNucleonMass⟩ ∧
    (WLim c k i).min = (WLim c k i).max := by
  unfold WLim
  rcases h with h | h | h <;> simp [h]

/-- C17 (witness): an electromagnetic quasi-elastic interaction with a charm
tag at 7 GeV has the W range `[MR, MR]` with MR = 0.9382720813. -/
theorem WLim_qel_degenerate_witness :
    WLim exampleConstants exampleKineUtils
      { exampleInteraction .kScQuasiElastic .kIntEM with
        IsCharmEvent := true, ProbeE_HitNucRest := 7 }
      = ⟨0.9382720813, 0.9382720813⟩ :=
  (WLim_qel_degenerate exampleConstants exampleKineUtils
    { exampleInteraction .kScQuasiElastic .kIntEM with
      IsCharmEvent := true, ProbeE_HitNucRest := 7 } (Or.inl rfl)).1

/-- C18: for every interaction `WLim` is the sentinel `{-1,-1}` or a range
with `min ≤ max`; for the inelastic family (deep-inelastic, resonant,
diffractive) and for dark-matter DIS it is the floor-raised computed range,
replaced by exactly the sentinel when its minimum exceeds its maximum; for
every process outside the quasi-elastic, inelastic and dark-matter-DIS
families it is the sentinel. -/
theorem WLim_sentinel_or_ordered (c : Constants) (k : KineUtils) (i : Interaction) :
    (WLim c k i = Range1D_t.sentinel ∨ (WLim c k i).min ≤ (WLim c k i).max) ∧
    ((i.ProcInfo.fScatteringType = .kScDeepInelastic ∨
        i.ProcInfo.fScatteringType = .kScResonant ∨
        i.ProcInfo.fScatteringType = .kScDiffractive ∨
        i.ProcInfo.fScatteringType = .kScDarkMatterDeepInelastic) →
      WLim c k i =
        if (floorRaisedWLim c k i).min > (floorRaisedWLim c k i).max then Range1D_t.sentinel
        else floorRaisedWLim c k i) ∧
    ((i.ProcInfo.fScatteringType ≠ .kScQuasiElastic ∧
        i.ProcInfo.fScatteringType ≠ .kScInverseBetaDecay ∧
        i.ProcInfo.fScatteringType ≠ .kScDarkMatterElastic ∧
        i.ProcInfo.fScatteringType ≠ .kScDeepInelastic ∧
        i.ProcInfo.fScatteringType ≠ .kScResonant ∧
        i.ProcInfo.fScatteringType ≠ .kScDiffractive ∧
        i.ProcInfo.fScatteringType ≠ .kScDarkMatterDeepInelastic) →
      WLim c k i = Range1D_t.sentinel) := by
  have hinel : (i.ProcInfo.fScatteringType = .kScDeepInelastic ∨
        i.ProcInfo.fScatteringType = .kScResonant ∨
        i.ProcInfo.fScatteringType = .kScDiffractive ∨
        i.ProcInfo.fScatteringType = .kScDarkMatterDeepInelastic) →
      WLim c k i =
        if (floorRaisedWLim c k i).min > (floorRaisedWLim c k i).max then Range1D_t.sentinel
        else floorRaisedWLim c k i := by
    intro h
    unfold WLim floorRaisedWLim
    rcases h with h | h | h | h <;> simp only [h, ProcessInfo.IsQuasiElastic,
      ProcessInfo.IsInverseBetaDecay, ProcessInfo.IsDarkMatterElastic,
      ProcessInfo.IsDeepInelastic, ProcessInfo.IsResonant, ProcessInfo.IsDiffractive,
      ProcessInfo.IsDarkMatterDeepInelastic, reduceCtorEq, decide_False, decide_True,
      Bool.or_false, Bool.false_or, Bool.or_true, Bool.true_or, Bool.false_eq_true,
      if_false, if_true, Range1D_t.sentinel]
  have hout : (i.ProcInfo.fScatteringType ≠ .kScQuasiElastic ∧
        i.ProcInfo.fScatteringType ≠ .kScInverseBetaDecay ∧
        i.ProcInfo.fScatteringType ≠ .kScDarkMatterElastic ∧
        i.ProcInfo.fScatteringType ≠ .kScDeepInelastic ∧
        i.ProcInfo.fScatteringType ≠ .kScResonant ∧
        i.ProcInfo.fScatteringType ≠ .kScDiffractive ∧
        i.ProcInfo.fScatteringType ≠ .kScDarkMatterDeepInelastic) →
      WLim c k i = Range1D_t.sentinel := by
    rintro ⟨h1, h2, h3, h4, h5, h6, h7⟩
    unfold WLim
    simp [h1, h2, h3, h4, h5, h6, h7, Range1D_t.sentinel]
  refine ⟨?_, hinel, hout⟩
  by_cases hq : i.ProcInfo.fScatteringType = .kScQuasiElastic ∨
         i.ProcInfo.fScatteringType = .kScInverseBetaDecay ∨
         i.ProcInfo.fScatteringType = .kScDarkMatterElastic
  · right
    unfold WLim
    rcases hq with h | h | h <;> simp [h]
  · by_cases hi : (i.ProcInfo.fScatteringType = .kScDeepInelastic ∨
        i.ProcInfo.fScatteringType = .kScResonant ∨
        i.ProcInfo.fScatteringType = .kScDiffractive ∨
        i.ProcInfo.fScatteringType = .kScDarkMatterDeepInelastic)
    · rw [hinel hi]
      split_ifs with hgt
      · left; rfl
      · right; exact not_lt.mp hgt
    · left
      apply hout
      simp only [not_or] at hq hi
      exact ⟨hq.1, hq.2.1, hq.2.2, hi.1, hi.2.1, hi.2.2.1, hi.2.2.2⟩

/-- C18 (witness): a deep-inelastic interaction whose computed W window is
inverted (`[2, 1]`) and a Glashow-resonance interaction both have the
sentinel as W range. -/
theorem WLim_sentinel_or_ordered_witness :
    WLim exampleConstants invertedWKineUtils (exampleInteraction .kScDeepInelastic .kIntWeakCC)
      = Range1D_t.sentinel ∧
    WLim exampleConstants exampleKineUtils (exampleInteraction .kScGlashowResonance .kIntWeakCC)
      = Range1D_t.sentinel :=
  ⟨((WLim_sentinel_or_ordered exampleConstants invertedWKineUtils
      (exampleInteraction .kScDeepInelastic .kIntWeakCC)).2.1 (Or.inl rfl)).trans
      (by simp [floorRaisedWLim, exampleInteraction, invertedWKineUtils, exampleKineUtils,
            exampleConstants]),
   (WLim_sentinel_or_ordered exampleConstants exampleKineUtils
      (exampleInteraction .kScGlashowResonance .kIntWeakCC)).2.2
      (by simp [exampleInteraction])⟩

/-- C19: for a coherent-elastic interaction (a known process) with lepton
mass `m_l` and target mass `M > 0`, `Threshold` returns `m_l + 0.5*m_l^2/M`,
whatever the probe energy and the exclusive tag. -/
theorem Threshold_coherentElastic (c : Constants) (i : Interaction)
    (hk : i.ProcInfo.fScatteringType = .kScCoherentElastic)
    (hknown : i.ProcInfo.IsKnown = true) (_hM : 0 < i.TgtMass) :
    Threshold c i = .ok (i.FSPrimLeptonMass + 0.5 * i.FSPrimLeptonMass ^ 2 / i.TgtMass) := by
  unfold Threshold
  simp_all [pow_two, mul_assoc]

/-- C19 (witness): lepton mass 0.106 and target mass 12 give the threshold
`0.106 + 0.5*0.106^2/12`, at probe energy 1 GeV and at 50 GeV with a pion
tag. -/
theorem Threshold_coherentElastic_witness :
    Threshold exampleConstants
      { exampleInteraction .kScCoherentElastic .kIntWeakNC with
        FSPrimLeptonMass := 0.106, TgtMass := 12 }
      = .ok (0.106 + 0.5 * 0.106 ^ 2 / 12) ∧
    Threshold exampleConstants
      { exampleInteraction .kScCoherentElastic .kIntWeakNC with
        FSPrimLeptonMass := 0.106, TgtMass := 12, ProbeE_Lab := 50, NPi0 := 1, NPions := 1 }
      = .ok (0.106 + 0.5 * 0.106 ^ 2 / 12) :=
  ⟨Threshold_coherentElastic exampleConstants
      { exampleInteraction .kScCoherentElastic .kIntWeakNC with
        FSPrimLeptonMass := 0.106, TgtMass := 12 } rfl rfl (by norm_num),
   Threshold_coherentElastic exampleConstants
      { exampleInteraction .kScCoherentElastic .kIntWeakNC with
        FSPrimLeptonMass := 0.106, TgtMass := 12, ProbeE_Lab := 50, NPi0 := 1, NPions := 1 }
      rfl rfl (by norm_num)⟩

/-- C20: for a single-pion interaction (a known process) whose pion species
resolves, `Threshold` returns `((Mf + m_l + m_pi)^2 - Mi^2 - mi^2) / (2*Mi)`
with `Mi` the hit-nucleon mass, `mi` the probe mass, `m_l` the final-state
lepton mass, `Mf` the proton mass if the tag has exactly one proton and the
neutron mass otherwise, and `m_pi` the pi+ mass if `NPiPlus = 1`, else the
pi- mass if `NPiMinus = 1`, else the pi0 mass. -/
theorem Threshold_singlePion_formula (c : Constants) (i : Interaction)
    (hk : i.ProcInfo.fScatteringType = .kScSinglePion)
    (hknown : i.ProcInfo.IsKnown = true)
    (hres : i.NPiPlus = 1 ∨ i.NPiMinus = 1 ∨ i.NPi0 = 1) :
    Threshold c i = .ok
      ((((if i.NProtons = 1 then c.kProtonMass else c.kNeutronMass) + i.FSPrimLeptonMass +
          c.pdgMass (if i.NPiPlus = 1 then kPdgPiP else if i.NPiMinus = 1 then kPdgPiM
                     else kPdgPi0)) ^ 2
        - i.HitNucP4M ^ 2 - (c.pdgMass i.ProbePdg) ^ 2) / (2 * i.HitNucP4M)) := by
  unfold Threshold
  simp only [ProcessInfo.IsKnown] at hknown
  simp only [hk, hknown, ProcessInfo.IsKnown, ProcessInfo.IsSinglePion, decide_True,
    Bool.not_true, Bool.false_eq_true, if_false, if_true]
  by_cases h1 : i.NPiPlus = 1
  · simp only [h1, if_true]
    congr 1; rw [div_div]; ring
  · by_cases h2 : i.NPiMinus = 1
    · simp only [h1, h2, if_true, if_false]
      congr 1; rw [div_div]; ring
    · have h3 : i.NPi0 = 1 := by
        rcases hres with h | h | h
        · exact absurd h h1
        · exact absurd h h2
        · exact h
      simp only [h1, h2, h3, if_false, ne_eq, not_true_eq_false]
      congr 1; rw [div_div]; ring

/-- C20 (witness): the neutral-current single-pion interaction with one
proton and one neutral pion on the off-shell nucleon of 2 GeV. -/
theorem Threshold_singlePion_formula_witness :
    Threshold exampleConstants heavyOffShellSinglePion =
      .ok (((0.9382720813 + 0 + 0.1349766) ^ 2 - 2 ^ 2 - 0 ^ 2) / (2 * 2)) :=
  (Threshold_singlePion_formula exampleConstants heavyOffShellSinglePion rfl rfl
    (Or.inr (Or.inr rfl))).trans
    (by norm_num [heavyOffShellSinglePion, exampleInteraction, exampleConstants, kPdgPi0,
      kPdgProton, kPdgNeutron, kPdgPiP, kPdgPiM])

/-! ### Threshold rules: single pion, single kaon and the generic family -/

/-- The generic branch of `Threshold` in closed form: for a known process of
one of the seven kinds of the generic rule, with the hit nucleon set, the
value is `max(0, .)` of the dark-matter expression for the two dark-matter
kinds and of `0.5 * ((Wmin + m_l)^2 - Mn^2) / Mn` otherwise, `Wmin` being
`thresholdWmin`. -/
theorem Threshold_generic (c : Constants) (i : Interaction)
    (hk : i.ProcInfo.fScatteringType ∈ hitNucAssertingKinds)
    (hknown : i.ProcInfo.IsKnown = true) (hset : i.HitNucIsSet = true) :
    Threshold c i = .ok (max 0
      (if i.ProcInfo.fScatteringType = .kScDarkMatterElastic ∨
          i.ProcInfo.fScatteringType = .kScDarkMatterDeepInelastic then
        max (0.5 * ((i.HitNucP4M + i.FSPrimLeptonMass) ^ 2 - i.HitNucP4M ^ 2
              - i.FSPrimLeptonMass * i.FSPrimLeptonMass) / i.HitNucP4M) i.FSPrimLeptonMass
       else 0.5 * ((thresholdWmin c i + i.FSPrimLeptonMass) ^ 2 - i.HitNucP4M ^ 2)
              / i.HitNucP4M)) := by
  unfold Threshold thresholdWmin
  simp only [ProcessInfo.IsKnown] at hknown
  simp only [hitNucAssertingKinds, List.mem_cons, List.mem_singleton, List.not_mem_nil,
    or_false] at hk
  rcases hk with hk | hk | hk | hk | hk | hk | hk <;>
    simp [hk, hknown, hset, ProcessInfo.IsKnown]

/-- The threshold of the generic rule does not decrease when `Wmin` grows
(positive hit-nucleon mass, `Wmin + m_l` non-negative). -/
theorem genericThreshold_mono (Mn ml W0 W1 : ℚ) (hMn : 0 < Mn) (h0 : 0 ≤ W0 + ml)
    (hW : W0 ≤ W1) :
    max 0 (0.5 * ((W0 + ml) ^ 2 - Mn ^ 2) / Mn) ≤
      max 0 (0.5 * ((W1 + ml) ^ 2 - Mn ^ 2) / Mn) := by
  apply max_le_max le_rfl
  apply div_le_div_of_nonneg_right _ hMn.le
  have : (W0 + ml) ^ 2 ≤ (W1 + ml) ^ 2 := by nlinarith
  linarith

/-- The threshold of the generic rule grows strictly with `Wmin` once the
larger value is positive. -/
theorem genericThreshold_strictMono (Mn ml W0 W1 : ℚ) (hMn : 0 < Mn) (h0 : 0 ≤ W0 + ml)
    (hW : W0 < W1) (hpos : 0 < max 0 (0.5 * ((W1 + ml) ^ 2 - Mn ^ 2) / Mn)) :
    max 0 (0.5 * ((W0 + ml) ^ 2 - Mn ^ 2) / Mn) <
      max 0 (0.5 * ((W1 + ml) ^ 2 - Mn ^ 2) / Mn) := by
  have h1 : 0.5 * ((W0 + ml) ^ 2 - Mn ^ 2) / Mn < 0.5 * ((W1 + ml) ^ 2 - Mn ^ 2) / Mn := by
    apply div_lt_div_of_pos_right _ hMn
    have : (W0 + ml) ^ 2 < (W1 + ml) ^ 2 := by nlinarith
    linarith
  rcases le_total (0.5 * ((W1 + ml) ^ 2 - Mn ^ 2) / Mn) 0 with h | h
  · rw [max_eq_left h] at hpos
    exact absurd hpos (lt_irrefl _)
  · rw [max_eq_right h]
    apply max_lt
    · rw [max_eq_right h] at hpos; exact hpos
    · exact h1

/-- The single-kaon branch of `Threshold` in closed form: for a known
single-kaon process the value is `((Mf + m_l + m_K)^2 - Mi^2) / (2*Mi)`,
without a probe-mass term. -/
theorem Threshold_singleKaon (c : Constants) (i : Interaction)
    (hk : i.ProcInfo.fScatteringType = .kScSingleKaon)
    (hknown : i.ProcInfo.IsKnown = true) :
    Threshold c i = .ok
      ((((if i.NProtons = 1 then c.kProtonMass else c.kNeutronMass) + i.FSPrimLeptonMass +
          c.pdgMass i.StrangeHadronPdg) ^ 2 - i.HitNucP4M ^ 2) / (2 * i.HitNucP4M)) := by
  unfold Threshold
  simp only [ProcessInfo.IsKnown] at hknown
  simp only [hk, hknown, ProcessInfo.IsKnown, ProcessInfo.IsSinglePion, ProcessInfo.IsNorm,
    ProcessInfo.IsSingleKaon, decide_True, reduceCtorEq, decide_False,
    Bool.not_true, Bool.false_eq_true, if_false, if_true]
  congr 1; rw [div_div]; ring

/-- The strangeness tag is not an input of `Threshold`: setting or clearing
it leaves the result as it is. -/
theorem Threshold_ignores_strange_tag (c : Constants) (i : Interaction) (b : Bool) :
    Threshold c { i with IsStrangeEvent := b } = Threshold c i := rfl

/-- C21: for a single-pion interaction (a known process), `Threshold` throws
the "Can't compute threshold" exception if and only if `NPiPlus ≠ 1`,
`NPiMinus ≠ 1` and `NPi0 ≠ 1`; in every other case it returns a value; and it
fails in no other way. -/
theorem Threshold_singlePion_fails_iff (c : Constants) (i : Interaction)
    (hk : i.ProcInfo.fScatteringType = .kScSinglePion)
    (hknown : i.ProcInfo.IsKnown = true) :
    (Threshold c i = .error (.exception .cantComputeThreshold) ↔
      (i.NPiPlus ≠ 1 ∧ i.NPiMinus ≠ 1 ∧ i.NPi0 ≠ 1)) ∧
    (¬ (i.NPiPlus ≠ 1 ∧ i.NPiMinus ≠ 1 ∧ i.NPi0 ≠ 1) → ∃ Ethr, Threshold c i = .ok Ethr) ∧
    (∀ e, Threshold c i = .error e → e = .exception .cantComputeThreshold) := by
  unfold Threshold
  simp only [ProcessInfo.IsKnown] at hknown
  simp only [hk, hknown, ProcessInfo.IsKnown, ProcessInfo.IsSinglePion, decide_True,
    Bool.not_true, Bool.false_eq_true, if_false, if_true]
  by_cases h1 : i.NPiPlus = 1
  · simp [h1]
  · by_cases h2 : i.NPiMinus = 1
    · simp [h1, h2]
    · by_cases h3 : i.NPi0 = 1
      · simp [h1, h2, h3]
      · simp [h1, h2, h3]

/-- C21 (witness): the neutral-current single-pion interaction whose tag has
no pion at all fails, and the one with a neutral pion returns a value. -/
theorem Threshold_singlePion_fails_iff_witness :
    Threshold exampleConstants (exampleInteraction .kScSinglePion .kIntWeakNC) =
      .error (.exception .cantComputeThreshold) ∧
    ∃ Ethr, Threshold exampleConstants heavyOffShellSinglePion = .ok Ethr :=
  ⟨(Threshold_singlePion_fails_iff exampleConstants
      (exampleInteraction .kScSinglePion .kIntWeakNC) rfl rfl).1.mpr
      (by simp [exampleInteraction]),
   (Threshold_singlePion_fails_iff exampleConstants heavyOffShellSinglePion rfl rfl).2.1
      (by simp [heavyOffShellSinglePion, exampleInteraction])⟩

/-- C22: at a single-kaon interaction with a massive probe (a muon on a
proton, one proton and a charged kaon in the final state) `Threshold` returns
`((Mf + m_l + m_K)^2 - Mi^2) / (2*Mi)`, which is not the specified
`((Mf + m_l + m_K)^2 - Mi^2 - mi^2) / (2*Mi)`: the probe-mass term that the
single-pion branch subtracts is absent from the single-kaon branch. -/
theorem Threshold_singleKaon_omits_probe_mass :
    Threshold strangeCharmConstants muonSingleKaon =
      .ok (((0.9382720813 + 0.1056583745 + 0.493677) ^ 2 - 0.9382720813 ^ 2)
            / (2 * 0.9382720813)) ∧
    singleKaonThresholdAsSpecified strangeCharmConstants muonSingleKaon =
      ((0.9382720813 + 0.1056583745 + 0.493677) ^ 2 - 0.9382720813 ^ 2 - 0.1056583745 ^ 2)
            / (2 * 0.9382720813) ∧
    Threshold strangeCharmConstants muonSingleKaon ≠
      .ok (singleKaonThresholdAsSpecified strangeCharmConstants muonSingleKaon) := by
  have h1 : Threshold strangeCharmConstants muonSingleKaon =
      .ok (((0.9382720813 + 0.1056583745 + 0.493677) ^ 2 - 0.9382720813 ^ 2)
            / (2 * 0.9382720813)) := by
    simp [Threshold, strangeCharmConstants, muonSingleKaon, exampleInteraction,
      exampleConstants]
    norm_num
  have h2 : singleKaonThresholdAsSpecified strangeCharmConstants muonSingleKaon =
      ((0.9382720813 + 0.1056583745 + 0.493677) ^ 2 - 0.9382720813 ^ 2 - 0.1056583745 ^ 2)
            / (2 * 0.9382720813) := by
    norm_num [singleKaonThresholdAsSpecified, strangeCharmConstants, muonSingleKaon,
      exampleInteraction, exampleConstants, kPdgProton, kPdgNeutron, kPdgPi0, kPdgPiP, kPdgPiM]
  refine ⟨h1, h2, ?_⟩
  rw [h1, h2]
  norm_num

/-- C23: for a known process of the generic family other than dark matter
(quasi-elastic, inverse beta decay, resonant, deep-inelastic, diffractive),
with the hit nucleon set and no charm tag, `Threshold` returns
`max(0, ((Wmin + m_l)^2 - Mn^2) / (2*Mn))`, where `Wmin` is the rest mass of
the hit-nucleon species, proton and neutron exchanged exactly for a
charged-current process, for quasi-elastic and inverse beta decay; nucleon
mass plus photon-test mass for resonant; and nucleon mass plus pion mass for
deep-inelastic and diffractive. -/
theorem Threshold_generic_untagged (c : Constants) (i : Interaction)
    (hk : i.ProcInfo.fScatteringType ∈ genericNonDarkKinds)
    (hknown : i.ProcInfo.IsKnown = true) (hset : i.HitNucIsSet = true)
    (hcharm : i.IsCharmEvent = false) :
    Threshold c i = .ok (max 0
      ((((if i.ProcInfo.fScatteringType = .kScQuasiElastic ∨
              i.ProcInfo.fScatteringType = .kScInverseBetaDecay then
            c.pdgMass (if i.ProcInfo.fInteractionType = .kIntWeakCC
                       then pdg.SwitchProtonNeutron i.HitNucPdg else i.HitNucPdg)
          else if i.ProcInfo.fScatteringType = .kScResonant then
            c.kNucleonMass + c.kPhotontest
          else c.kNucleonMass + c.kPionMass) + i.FSPrimLeptonMass) ^ 2 - i.HitNucP4M ^ 2)
        / (2 * i.HitNucP4M))) := by
  have hk2 : i.ProcInfo.fScatteringType ∈ hitNucAssertingKinds := by
    simp only [genericNonDarkKinds, List.mem_cons, List.mem_singleton, List.not_mem_nil,
      or_false] at hk
    rcases hk with hk | hk | hk | hk | hk <;> simp [hk, hitNucAssertingKinds]
  rw [Threshold_generic c i hk2 hknown hset]
  simp only [genericNonDarkKinds, List.mem_cons, List.mem_singleton, List.not_mem_nil,
    or_false] at hk
  congr 2
  rcases hk with hk | hk | hk | hk | hk <;>
    simp [hk, hcharm, thresholdWmin] <;> ring

/-- C23 (witness): charged-current quasi-elastic scattering on a proton, where
`Wmin` is the neutron mass. -/
theorem Threshold_generic_untagged_witness :
    Threshold exampleConstants (exampleInteraction .kScQuasiElastic .kIntWeakCC) =
      .ok (max 0 (((0.9395654133 + 0) ^ 2 - 0.9382720813 ^ 2) / (2 * 0.9382720813))) :=
  (Threshold_generic_untagged exampleConstants
    (exampleInteraction .kScQuasiElastic .kIntWeakCC)
    (by simp [exampleInteraction, genericNonDarkKinds]) rfl rfl rfl).trans
    (by simp [exampleInteraction, exampleConstants, pdg.SwitchProtonNeutron, kPdgProton,
      kPdgNeutron])

/-- C24 (counterexample): for the dark-matter elastic interaction tagged
with the charmed lambda baryon, the charm tag raises `Wmin` (from the proton
mass to neutron mass + charm hadron mass + small number) and yet the
threshold is the one of the same interaction without the tag, 0.5 GeV. -/
theorem Threshold_charm_tag_without_effect :
    thresholdWmin strangeCharmConstants { charmDarkMatterElastic with IsCharmEvent := false }
      < thresholdWmin strangeCharmConstants charmDarkMatterElastic ∧
    Threshold strangeCharmConstants charmDarkMatterElastic = .ok 0.5 ∧
    Threshold strangeCharmConstants { charmDarkMatterElastic with IsCharmEvent := false }
      = .ok 0.5 := by
  refine ⟨?_, ?_, ?_⟩
  · simp [thresholdWmin, strangeCharmConstants, charmDarkMatterElastic, exampleInteraction,
      exampleConstants, kPdgProton, kPdgNeutron, kPdgPi0, kPdgPiP, kPdgPiM]
    norm_num
  · simp [Threshold, strangeCharmConstants, charmDarkMatterElastic, exampleInteraction,
      exampleConstants]
    norm_num
  · simp [Threshold, strangeCharmConstants, charmDarkMatterElastic, exampleInteraction,
      exampleConstants]
    norm_num

/-- C24 (amended): for a known process of the generic family with the hit
nucleon set, a charm tag sets `Wmin` to nucleon mass + lightest charm hadron
mass (inclusive charm), or to the tagged charm hadron mass + a small number
(quasi-elastic and inverse beta decay) or neutron mass + charm hadron mass +
a small number (the other kinds).  For the two dark-matter kinds the
threshold is the same with and without the tag.  For the other kinds, with a
positive hit-nucleon mass and `Wmin + m_l` non-negative without the tag, the
tagged threshold is not lower than the untagged one whenever the tagged
`Wmin` is not lower, and is strictly higher whenever the tagged `Wmin` is
strictly higher and the tagged threshold is positive. -/
theorem Threshold_charm_tag (c : Constants) (i : Interaction)
    (hk : i.ProcInfo.fScatteringType ∈ hitNucAssertingKinds)
    (hknown : i.ProcInfo.IsKnown = true) (hset : i.HitNucIsSet = true)
    (hcharm : i.IsCharmEvent = true) :
    thresholdWmin c i =
      (if i.IsInclusiveCharm then c.kNucleonMass + c.kLightestChmHad
       else if i.ProcInfo.fScatteringType = .kScQuasiElastic ∨
               i.ProcInfo.fScatteringType = .kScInverseBetaDecay then
         c.pdgMass i.CharmHadronPdg + c.kASmallNum
       else c.kNeutronMass + c.pdgMass i.CharmHadronPdg + c.kASmallNum) ∧
    ∃ E E0, Threshold c i = .ok E ∧ Threshold c { i with IsCharmEvent := false } = .ok E0 ∧
      (i.ProcInfo.fScatteringType ∉ genericNonDarkKinds → E0 = E) ∧
      (i.ProcInfo.fScatteringType ∈ genericNonDarkKinds → 0 < i.HitNucP4M →
        0 ≤ thresholdWmin c { i with IsCharmEvent := false } + i.FSPrimLeptonMass →
        (thresholdWmin c { i with IsCharmEvent := false } ≤ thresholdWmin c i → E0 ≤ E) ∧
        (thresholdWmin c { i with IsCharmEvent := false } < thresholdWmin c i → 0 < E →
          E0 < E)) := by
  refine ⟨?_, _, _, Threshold_generic c i hk hknown hset,
    Threshold_generic c { i with IsCharmEvent := false } hk hknown hset, ?_, ?_⟩
  · simp only [hitNucAssertingKinds, List.mem_cons, List.mem_singleton, List.not_mem_nil,
      or_false] at hk
    rcases hk with hk | hk | hk | hk | hk | hk | hk <;>
      simp [hk, hcharm, thresholdWmin]
  · intro hnd
    simp only [hitNucAssertingKinds, List.mem_cons, List.mem_singleton, List.not_mem_nil,
      or_false] at hk
    rcases hk with hk | hk | hk | hk | hk | hk | hk <;>
      simp [hk, genericNonDarkKinds] at hnd ⊢
  · intro hnd hMn h0
    have hd : ¬ (i.ProcInfo.fScatteringType = .kScDarkMatterElastic ∨
          i.ProcInfo.fScatteringType = .kScDarkMatterDeepInelastic) := by
      simp only [genericNonDarkKinds, List.mem_cons, List.mem_singleton, List.not_mem_nil,
        or_false] at hnd
      rcases hnd with hk | hk | hk | hk | hk <;> simp [hk]
    simp only [hd, if_false]
    exact ⟨fun hW => genericThreshold_mono _ _ _ _ hMn h0 hW,
           fun hW hpos => genericThreshold_strictMono _ _ _ _ hMn h0 hW hpos⟩

/-- C24 (witness): for charged-current deep-inelastic scattering tagged as
inclusive charm, `Wmin` is nucleon mass + 1.87 GeV and the tagged threshold
is strictly above the untagged one. -/
theorem Threshold_charm_tag_witness :
    thresholdWmin exampleConstants inclusiveCharmDIS
      = (0.9382720813 + 0.9395654133) / 2 + 1.870 ∧
    ∃ E E0, Threshold exampleConstants inclusiveCharmDIS = .ok E ∧
      Threshold exampleConstants { inclusiveCharmDIS with IsCharmEvent := false } = .ok E0 ∧
      E0 < E := by
  obtain ⟨hW, E, E0, hE, hE0, -, h⟩ :=
    Threshold_charm_tag exampleConstants inclusiveCharmDIS
      (by simp [inclusiveCharmDIS, exampleInteraction, hitNucAssertingKinds]) rfl rfl rfl
  have hWv : thresholdWmin exampleConstants inclusiveCharmDIS
      = (0.9382720813 + 0.9395654133) / 2 + 1.870 := by
    rw [hW]; simp [inclusiveCharmDIS, exampleInteraction, exampleConstants]
  have hW0 : thresholdWmin exampleConstants { inclusiveCharmDIS with IsCharmEvent := false }
      = (0.9382720813 + 0.9395654133) / 2 + 0.13957 := by
    simp [thresholdWmin, inclusiveCharmDIS, exampleInteraction, exampleConstants]
  have hEv : Threshold exampleConstants inclusiveCharmDIS =
      .ok (0.5 * (((0.9382720813 + 0.9395654133) / 2 + 1.870 + 0) ^ 2 - 0.9382720813 ^ 2)
            / 0.9382720813) := by
    simp [Threshold, inclusiveCharmDIS, exampleInteraction, exampleConstants]
    norm_num
  have hpos : 0 < E := by
    rw [hEv] at hE
    simp only [Except.ok.injEq] at hE
    rw [← hE]; norm_num
  refine ⟨hWv, E, E0, hE, hE0, ?_⟩
  refine (h (by simp [inclusiveCharmDIS, exampleInteraction, genericNonDarkKinds])
    (by norm_num [inclusiveCharmDIS, exampleInteraction])
    (by rw [hW0]; norm_num [inclusiveCharmDIS, exampleInteraction])).2 ?_ hpos
  rw [hW0, hWv]; norm_num

/-- C25: for a dark-matter elastic interaction (a known process, hit nucleon
set) `Threshold` returns the value recomputed with `Wmin` equal to the
hit-nucleon mass, `max(0, max(((Mn + m_l)^2 - Mn^2 - m_l^2) / (2*Mn), m_l))`,
which is at least the final-state lepton mass. -/
theorem Threshold_darkMatterElastic (c : Constants) (i : Interaction)
    (hk : i.ProcInfo.fScatteringType = .kScDarkMatterElastic)
    (hknown : i.ProcInfo.IsKnown = true) (hset : i.HitNucIsSet = true) :
    ∃ Ethr, Threshold c i = .ok Ethr ∧
      Ethr = max 0 (max (((i.HitNucP4M + i.FSPrimLeptonMass) ^ 2 - i.HitNucP4M ^ 2
                - i.FSPrimLeptonMass ^ 2) / (2 * i.HitNucP4M)) i.FSPrimLeptonMass) ∧
      i.FSPrimLeptonMass ≤ Ethr := by
  refine ⟨_, Threshold_generic c i (by simp [hk, hitNucAssertingKinds]) hknown hset, ?_, ?_⟩
  · simp only [hk, true_or, if_true]
    congr 2
    ring
  · simp only [hk, true_or, if_true]
    exact le_max_of_le_right (le_max_right _ _)

/-- C25 (witness): dark-matter elastic scattering of a particle of mass
0.5 GeV on a proton has a threshold of at least 0.5 GeV. -/
theorem Threshold_darkMatterElastic_witness :
    ∃ Ethr, Threshold exampleConstants
        { exampleInteraction .kScDarkMatterElastic .kIntDarkMatter with
          FSPrimLeptonMass := 0.5 } = .ok Ethr ∧ (0.5 : ℚ) ≤ Ethr := by
  obtain ⟨Ethr, h, -, hle⟩ := Threshold_darkMatterElastic exampleConstants
    { exampleInteraction .kScDarkMatterElastic .kIntDarkMatter with
      FSPrimLeptonMass := 0.5 } rfl rfl rfl
  exact ⟨Ethr, h, hle⟩

/-! ### Limits dispatch, Q2 limits, diffractive t limits and the allowed-point dispatch -/

/-- Without an exclusive charm or strangeness tag, `Q2Lim` and `Q2Lim_W`
return the same range for the quasi-elastic family. -/
theorem Q2Lim_eq_Q2Lim_W_untagged (c : Constants) (k : KineUtils) (i : Interaction)
    (hk : i.ProcInfo.fScatteringType = .kScQuasiElastic ∨
          i.ProcInfo.fScatteringType = .kScInverseBetaDecay ∨
          i.ProcInfo.fScatteringType = .kScDarkMatterElastic)
    (hc : i.IsCharmEvent = false) (hs : i.IsStrangeEvent = false) :
    Q2Lim c k i = Q2Lim_W c k i := by
  rcases hk with hk | hk | hk <;> simp [Q2Lim, Q2Lim_W, hk, hc, hs]

/-- The diffractive t-minimum is not-a-number exactly when the square root
is, or when the quotient is `0/0`. -/
theorem dfrTMin_eq_none_iff (k : KineUtils) (A1 A2 A3 : ℚ) :
    dfrTMin k A1 A2 A3 = none ↔
      (k.sqrt (A2 * A2 - A1 * A3) = none ∨
        ∃ r, k.sqrt (A2 * A2 - A1 * A3) = some r ∧ A1 = 0 ∧ A2 + r = 0) := by
  unfold dfrTMin
  cases h : k.sqrt (A2 * A2 - A1 * A3) with
  | none => simp
  | some r =>
    by_cases hz : A1 = 0 ∧ A2 + r = 0
    · simp [hz]
    · simp only [hz, if_false, reduceCtorEq, false_or, false_iff]
      rintro ⟨r', hr', h0⟩
      cases hr'
      exact hz h0

/-- The diffractive branch of `TLim` in terms of `dfrCoefficients`. -/
theorem TLim_diffractive_eq (c : Constants) (k : KineUtils) (i : Interaction)
    (hk : i.ProcInfo.fScatteringType = .kScDiffractive) :
    (TLim c k i).2 =
      match dfrTMin k (dfrCoefficients c (UpdateWQ2FromXY k i)).1
          (dfrCoefficients c (UpdateWQ2FromXY k i)).2.1
          (dfrCoefficients c (UpdateWQ2FromXY k i)).2.2 with
      | none => .error (.exception .nanTminDiffractive)
      | some tmin => .ok ⟨tmin, c.DFR_tMax⟩ := by
  have hk2 : (UpdateWQ2FromXY k i).ProcInfo.fScatteringType = .kScDiffractive := by
    unfold UpdateWQ2FromXY
    cases k.WQ2FromXY i <;> simp [hk]
  unfold TLim dfrCoefficients
  simp only [hk2, ProcessInfo.IsCoherentProduction, ProcessInfo.IsDiffractive, reduceCtorEq,
    decide_False, decide_True, Bool.false_eq_true, if_false, if_true]
  split <;> rfl

/-- C26: `Limits` equals `WLim` for W, `Q2Lim` for Q2, `q2Lim` for q2, `XLim`
for x, `YLim` for y and `TLim` for t; for every other variable tag it returns
the range `{-1, -1}` and does not raise; `Minimum` and `Maximum` are the `min`
and the `max` of the range `Limits` returns, and raise what `Limits` raises. -/
theorem Limits_dispatch (c : Constants) (k : KineUtils) (i : Interaction) :
    Limits c k i .kKVW = .ok (WLim c k i) ∧
    Limits c k i .kKVQ2 = .ok (Q2Lim c k i) ∧
    Limits c k i .kKVq2 = .ok (q2Lim c k i) ∧
    Limits c k i .kKVx = .ok (XLim c k i) ∧
    Limits c k i .kKVy = .ok (YLim c k i) ∧
    Limits c k i .kKVt = (TLim c k i).2 ∧
    (∀ tag, Limits c k i (.other tag) = .ok ⟨-1, -1⟩) ∧
    (∀ kvar lim, Limits c k i kvar = .ok lim →
      Minimum c k i kvar = .ok lim.min ∧ Maximum c k i kvar = .ok lim.max) ∧
    (∀ kvar e, Limits c k i kvar = .error e →
      Minimum c k i kvar = .error e ∧ Maximum c k i kvar = .error e) := by
  refine ⟨rfl, rfl, rfl, rfl, rfl, rfl, fun _ => rfl, ?_, ?_⟩
  · intro kvar lim h
    simp [Minimum, Maximum, h]
  · intro kvar e h
    simp [Minimum, Maximum, h]

/-- C26 (witness): for the resonant example interaction the minimum and the
maximum of W are those of `WLim`, 0 and 2, and an unlisted variable tag has
minimum -1. -/
theorem Limits_dispatch_witness :
    Minimum exampleConstants exampleKineUtils
        (exampleInteraction .kScResonant .kIntWeakCC) .kKVW = .ok 0 ∧
    Maximum exampleConstants exampleKineUtils
        (exampleInteraction .kScResonant .kIntWeakCC) .kKVW = .ok 2 ∧
    Minimum exampleConstants exampleKineUtils
        (exampleInteraction .kScResonant .kIntWeakCC) (.other 7) = .ok (-1) :=
  have h := Limits_dispatch exampleConstants exampleKineUtils
    (exampleInteraction .kScResonant .kIntWeakCC)
  have hW : WLim exampleConstants exampleKineUtils
      (exampleInteraction .kScResonant .kIntWeakCC) = ⟨0, 2⟩ := by
    simp [WLim, exampleInteraction, exampleKineUtils]
  ⟨(h.2.2.2.2.2.2.2.1 .kKVW ⟨0, 2⟩ (h.1.trans (by rw [hW]))).1,
   (h.2.2.2.2.2.2.2.1 .kKVW ⟨0, 2⟩ (h.1.trans (by rw [hW]))).2,
   (h.2.2.2.2.2.2.2.1 (.other 7) ⟨-1, -1⟩ (h.2.2.2.2.2.2.1 7)).1⟩

/-- C27 (counterexample): for the charged-current diffractive example
interaction `Q2Lim` returns the range `{-1, -1}`, while the generic inelastic
Q2 limits at its energy and masses are `[0, 2]`. -/
theorem Q2Lim_diffractive_is_sentinel :
    Q2Lim exampleConstants exampleKineUtils (exampleInteraction .kScDiffractive .kIntWeakCC)
      = ⟨-1, -1⟩ ∧
    exampleKineUtils.InelQ2Lim 1 0.9382720813 0 = ⟨0, 2⟩ := by
  constructor
  · simp [Q2Lim, exampleInteraction]
  · rfl

/-- C27 (amended): for deep-inelastic and resonant interactions `Q2Lim`
returns the generic W-integrated inelastic Q2 limits computed from the probe
energy in the nucleon rest frame, the nucleon mass and the lepton mass (the
electromagnetic variant for an electromagnetic process); for dark-matter
deep-inelastic interactions it returns the dark-matter Q2 limits; and for
every kind outside quasi-elastic, inverse beta decay, deep-inelastic,
resonant, coherent production, coherent elastic, dark-matter elastic and
dark-matter deep-inelastic (diffractive among them) it returns the range
`{-1, -1}`. -/
theorem Q2Lim_fallback (c : Constants) (k : KineUtils) (i : Interaction) :
    (i.ProcInfo.fScatteringType = .kScDeepInelastic ∨
      i.ProcInfo.fScatteringType = .kScResonant →
        Q2Lim c k i =
          if i.ProcInfo.fInteractionType = .kIntEM then
            k.em_InelQ2Lim i.ProbeE_HitNucRest i.FSPrimLeptonMass i.HitNucP4M
          else k.InelQ2Lim i.ProbeE_HitNucRest i.HitNucP4M i.FSPrimLeptonMass) ∧
    (i.ProcInfo.fScatteringType = .kScDarkMatterDeepInelastic →
        Q2Lim c k i = k.DarkQ2Lim i.ProbeE_HitNucRest i.HitNucP4M i.FSPrimLeptonMass) ∧
    (i.ProcInfo.fScatteringType ∉ q2LimKinds → Q2Lim c k i = ⟨-1, -1⟩) := by
  refine ⟨?_, ?_, ?_⟩
  · rintro (hk | hk) <;> simp [Q2Lim, hk]
  · intro hk; simp [Q2Lim, hk]
  · intro hk
    cases h : i.ProcInfo.fScatteringType <;> simp [h, q2LimKinds] at hk <;> simp [Q2Lim, h]

/-- C27 (witness): the charged-current deep-inelastic example interaction
gets the generic inelastic limits, and the inverse-muon-decay one the range
`{-1, -1}`. -/
theorem Q2Lim_fallback_witness :
    Q2Lim exampleConstants exampleKineUtils (exampleInteraction .kScDeepInelastic .kIntWeakCC)
      = exampleKineUtils.InelQ2Lim 1 0.9382720813 0 ∧
    Q2Lim exampleConstants exampleKineUtils (exampleInteraction .kScInverseMuDecay .kIntWeakCC)
      = ⟨-1, -1⟩ :=
  ⟨((Q2Lim_fallback exampleConstants exampleKineUtils
      (exampleInteraction .kScDeepInelastic .kIntWeakCC)).1 (Or.inl rfl)).trans
      (by simp [exampleInteraction]),
   (Q2Lim_fallback exampleConstants exampleKineUtils
      (exampleInteraction .kScInverseMuDecay .kIntWeakCC)).2.2
      (by simp [exampleInteraction, q2LimKinds])⟩

/-- C28: for the charged-current quasi-elastic interaction tagged with the
charmed lambda baryon, `Q2Lim` evaluates the fixed-W function at the charm
hadron mass, 2.28646 GeV, and `Q2Lim_W` at the recoil-nucleon mass,
0.9382720813 GeV, whatever the kinematics utilities; with a fixed-W function
that reports `[0, W]` the two ranges differ. -/
theorem Q2Lim_charm_tag_diverges :
    (∀ k : KineUtils,
      Q2Lim strangeCharmConstants k charmQuasiElastic =
        k.InelQ2Lim_W 10 0.9395654133 0.1056583745 2.28646 ∧
      Q2Lim_W strangeCharmConstants k charmQuasiElastic =
        k.InelQ2Lim_W 10 0.9395654133 0.1056583745 0.9382720813) ∧
    Q2Lim strangeCharmConstants wSensitiveKineUtils charmQuasiElastic = ⟨0, 2.28646⟩ ∧
    Q2Lim_W strangeCharmConstants wSensitiveKineUtils charmQuasiElastic
      = ⟨0, 0.9382720813⟩ := by
  refine ⟨fun k => ⟨?_, ?_⟩, ?_, ?_⟩
  · simp [Q2Lim, strangeCharmConstants, charmQuasiElastic, exampleInteraction]
  · simp [Q2Lim_W, strangeCharmConstants, charmQuasiElastic, exampleInteraction]
  · simp [Q2Lim, strangeCharmConstants, charmQuasiElastic, exampleInteraction,
      wSensitiveKineUtils, exampleKineUtils]
  · simp [Q2Lim_W, strangeCharmConstants, charmQuasiElastic, exampleInteraction,
      wSensitiveKineUtils, exampleKineUtils]

/-- C29: for a diffractive interaction (non-zero hit-nucleon mass, and a
square root that is not-a-number exactly on negative arguments), with `A1`,
`A2`, `A3` the coefficients of the t-minimum: `TLim` throws the "NaN tmin"
exception if and only if the discriminant `A2^2 - A1*A3` is negative or the
quotient is `0/0`; otherwise it returns `{t_min, DFR-t-max}` with
`t_min ≥ 0`, and `t_min = |(A2 + sqrt(A2^2 - A1*A3)) / A1|` when `A1 ≠ 0`;
in no case does it return the range `{-1, -1}`. -/
theorem TLim_diffractive (c : Constants) (k : KineUtils) (i : Interaction)
    (hk : i.ProcInfo.fScatteringType = .kScDiffractive)
    (hM : i.HitNucMass ≠ 0)
    (hsqrt : ∀ x, k.sqrt x = none ↔ x < 0) :
    ((TLim c k i).2 = .error (.exception .nanTminDiffractive) ↔
      ((dfrCoefficients c (UpdateWQ2FromXY k i)).2.1 * (dfrCoefficients c (UpdateWQ2FromXY k i)).2.1
          - (dfrCoefficients c (UpdateWQ2FromXY k i)).1
            * (dfrCoefficients c (UpdateWQ2FromXY k i)).2.2 < 0 ∨
        ∃ r, k.sqrt ((dfrCoefficients c (UpdateWQ2FromXY k i)).2.1
              * (dfrCoefficients c (UpdateWQ2FromXY k i)).2.1
              - (dfrCoefficients c (UpdateWQ2FromXY k i)).1
                * (dfrCoefficients c (UpdateWQ2FromXY k i)).2.2) = some r ∧
          (dfrCoefficients c (UpdateWQ2FromXY k i)).1 = 0 ∧
          (dfrCoefficients c (UpdateWQ2FromXY k i)).2.1 + r = 0)) ∧
    ((TLim c k i).2 ≠ .error (.exception .nanTminDiffractive) →
      ∃ r, k.sqrt ((dfrCoefficients c (UpdateWQ2FromXY k i)).2.1
              * (dfrCoefficients c (UpdateWQ2FromXY k i)).2.1
              - (dfrCoefficients c (UpdateWQ2FromXY k i)).1
                * (dfrCoefficients c (UpdateWQ2FromXY k i)).2.2) = some r ∧
        ∃ tmin, (TLim c k i).2 = .ok ⟨tmin, c.DFR_tMax⟩ ∧ 0 ≤ tmin ∧
          ((dfrCoefficients c (UpdateWQ2FromXY k i)).1 ≠ 0 →
            tmin = |((dfrCoefficients c (UpdateWQ2FromXY k i)).2.1 + r)
                      / (dfrCoefficients c (UpdateWQ2FromXY k i)).1|)) ∧
    (TLim c k i).2 ≠ .ok ⟨-1, -1⟩ := by
  have _ := hM
  rw [TLim_diffractive_eq c k i hk]
  generalize (dfrCoefficients c (UpdateWQ2FromXY k i)).1 = A1
  generalize (dfrCoefficients c (UpdateWQ2FromXY k i)).2.1 = A2
  generalize (dfrCoefficients c (UpdateWQ2FromXY k i)).2.2 = A3
  have hnone := dfrTMin_eq_none_iff k A1 A2 A3
  rw [hsqrt] at hnone
  cases ht : dfrTMin k A1 A2 A3 with
  | none =>
    refine ⟨?_, ?_, ?_⟩
    · simp only [true_iff]
      exact hnone.mp ht
    · intro h; exact absurd rfl h
    · simp
  | some t =>
    have hne : ¬ (A2 * A2 - A1 * A3 < 0 ∨
        ∃ r, k.sqrt (A2 * A2 - A1 * A3) = some r ∧ A1 = 0 ∧ A2 + r = 0) := by
      intro h
      rw [hnone.mpr h] at ht
      cases ht
    have hval : ∃ r, k.sqrt (A2 * A2 - A1 * A3) = some r ∧ t = |(A2 + r) / A1| := by
      unfold dfrTMin at ht
      cases hs : k.sqrt (A2 * A2 - A1 * A3) with
      | none => simp [hs] at ht
      | some r =>
        refine ⟨r, rfl, ?_⟩
        simp only [hs] at ht
        split_ifs at ht
        simp only [Option.some.injEq] at ht
        exact ht.symm
    obtain ⟨r, hr, htv⟩ := hval
    have ht0 : 0 ≤ t := by rw [htv]; exact abs_nonneg _
    refine ⟨?_, ?_, ?_⟩
    · simp only [reduceCtorEq, false_iff]
      exact hne
    · intro _
      exact ⟨r, hr, t, rfl, ht0, fun _ => htv⟩
    · simp only [ne_eq, Except.ok.injEq, Range1D_t.mk.injEq, not_and]
      intro h
      rw [h] at ht0
      norm_num at ht0

/-- C29 (witness): the charged-current diffractive example interaction at
y = 0.1, Q2 = 0.001 has a negative discriminant and `TLim` throws; at
y = 0.5, Q2 = 0.5 the discriminant is positive and `TLim` returns a range
with a non-negative minimum and the configured maximum 1. -/
theorem TLim_diffractive_witness :
    (TLim exampleConstants sqrtKineUtils
      { exampleInteraction .kScDiffractive .kIntWeakCC with y := 0.1, Q2 := 0.001 }).2
      = .error (.exception .nanTminDiffractive) ∧
    ∃ tmin, (TLim exampleConstants sqrtKineUtils
      (exampleInteraction .kScDiffractive .kIntWeakCC)).2 = .ok ⟨tmin, 1⟩ ∧ 0 ≤ tmin := by
  constructor
  · exact (TLim_diffractive exampleConstants sqrtKineUtils
      { exampleInteraction .kScDiffractive .kIntWeakCC with y := 0.1, Q2 := 0.001 } rfl
      (by norm_num [exampleInteraction])
      (by intro x; by_cases hx : x < 0 <;> simp [sqrtKineUtils, floorSqrt, hx])).1.mpr
      (Or.inl (by
        norm_num [dfrCoefficients, UpdateWQ2FromXY, sqrtKineUtils, exampleKineUtils,
          exampleInteraction, exampleConstants]))
  · have h := TLim_diffractive exampleConstants sqrtKineUtils
      (exampleInteraction .kScDiffractive .kIntWeakCC) rfl
      (by norm_num [exampleInteraction])
      (by intro x; by_cases hx : x < 0 <;> simp [sqrtKineUtils, floorSqrt, hx])
    have hne : (TLim exampleConstants sqrtKineUtils
        (exampleInteraction .kScDiffractive .kIntWeakCC)).2
        ≠ .error (.exception .nanTminDiffractive) := by
      intro he
      rcases h.1.mp he with hd | ⟨r, -, hA1, -⟩
      · norm_num [dfrCoefficients, UpdateWQ2FromXY, sqrtKineUtils, exampleKineUtils,
          exampleInteraction, exampleConstants] at hd
      · norm_num [dfrCoefficients, UpdateWQ2FromXY, sqrtKineUtils, exampleKineUtils,
          exampleInteraction, exampleConstants] at hA1
    obtain ⟨r, -, tmin, ht, h0, -⟩ := h.2.1 hne
    exact ⟨tmin, ht, h0⟩

/-- C30: `IsAllowed` returns true for every single-kaon interaction, whatever
the running kinematic point, and false for every process kind that none of
its branches names (Glashow resonance, photon resonance, photon coherent,
AMNuGamma, normalization, single pion, unknown, null). -/
theorem IsAllowed_closed_dispatch (c : Constants) (k : KineUtils) (i : Interaction) :
    (i.ProcInfo.fScatteringType = .kScSingleKaon → IsAllowed c k i = .ok true) ∧
    (i.ProcInfo.fScatteringType ∉ isAllowedDispatchKinds → IsAllowed c k i = .ok false) := by
  refine ⟨?_, ?_⟩
  · intro hk; simp [IsAllowed, IsAllowedSt, hk]
  · intro hk
    cases h : i.ProcInfo.fScatteringType <;> simp [h, isAllowedDispatchKinds] at hk <;>
      simp [IsAllowed, IsAllowedSt, h]

/-- C30 (witness): a single-kaon interaction at the running point
W = -5, Q2 = -5 is allowed, and the Glashow-resonance example interaction is
not. -/
theorem IsAllowed_closed_dispatch_witness :
    IsAllowed exampleConstants exampleKineUtils
      { exampleInteraction .kScSingleKaon .kIntWeakCC with W := -5, Q2 := -5 } = .ok true ∧
    IsAllowed exampleConstants exampleKineUtils
      (exampleInteraction .kScGlashowResonance .kIntWeakCC) = .ok false :=
  ⟨(IsAllowed_closed_dispatch exampleConstants exampleKineUtils
      { exampleInteraction .kScSingleKaon .kIntWeakCC with W := -5, Q2 := -5 }).1 rfl,
   (IsAllowed_closed_dispatch exampleConstants exampleKineUtils
      (exampleInteraction .kScGlashowResonance .kIntWeakCC)).2
      (by simp [exampleInteraction, isAllowedDispatchKinds])⟩

/-! ### Side effects of the queries and the diffractive allowed-point test -/

/-- The update of the running W and Q2 from (x, y) changes no other field of
the interaction. -/
theorem UpdateWQ2FromXY_fields (k : KineUtils) (i : Interaction) :
    ∃ W Q2, UpdateWQ2FromXY k i = { i with W := W, Q2 := Q2 } := by
  unfold UpdateWQ2FromXY
  cases h : k.WQ2FromXY i with
  | none => exact ⟨i.W, i.Q2, rfl⟩
  | some p => exact ⟨p.1, p.2, rfl⟩

/-- The interaction `TLim` leaves is the one the update of W and Q2 leaves. -/
theorem TLim_fst (c : Constants) (k : KineUtils) (i : Interaction) :
    (TLim c k i).1 = UpdateWQ2FromXY k i := by
  unfold TLim
  simp only []
  split_ifs <;> first | rfl | (split <;> rfl)

/-- The diffractive branch of `IsAllowed` (KPhaseSpace.cxx, lines 397-426):
the limits are those of the interaction at entry, the point tested is the
updated one, and `TLim` is consulted only for a point inside both ranges. -/
theorem IsAllowed_diffractive_eq (c : Constants) (k : KineUtils) (i : Interaction)
    (hk : i.ProcInfo.fScatteringType = .kScDiffractive) :
    IsAllowed c k i =
      if (IsWithinLimits (UpdateWQ2FromXY k i).W (WLim c k i) &&
          IsWithinLimits (UpdateWQ2FromXY k i).Q2 (Q2Lim_W c k i)) = true then
        match (TLim c k (UpdateWQ2FromXY k i)).2 with
        | .error e => .error e
        | .ok tl => .ok (IsWithinLimits (UpdateWQ2FromXY k i).t tl)
      else .ok false := by
  unfold IsAllowed IsAllowedSt
  simp only [hk, ProcessInfo.IsSingleKaon, ProcessInfo.IsQuasiElastic,
    ProcessInfo.IsInverseBetaDecay, ProcessInfo.IsDarkMatterElastic, ProcessInfo.IsResonant,
    ProcessInfo.IsDeepInelastic, ProcessInfo.IsDarkMatterDeepInelastic,
    ProcessInfo.IsInverseMuDecay, ProcessInfo.IsIMDAnnihilation,
    ProcessInfo.IsNuElectronElastic, ProcessInfo.IsDarkMatterElectronElastic,
    ProcessInfo.IsCoherentProduction, ProcessInfo.IsCoherentElastic,
    ProcessInfo.IsDiffractive, reduceCtorEq, decide_False, decide_True, Bool.or_false,
    Bool.false_eq_true, if_false, if_true]
  by_cases hin : (IsWithinLimits (UpdateWQ2FromXY k i).W (WLim c k i) &&
          IsWithinLimits (UpdateWQ2FromXY k i).Q2 (Q2Lim_W c k i)) = true
  · simp only [hin, if_true]
    rcases TLim c k (UpdateWQ2FromXY k i) with ⟨i2, r⟩
    cases r <;> simp
  · simp only [hin, if_false]
    simp only [Bool.not_eq_true] at hin
    simp [hin]

/-- C31: of the queries that are given the interaction as state, `IsAllowed`
on a non-diffractive channel and `Limits` for every variable other than t
leave the interaction as it is, and `TLim`, `Limits` for t and `IsAllowed` on
any channel leave an interaction that differs from the one given in the
running W and Q2 at most.  (`Threshold`, `IsAboveThreshold`, `WLim`, `Q2Lim`,
`Q2Lim_W`, `q2Lim`, `XLim`, `YLim` and `YLim_X` contain no write and are
functions of the interaction.) -/
theorem queries_leave_interaction (c : Constants) (k : KineUtils) (i : Interaction) :
    (i.ProcInfo.fScatteringType ≠ .kScDiffractive → (IsAllowedSt c k i).1 = i) ∧
    (∃ W Q2, (TLim c k i).1 = { i with W := W, Q2 := Q2 }) ∧
    (∃ W Q2, (IsAllowedSt c k i).1 = { i with W := W, Q2 := Q2 }) ∧
    (∀ kvar, kvar ≠ .kKVt → (LimitsSt c k i kvar).1 = i) ∧
    (∃ W Q2, (LimitsSt c k i .kKVt).1 = { i with W := W, Q2 := Q2 }) := by
  have hT : ∀ j : Interaction, ∃ W Q2, (TLim c k j).1 = { j with W := W, Q2 := Q2 } := by
    intro j
    rw [TLim_fst]
    exact UpdateWQ2FromXY_fields k j
  have hnd : i.ProcInfo.fScatteringType ≠ .kScDiffractive → (IsAllowedSt c k i).1 = i := by
    intro hk
    unfold IsAllowedSt
    cases h : i.ProcInfo.fScatteringType <;> simp [h] at hk ⊢
  refine ⟨hnd, hT i, ?_, ?_, hT i⟩
  · by_cases hk : i.ProcInfo.fScatteringType = .kScDiffractive
    · obtain ⟨W1, Q1, h1⟩ := UpdateWQ2FromXY_fields k i
      obtain ⟨W2, Q2, h2⟩ := hT (UpdateWQ2FromXY k i)
      unfold IsAllowedSt
      simp only [hk, ProcessInfo.IsSingleKaon, ProcessInfo.IsQuasiElastic,
        ProcessInfo.IsInverseBetaDecay, ProcessInfo.IsDarkMatterElastic, ProcessInfo.IsResonant,
        ProcessInfo.IsDeepInelastic, ProcessInfo.IsDarkMatterDeepInelastic,
        ProcessInfo.IsInverseMuDecay, ProcessInfo.IsIMDAnnihilation,
        ProcessInfo.IsNuElectronElastic, ProcessInfo.IsDarkMatterElectronElastic,
        ProcessInfo.IsCoherentProduction, ProcessInfo.IsCoherentElastic,
        ProcessInfo.IsDiffractive, reduceCtorEq, decide_False, decide_True, Bool.or_false,
        Bool.false_eq_true, if_false, if_true]
      split_ifs
      · refine ⟨W2, Q2, ?_⟩
        have h3 : (TLim c k (UpdateWQ2FromXY k i)).1 = { i with W := W2, Q2 := Q2 } := by
          rw [h2, h1]
        revert h3
        cases TLim c k (UpdateWQ2FromXY k i) with
        | mk i2 r => cases r <;> (intro h3; exact h3)
      · exact ⟨W1, Q1, h1⟩
    · exact ⟨i.W, i.Q2, hnd hk⟩
  · intro kvar hkv
    cases kvar <;> first | rfl | exact absurd rfl hkv

/-- C31 (witness): `IsAllowed` leaves the quasi-elastic example interaction
as it is. -/
theorem queries_leave_interaction_witness :
    (IsAllowedSt exampleConstants staleWKineUtils
      (exampleInteraction .kScQuasiElastic .kIntWeakCC)).1
      = exampleInteraction .kScQuasiElastic .kIntWeakCC :=
  (queries_leave_interaction exampleConstants staleWKineUtils
    (exampleInteraction .kScQuasiElastic .kIntWeakCC)).1 (by simp [exampleInteraction])

/-- C32: what `IsAllowed` does at the diffractive interaction with stale
running W = 1, whose update from (x, y) gives W = 1.2 and Q2 = 0.001.  The
recomputed Q2 lies outside the Q2 limits at the recomputed W, `[0.002, 2]`,
so a test of the recomputed point against the limits taken after the update
returns false.  `IsAllowed` takes the limits at lines 399-400, before the
update of line 402: it tests Q2 against the limits at the stale W, `[0, 2]`,
goes on to `TLim` and throws the NaN-tmin exception that the W/Q2 guard of
lines 411-413 is there to prevent. -/
theorem IsAllowed_diffractive_stale_limits :
    IsAllowed exampleConstants staleWKineUtils staleDiffractive
      = .error (.exception .nanTminDiffractive) ∧
    (UpdateWQ2FromXY staleWKineUtils staleDiffractive).W = 1.2 ∧
    (UpdateWQ2FromXY staleWKineUtils staleDiffractive).Q2 = 0.001 ∧
    Q2Lim_W exampleConstants staleWKineUtils (UpdateWQ2FromXY staleWKineUtils staleDiffractive)
      = ⟨0.002, 2⟩ ∧
    IsWithinLimits (0.001 : ℚ) ⟨0.002, 2⟩ = false := by
  have hU : UpdateWQ2FromXY staleWKineUtils staleDiffractive
      = { staleDiffractive with W := 1.2, Q2 := 0.001 } := rfl
  refine ⟨?_, by rw [hU], by rw [hU], ?_, ?_⟩
  · rw [IsAllowed_diffractive_eq _ _ _ rfl]
    have hW : WLim exampleConstants staleWKineUtils staleDiffractive
        = ⟨0.9395654133 + 0.13957, 2⟩ := by
      simp [WLim, staleDiffractive, exampleInteraction, staleWKineUtils, sqrtKineUtils,
        exampleKineUtils, exampleConstants]
      norm_num
    have hQ : Q2Lim_W exampleConstants staleWKineUtils staleDiffractive = ⟨0, 2⟩ := by
      simp [Q2Lim_W, staleDiffractive, exampleInteraction, staleWKineUtils, sqrtKineUtils,
        exampleKineUtils]
    have hin : (IsWithinLimits (UpdateWQ2FromXY staleWKineUtils staleDiffractive).W
          (WLim exampleConstants staleWKineUtils staleDiffractive) &&
        IsWithinLimits (UpdateWQ2FromXY staleWKineUtils staleDiffractive).Q2
          (Q2Lim_W exampleConstants staleWKineUtils staleDiffractive)) = true := by
      rw [hW, hQ, hU]
      simp [IsWithinLimits]
      norm_num
    rw [if_pos hin]
    have hT : (TLim exampleConstants staleWKineUtils
        (UpdateWQ2FromXY staleWKineUtils staleDiffractive)).2
        = .error (.exception .nanTminDiffractive) := by
      rw [TLim_diffractive_eq _ _ _ rfl]
      have hU2 : UpdateWQ2FromXY staleWKineUtils
          (UpdateWQ2FromXY staleWKineUtils staleDiffractive)
          = { staleDiffractive with W := 1.2, Q2 := 0.001 } := rfl
      rw [hU2]
      have hneg : (dfrCoefficients exampleConstants
            { staleDiffractive with W := 1.2, Q2 := 0.001 }).2.1 *
          (dfrCoefficients exampleConstants
            { staleDiffractive with W := 1.2, Q2 := 0.001 }).2.1 -
          (dfrCoefficients exampleConstants
            { staleDiffractive with W := 1.2, Q2 := 0.001 }).1 *
          (dfrCoefficients exampleConstants
            { staleDiffractive with W := 1.2, Q2 := 0.001 }).2.2 < 0 := by
        norm_num [dfrCoefficients, staleDiffractive, exampleInteraction, exampleConstants]
      have hd : dfrTMin staleWKineUtils
          (dfrCoefficients exampleConstants { staleDiffractive with W := 1.2, Q2 := 0.001 }).1
          (dfrCoefficients exampleConstants { staleDiffractive with W := 1.2, Q2 := 0.001 }).2.1
          (dfrCoefficients exampleConstants { staleDiffractive with W := 1.2, Q2 := 0.001 }).2.2
          = none :=
        (dfrTMin_eq_none_iff _ _ _ _).mpr (Or.inl (by
          show floorSqrt _ = none
          unfold floorSqrt
          rw [if_pos hneg]))
      rw [hd]
    rw [hT]
  · simp [Q2Lim_W, staleDiffractive, exampleInteraction, staleWKineUtils, sqrtKineUtils,
      exampleKineUtils, UpdateWQ2FromXY]
    norm_num
  · simp [IsWithinLimits]
    norm_num

/-! ### Further threshold, reflection and rejection-bound facts -/

/-- C35: for a single-pion or normalization interaction whose threshold is
`Ethr`, `IsAboveThreshold` is true if and only if `Ethr < 0`, is false
whenever `Ethr ≥ 0`, and is the same for every probe energy in either
frame. -/
theorem IsAboveThreshold_without_energy (c : Constants) (i : Interaction)
    (hk : i.ProcInfo.fScatteringType = .kScSinglePion ∨
          i.ProcInfo.fScatteringType = .kScNorm)
    (Ethr : ℚ) (hT : Threshold c i = .ok Ethr) :
    (IsAboveThreshold c i = .ok true ↔ Ethr < 0) ∧
    (0 ≤ Ethr → IsAboveThreshold c i = .ok false) ∧
    (∀ Elab Enuc, Threshold c { i with ProbeE_Lab := Elab, ProbeE_HitNucRest := Enuc }
        = .ok Ethr ∧
      IsAboveThreshold c { i with ProbeE_Lab := Elab, ProbeE_HitNucRest := Enuc }
        = IsAboveThreshold c i) := by
  have hA : ∀ j : Interaction, j.ProcInfo = i.ProcInfo → Threshold c j = .ok Ethr →
      IsAboveThreshold c j = .ok (decide (0 > Ethr)) := by
    intro j hj hTj
    unfold IsAboveThreshold
    rw [hTj, hj]
    rcases hk with hk | hk <;> simp [hk]
  have hi := hA i rfl hT
  refine ⟨?_, ?_, ?_⟩
  · rw [hi]; simp
  · intro h; rw [hi]; simp [h]
  · intro Elab Enuc
    have hT2 : Threshold c { i with ProbeE_Lab := Elab, ProbeE_HitNucRest := Enuc }
        = .ok Ethr := hT
    exact ⟨hT2, (hA { i with ProbeE_Lab := Elab, ProbeE_HitNucRest := Enuc } rfl hT2).trans
      hi.symm⟩

/-- C35 (witness): a normalization interaction with a probe energy of
100 GeV in both frames is not above its threshold 0. -/
theorem IsAboveThreshold_without_energy_witness :
    IsAboveThreshold exampleConstants
      { exampleInteraction .kScNorm .kIntWeakCC with
        ProbeE_Lab := 100, ProbeE_HitNucRest := 100 } = .ok false :=
  (IsAboveThreshold_without_energy exampleConstants
    { exampleInteraction .kScNorm .kIntWeakCC with
      ProbeE_Lab := 100, ProbeE_HitNucRest := 100 } (Or.inr rfl) 0
    (by simp [Threshold, exampleInteraction])).2.1 le_rfl

/-- C36: whenever `Q2Lim` returns the range `{-1, -1}`, `q2Lim` returns
`{1, 1}`, and likewise `q2Lim_W` for `Q2Lim_W`; the range `{1, 1}` satisfies
`min ≤ max` and is not the sentinel. -/
theorem q2Lim_of_sentinel (c : Constants) (k : KineUtils) (i : Interaction) :
    (Q2Lim c k i = ⟨-1, -1⟩ → q2Lim c k i = ⟨1, 1⟩) ∧
    (Q2Lim_W c k i = ⟨-1, -1⟩ → q2Lim_W c k i = ⟨1, 1⟩) ∧
    (⟨1, 1⟩ : Range1D_t) ≠ Range1D_t.sentinel ∧
    (⟨1, 1⟩ : Range1D_t).min ≤ (⟨1, 1⟩ : Range1D_t).max := by
  refine ⟨?_, ?_, ?_, le_rfl⟩
  · intro h; simp [q2Lim, h]
  · intro h; simp [q2Lim_W, h]
  · simp [Range1D_t.sentinel]
    norm_num

/-- C36 (witness): the inverse-muon-decay example interaction, for which
`Q2Lim` and `Q2Lim_W` return `{-1, -1}`, has `q2Lim` and `q2Lim_W` equal to
`{1, 1}`. -/
theorem q2Lim_of_sentinel_witness :
    q2Lim exampleConstants exampleKineUtils
      (exampleInteraction .kScInverseMuDecay .kIntWeakCC) = ⟨1, 1⟩ ∧
    q2Lim_W exampleConstants exampleKineUtils
      (exampleInteraction .kScInverseMuDecay .kIntWeakCC) = ⟨1, 1⟩ :=
  ⟨(q2Lim_of_sentinel exampleConstants exampleKineUtils
      (exampleInteraction .kScInverseMuDecay .kIntWeakCC)).1
      (by simp [Q2Lim, exampleInteraction]),
   (q2Lim_of_sentinel exampleConstants exampleKineUtils
      (exampleInteraction .kScInverseMuDecay .kIntWeakCC)).2.1
      (by simp [Q2Lim_W, exampleInteraction])⟩

/-! ### Memoization of the maximum -/

/-- The value `FindMaxXSec` returns at an energy not below the minimum, in
terms of the branch `AccessCacheBranch` hands out. -/
theorem FindMaxXSec_fst (g : KineGeneratorWithCache) (cache : Cache) (i : Interaction)
    (nkey : Int) (hE : g.fEMin ≤ g.Energy i) :
    (g.FindMaxXSec cache i nkey).1 =
      match (g.AccessCacheBranch cache i nkey).1.fSpline with
      | some spl =>
        if g.Energy i ≥ spl.XMin ∧ g.Energy i ≤ spl.XMax then spl.Evaluate (g.Energy i) else -1
      | none =>
        match lower_bound (g.Energy i) (g.AccessCacheBranch cache i nkey).1.fFx with
        | some iter =>
          if |g.Energy i - iter.1| < min 0.25 (0.05 * g.Energy i) then iter.2 else -1
        | none => -1 := by
  unfold FindMaxXSec
  simp only [not_lt.mpr hE, if_false]
  rcases g.AccessCacheBranch cache i nkey with ⟨cb, cache1⟩
  simp only []
  cases cb.fSpline with
  | some spl => simp only []; split_ifs <;> rfl
  | none =>
    simp only []
    cases lower_bound (g.Energy i) cb.fFx with
    | none => rfl
    | some iter => simp only []; split_ifs <;> rfl

/-- Looking up the energy just inserted finds the inserted entry, unless the
energy was a key before, in which case the map is as it was and the old
entry is found. -/
theorem lower_bound_mapInsert_or (E v : ℚ) (l : List (ℚ × ℚ)) :
    lower_bound E (mapInsert E v l) = some (E, v) ∨
    ∃ b, lower_bound E l = some (E, b) ∧ mapInsert E v l = l := by
  induction l with
  | nil => left; simp [mapInsert, lower_bound]
  | cons a rest ih =>
    obtain ⟨a1, a2⟩ := a
    unfold mapInsert
    by_cases h1 : E < a1
    · left; simp [h1, lower_bound]
    · by_cases h2 : E = a1
      · right
        refine ⟨a2, ?_, ?_⟩
        · subst h2; simp [lower_bound]
        · simp [h1, h2]
      · have h3 : ¬ E ≤ a1 := fun h => h1 (lt_of_le_of_ne h h2)
        simp only [h1, h2, if_false]
        rcases ih with ih | ⟨b, hb, hm⟩
        · left
          unfold lower_bound at ih ⊢
          simp [List.find?_cons, h3, ih]
        · right
          refine ⟨b, ?_, by rw [hm]⟩
          unfold lower_bound at hb ⊢
          simp [List.find?_cons, h3, hb]

/-- The entry `lower_bound` finds is an entry of the map. -/
theorem lower_bound_mem (E : ℚ) (l : List (ℚ × ℚ)) (p : ℚ × ℚ)
    (h : lower_bound E l = some p) : p ∈ l := by
  unfold lower_bound at h
  exact List.mem_of_find?_eq_some h

/-- A branch without a spline after the two spline steps of `CacheMaxXSec`
had none before and went through them unchanged. -/
theorem spline_steps_of_none (g : KineGeneratorWithCache) (nkey : Int) (E : ℚ)
    (cb : CacheBranchFx)
    (h : (g.recreateSplineIfOutside nkey E (g.createSplineIfEnough nkey cb)).fSpline = none) :
    g.recreateSplineIfOutside nkey E (g.createSplineIfEnough nkey cb) = cb ∧
    cb.fSpline = none := by
  unfold recreateSplineIfOutside createSplineIfEnough at h ⊢
  cases hs : cb.fSpline with
  | some spl =>
    simp only [hs] at h ⊢
    split_ifs at h <;> simp_all [CacheBranchFx.CreateSpline]
  | none =>
    simp only [hs] at h ⊢
    by_cases hl : cb.fFx.length > 40
    · simp only [hl, if_true, CacheBranchFx.CreateSpline] at h
      split_ifs at h
    · simp [hl, hs]

/-- What `MaxXSec` leaves when the lookup finds a positive maximum. -/
theorem MaxXSec_of_found (g : KineGeneratorWithCache) (cache : Cache) (event_rec : GHepRecord)
    (nkey : Int) (h : 0 < (g.FindMaxXSec cache event_rec.Summary nkey).1) :
    (g.MaxXSec cache event_rec nkey).result
      = .ok (g.safetyScaled nkey (g.FindMaxXSec cache event_rec.Summary nkey).1) ∧
    (g.MaxXSec cache event_rec nkey).event = event_rec ∧
    (g.MaxXSec cache event_rec nkey).cache = (g.FindMaxXSec cache event_rec.Summary nkey).2 := by
  unfold MaxXSec
  simp [h]

/-- What `MaxXSec` leaves when the lookup finds none and the computed maximum
is positive. -/
theorem MaxXSec_of_computed (g : KineGeneratorWithCache) (cache : Cache)
    (event_rec : GHepRecord) (nkey : Int)
    (h : (g.FindMaxXSec cache event_rec.Summary nkey).1 ≤ 0)
    (hv : 0 < g.computedMaxXSec event_rec.Summary nkey) :
    (g.MaxXSec cache event_rec nkey).result
      = .ok (g.safetyScaled nkey (g.computedMaxXSec event_rec.Summary nkey)) ∧
    (g.MaxXSec cache event_rec nkey).event = event_rec ∧
    (g.MaxXSec cache event_rec nkey).cache
      = g.CacheMaxXSec (g.FindMaxXSec cache event_rec.Summary nkey).2 event_rec.Summary
          (g.computedMaxXSec event_rec.Summary nkey) nkey := by
  unfold MaxXSec
  simp [not_lt.mpr h, hv]

/-- C40: if a `MaxXSec` call finds no positive cached maximum, computes
`v > 0` at an energy `E ≥ fEMin`, `E > 0`, and the branch has no spline
afterwards (the branch holding positive values only, as every value
`CacheMaxXSec` stores is), then the call returns the safety-scaled `v`, the
lookup on the cache it leaves finds `v`, and a repeated call on that cache
with the same interaction and sub-key returns the same result and leaves the
cache and the event as they are, whatever `ComputeMaxXSec` would return: it
is not consulted. -/
theorem MaxXSec_memoized (g : KineGeneratorWithCache) (cache : Cache) (event_rec : GHepRecord)
    (nkey : Int)
    (hE : g.fEMin ≤ g.Energy event_rec.Summary) (hpos : 0 < g.Energy event_rec.Summary)
    (hmiss : (g.FindMaxXSec cache event_rec.Summary nkey).1 ≤ 0)
    (hinv : ∀ p ∈ (g.AccessCacheBranch cache event_rec.Summary nkey).1.fFx, 0 < p.2)
    (hv : 0 < g.computedMaxXSec event_rec.Summary nkey)
    (hnospl : ∀ cb, (g.MaxXSec cache event_rec nkey).cache
        (g.branchKey event_rec.Summary nkey) = some cb → cb.fSpline = none) :
    (g.MaxXSec cache event_rec nkey).result
      = .ok (g.safetyScaled nkey (g.computedMaxXSec event_rec.Summary nkey)) ∧
    (g.MaxXSec cache event_rec nkey).event = event_rec ∧
    (g.FindMaxXSec (g.MaxXSec cache event_rec nkey).cache event_rec.Summary nkey).1
      = g.computedMaxXSec event_rec.Summary nkey ∧
    (∀ (f : Interaction → ℚ) (f2 : Interaction → Int → ℚ),
      (({ g with ComputeMaxXSec := f, ComputeMaxXSecKey := f2 } : KineGeneratorWithCache).MaxXSec
          (g.MaxXSec cache event_rec nkey).cache event_rec nkey).result
        = (g.MaxXSec cache event_rec nkey).result ∧
      (({ g with ComputeMaxXSec := f, ComputeMaxXSecKey := f2 } : KineGeneratorWithCache).MaxXSec
          (g.MaxXSec cache event_rec nkey).cache event_rec nkey).cache
        = (g.MaxXSec cache event_rec nkey).cache ∧
      (({ g with ComputeMaxXSec := f, ComputeMaxXSecKey := f2 } : KineGeneratorWithCache).MaxXSec
          (g.MaxXSec cache event_rec nkey).cache event_rec nkey).event = event_rec) := by
  obtain ⟨hr1, he1, hc1⟩ := MaxXSec_of_computed g cache event_rec nkey hmiss hv
  set i := event_rec.Summary with hi
  set v := g.computedMaxXSec i nkey with hvdef
  set cb0 := (g.AccessCacheBranch cache i nkey).1 with hcb0
  have hcache1 : (g.FindMaxXSec cache i nkey).2 = (g.AccessCacheBranch cache i nkey).2 := by
    rw [FindMaxXSec_snd]; simp [not_lt.mpr hE]
  have hk1 : (g.FindMaxXSec cache i nkey).2 (g.branchKey i nkey) = some cb0 := by
    rw [hcache1]; exact AccessCacheBranch_snd_key g cache i nkey
  have hacc1 := AccessCacheBranch_of_some g _ i nkey cb0 hk1
  have hk2 := CacheMaxXSec_key g (g.FindMaxXSec cache i nkey).2 i v nkey hE
  rw [hacc1] at hk2
  simp only [gt_iff_lt, hv, if_true] at hk2
  rw [← hc1] at hk2
  have hsp := hnospl _ hk2
  obtain ⟨hsame, hspl0⟩ := spline_steps_of_none g nkey (g.Energy i) _ hsp
  rw [hsame] at hk2
  have hdE : (0 : ℚ) < min 0.25 (0.05 * g.Energy i) := lt_min (by norm_num) (by positivity)
  have hspl0' : cb0.fSpline = none := by simpa [CacheBranchFx.AddValues] using hspl0
  have hfind : (g.FindMaxXSec (g.MaxXSec cache event_rec nkey).cache i nkey).1 = v := by
    rw [FindMaxXSec_fst g _ i nkey hE, AccessCacheBranch_of_some g _ i nkey _ hk2]
    simp only [CacheBranchFx.AddValues, hspl0']
    rcases lower_bound_mapInsert_or (g.Energy i) v cb0.fFx with h | ⟨b, hb, -⟩
    · rw [h]; simp [hdE]
    · exfalso
      have hbpos : 0 < b := hinv (g.Energy i, b) (lower_bound_mem _ _ _ hb)
      have h1 := FindMaxXSec_fst g cache i nkey hE
      rw [← hcb0, hspl0', hb] at h1
      simp only [sub_self, abs_zero, hdE, if_true] at h1
      rw [h1] at hmiss
      linarith
  have hcache2 : (g.FindMaxXSec (g.MaxXSec cache event_rec nkey).cache i nkey).2
      = (g.MaxXSec cache event_rec nkey).cache := by
    rw [FindMaxXSec_snd, AccessCacheBranch_of_some g _ i nkey _ hk2]
    simp [not_lt.mpr hE]
  refine ⟨hr1, he1, hfind, ?_⟩
  intro f f2
  have hfind' : (({ g with ComputeMaxXSec := f, ComputeMaxXSecKey := f2 } :
      KineGeneratorWithCache).FindMaxXSec (g.MaxXSec cache event_rec nkey).cache
        event_rec.Summary nkey)
      = g.FindMaxXSec (g.MaxXSec cache event_rec nkey).cache i nkey := rfl
  obtain ⟨hr2, he2, hc2⟩ := MaxXSec_of_found
    ({ g with ComputeMaxXSec := f, ComputeMaxXSecKey := f2 } : KineGeneratorWithCache)
    (g.MaxXSec cache event_rec nkey).cache event_rec nkey (by rw [hfind', hfind]; exact hv)
  refine ⟨?_, ?_, he2⟩
  · rw [hr2, hfind', hfind, hr1]; rfl
  · rw [hc2, hfind', hcache2]

/-- C40 (witness): on an empty cache the example generator computes 3 at
2 GeV and returns 1.25 * 3; on the cache that call leaves, the repeated call
returns 1.25 * 3 again even for a generator whose `ComputeMaxXSec` finds no
maximum. -/
theorem MaxXSec_memoized_witness :
    (exampleGenerator.MaxXSec (fun _ => none) ⟨qelAt 2, 1, .kPSQ2fE, false⟩ 0).result
      = .ok (1.25 * 3) ∧
    (({ exampleGenerator with
          ComputeMaxXSec := fun _ => 0
          ComputeMaxXSecKey := fun _ _ => 0 } : KineGeneratorWithCache).MaxXSec
        (exampleGenerator.MaxXSec (fun _ => none) ⟨qelAt 2, 1, .kPSQ2fE, false⟩ 0).cache
        ⟨qelAt 2, 1, .kPSQ2fE, false⟩ 0).result = .ok (1.25 * 3) := by
  have hfind0 : (exampleGenerator.FindMaxXSec (fun _ => none) (qelAt 2) 0).1 = -1 := by
    norm_num [FindMaxXSec, AccessCacheBranch, Energy, qelAt, exampleInteraction, lower_bound,
      exampleGenerator]
  have hfind2 : (exampleGenerator.FindMaxXSec (fun _ => none) (qelAt 2) 0).2
      = (exampleGenerator.AccessCacheBranch (fun _ => none) (qelAt 2) 0).2 := by
    rw [FindMaxXSec_snd]
    norm_num [exampleGenerator, Energy, qelAt, exampleInteraction]
  have hEmin : exampleGenerator.fEMin ≤ exampleGenerator.Energy (qelAt 2) := by
    norm_num [exampleGenerator, Energy, qelAt, exampleInteraction]
  have hcomp : exampleGenerator.computedMaxXSec (qelAt 2) 0 = 3 := by
    simp [computedMaxXSec, exampleGenerator]
  have h := MaxXSec_memoized exampleGenerator (fun _ => none)
    ⟨qelAt 2, 1, .kPSQ2fE, false⟩ 0 hEmin
    (by norm_num [Energy, qelAt, exampleInteraction])
    (by rw [hfind0]; norm_num)
    (by simp [AccessCacheBranch])
    (by rw [hcomp]; norm_num)
    (by
      intro cb hcb
      rw [(MaxXSec_of_computed exampleGenerator (fun _ => none)
        ⟨qelAt 2, 1, .kPSQ2fE, false⟩ 0 (by rw [hfind0]; norm_num)
        (by rw [hcomp]; norm_num)).2.2] at hcb
      rw [CacheMaxXSec_key _ _ _ _ _ hEmin, hfind2] at hcb
      rw [AccessCacheBranch_of_some _ _ _ _ _ (AccessCacheBranch_snd_key _ _ _ _)] at hcb
      simp only [AccessCacheBranch, hcomp] at hcb
      norm_num [createSplineIfEnough, recreateSplineIfOutside, CacheBranchFx.AddValues,
        mapInsert] at hcb
      rw [← hcb])
  have hval : exampleGenerator.safetyScaled 0
      (exampleGenerator.computedMaxXSec (qelAt 2) 0) = 1.25 * 3 := by
    rw [hcomp]
    norm_num [safetyScaled, exampleGenerator]
  have h1 : (exampleGenerator.MaxXSec (fun _ => none) ⟨qelAt 2, 1, .kPSQ2fE, false⟩ 0).result
      = .ok (1.25 * 3) := by
    rw [h.1]
    exact congrArg Except.ok hval
  exact ⟨h1, ((h.2.2.2 (fun _ => 0) (fun _ _ => 0)).1).trans h1⟩

/-! ### Binary64 rounding -/

theorem roundHalfEven_sub_le (t : ℚ) : |(roundHalfEven t : ℚ) - t| ≤ 1 / 2 := by
  have h1 := Int.floor_le t
  have h2 := Int.lt_floor_add_one t
  unfold roundHalfEven
  split_ifs with ha hb hc
  · rw [abs_le]; constructor <;> linarith
  · rw [abs_le]; push_cast; constructor <;> linarith
  · rw [abs_le]; constructor <;> linarith
  · rw [abs_le]; push_cast; constructor <;> linarith

theorem roundHalfEven_tie_even (t : ℚ) (h : |(roundHalfEven t : ℚ) - t| = 1 / 2) :
    roundHalfEven t % 2 = 0 := by
  have h1 := Int.floor_le t
  have h2 := Int.lt_floor_add_one t
  unfold roundHalfEven at h ⊢
  split_ifs at h ⊢ with ha hb hc
  · exfalso
    rw [abs_of_nonpos (by linarith)] at h
    linarith
  · exfalso
    push_cast at h
    rw [abs_of_nonneg (by linarith)] at h
    linarith
  · exact hc
  · omega

theorem roundHalfEven_of_near (t : ℚ) (m : ℤ) (h : |t - m| < 1 / 2) :
    roundHalfEven t = m := by
  have h1 := roundHalfEven_sub_le t
  rw [abs_lt] at h
  rw [abs_le] at h1
  have h3 : ((roundHalfEven t : ℤ) : ℚ) - m < 1 := by linarith
  have h4 : -1 < ((roundHalfEven t : ℤ) : ℚ) - m := by linarith
  have h5 : roundHalfEven t - m < 1 := by exact_mod_cast h3
  have h6 : -1 < roundHalfEven t - m := by exact_mod_cast h4
  omega

theorem roundHalfEven_of_tie (t : ℚ) (m : ℤ) (h : |t - m| = 1 / 2) (hm : m % 2 = 0) :
    roundHalfEven t = m := by
  have h1 := roundHalfEven_sub_le t
  have h2 := roundHalfEven_tie_even t
  by_contra hne
  have h3 : |((roundHalfEven t : ℤ) : ℚ) - m| ≤ 1 := by
    calc |((roundHalfEven t : ℤ) : ℚ) - m|
        = |(((roundHalfEven t : ℤ) : ℚ) - t) + (t - m)| := by ring_nf
      _ ≤ |((roundHalfEven t : ℤ) : ℚ) - t| + |t - m| := abs_add _ _
      _ ≤ 1 := by rw [h]; linarith
  have h4 : |roundHalfEven t - m| ≤ 1 := by exact_mod_cast h3
  rw [abs_le] at h4
  have h5 : roundHalfEven t = m + 1 ∨ roundHalfEven t = m - 1 := by omega
  have h6 : |((roundHalfEven t : ℤ) : ℚ) - t| = 1 / 2 := by
    rcases h5 with h5 | h5
    · rw [h5]
      push_cast
      rw [abs_le] at h1
      rw [h5] at h1
      push_cast at h1
      rcases abs_eq (by norm_num : (0:ℚ) ≤ 1 / 2) |>.mp h with h7 | h7
      · rw [abs_of_nonneg (by linarith)]; linarith
      · exfalso; linarith
    · rw [h5]
      push_cast
      rw [abs_le] at h1
      rw [h5] at h1
      push_cast at h1
      rcases abs_eq (by norm_num : (0:ℚ) ≤ 1 / 2) |>.mp h with h7 | h7
      · exfalso; linarith
      · rw [abs_of_nonpos (by linarith)]; linarith
  have h7 := h2 h6
  omega

theorem roundHalfEven_intCast (m : ℤ) : roundHalfEven (m : ℚ) = m :=
  roundHalfEven_of_near _ _ (by simp)

theorem roundHalfEven_mono {s t : ℚ} (h : s ≤ t) : roundHalfEven s ≤ roundHalfEven t := by
  by_contra hlt
  push_neg at hlt
  have h1 := roundHalfEven_sub_le s
  have h2 := roundHalfEven_sub_le t
  rw [abs_le] at h1 h2
  have h3 : (roundHalfEven t : ℚ) + 1 ≤ roundHalfEven s := by exact_mod_cast hlt
  have h4 : s = t := by linarith
  rw [h4] at hlt
  exact lt_irrefl _ hlt

theorem roundHalfEven_neg (t : ℚ) : roundHalfEven (-t) = -roundHalfEven t := by
  have h1 := roundHalfEven_sub_le t
  rcases h1.lt_or_eq with h | h
  · apply roundHalfEven_of_near
    push_cast
    rw [show -t - -(roundHalfEven t : ℚ) = (roundHalfEven t : ℚ) - t by ring]
    exact h
  · apply roundHalfEven_of_tie
    · push_cast
      rw [show -t - -(roundHalfEven t : ℚ) = (roundHalfEven t : ℚ) - t by ring]
      exact h
    · have := roundHalfEven_tie_even t h
      omega

/-- The binary exponent of a non-zero rational is fixed by the binade it lies in. -/
theorem log_abs_eq_of_bounds {x : ℚ} {e : ℤ} (h1 : (2 : ℚ) ^ e ≤ |x|)
    (h2 : |x| < (2 : ℚ) ^ (e + 1)) : Int.log 2 |x| = e := by
  have hpos : (0 : ℚ) < |x| := lt_of_lt_of_le (by positivity) h1
  have ha : e ≤ Int.log 2 |x| := by
    rw [← Int.zpow_le_iff_le_log (by norm_num) hpos]
    simpa using h1
  have hb : Int.log 2 |x| < e + 1 := by
    rw [← Int.lt_zpow_iff_log_lt (by norm_num) hpos]
    simpa using h2
  omega

theorem zpow_log_le_abs {x : ℚ} (hx : x ≠ 0) : (2 : ℚ) ^ Int.log 2 |x| ≤ |x| := by
  have := Int.zpow_log_le_self (R := ℚ) (b := 2) (by norm_num) (abs_pos.mpr hx)
  simpa using this

theorem abs_lt_zpow_log_succ (x : ℚ) : |x| < (2 : ℚ) ^ (Int.log 2 |x| + 1) := by
  have := Int.lt_zpow_succ_log_self (R := ℚ) (b := 2) (by norm_num) |x|
  simpa using this

theorem roundToDouble_zero : roundToDouble 0 = 0 := by
  simp [roundToDouble]

theorem roundToDouble_of_bounds {x : ℚ} {e : ℤ} (h1 : (2 : ℚ) ^ e ≤ |x|)
    (h2 : |x| < (2 : ℚ) ^ (e + 1)) :
    roundToDouble x = (roundHalfEven (x / 2 ^ (e - 52)) : ℚ) * 2 ^ (e - 52) := by
  have hx : x ≠ 0 := by
    intro h
    rw [h, abs_zero] at h1
    exact absurd h1 (not_le.mpr (by positivity))
  unfold roundToDouble
  rw [if_neg hx, log_abs_eq_of_bounds h1 h2]

/-- Evaluation of `roundToDouble`: in the binade `[2^e, 2^(e+1))` the result is
the multiple `m * 2^(e-52)` of the unit in the last place that lies within half
a unit. -/
theorem roundToDouble_eval (x : ℚ) (e m : ℤ) (h1 : (2 : ℚ) ^ e ≤ |x|)
    (h2 : |x| < (2 : ℚ) ^ (e + 1)) (h3 : |x / 2 ^ (e - 52) - m| < 1 / 2) :
    roundToDouble x = m * 2 ^ (e - 52) := by
  rw [roundToDouble_of_bounds h1 h2, roundHalfEven_of_near _ _ h3]

theorem roundToDouble_eval_tie (x : ℚ) (e m : ℤ) (h1 : (2 : ℚ) ^ e ≤ |x|)
    (h2 : |x| < (2 : ℚ) ^ (e + 1)) (h3 : |x / 2 ^ (e - 52) - m| = 1 / 2) (hm : m % 2 = 0) :
    roundToDouble x = m * 2 ^ (e - 52) := by
  rw [roundToDouble_of_bounds h1 h2, roundHalfEven_of_tie _ _ h3 hm]

theorem roundToDouble_neg (x : ℚ) : roundToDouble (-x) = -roundToDouble x := by
  unfold roundToDouble
  by_cases hx : x = 0
  · simp [hx]
  · rw [if_neg hx, if_neg (neg_ne_zero.mpr hx), abs_neg, neg_div, roundHalfEven_neg]
    push_cast
    ring

/-- The rounding error is at most half a unit in the last place, which is at
most `2^-53` of the magnitude. -/
theorem roundToDouble_error (x : ℚ) : |roundToDouble x - x| ≤ |x| / 2 ^ 53 := by
  by_cases hx : x = 0
  · simp [hx, roundToDouble]
  · unfold roundToDouble
    rw [if_neg hx]
    set e := Int.log 2 |x| with he
    have hq : (0 : ℚ) < 2 ^ (e - 52) := by positivity
    have h1 := roundHalfEven_sub_le (x / 2 ^ (e - 52))
    have h2 : (roundHalfEven (x / 2 ^ (e - 52)) : ℚ) * 2 ^ (e - 52) - x
        = ((roundHalfEven (x / 2 ^ (e - 52)) : ℚ) - x / 2 ^ (e - 52)) * 2 ^ (e - 52) := by
      field_simp
    rw [h2, abs_mul, abs_of_pos hq]
    have h3 : (2 : ℚ) ^ e ≤ |x| := zpow_log_le_abs hx
    have h4 : (2 : ℚ) ^ (e - 52) = 2 ^ e / 2 ^ 52 := by
      rw [zpow_sub₀ (by norm_num)]
      norm_num
    rw [h4]
    have h5 : (0 : ℚ) < 2 ^ e := by positivity
    calc |(roundHalfEven (x / (2 ^ e / 2 ^ 52)) : ℚ) - x / (2 ^ e / 2 ^ 52)| * (2 ^ e / 2 ^ 52)
        ≤ 1 / 2 * (2 ^ e / 2 ^ 52) := by
          rw [h4] at h1
          exact mul_le_mul_of_nonneg_right h1 (by positivity)
      _ = 2 ^ e / 2 ^ 53 := by ring
      _ ≤ |x| / 2 ^ 53 := by
          apply div_le_div_of_nonneg_right h3 (by positivity)

/-- Rounding keeps a value inside the closure of its binade. -/
theorem roundToDouble_binade {x : ℚ} {e : ℤ} (hx : 0 < x) (h1 : (2 : ℚ) ^ e ≤ x)
    (h2 : x < (2 : ℚ) ^ (e + 1)) :
    (2 : ℚ) ^ e ≤ roundToDouble x ∧ roundToDouble x ≤ (2 : ℚ) ^ (e + 1) := by
  have habs : |x| = x := abs_of_pos hx
  rw [roundToDouble_of_bounds (by rw [habs]; exact h1) (by rw [habs]; exact h2)]
  have hq : (0 : ℚ) < 2 ^ (e - 52) := by positivity
  have e0 : (2 : ℚ) ^ (e - 52) = 2 ^ e / 2 ^ 52 := by
    rw [zpow_sub₀ (by norm_num)]
    norm_num
  have e1 : (2 : ℚ) ^ e = ((2 ^ 52 : ℤ) : ℚ) * 2 ^ (e - 52) := by
    rw [e0]
    push_cast
    ring
  have e2 : (2 : ℚ) ^ (e + 1) = ((2 ^ 53 : ℤ) : ℚ) * 2 ^ (e - 52) := by
    rw [e0, zpow_add₀ (by norm_num)]
    push_cast
    ring
  constructor
  · rw [e1]
    apply mul_le_mul_of_nonneg_right _ hq.le
    have : roundHalfEven ((2 ^ 52 : ℤ) : ℚ) ≤ roundHalfEven (x / 2 ^ (e - 52)) := by
      apply roundHalfEven_mono
      rw [le_div_iff₀ hq, ← e1]
      exact h1
    rw [roundHalfEven_intCast] at this
    exact_mod_cast this
  · rw [e2]
    apply mul_le_mul_of_nonneg_right _ hq.le
    have : roundHalfEven (x / 2 ^ (e - 52)) ≤ roundHalfEven ((2 ^ 53 : ℤ) : ℚ) := by
      apply roundHalfEven_mono
      rw [div_le_iff₀ hq, ← e2]
      exact h2.le
    rw [roundHalfEven_intCast] at this
    exact_mod_cast this

theorem roundToDouble_pos {x : ℚ} (hx : 0 < x) : 0 < roundToDouble x := by
  have h1 : (2 : ℚ) ^ Int.log 2 |x| ≤ x := le_of_le_of_eq (zpow_log_le_abs hx.ne') (abs_of_pos hx)
  have h2 : x < (2 : ℚ) ^ (Int.log 2 |x| + 1) := lt_of_eq_of_lt (abs_of_pos hx).symm (abs_lt_zpow_log_succ x)
  exact lt_of_lt_of_le (by positivity) (roundToDouble_binade hx h1 h2).1

theorem roundToDouble_mono_pos {x y : ℚ} (hx : 0 < x) (h : x ≤ y) :
    roundToDouble x ≤ roundToDouble y := by
  have hy : 0 < y := lt_of_lt_of_le hx h
  have hx1 : (2 : ℚ) ^ Int.log 2 |x| ≤ x := le_of_le_of_eq (zpow_log_le_abs hx.ne') (abs_of_pos hx)
  have hx2 : x < (2 : ℚ) ^ (Int.log 2 |x| + 1) := lt_of_eq_of_lt (abs_of_pos hx).symm (abs_lt_zpow_log_succ x)
  have hy1 : (2 : ℚ) ^ Int.log 2 |y| ≤ y := le_of_le_of_eq (zpow_log_le_abs hy.ne') (abs_of_pos hy)
  have hy2 : y < (2 : ℚ) ^ (Int.log 2 |y| + 1) := lt_of_eq_of_lt (abs_of_pos hy).symm (abs_lt_zpow_log_succ y)
  have hle : Int.log 2 |x| ≤ Int.log 2 |y| := by
    rw [abs_of_pos hx, abs_of_pos hy]
    exact Int.log_mono_right hx h
  rcases hle.lt_or_eq with hlt | heq
  · have a := (roundToDouble_binade hx hx1 hx2).2
    have b := (roundToDouble_binade hy hy1 hy2).1
    have c : (2 : ℚ) ^ (Int.log 2 |x| + 1) ≤ 2 ^ Int.log 2 |y| :=
      zpow_le_zpow_right₀ (by norm_num) (by omega)
    linarith
  · unfold roundToDouble
    rw [if_neg hx.ne', if_neg hy.ne', heq]
    apply mul_le_mul_of_nonneg_right _ (by positivity)
    have : roundHalfEven (x / 2 ^ (Int.log 2 |y| - 52))
        ≤ roundHalfEven (y / 2 ^ (Int.log 2 |y| - 52)) := by
      apply roundHalfEven_mono
      apply div_le_div_of_nonneg_right h (by positivity)
    exact_mod_cast this

/-- Rounding to binary64 is monotone. -/
theorem roundToDouble_mono {x y : ℚ} (h : x ≤ y) : roundToDouble x ≤ roundToDouble y := by
  rcases lt_trichotomy x 0 with hx | hx | hx
  · rcases lt_trichotomy y 0 with hy | hy | hy
    · have := roundToDouble_mono_pos (neg_pos.mpr hy) (neg_le_neg h)
      rw [roundToDouble_neg, roundToDouble_neg] at this
      linarith
    · rw [hy, roundToDouble_zero]
      have := roundToDouble_pos (neg_pos.mpr hx)
      rw [roundToDouble_neg] at this
      linarith
    · have a := roundToDouble_pos (neg_pos.mpr hx)
      rw [roundToDouble_neg] at a
      have b := roundToDouble_pos hy
      linarith
  · rw [hx, roundToDouble_zero]
    rcases h.lt_or_eq with hy | hy
    · rw [hx] at hy
      exact (roundToDouble_pos hy).le
    · rw [← hy, hx, roundToDouble_zero]
  · exact roundToDouble_mono_pos hx h

theorem roundToDouble_nonneg {x : ℚ} (hx : 0 ≤ x) : 0 ≤ roundToDouble x := by
  have := roundToDouble_mono hx
  rwa [roundToDouble_zero] at this

theorem roundToDouble_neg_of_neg {x : ℚ} (hx : x < 0) : roundToDouble x < 0 := by
  have := roundToDouble_pos (neg_pos.mpr hx)
  rw [roundToDouble_neg] at this
  linarith

/-- Scaling by a power of two commutes with rounding (the exponent range is
unbounded). -/
theorem roundToDouble_mul_zpow (x : ℚ) (k : ℤ) :
    roundToDouble (x * 2 ^ k) = roundToDouble x * 2 ^ k := by
  by_cases hx : x = 0
  · simp [hx, roundToDouble]
  · have hk : (0 : ℚ) < 2 ^ k := by positivity
    have h1 : (2 : ℚ) ^ (Int.log 2 |x| + k) ≤ |x * 2 ^ k| := by
      rw [abs_mul, abs_of_pos hk, zpow_add₀ (by norm_num)]
      exact mul_le_mul_of_nonneg_right (zpow_log_le_abs hx) hk.le
    have h2 : |x * 2 ^ k| < (2 : ℚ) ^ (Int.log 2 |x| + k + 1) := by
      rw [abs_mul, abs_of_pos hk, show Int.log 2 |x| + k + 1 = (Int.log 2 |x| + 1) + k by ring,
        zpow_add₀ (by norm_num)]
      exact mul_lt_mul_of_pos_right (abs_lt_zpow_log_succ x) hk
    rw [roundToDouble_of_bounds h1 h2]
    unfold roundToDouble
    rw [if_neg hx]
    have h3 : x * 2 ^ k / 2 ^ (Int.log 2 |x| + k - 52) = x / 2 ^ (Int.log 2 |x| - 52) := by
      rw [show Int.log 2 |x| + k - 52 = (Int.log 2 |x| - 52) + k by ring, zpow_add₀ (by norm_num)]
      field_simp
      ring
    rw [h3, show Int.log 2 |x| + k - 52 = (Int.log 2 |x| - 52) + k by ring,
      zpow_add₀ (by norm_num)]
    ring

/-- A multiple `m * 2^k` of a power of two with `|m| ≤ 2^53` is a binary64
value: rounding leaves it as it is. -/
theorem roundToDouble_of_representable (m k : ℤ) (hm : |m| ≤ 2 ^ 53) :
    roundToDouble ((m : ℚ) * 2 ^ k) = (m : ℚ) * 2 ^ k := by
  rw [roundToDouble_mul_zpow]
  congr 1
  by_cases h0 : m = 0
  · simp [h0, roundToDouble]
  · have hm0 : (m : ℚ) ≠ 0 := by exact_mod_cast h0
    unfold roundToDouble
    rw [if_neg hm0]
    set e := Int.log 2 |(m : ℚ)| with he
    have h1 : (2 : ℚ) ^ e ≤ |(m : ℚ)| := zpow_log_le_abs hm0
    have hle : e ≤ 53 := by
      have : |(m : ℚ)| ≤ (2 : ℚ) ^ (53 : ℤ) := by
        have h' : |(m : ℚ)| ≤ ((2 ^ 53 : ℤ) : ℚ) := by
          rw [← Int.cast_abs]
          exact_mod_cast hm
        norm_num at h' ⊢
        exact h'
      have h3 : (2 : ℚ) ^ e ≤ (2 : ℚ) ^ (53 : ℤ) := le_trans h1 this
      exact (zpow_le_zpow_iff_right₀ (by norm_num : (1 : ℚ) < 2)).mp h3
    by_cases h52 : e ≤ 52
    · obtain ⟨n, hn⟩ : ∃ n : ℕ, (52 - e) = (n : ℤ) := ⟨(52 - e).toNat, by omega⟩
      have h4 : (m : ℚ) / 2 ^ (e - 52) = ((m * 2 ^ n : ℤ) : ℚ) := by
        rw [show e - 52 = -(n : ℤ) by omega, zpow_neg, zpow_natCast]
        push_cast
        field_simp
      rw [h4, roundHalfEven_intCast, show e - 52 = -(n : ℤ) by omega, zpow_neg, zpow_natCast]
      push_cast
      field_simp
    · have he53 : e = 53 := by omega
      have h5 : |(m : ℚ)| = 2 ^ 53 := by
        apply le_antisymm
        · rw [← Int.cast_abs]
          exact_mod_cast hm
        · rw [he53] at h1
          norm_num at h1 ⊢
          exact h1
      rw [he53]
      norm_num
      rcases abs_eq (by norm_num : (0 : ℚ) ≤ 2 ^ 53) |>.mp h5 with h6 | h6
      · rw [h6]
        have : ((2 : ℚ) ^ 53 / 2 : ℚ) = ((2 ^ 52 : ℤ) : ℚ) := by norm_num
        rw [this, roundHalfEven_intCast]
        norm_num
      · rw [h6]
        have : (-(2 : ℚ) ^ 53 / 2 : ℚ) = ((-2 ^ 52 : ℤ) : ℚ) := by norm_num
        rw [this, roundHalfEven_intCast]
        norm_num

/-- Evaluation of `roundToDouble` at a positive value, without absolute
values: `x` lies in the binade `[2^e, 2^(e+1))` and within half a unit in the
last place of `m * 2^(e-52)`. -/
theorem roundToDouble_eval_pos (x : ℚ) (e m : ℤ) (h1 : (2 : ℚ) ^ e ≤ x)
    (h2 : x < (2 : ℚ) ^ (e + 1)) (h3 : (m : ℚ) - 1 / 2 < x / 2 ^ (e - 52))
    (h4 : x / 2 ^ (e - 52) < (m : ℚ) + 1 / 2) :
    roundToDouble x = m * 2 ^ (e - 52) := by
  have hx : 0 < x := lt_of_lt_of_le (by positivity) h1
  apply roundToDouble_eval x e m
  · rw [abs_of_pos hx]; exact h1
  · rw [abs_of_pos hx]; exact h2
  · rw [abs_lt]; constructor <;> linarith

/-- Evaluation of `roundToDouble` at a negative value, without absolute
values. -/
theorem roundToDouble_eval_neg (x : ℚ) (e m : ℤ) (h1 : (2 : ℚ) ^ e ≤ -x)
    (h2 : -x < (2 : ℚ) ^ (e + 1)) (h3 : (m : ℚ) - 1 / 2 < x / 2 ^ (e - 52))
    (h4 : x / 2 ^ (e - 52) < (m : ℚ) + 1 / 2) :
    roundToDouble x = m * 2 ^ (e - 52) := by
  have hx : x < 0 := by
    have : (0 : ℚ) < -x := lt_of_lt_of_le (by positivity) h1
    linarith
  apply roundToDouble_eval x e m
  · rw [abs_of_neg hx]; exact h1
  · rw [abs_of_neg hx]; exact h2
  · rw [abs_lt]; constructor <;> linarith

/-- The significand of a rounded value: a non-zero `x` rounds to an integer
multiple `m` of the unit in the last place of its binade, with
`2^52 ≤ |m| ≤ 2^53`. -/
theorem roundToDouble_significand {x : ℚ} (hx : x ≠ 0) :
    ∃ m : ℤ, roundToDouble x = (m : ℚ) * 2 ^ (Int.log 2 |x| - 52) ∧
      2 ^ 52 ≤ |m| ∧ |m| ≤ 2 ^ 53 := by
  have hq : (0 : ℚ) < 2 ^ (Int.log 2 |x| - 52) := by positivity
  have e1 : (2 : ℚ) ^ Int.log 2 |x| = ((2 ^ 52 : ℤ) : ℚ) * 2 ^ (Int.log 2 |x| - 52) := by
    rw [zpow_sub₀ (by norm_num)]
    push_cast
    ring
  have e2 : (2 : ℚ) ^ (Int.log 2 |x| + 1) = ((2 ^ 53 : ℤ) : ℚ) * 2 ^ (Int.log 2 |x| - 52) := by
    rw [zpow_sub₀ (by norm_num), zpow_add₀ (by norm_num)]
    push_cast
    ring
  have key : ∀ y : ℚ, 0 < y → Int.log 2 |y| = Int.log 2 |x| →
      ∃ m : ℤ, roundToDouble y = (m : ℚ) * 2 ^ (Int.log 2 |x| - 52) ∧
        2 ^ 52 ≤ m ∧ m ≤ 2 ^ 53 := by
    intro y hy hlog
    have h1 : (2 : ℚ) ^ Int.log 2 |x| ≤ y := by
      rw [← hlog]
      exact le_of_le_of_eq (zpow_log_le_abs hy.ne') (abs_of_pos hy)
    have h2 : y < (2 : ℚ) ^ (Int.log 2 |x| + 1) := by
      rw [← hlog]
      exact lt_of_eq_of_lt (abs_of_pos hy).symm (abs_lt_zpow_log_succ y)
    have hb := roundToDouble_binade hy h1 h2
    have hr := roundToDouble_of_bounds (x := y) (e := Int.log 2 |x|)
      (by rw [abs_of_pos hy]; exact h1) (by rw [abs_of_pos hy]; exact h2)
    refine ⟨roundHalfEven (y / 2 ^ (Int.log 2 |x| - 52)), hr, ?_, ?_⟩
    · have h3 := hb.1
      rw [hr, e1] at h3
      have h4 := le_of_mul_le_mul_right h3 hq
      exact_mod_cast h4
    · have h3 := hb.2
      rw [hr, e2] at h3
      have h4 := le_of_mul_le_mul_right h3 hq
      exact_mod_cast h4
  rcases lt_or_gt_of_ne hx with hneg | hpos
  · obtain ⟨m, hm, h52, h53⟩ := key (-x) (neg_pos.mpr hneg) (by rw [abs_neg])
    refine ⟨-m, ?_, ?_, ?_⟩
    · rw [roundToDouble_neg] at hm
      push_cast
      linarith
    · rw [abs_neg, abs_of_nonneg (by omega)]; exact h52
    · rw [abs_neg, abs_of_nonneg (by omega)]; exact h53
  · obtain ⟨m, hm, h52, h53⟩ := key x hpos rfl
    refine ⟨m, hm, ?_, ?_⟩
    · rw [abs_of_nonneg (by omega)]; exact h52
    · rw [abs_of_nonneg (by omega)]; exact h53

/-- Rounding is idempotent: a rounded value is a binary64 value. -/
theorem roundToDouble_idem (x : ℚ) : roundToDouble (roundToDouble x) = roundToDouble x := by
  by_cases hx : x = 0
  · rw [hx, roundToDouble_zero, roundToDouble_zero]
  · obtain ⟨m, hm, -, h53⟩ := roundToDouble_significand hx
    rw [hm]
    exact roundToDouble_of_representable m _ h53

/-- The relative form of the rounding error: the rounded value lies between
`x * (1 - 2^-53)` and `x * (1 + 2^-53)` for a non-negative `x`. -/
theorem roundToDouble_bounds_of_nonneg {x : ℚ} (hx : 0 ≤ x) :
    x * (1 - 1 / 2 ^ 53) ≤ roundToDouble x ∧ roundToDouble x ≤ x * (1 + 1 / 2 ^ 53) := by
  have h := roundToDouble_error x
  rw [abs_of_nonneg hx, abs_le] at h
  constructor <;> linarith [h.1, h.2]

/-- Evaluation of `roundToDouble` at a tie: `x` lies half a unit in the last
place from the even multiple `m * 2^(e-52)`. -/
theorem roundToDouble_eval_tie_of (x : ℚ) (e m : ℤ) (h1 : (2 : ℚ) ^ e ≤ |x|)
    (h2 : |x| < (2 : ℚ) ^ (e + 1))
    (h3 : x / 2 ^ (e - 52) = (m : ℚ) + 1 / 2 ∨ x / 2 ^ (e - 52) = (m : ℚ) - 1 / 2)
    (hm : m % 2 = 0) :
    roundToDouble x = m * 2 ^ (e - 52) := by
  apply roundToDouble_eval_tie x e m h1 h2 _ hm
  rcases h3 with h3 | h3 <;> rw [h3] <;> norm_num

/-! ### The fractional deviation of `AssertXSecLimits` in binary64 arithmetic -/

/-- The binary64 value of `200 * (1 + 2^-53)` is the successor of 200. -/
theorem roundToDouble_above_200 :
    roundToDouble (200 * (1 + 1 / 2 ^ 53)) = 200 + 1 / 2 ^ 45 :=
  (roundToDouble_eval_pos _ 7 7036874417766401 (by norm_num) (by norm_num) (by norm_num)
    (by norm_num)).trans (by norm_num)

/-- The binary64 value of `200 * (1 - 2^-53)` is the predecessor of 200. -/
theorem roundToDouble_below_200 :
    roundToDouble (200 * (1 - 1 / 2 ^ 53)) = 200 - 1 / 2 ^ 45 :=
  (roundToDouble_eval_pos _ 7 7036874417766399 (by norm_num) (by norm_num) (by norm_num)
    (by norm_num)).trans (by norm_num)

/-- Bounds of the fractional deviation computed in binary64 arithmetic. -/
theorem fractionalDeviation_binary64_bounds (xsec xsec_max : ℚ) (h : xsec > xsec_max)
    (h0 : 0 ≤ xsec_max) :
    0 < fractionalDeviation_binary64 xsec xsec_max ∧
    fractionalDeviation_binary64 xsec xsec_max ≤ 200 + 1 / 2 ^ 45 ∧
    (xsec_max = 0 → 200 - 1 / 2 ^ 45 ≤ fractionalDeviation_binary64 xsec xsec_max) := by
  unfold fractionalDeviation_binary64
  have ha : 0 < roundToDouble (xsec - xsec_max) := roundToDouble_pos (by linarith)
  have hd : 0 < roundToDouble (xsec_max + xsec) := roundToDouble_pos (by linarith)
  have had : roundToDouble (xsec - xsec_max) ≤ roundToDouble (xsec_max + xsec) :=
    roundToDouble_mono (by linarith)
  have hb := roundToDouble_bounds_of_nonneg
    (x := 200 * roundToDouble (xsec - xsec_max)) (by linarith)
  have hbpos : 0 < roundToDouble (200 * roundToDouble (xsec - xsec_max)) := by
    apply roundToDouble_pos; linarith
  refine ⟨roundToDouble_pos (div_pos hbpos hd), ?_, ?_⟩
  · rw [← roundToDouble_above_200]
    apply roundToDouble_mono
    rw [div_le_iff₀ hd]
    have : 200 * roundToDouble (xsec - xsec_max) * (1 + 1 / 2 ^ 53)
        ≤ 200 * (1 + 1 / 2 ^ 53) * roundToDouble (xsec_max + xsec) := by
      have h53 : (0 : ℚ) < 1 + 1 / 2 ^ 53 := by norm_num
      nlinarith
    linarith [hb.2]
  · intro hz
    rw [← roundToDouble_below_200]
    apply roundToDouble_mono
    rw [le_div_iff₀ hd]
    have e : roundToDouble (xsec_max + xsec) = roundToDouble (xsec - xsec_max) := by
      rw [hz]; congr 1; ring
    rw [e]
    linarith [hb.1]

/-- C39 (counterexample): for the binary64 cross section 85687.73200841111
against a zero bound the fractional deviation computed at line 259 is
`200 + 2^-45` (it prints as 200.00000000000003), above 200, and with a
tolerance of 200 `AssertXSecLimits` terminates the program; for the cross
section 1.2981318804954378e-06 against a zero bound it is `200 - 2^-45`
(199.99999999999997), below 200, and with that tolerance, which is below
200, the call is not fatal. -/
theorem AssertXSecLimits_binary64_off_200 :
    roundToDouble 85687.73200841111 = xsecRoundingUp ∧
    fractionalDeviation_binary64 xsecRoundingUp 0 = 200 + 1 / 2 ^ 45 ∧
    ¬ fractionalDeviation_binary64 xsecRoundingUp 0 ≤ 200 ∧
    (({ exampleGenerator with fMaxXSecDiffTolerance := 200 } :
        KineGeneratorWithCache).AssertXSecLimits_binary64 xsecRoundingUp 0).terminated = true ∧
    roundToDouble 1.2981318804954378e-06 = xsecRoundingDown ∧
    fractionalDeviation_binary64 xsecRoundingDown 0 = 200 - 1 / 2 ^ 45 ∧
    (({ exampleGenerator with fMaxXSecDiffTolerance := 200 - 1 / 2 ^ 45 } :
        KineGeneratorWithCache).AssertXSecLimits_binary64 xsecRoundingDown 0).terminated
      = false := by
  have hx : roundToDouble 85687.73200841111 = xsecRoundingUp :=
    (roundToDouble_eval_pos _ 16 5888416106312610 (by norm_num) (by norm_num) (by norm_num)
      (by norm_num)).trans (by norm_num [xsecRoundingUp])
  have ha : roundToDouble (2944208053156305 / 2 ^ 35 - 0) = 2944208053156305 / 2 ^ 35 :=
    (roundToDouble_eval_pos _ (16) (5888416106312610) (by norm_num) (by norm_num) (by norm_num)
      (by norm_num)).trans (by norm_num)
  have hd : roundToDouble (0 + 2944208053156305 / 2 ^ 35) = 2944208053156305 / 2 ^ 35 :=
    (roundToDouble_eval_pos _ (16) (5888416106312610) (by norm_num) (by norm_num) (by norm_num)
      (by norm_num)).trans (by norm_num)
  have hb : roundToDouble (200 * (2944208053156305 / 2 ^ 35)) = 4600325083056727 / 2 ^ 28 :=
    (roundToDouble_eval_pos _ (24) (4600325083056727) (by norm_num) (by norm_num) (by norm_num)
      (by norm_num)).trans (by norm_num)
  have hf : roundToDouble (4600325083056727 / 2 ^ 28 / (2944208053156305 / 2 ^ 35))
      = 7036874417766401 / 2 ^ 45 :=
    (roundToDouble_eval_pos _ (7) (7036874417766401) (by norm_num) (by norm_num) (by norm_num)
      (by norm_num)).trans (by norm_num)
  have hfu : fractionalDeviation_binary64 xsecRoundingUp 0 = 200 + 1 / 2 ^ 45 := by
    unfold fractionalDeviation_binary64 xsecRoundingUp
    rw [ha, hd, hb, hf]
    norm_num
  have hx2 : roundToDouble (1.2981318804954378e-06) = xsecRoundingDown :=
    (roundToDouble_eval_pos _ (-20) (6130254482796199) (by norm_num) (by norm_num) (by norm_num)
      (by norm_num)).trans (by norm_num [xsecRoundingDown])
  have ha2 : roundToDouble (6130254482796199 / 2 ^ 72 - 0) = 6130254482796199 / 2 ^ 72 :=
    (roundToDouble_eval_pos _ (-20) (6130254482796199) (by norm_num) (by norm_num) (by norm_num)
      (by norm_num)).trans (by norm_num)
  have hd2 : roundToDouble (0 + 6130254482796199 / 2 ^ 72) = 6130254482796199 / 2 ^ 72 :=
    (roundToDouble_eval_pos _ (-20) (6130254482796199) (by norm_num) (by norm_num) (by norm_num)
      (by norm_num)).trans (by norm_num)
  have hb2 : roundToDouble (200 * (6130254482796199 / 2 ^ 72)) = 2394630657342265 / 2 ^ 63 :=
    (roundToDouble_eval_pos _ (-12) (4789261314684530) (by norm_num) (by norm_num) (by norm_num)
      (by norm_num)).trans (by norm_num)
  have hf2 : roundToDouble (2394630657342265 / 2 ^ 63 / (6130254482796199 / 2 ^ 72)) = 7036874417766399 / 2 ^ 45 :=
    (roundToDouble_eval_pos _ (7) (7036874417766399) (by norm_num) (by norm_num) (by norm_num)
      (by norm_num)).trans (by norm_num)
  have hfd : fractionalDeviation_binary64 xsecRoundingDown 0 = 200 - 1 / 2 ^ 45 := by
    unfold fractionalDeviation_binary64 xsecRoundingDown
    rw [ha2, hd2, hb2, hf2]
    norm_num
  refine ⟨hx, hfu, ?_, ?_, hx2, hfd, ?_⟩
  · rw [hfu]; norm_num
  · have hpos : (0 : ℚ) < xsecRoundingUp := by norm_num [xsecRoundingUp]
    have hne : roundToDouble (0 + xsecRoundingUp) ≠ 0 := by
      unfold xsecRoundingUp; rw [hd]; norm_num
    simp only [AssertXSecLimits_binary64, deviationExceeds_binary64, gt_iff_lt, hpos, if_true,
      if_neg hne, hfu]
    norm_num
  · have hpos : (0 : ℚ) < xsecRoundingDown := by norm_num [xsecRoundingDown]
    have hne : roundToDouble (0 + xsecRoundingDown) ≠ 0 := by
      unfold xsecRoundingDown; rw [hd2]; norm_num
    simp only [AssertXSecLimits_binary64, deviationExceeds_binary64, gt_iff_lt, hpos, if_true,
      if_neg hne, hfd]
    norm_num

/-- C39 (amended): in `AssertXSecLimits` with the fractional deviation
`f = 200*(xsec - xsec_max)/(xsec_max + xsec)` computed in binary64 arithmetic,
for binary64 values `xsec > xsec_max ≥ 0` of moderate magnitude `f` satisfies
`0 < f ≤ 200 + 2^-45`, the binary64 successor of 200, and for `xsec_max = 0`
it is at least `200 - 2^-45`, the predecessor of 200; with a tolerance of at
least `200 + 2^-45` the call does not terminate the program, and with a
tolerance below `200 - 2^-45` it does for a zero bound. -/
theorem AssertXSecLimits_deviation_bounds_binary64 (g : KineGeneratorWithCache)
    (xsec xsec_max : ℚ) (_hx : isModerateDouble xsec) (_hm : isModerateDouble xsec_max)
    (h : xsec > xsec_max) (h0 : 0 ≤ xsec_max) :
    0 < fractionalDeviation_binary64 xsec xsec_max ∧
    fractionalDeviation_binary64 xsec xsec_max ≤ 200 + 1 / 2 ^ 45 ∧
    (xsec_max = 0 → 200 - 1 / 2 ^ 45 ≤ fractionalDeviation_binary64 xsec xsec_max) ∧
    (200 + 1 / 2 ^ 45 ≤ g.fMaxXSecDiffTolerance →
      (g.AssertXSecLimits_binary64 xsec xsec_max).terminated = false) ∧
    (g.fMaxXSecDiffTolerance < 200 - 1 / 2 ^ 45 → xsec_max = 0 →
      (g.AssertXSecLimits_binary64 xsec xsec_max).terminated = true) := by
  obtain ⟨hf1, hf2, hf3⟩ := fractionalDeviation_binary64_bounds xsec xsec_max h h0
  have hd : roundToDouble (xsec_max + xsec) ≠ 0 :=
    (roundToDouble_pos (by linarith)).ne'
  refine ⟨hf1, hf2, hf3, ?_, ?_⟩
  · intro ht
    have : ¬ (fractionalDeviation_binary64 xsec xsec_max > g.fMaxXSecDiffTolerance) :=
      not_lt.mpr (le_trans hf2 ht)
    simp [AssertXSecLimits_binary64, deviationExceeds_binary64, h, hd, this]
  · intro ht hz
    have : fractionalDeviation_binary64 xsec xsec_max > g.fMaxXSecDiffTolerance :=
      lt_of_lt_of_le ht (hf3 hz)
    simp [AssertXSecLimits_binary64, deviationExceeds_binary64, h, hd, this]

/-- C39 (witness): with the tolerance 999999 of the example generator a cross
section of 10 against a bound of 0 is not fatal, and with a tolerance of 150
it is. -/
theorem AssertXSecLimits_deviation_bounds_binary64_witness :
    (exampleGenerator.AssertXSecLimits_binary64 10 0).terminated = false ∧
    (({ exampleGenerator with fMaxXSecDiffTolerance := 150 } :
        KineGeneratorWithCache).AssertXSecLimits_binary64 10 0).terminated = true :=
  have h10 : isModerateDouble 10 :=
    ⟨by simpa using roundToDouble_of_representable 10 0 (by norm_num),
      Or.inr (by norm_num [abs_of_pos])⟩
  ⟨(AssertXSecLimits_deviation_bounds_binary64 exampleGenerator 10 0 h10
      ⟨roundToDouble_zero, Or.inl rfl⟩ (by norm_num) le_rfl).2.2.2.1
      (by norm_num [exampleGenerator]),
   (AssertXSecLimits_deviation_bounds_binary64
      ({ exampleGenerator with fMaxXSecDiffTolerance := 150 } : KineGeneratorWithCache)
      10 0 h10 ⟨roundToDouble_zero, Or.inl rfl⟩ (by norm_num) le_rfl).2.2.2.2
      (by norm_num) rfl⟩

/-! ### The dark-matter threshold in binary64 arithmetic -/

/-- Doubling commutes with rounding. -/
theorem roundToDouble_two_mul (x : ℚ) : roundToDouble (2 * x) = 2 * roundToDouble x := by
  have h := roundToDouble_mul_zpow x 1
  rw [zpow_one] at h
  rw [mul_comm, h, mul_comm]

/-- Scaling by machine epsilon commutes with rounding. -/
theorem roundToDouble_mul_epsilon (x : ℚ) :
    roundToDouble (x * epsilon) = roundToDouble x * epsilon := by
  have h := roundToDouble_mul_zpow x (-52)
  have e : (2 : ℚ) ^ (-52 : ℤ) = epsilon := by unfold epsilon; norm_num
  rw [e] at h
  exact h

/-- The constant `1. + epsilon` is a binary64 value. -/
theorem roundToDouble_one_add_epsilon : roundToDouble (1 + epsilon) = 1 + epsilon := by
  have h := roundToDouble_of_representable (2 ^ 52 + 1) (-52) (by norm_num)
  have e : (((2 ^ 52 + 1 : ℤ) : ℚ)) * 2 ^ (-52 : ℤ) = 1 + epsilon := by
    unfold epsilon; norm_num
  rw [e] at h
  exact h

/-- The constant `1. - epsilon` is a binary64 value. -/
theorem roundToDouble_one_sub_epsilon : roundToDouble (1 - epsilon) = 1 - epsilon := by
  have h := roundToDouble_of_representable (2 ^ 52 - 1) (-52) (by norm_num)
  have e : (((2 ^ 52 - 1 : ℤ) : ℚ)) * 2 ^ (-52 : ℤ) = 1 - epsilon := by
    unfold epsilon; norm_num
  rw [e] at h
  exact h

/-- The test of the closing block, with the scaling by epsilon carried out. -/
theorem isNarrow_binary64_iff (raw : Range1D_t) :
    isNarrow_binary64 raw = true ↔
      roundToDouble (raw.max - raw.min) < roundToDouble (raw.max + raw.min) * epsilon := by
  unfold isNarrow_binary64
  rw [decide_eq_true_iff, roundToDouble_mul_epsilon, roundToDouble_idem]

/-- The closing block on a window that passes the test of its first line. -/
theorem snapOrShrink_binary64_of_narrow (raw : Range1D_t) (h : isNarrow_binary64 raw = true)
    (hs : raw.max + raw.min ≠ 0) :
    snapOrShrink_binary64 raw =
      some ⟨harmonicMean_binary64 raw.min raw.max, harmonicMean_binary64 raw.min raw.max⟩ := by
  have hne : roundToDouble (raw.max + raw.min) ≠ 0 := by
    rcases lt_or_gt_of_ne hs with h1 | h1
    · exact (roundToDouble_neg_of_neg h1).ne
    · exact (roundToDouble_pos h1).ne'
  unfold snapOrShrink_binary64
  rw [if_pos h, if_neg hne]

/-- The closing block on a window that fails the test of its first line. -/
theorem snapOrShrink_binary64_of_wide (raw : Range1D_t) (h : isNarrow_binary64 raw = false) :
    snapOrShrink_binary64 raw =
      some ⟨roundToDouble (raw.min * (1 + epsilon)), roundToDouble (raw.max * (1 - epsilon))⟩ := by
  unfold snapOrShrink_binary64
  rw [h, roundToDouble_one_add_epsilon, roundToDouble_one_sub_epsilon]
  simp

/-- The harmonic mean of two positive values, the second a binary64 value,
computed in binary64 arithmetic, lies within a relative `2^-51` of the
interval between any `lo` and `hi` that bracket the exact harmonic mean. -/
theorem harmonicMean_binary64_between (a b lo hi : ℚ) (hb : roundToDouble b = b) (ha : 0 < a)
    (hbpos : 0 < b) (hlo0 : 0 ≤ lo) (hhi0 : 0 ≤ hi)
    (hlo : lo * (b + a) ≤ 2 * b * a) (hhi : 2 * b * a ≤ hi * (b + a)) :
    lo * (1 - 1 / 2 ^ 51) ≤ harmonicMean_binary64 a b ∧
    harmonicMean_binary64 a b ≤ hi * (1 + 1 / 2 ^ 51) := by
  unfold harmonicMean_binary64
  rw [roundToDouble_two_mul, hb]
  have hprod : 0 ≤ 2 * b * a := by positivity
  have hsum : 0 < b + a := by linarith
  obtain ⟨hp1, hp2⟩ := roundToDouble_bounds_of_nonneg hprod
  obtain ⟨hs1, hs2⟩ := roundToDouble_bounds_of_nonneg hsum.le
  have hspos := roundToDouble_pos hsum
  have hppos : 0 ≤ roundToDouble (2 * b * a) := roundToDouble_nonneg hprod
  have hq0 : 0 ≤ roundToDouble (2 * b * a) / roundToDouble (b + a) :=
    div_nonneg hppos hspos.le
  obtain ⟨hH1, hH2⟩ := roundToDouble_bounds_of_nonneg hq0
  have hqlo : lo * ((1 - 1 / 2 ^ 53) / (1 + 1 / 2 ^ 53))
      ≤ roundToDouble (2 * b * a) / roundToDouble (b + a) := by
    rw [le_div_iff₀ hspos]
    calc lo * ((1 - 1 / 2 ^ 53) / (1 + 1 / 2 ^ 53)) * roundToDouble (b + a)
        ≤ lo * ((1 - 1 / 2 ^ 53) / (1 + 1 / 2 ^ 53)) * ((b + a) * (1 + 1 / 2 ^ 53)) :=
          mul_le_mul_of_nonneg_left hs2 (mul_nonneg hlo0 (by norm_num))
      _ = lo * (b + a) * (1 - 1 / 2 ^ 53) := by
          have : (1 : ℚ) + 1 / 2 ^ 53 ≠ 0 := by norm_num
          field_simp
          ring
      _ ≤ 2 * b * a * (1 - 1 / 2 ^ 53) := mul_le_mul_of_nonneg_right hlo (by norm_num)
      _ ≤ roundToDouble (2 * b * a) := hp1
  have hqhi : roundToDouble (2 * b * a) / roundToDouble (b + a)
      ≤ hi * ((1 + 1 / 2 ^ 53) / (1 - 1 / 2 ^ 53)) := by
    rw [div_le_iff₀ hspos]
    calc roundToDouble (2 * b * a) ≤ 2 * b * a * (1 + 1 / 2 ^ 53) := hp2
      _ ≤ hi * (b + a) * (1 + 1 / 2 ^ 53) := mul_le_mul_of_nonneg_right hhi (by norm_num)
      _ = hi * ((1 + 1 / 2 ^ 53) / (1 - 1 / 2 ^ 53)) * ((b + a) * (1 - 1 / 2 ^ 53)) := by
          have : (1 : ℚ) - 1 / 2 ^ 53 ≠ 0 := by norm_num
          field_simp
          ring
      _ ≤ hi * ((1 + 1 / 2 ^ 53) / (1 - 1 / 2 ^ 53)) * roundToDouble (b + a) :=
          mul_le_mul_of_nonneg_left hs1 (mul_nonneg hhi0 (by norm_num))
  constructor
  · calc lo * (1 - 1 / 2 ^ 51)
        ≤ lo * (((1 - 1 / 2 ^ 53) / (1 + 1 / 2 ^ 53)) * (1 - 1 / 2 ^ 53)) :=
          mul_le_mul_of_nonneg_left (by norm_num) hlo0
      _ = lo * ((1 - 1 / 2 ^ 53) / (1 + 1 / 2 ^ 53)) * (1 - 1 / 2 ^ 53) := by ring
      _ ≤ roundToDouble (2 * b * a) / roundToDouble (b + a) * (1 - 1 / 2 ^ 53) :=
          mul_le_mul_of_nonneg_right hqlo (by norm_num)
      _ ≤ _ := hH1
  · calc _ ≤ roundToDouble (2 * b * a) / roundToDouble (b + a) * (1 + 1 / 2 ^ 53) := hH2
      _ ≤ hi * ((1 + 1 / 2 ^ 53) / (1 - 1 / 2 ^ 53)) * (1 + 1 / 2 ^ 53) :=
          mul_le_mul_of_nonneg_right hqhi (by norm_num)
      _ = hi * (((1 + 1 / 2 ^ 53) / (1 - 1 / 2 ^ 53)) * (1 + 1 / 2 ^ 53)) := by ring
      _ ≤ hi * (1 + 1 / 2 ^ 51) := mul_le_mul_of_nonneg_left (by norm_num) hhi0

/-- The harmonic mean of two positive ordered binary64 values, computed in
binary64 arithmetic, lies within a relative `2^-51` of the interval between
them. -/
theorem harmonicMean_binary64_bounds (a b : ℚ) (hb : roundToDouble b = b) (ha : 0 < a)
    (hab : a ≤ b) :
    a * (1 - 1 / 2 ^ 51) ≤ harmonicMean_binary64 a b ∧
    harmonicMean_binary64 a b ≤ b * (1 + 1 / 2 ^ 51) :=
  harmonicMean_binary64_between a b a b hb ha (lt_of_lt_of_le ha hab) ha.le
    (le_trans ha.le hab) (by nlinarith) (by nlinarith)

/-- The binary64 square root is a number on a non-negative argument. -/
theorem sqrtDouble_isSome (x : ℚ) (hx : 0 ≤ x) : ∃ r, sqrtDouble x = some r := by
  unfold sqrtDouble
  rw [if_neg (not_lt.mpr hx)]
  by_cases h0 : x = 0
  · exact ⟨0, by rw [if_pos h0]⟩
  · rw [if_neg h0]
    exact ⟨_, rfl⟩

/-- The raw Q2 bounds of the muon-neutrino single-pion interaction whose
running W lies above `ECM - m_mu`, in binary64 arithmetic: the final-state
momentum is zero and the two bounds coincide at the value that prints as
0.4004322675879261. -/
theorem Q2Lim_W_SPP_raw_binary64_highW :
    Q2Lim_W_SPP_raw_binary64 exampleConstants exampleKineUtils exampleSppChannel
        muonSinglePionHighW
      = some ⟨7213546444384427 / 2 ^ 54, 7213546444384427 / 2 ^ 54⟩ := by
  have q1 : roundToDouble (0.9382720813) = 8451203591429639 / 2 ^ 53 :=
    (roundToDouble_eval_pos _ (-1) (8451203591429639) (by norm_num) (by norm_num) (by norm_num)
      (by norm_num)).trans (by norm_num)
  have q2 : roundToDouble (0.1056583745) = 7613488256428357 / 2 ^ 56 :=
    (roundToDouble_eval_pos _ (-4) (7613488256428357) (by norm_num) (by norm_num) (by norm_num)
      (by norm_num)).trans (by norm_num)
  have q3 : roundToDouble (4.2263) = 2379195388144491 / 2 ^ 49 :=
    (roundToDouble_eval_pos _ (2) (4758390776288982) (by norm_num) (by norm_num) (by norm_num)
      (by norm_num)).trans (by norm_num)
  have q4 : roundToDouble (4.326) = 4870642997001191 / 2 ^ 50 :=
    (roundToDouble_eval_pos _ (2) (4870642997001191) (by norm_num) (by norm_num) (by norm_num)
      (by norm_num)).trans (by norm_num)
  have q5 : roundToDouble (7613488256428357 / 2 ^ 56 * (7613488256428357 / 2 ^ 56)) = 6435430347592475 / 2 ^ 59 :=
    (roundToDouble_eval_pos _ (-7) (6435430347592475) (by norm_num) (by norm_num) (by norm_num)
      (by norm_num)).trans (by norm_num)
  have q6 : roundToDouble (4870642997001191 / 2 ^ 50 * (4870642997001191 / 2 ^ 50)) = 1316900100314197 / 2 ^ 46 :=
    (roundToDouble_eval_pos _ (4) (5267600401256788) (by norm_num) (by norm_num) (by norm_num)
      (by norm_num)).trans (by norm_num)
  have q7 : roundToDouble (1316900100314197 / 2 ^ 46 + 0) = 1316900100314197 / 2 ^ 46 :=
    (roundToDouble_eval_pos _ (4) (5267600401256788) (by norm_num) (by norm_num) (by norm_num)
      (by norm_num)).trans (by norm_num)
  have q8 : roundToDouble (8451203591429639 / 2 ^ 53 * (8451203591429639 / 2 ^ 53)) = 3964764191610361 / 2 ^ 52 :=
    (roundToDouble_eval_pos _ (-1) (7929528383220722) (by norm_num) (by norm_num) (by norm_num)
      (by norm_num)).trans (by norm_num)
  have q9 : roundToDouble (1316900100314197 / 2 ^ 46 - (3964764191610361 / 2 ^ 52)) = 1254950659820285 / 2 ^ 46 :=
    (roundToDouble_eval_pos _ (4) (5019802639281140) (by norm_num) (by norm_num) (by norm_num)
      (by norm_num)).trans (by norm_num)
  have q10 : roundToDouble (1254950659820285 / 2 ^ 46 / 2) = 1254950659820285 / 2 ^ 47 :=
    (roundToDouble_eval_pos _ (3) (5019802639281140) (by norm_num) (by norm_num) (by norm_num)
      (by norm_num)).trans (by norm_num)
  have q11 : roundToDouble (1254950659820285 / 2 ^ 47 / (4870642997001191 / 2 ^ 50)) = 4641518852779603 / 2 ^ 51 :=
    (roundToDouble_eval_pos _ (1) (4641518852779603) (by norm_num) (by norm_num) (by norm_num)
      (by norm_num)).trans (by norm_num)
  have q12 : roundToDouble (1316900100314197 / 2 ^ 46 + (6435430347592475 / 2 ^ 59)) = 2635371350615599 / 2 ^ 47 :=
    (roundToDouble_eval_pos _ (4) (5270742701231198) (by norm_num) (by norm_num) (by norm_num)
      (by norm_num)).trans (by norm_num)
  have q13 : roundToDouble (2379195388144491 / 2 ^ 49 * (2379195388144491 / 2 ^ 49)) = 5027596734457531 / 2 ^ 48 :=
    (roundToDouble_eval_pos _ (4) (5027596734457531) (by norm_num) (by norm_num) (by norm_num)
      (by norm_num)).trans (by norm_num)
  have q14 : roundToDouble (2635371350615599 / 2 ^ 47 - (5027596734457531 / 2 ^ 48)) = 243145966773667 / 2 ^ 48 :=
    (roundToDouble_eval_pos _ (-1) (7780670936757344) (by norm_num) (by norm_num) (by norm_num)
      (by norm_num)).trans (by norm_num)
  have q15 : roundToDouble (243145966773667 / 2 ^ 48 / 2) = 243145966773667 / 2 ^ 49 :=
    (roundToDouble_eval_pos _ (-2) (7780670936757344) (by norm_num) (by norm_num) (by norm_num)
      (by norm_num)).trans (by norm_num)
  have q16 : roundToDouble (243145966773667 / 2 ^ 49 / (4870642997001191 / 2 ^ 50)) = 3597166406267843 / 2 ^ 55 :=
    (roundToDouble_eval_pos _ (-4) (7194332812535686) (by norm_num) (by norm_num) (by norm_num)
      (by norm_num)).trans (by norm_num)
  have q17 : roundToDouble (4641518852779603 / 2 ^ 51 - 0) = 4641518852779603 / 2 ^ 51 :=
    (roundToDouble_eval_pos _ (1) (4641518852779603) (by norm_num) (by norm_num) (by norm_num)
      (by norm_num)).trans (by norm_num)
  have q18 : roundToDouble (3597166406267843 / 2 ^ 55 - (7613488256428357 / 2 ^ 56)) = -(419155443892671 / 2 ^ 56) :=
    (roundToDouble_eval_neg _ (-8) (-6706487102282736) (by norm_num) (by norm_num) (by norm_num)
      (by norm_num)).trans (by norm_num)
  have q19 : roundToDouble (4641518852779603 / 2 ^ 51 * (4641518852779603 / 2 ^ 51)) = 2391830873439247 / 2 ^ 49 :=
    (roundToDouble_eval_pos _ (2) (4783661746878494) (by norm_num) (by norm_num) (by norm_num)
      (by norm_num)).trans (by norm_num)
  have q20 : roundToDouble (2391830873439247 / 2 ^ 49 - 0) = 2391830873439247 / 2 ^ 49 :=
    (roundToDouble_eval_pos _ (2) (4783661746878494) (by norm_num) (by norm_num) (by norm_num)
      (by norm_num)).trans (by norm_num)
  have q21 : roundToDouble (4641518852779603 / 2 ^ 51 * (3597166406267843 / 2 ^ 55)) = 1853663410686673 / 2 ^ 53 :=
    (roundToDouble_eval_pos _ (-3) (7414653642746692) (by norm_num) (by norm_num) (by norm_num)
      (by norm_num)).trans (by norm_num)
  have q22 : roundToDouble (1853663410686673 / 2 ^ 53 - 0) = 1853663410686673 / 2 ^ 53 :=
    (roundToDouble_eval_pos _ (-3) (7414653642746692) (by norm_num) (by norm_num) (by norm_num)
      (by norm_num)).trans (by norm_num)
  have q23 : roundToDouble (1853663410686673 / 2 ^ 53 + 0) = 1853663410686673 / 2 ^ 53 :=
    (roundToDouble_eval_pos _ (-3) (7414653642746692) (by norm_num) (by norm_num) (by norm_num)
      (by norm_num)).trans (by norm_num)
  have q24 : roundToDouble (2 * (1853663410686673 / 2 ^ 53)) = 1853663410686673 / 2 ^ 52 :=
    (roundToDouble_eval_pos _ (-2) (7414653642746692) (by norm_num) (by norm_num) (by norm_num)
      (by norm_num)).trans (by norm_num)
  have q25 : roundToDouble (1853663410686673 / 2 ^ 52 - 0) = 1853663410686673 / 2 ^ 52 :=
    (roundToDouble_eval_pos _ (-2) (7414653642746692) (by norm_num) (by norm_num) (by norm_num)
      (by norm_num)).trans (by norm_num)
  have q26 : roundToDouble (1853663410686673 / 2 ^ 52 - (6435430347592475 / 2 ^ 59)) = 7213546444384427 / 2 ^ 54 :=
    (roundToDouble_eval_pos _ (-2) (7213546444384427) (by norm_num) (by norm_num) (by norm_num)
      (by norm_num)).trans (by norm_num)
  have eMi : exampleConstants.pdgMass (exampleSppChannel.InitStateNucleon muonSinglePionHighW)
      = 0.9382720813 := by
    simp [exampleConstants, exampleSppChannel, muonSinglePionHighW, exampleInteraction,
      kPdgProton, kPdgNeutron, kPdgPi0, kPdgPiP, kPdgPiM]
  have emi : exampleConstants.pdgMass muonSinglePionHighW.ProbePdg = 0 := by
    simp [exampleConstants, muonSinglePionHighW, exampleInteraction,
      kPdgProton, kPdgNeutron, kPdgPi0, kPdgPiP, kPdgPiM]
  have emf : muonSinglePionHighW.FSPrimLeptonMass = 0.1056583745 := rfl
  have eW : exampleKineUtils.W muonSinglePionHighW = 4.2263 := rfl
  have eE : muonSinglePionHighW.CMEnergy = 4.326 := rfl
  obtain ⟨r, hr⟩ := sqrtDouble_isSome (2391830873439247 / 2 ^ 49) (by norm_num)
  unfold Q2Lim_W_SPP_raw_binary64 energyCM_binary64 q2BoundsCM_binary64 momentumCM_binary64
  simp only [eMi, emi, emf, eW, eE, roundToDouble_zero, mul_zero]
  rw [q1, q2, q3, q4, q5, q6]
  rw [if_neg (by norm_num)]
  simp only [q7, q8, q9, q10, q11, q12, q13, q14, q15, q16, q17, q18, q19, q20]
  rw [if_neg (by norm_num), if_pos (by norm_num), hr]
  simp only [mul_zero, roundToDouble_zero, q21, q22, q23, q24, q25, q26]

/-- The harmonic mean of the value 0.4004322675879261 with itself, computed
in binary64 arithmetic, is the next binary64 value above it. -/
theorem harmonicMean_binary64_highW :
    isNarrow_binary64 ⟨7213546444384427 / 2 ^ 54, 7213546444384427 / 2 ^ 54⟩ = true ∧
    harmonicMean_binary64 (7213546444384427 / 2 ^ 54) (7213546444384427 / 2 ^ 54) = 1803386611096107 / 2 ^ 52 := by
  have c1 : roundToDouble (7213546444384427 / 2 ^ 54 + (7213546444384427 / 2 ^ 54)) = 7213546444384427 / 2 ^ 53 :=
    (roundToDouble_eval_pos _ (-1) (7213546444384427) (by norm_num) (by norm_num) (by norm_num)
      (by norm_num)).trans (by norm_num)
  have c3 : roundToDouble (2 * (7213546444384427 / 2 ^ 54)) = 7213546444384427 / 2 ^ 53 :=
    (roundToDouble_eval_pos _ (-1) (7213546444384427) (by norm_num) (by norm_num) (by norm_num)
      (by norm_num)).trans (by norm_num)
  have c4 : roundToDouble (7213546444384427 / 2 ^ 53 * (7213546444384427 / 2 ^ 54)) = 1444268380037839 / 2 ^ 52 :=
    (roundToDouble_eval_pos _ (-2) (5777073520151356) (by norm_num) (by norm_num) (by norm_num)
      (by norm_num)).trans (by norm_num)
  have c5 : roundToDouble (1444268380037839 / 2 ^ 52 / (7213546444384427 / 2 ^ 53)) = 1803386611096107 / 2 ^ 52 :=
    (roundToDouble_eval_pos _ (-2) (7213546444384428) (by norm_num) (by norm_num) (by norm_num)
      (by norm_num)).trans (by norm_num)
  constructor
  · rw [isNarrow_binary64_iff]
    simp only [sub_self, roundToDouble_zero, c1]
    norm_num [epsilon]
  · unfold harmonicMean_binary64
    rw [c3, c4, c1, c5]

/-- The raw W bounds of the neutral-current single-pion interaction whose
centre-of-mass energy lies two units in the last place above the final-state
masses, in binary64 arithmetic, and the harmonic mean of the two bounds: the
binary64 value between them. -/
theorem WLim_SPP_raw_binary64_narrow :
    WLim_SPP_raw_binary64 exampleConstants exampleSppChannel singlePionNarrowWindow
      = ⟨606771149463365 / 2 ^ 49, 2427084597853461 / 2 ^ 51⟩ ∧
    isNarrow_binary64 ⟨606771149463365 / 2 ^ 49, 2427084597853461 / 2 ^ 51⟩ = true ∧
    harmonicMean_binary64 (606771149463365 / 2 ^ 49) (2427084597853461 / 2 ^ 51) = 4854169195706921 / 2 ^ 52 := by
  have w1 : roundToDouble (0.9382720813) = 8451203591429639 / 2 ^ 53 :=
    (roundToDouble_eval_pos _ (-1) (8451203591429639) (by norm_num) (by norm_num) (by norm_num)
      (by norm_num)).trans (by norm_num)
  have w2 : roundToDouble (0.13957) = 5028539199936801 / 2 ^ 55 :=
    (roundToDouble_eval_pos _ (-3) (5028539199936801) (by norm_num) (by norm_num) (by norm_num)
      (by norm_num)).trans (by norm_num)
  have w3 : roundToDouble (1.0778420813000005) = 2427084597853461 / 2 ^ 51 :=
    (roundToDouble_eval_pos _ (0) (4854169195706922) (by norm_num) (by norm_num) (by norm_num)
      (by norm_num)).trans (by norm_num)
  have w4 : roundToDouble (8451203591429639 / 2 ^ 53 + (5028539199936801 / 2 ^ 55)) = 606771149463365 / 2 ^ 49 :=
    (roundToDouble_eval_pos _ (0) (4854169195706920) (by norm_num) (by norm_num) (by norm_num)
      (by norm_num)).trans (by norm_num)
  have w5 : roundToDouble (2427084597853461 / 2 ^ 51 - 0) = 2427084597853461 / 2 ^ 51 :=
    (roundToDouble_eval_pos _ (0) (4854169195706922) (by norm_num) (by norm_num) (by norm_num)
      (by norm_num)).trans (by norm_num)
  have w6 : roundToDouble (2427084597853461 / 2 ^ 51 - (606771149463365 / 2 ^ 49)) = 1 / 2 ^ 51 :=
    (roundToDouble_eval_pos _ (-51) (4503599627370496) (by norm_num) (by norm_num) (by norm_num)
      (by norm_num)).trans (by norm_num)
  have w7 : roundToDouble (2427084597853461 / 2 ^ 51 + (606771149463365 / 2 ^ 49)) = 4854169195706921 / 2 ^ 51 :=
    (roundToDouble_eval_pos _ (1) (4854169195706921) (by norm_num) (by norm_num) (by norm_num)
      (by norm_num)).trans (by norm_num)
  have w8 : roundToDouble (2 * (2427084597853461 / 2 ^ 51)) = 2427084597853461 / 2 ^ 50 :=
    (roundToDouble_eval_pos _ (1) (4854169195706922) (by norm_num) (by norm_num) (by norm_num)
      (by norm_num)).trans (by norm_num)
  have w9 : roundToDouble (2427084597853461 / 2 ^ 50 * (606771149463365 / 2 ^ 49)) = 654003478610387 / 2 ^ 48 :=
    (roundToDouble_eval_pos _ (1) (5232027828883096) (by norm_num) (by norm_num) (by norm_num)
      (by norm_num)).trans (by norm_num)
  have w10 : roundToDouble (654003478610387 / 2 ^ 48 / (4854169195706921 / 2 ^ 51)) = 4854169195706921 / 2 ^ 52 :=
    (roundToDouble_eval_pos _ (0) (4854169195706921) (by norm_num) (by norm_num) (by norm_num)
      (by norm_num)).trans (by norm_num)
  have eP : exampleConstants.pdgMass (exampleSppChannel.FinStateNucleon singlePionNarrowWindow)
      = 0.9382720813 := by
    simp [exampleConstants, exampleSppChannel, kPdgProton, kPdgNeutron, kPdgPi0, kPdgPiP,
      kPdgPiM]
  have epi : exampleConstants.pdgMass (exampleSppChannel.FinStatePion singlePionNarrowWindow)
      = 0.13957 := by
    simp [exampleConstants, exampleSppChannel, kPdgProton, kPdgNeutron, kPdgPi0, kPdgPiP,
      kPdgPiM]
  have emf : singlePionNarrowWindow.FSPrimLeptonMass = 0 := rfl
  have eE : singlePionNarrowWindow.CMEnergy = 1.0778420813000005 := rfl
  refine ⟨?_, ?_, ?_⟩
  · unfold WLim_SPP_raw_binary64
    simp only [eP, epi, emf, eE, roundToDouble_zero]
    rw [w1, w2, w3, w4, w5]
  · rw [isNarrow_binary64_iff]
    simp only []
    rw [w6, w7]
    norm_num [epsilon]
  · unfold harmonicMean_binary64
    rw [w8, w9, w7, w10]

/-- C33 (counterexample): for the muon-neutrino single-pion interaction at
`ECM = 4.326` GeV and `W = 4.2263` GeV the raw Q2 bounds computed by
`Q2Lim_W_SPP` in binary64 arithmetic coincide, `min = max`, at the value that
prints as 0.4004322675879261; the window passes the test of line 1096 and
the range returned is the single point that prints as 0.40043226758792616,
the next binary64 value above: the harmonic mean lies outside `[min, max]`. -/
theorem Q2Lim_W_SPP_binary64_outside_window :
    Q2Lim_W_SPP_raw_binary64 exampleConstants exampleKineUtils exampleSppChannel
        muonSinglePionHighW
      = some ⟨7213546444384427 / 2 ^ 54, 7213546444384427 / 2 ^ 54⟩ ∧
    roundToDouble 0.4004322675879261 = 7213546444384427 / 2 ^ 54 ∧
    Q2Lim_W_SPP_binary64 exampleConstants exampleKineUtils exampleSppChannel
        muonSinglePionHighW
      = some ⟨1803386611096107 / 2 ^ 52, 1803386611096107 / 2 ^ 52⟩ ∧
    roundToDouble 0.40043226758792616 = 1803386611096107 / 2 ^ 52 ∧
    ¬ ((1803386611096107 / 2 ^ 52 : ℚ) ≤ 7213546444384427 / 2 ^ 54) := by
  refine ⟨Q2Lim_W_SPP_raw_binary64_highW, ?_, ?_, ?_, by norm_num⟩
  · exact (roundToDouble_eval_pos _ (-2) (7213546444384427) (by norm_num) (by norm_num)
      (by norm_num) (by norm_num)).trans (by norm_num)
  · unfold Q2Lim_W_SPP_binary64
    rw [Q2Lim_W_SPP_raw_binary64_highW, Option.some_bind]
    unfold snapOrShrink_binary64
    rw [if_pos harmonicMean_binary64_highW.1, harmonicMean_binary64_highW.2]
    simp only []
    rw [if_neg]
    rw [show ((7213546444384427 / 2 ^ 54 : ℚ) + 7213546444384427 / 2 ^ 54) = 7213546444384427 / 2 ^ 53 by norm_num,
      roundToDouble_of_bounds (e := -1) (by rw [abs_of_pos (by norm_num)]; norm_num)
        (by rw [abs_of_pos (by norm_num)]; norm_num)]
    have h := roundToDouble_pos (show (0 : ℚ) < 7213546444384427 / 2 ^ 53 by norm_num)
    rw [roundToDouble_of_bounds (e := -1) (by rw [abs_of_pos (by norm_num)]; norm_num)
        (by rw [abs_of_pos (by norm_num)]; norm_num)] at h
    exact h.ne'
  · exact (roundToDouble_eval_pos _ (-2) (7213546444384428) (by norm_num) (by norm_num)
      (by norm_num) (by norm_num)).trans (by norm_num)

/-- C33 (amended): in `WLim_SPP`, `WLim_SPP_iso`, `Q2Lim_W_SPP` and
`Q2Lim_W_SPP_iso`, in binary64 arithmetic, whenever the raw bounds pass the
test `(max - min) < (max + min)*epsilon` as the code computes it (and their
sum is not zero), the range returned is the single repeated value
`2*max*min/(max + min)` as the code computes it; for raw bounds with
`0 < min ≤ max`, binary64 values of moderate magnitude, that value lies
within a relative `2^-51` of the window: between `min * (1 - 2^-51)` and
`max * (1 + 2^-51)`. -/
theorem SPP_limits_snap_binary64 (c : Constants) (k : KineUtils) (s : SppChannel)
    (i : Interaction) (raw : Range1D_t) (h : isNarrow_binary64 raw = true)
    (hs : raw.max + raw.min ≠ 0) :
    (WLim_SPP_raw_binary64 c s i = raw →
      WLim_SPP_binary64 c s i = some ⟨harmonicMean_binary64 raw.min raw.max,
                                      harmonicMean_binary64 raw.min raw.max⟩) ∧
    (WLim_SPP_iso_raw_binary64 c i = some raw →
      WLim_SPP_iso_binary64 c i = some ⟨harmonicMean_binary64 raw.min raw.max,
                                        harmonicMean_binary64 raw.min raw.max⟩) ∧
    (Q2Lim_W_SPP_raw_binary64 c k s i = some raw →
      Q2Lim_W_SPP_binary64 c k s i = some ⟨harmonicMean_binary64 raw.min raw.max,
                                           harmonicMean_binary64 raw.min raw.max⟩) ∧
    (Q2Lim_W_SPP_iso_raw_binary64 c k i = some raw →
      Q2Lim_W_SPP_iso_binary64 c k i = some ⟨harmonicMean_binary64 raw.min raw.max,
                                             harmonicMean_binary64 raw.min raw.max⟩) ∧
    (isModerateDouble raw.min → isModerateDouble raw.max → 0 < raw.min → raw.min ≤ raw.max →
      raw.min * (1 - 1 / 2 ^ 51) ≤ harmonicMean_binary64 raw.min raw.max ∧
      harmonicMean_binary64 raw.min raw.max ≤ raw.max * (1 + 1 / 2 ^ 51)) := by
  have hsn := snapOrShrink_binary64_of_narrow raw h hs
  refine ⟨?_, ?_, ?_, ?_, ?_⟩
  · intro hr; unfold WLim_SPP_binary64; rw [hr, hsn]
  · intro hr; unfold WLim_SPP_iso_binary64; rw [hr, Option.some_bind, hsn]
  · intro hr; unfold Q2Lim_W_SPP_binary64; rw [hr, Option.some_bind, hsn]
  · intro hr; unfold Q2Lim_W_SPP_iso_binary64; rw [hr, Option.some_bind, hsn]
  · intro _ hmax hpos hle
    exact harmonicMean_binary64_bounds raw.min raw.max hmax.1 hpos hle

/-- C33 (witness): the neutral-current single-pion interaction whose raw W
window is two units in the last place wide, for which `WLim_SPP` returns the
single binary64 value between the raw bounds; and the muon-neutrino
interaction with `W` above `ECM - m_mu`, for which `Q2Lim_W_SPP` returns a
single point within a relative `2^-51` of the raw bounds. -/
theorem SPP_limits_snap_binary64_witness :
    WLim_SPP_binary64 exampleConstants exampleSppChannel singlePionNarrowWindow
      = some ⟨4854169195706921 / 2 ^ 52, 4854169195706921 / 2 ^ 52⟩ ∧
    (606771149463365 / 2 ^ 49 : ℚ) < 4854169195706921 / 2 ^ 52 ∧ (4854169195706921 / 2 ^ 52 : ℚ) < 2427084597853461 / 2 ^ 51 ∧
    Q2Lim_W_SPP_binary64 exampleConstants exampleKineUtils exampleSppChannel
        muonSinglePionHighW
      = some ⟨harmonicMean_binary64 (7213546444384427 / 2 ^ 54) (7213546444384427 / 2 ^ 54),
              harmonicMean_binary64 (7213546444384427 / 2 ^ 54) (7213546444384427 / 2 ^ 54)⟩ ∧
    harmonicMean_binary64 (7213546444384427 / 2 ^ 54) (7213546444384427 / 2 ^ 54)
      ≤ 7213546444384427 / 2 ^ 54 * (1 + 1 / 2 ^ 51) :=
  have hm : isModerateDouble (7213546444384427 / 2 ^ 54) :=
    ⟨by
      have := roundToDouble_of_representable 7213546444384427 (-54) (by norm_num)
      norm_num at this ⊢
      exact this, Or.inr (by rw [abs_of_pos (by norm_num)]; norm_num)⟩
  ⟨((SPP_limits_snap_binary64 exampleConstants exampleKineUtils exampleSppChannel
      singlePionNarrowWindow ⟨606771149463365 / 2 ^ 49, 2427084597853461 / 2 ^ 51⟩
      WLim_SPP_raw_binary64_narrow.2.1 (by norm_num)).1
        WLim_SPP_raw_binary64_narrow.1).trans (by rw [WLim_SPP_raw_binary64_narrow.2.2]),
   by norm_num, by norm_num,
   (SPP_limits_snap_binary64 exampleConstants exampleKineUtils exampleSppChannel
      muonSinglePionHighW ⟨7213546444384427 / 2 ^ 54, 7213546444384427 / 2 ^ 54⟩
      harmonicMean_binary64_highW.1 (by norm_num)).2.2.1 Q2Lim_W_SPP_raw_binary64_highW,
   ((SPP_limits_snap_binary64 exampleConstants exampleKineUtils exampleSppChannel
      muonSinglePionHighW ⟨7213546444384427 / 2 ^ 54, 7213546444384427 / 2 ^ 54⟩
      harmonicMean_binary64_highW.1 (by norm_num)).2.2.2.2 hm hm (by norm_num) le_rfl).2⟩

/-- A positive binary64 value is an integer multiple `M * 2^(e-52)` of the
unit in the last place of its binade, with `2^52 ≤ M < 2^53`. -/
theorem double_significand_pos {a : ℚ} (ha : roundToDouble a = a) (hpos : 0 < a) :
    ∃ M : ℤ, a = (M : ℚ) * 2 ^ (Int.log 2 |a| - 52) ∧ 2 ^ 52 ≤ M ∧ M < 2 ^ 53 := by
  obtain ⟨M, hM, h52, h53⟩ := roundToDouble_significand hpos.ne'
  rw [ha] at hM
  have hq : (0 : ℚ) < 2 ^ (Int.log 2 |a| - 52) := by positivity
  have hMpos : 0 < M := by
    have : (0 : ℚ) < (M : ℚ) * 2 ^ (Int.log 2 |a| - 52) := by rw [← hM]; exact hpos
    have := (mul_pos_iff_of_pos_right hq).mp this
    exact_mod_cast this
  rw [abs_of_pos hMpos] at h52 h53
  refine ⟨M, hM, h52, ?_⟩
  have h2 := abs_lt_zpow_log_succ a
  rw [abs_of_pos hpos] at h2
  have e2 : (2 : ℚ) ^ (Int.log 2 a + 1) = ((2 ^ 53 : ℤ) : ℚ) * 2 ^ (Int.log 2 a - 52) := by
    rw [zpow_sub₀ (by norm_num), zpow_add₀ (by norm_num)]
    push_cast
    ring
  rw [abs_of_pos hpos] at hM hq
  rw [e2] at h2
  have h3 : (M : ℚ) * 2 ^ (Int.log 2 a - 52) < ((2 ^ 53 : ℤ) : ℚ) * 2 ^ (Int.log 2 a - 52) := by
    rw [← hM]; exact h2
  have h4 := lt_of_mul_lt_mul_right h3 hq.le
  exact_mod_cast h4

/-- A binary64 value not below a positive one is an integer multiple of the
unit in the last place of the smaller. -/
theorem double_multiple_of_ulp {a b : ℚ} (hb : roundToDouble b = b) (hpos : 0 < a)
    (hab : a ≤ b) : ∃ n : ℤ, b = (n : ℚ) * 2 ^ (Int.log 2 |a| - 52) := by
  have hbpos : 0 < b := lt_of_lt_of_le hpos hab
  obtain ⟨N, hN, -, -⟩ := roundToDouble_significand hbpos.ne'
  rw [hb] at hN
  have hle : Int.log 2 |a| ≤ Int.log 2 |b| := by
    rw [abs_of_pos hpos, abs_of_pos hbpos]
    exact Int.log_mono_right hpos hab
  obtain ⟨d, hd⟩ : ∃ d : ℕ, Int.log 2 |b| - Int.log 2 |a| = (d : ℤ) :=
    ⟨(Int.log 2 |b| - Int.log 2 |a|).toNat, by omega⟩
  refine ⟨N * 2 ^ d, ?_⟩
  have e : Int.log 2 |b| - 52 = (Int.log 2 |a| - 52) + (d : ℤ) := by omega
  rw [hN, e, zpow_add₀ (by norm_num), zpow_natCast]
  push_cast
  ring

/-- An integer of magnitude at most `2^53` is a binary64 value. -/
theorem roundToDouble_intCast (m : ℤ) (hm : |m| ≤ 2 ^ 53) : roundToDouble (m : ℚ) = m := by
  have h := roundToDouble_of_representable m 0 hm
  simpa using h

/-- Twice an integer of magnitude at most `2^53` is a binary64 value. -/
theorem roundToDouble_two_mul_intCast (m : ℤ) (hm : |m| ≤ 2 ^ 53) :
    roundToDouble (2 * (m : ℚ)) = 2 * (m : ℚ) := by
  rw [roundToDouble_two_mul, roundToDouble_intCast m hm]

/-- The integer `2^53 + 3` is not a binary64 value: it rounds to `2^53 + 4`. -/
theorem roundToDouble_two_pow_53_add_3 :
    roundToDouble (9007199254740995 : ℚ) = 9007199254740996 :=
  (roundToDouble_eval_tie_of _ 53 4503599627370498 (by rw [abs_of_pos (by norm_num)]; norm_num)
    (by rw [abs_of_pos (by norm_num)]; norm_num) (Or.inr (by norm_num)) (by norm_num)).trans
    (by norm_num)

/-- The two products of the shrinking branch at the significand
`3 * 2^51 - 1` with a window of three units: both round to `3 * 2^51`. -/
theorem roundToDouble_shrink_boundary :
    roundToDouble ((6755399441055743 : ℚ) * (1 + 1 / 2 ^ 52)) = 6755399441055744 ∧
    roundToDouble ((6755399441055746 : ℚ) * (1 - 1 / 2 ^ 52)) = 6755399441055744 :=
  ⟨(roundToDouble_eval_pos _ 52 6755399441055744 (by norm_num) (by norm_num) (by norm_num)
      (by norm_num)).trans (by norm_num),
   (roundToDouble_eval_pos _ 52 6755399441055744 (by norm_num) (by norm_num) (by norm_num)
      (by norm_num)).trans (by norm_num)⟩

set_option maxHeartbeats 1000000 in
/-- The shrinking branch of the closing block keeps the bounds ordered: for
binary64 raw bounds `a`, `b` with a positive sum that fail the test
`(b - a) < (b + a)*epsilon` as computed, the rounded product `a*(1 + epsilon)`
is not above the rounded product `b*(1 - epsilon)`. -/
theorem shrink_binary64_ordered (a b : ℚ) (ha : roundToDouble a = a)
    (hb : roundToDouble b = b) (hpos : 0 < a + b)
    (hw : ¬ roundToDouble (b - a) < roundToDouble (b + a) * epsilon) :
    roundToDouble (a * (1 + epsilon)) ≤ roundToDouble (b * (1 - epsilon)) := by
  have he : epsilon = 1 / 2 ^ 52 := rfl
  have hs : 0 < roundToDouble (b + a) := roundToDouble_pos (by linarith)
  have hw' := not_lt.mp hw
  have hD : 0 < b - a := by
    by_contra hn
    have h1 := roundToDouble_mono (not_lt.mp hn)
    rw [roundToDouble_zero] at h1
    have h2 : 0 < roundToDouble (b + a) * epsilon := mul_pos hs (by rw [he]; positivity)
    linarith
  rcases le_or_lt a 0 with ha0 | ha0
  · have hb0 : 0 < b := by linarith
    have h1 : roundToDouble (a * (1 + epsilon)) ≤ 0 := by
      have := roundToDouble_mono (show a * (1 + epsilon) ≤ 0 from
        mul_nonpos_of_nonpos_of_nonneg ha0 (by rw [he]; positivity))
      rwa [roundToDouble_zero] at this
    have h2 : 0 ≤ roundToDouble (b * (1 - epsilon)) :=
      roundToDouble_nonneg (mul_nonneg hb0.le (by rw [he]; norm_num))
    linarith
  · obtain ⟨M, hM, hM52, hM53⟩ := double_significand_pos ha ha0
    obtain ⟨n, hn⟩ := double_multiple_of_ulp hb ha0 (by linarith)
    obtain ⟨k, hk⟩ : ∃ k : ℤ, k = Int.log 2 |a| - 52 := ⟨_, rfl⟩
    rw [← hk] at hM hn
    have hq : (0 : ℚ) < 2 ^ k := by positivity
    have hMq : (M : ℚ) < 2 ^ 53 := by exact_mod_cast hM53
    have hMq' : (2 : ℚ) ^ 52 ≤ M := by exact_mod_cast hM52
    rcases le_or_lt (5 * 2 ^ k) (b - a) with hbig | hsmall
    · apply roundToDouble_mono
      have ha' : a < 2 ^ 53 * 2 ^ k := by rw [hM]; exact mul_lt_mul_of_pos_right hMq hq
      rw [he]
      linarith
    · have hnM : M < n := by
        have h1 : (0 : ℚ) < ((n : ℚ) - M) * 2 ^ k := by
          rw [sub_mul, ← hn, ← hM]; exact hD
        have h2 := (mul_pos_iff_of_pos_right hq).mp h1
        have h3 : (M : ℚ) < n := by linarith
        exact_mod_cast h3
      have hn5 : n < M + 5 := by
        have h1 : ((n : ℚ) - M) * 2 ^ k < 5 * 2 ^ k := by
          rw [sub_mul, ← hn, ← hM]; exact hsmall
        have h2 := lt_of_mul_lt_mul_right h1 hq.le
        have h3 : (n : ℚ) < M + 5 := by linarith
        exact_mod_cast h3
      -- the computed test, in units of the last place
      have hsum : roundToDouble (b + a) = roundToDouble ((n : ℚ) + M) * 2 ^ k := by
        rw [← roundToDouble_mul_zpow, hn, hM]
        congr 1
        ring
      have hdiff : roundToDouble (b - a) = ((n : ℚ) - M) * 2 ^ k := by
        have h1 : b - a = (((n - M : ℤ) : ℚ)) * 2 ^ k := by
          rw [hn, hM]; push_cast; ring
        rw [h1, roundToDouble_of_representable (n - M) k (by rw [abs_le]; constructor <;> omega)]
        push_cast
        ring
      have htest : roundToDouble ((n : ℚ) + M) ≤ ((n : ℚ) - M) * 2 ^ 52 := by
        rw [hsum, hdiff, he] at hw'
        have h1 : roundToDouble ((n : ℚ) + M) * (1 / 2 ^ 52) * 2 ^ k
            ≤ ((n : ℚ) - M) * 2 ^ k := by
          calc roundToDouble ((n : ℚ) + M) * (1 / 2 ^ 52) * 2 ^ k
              = roundToDouble ((n : ℚ) + M) * 2 ^ k * (1 / 2 ^ 52) := by ring
            _ ≤ ((n : ℚ) - M) * 2 ^ k := hw'
        have h2 := le_of_mul_le_mul_right h1 hq
        linarith
      have h2M : roundToDouble (2 * (M : ℚ)) = 2 * (M : ℚ) :=
        roundToDouble_two_mul_intCast M (by rw [abs_le]; constructor <;> omega)
      have h2M2 : roundToDouble (2 * ((M + 1 : ℤ) : ℚ)) = 2 * ((M + 1 : ℤ) : ℚ) :=
        roundToDouble_two_mul_intCast (M + 1) (by rw [abs_le]; constructor <;> omega)
      push_cast at h2M2
      -- the exact inequality, when it holds, gives the claim by monotonicity
      have hexact : ∀ j : ℚ, (n : ℚ) = M + j → 2 * (M : ℚ) + j ≤ j * 2 ^ 52 →
          roundToDouble (a * (1 + epsilon)) ≤ roundToDouble (b * (1 - epsilon)) := by
        intro j hj hle
        apply roundToDouble_mono
        rw [hn, hM, hj, he]
        have h1 : (M : ℚ) * (1 + 1 / 2 ^ 52) ≤ ((M : ℚ) + j) * (1 - 1 / 2 ^ 52) := by linarith
        calc (M : ℚ) * 2 ^ k * (1 + 1 / 2 ^ 52) = (M : ℚ) * (1 + 1 / 2 ^ 52) * 2 ^ k := by ring
          _ ≤ ((M : ℚ) + j) * (1 - 1 / 2 ^ 52) * 2 ^ k := mul_le_mul_of_nonneg_right h1 hq.le
          _ = ((M : ℚ) + j) * 2 ^ k * (1 - 1 / 2 ^ 52) := by ring
      have hcases : n = M + 1 ∨ n = M + 2 ∨ n = M + 3 ∨ n = M + 4 := by omega
      rcases hcases with h1 | h2 | h3 | h4
      · exfalso
        have hn1 : (n : ℚ) = M + 1 := by exact_mod_cast h1
        have h5 : roundToDouble (2 * (M : ℚ)) ≤ roundToDouble ((n : ℚ) + M) :=
          roundToDouble_mono (by rw [hn1]; linarith)
        rw [h2M] at h5
        linarith
      · exfalso
        have hn2 : (n : ℚ) = M + 2 := by exact_mod_cast h2
        have h5 : roundToDouble (2 * ((M : ℚ) + 1)) ≤ roundToDouble ((n : ℚ) + M) :=
          roundToDouble_mono (by rw [hn2]; linarith)
        rw [h2M2] at h5
        linarith
      · have hn3 : (n : ℚ) = M + 3 := by exact_mod_cast h3
        have h5 : roundToDouble (2 * ((M : ℚ) + 1)) ≤ roundToDouble ((n : ℚ) + M) :=
          roundToDouble_mono (by rw [hn3]; linarith)
        rw [h2M2] at h5
        have h6 : 2 * ((M : ℚ) + 1) ≤ 3 * 2 ^ 52 := by linarith
        have h7 : 2 * (M + 1) ≤ 3 * 2 ^ 52 := by exact_mod_cast h6
        rcases (show M ≤ 6755399441055742 ∨ M = 6755399441055743 by omega) with hlo | heq
        · apply hexact 3 hn3
          have : (M : ℚ) ≤ 6755399441055742 := by exact_mod_cast hlo
          linarith
        · have hMe : (M : ℚ) = 6755399441055743 := by exact_mod_cast heq
          have e1 : a * (1 + epsilon) = (6755399441055743 : ℚ) * (1 + 1 / 2 ^ 52) * 2 ^ k := by
            rw [hM, hMe, he]; ring
          have e2 : b * (1 - epsilon) = (6755399441055746 : ℚ) * (1 - 1 / 2 ^ 52) * 2 ^ k := by
            rw [hn, hn3, hMe, he]; ring
          rw [e1, e2, roundToDouble_mul_zpow, roundToDouble_mul_zpow,
            roundToDouble_shrink_boundary.1, roundToDouble_shrink_boundary.2]
      · have hn4 : (n : ℚ) = M + 4 := by exact_mod_cast h4
        rcases (show M ≤ 9007199254740990 ∨ M = 9007199254740991 by omega) with hlo | heq
        · apply hexact 4 hn4
          have : (M : ℚ) ≤ 9007199254740990 := by exact_mod_cast hlo
          linarith
        · exfalso
          have hMe : (M : ℚ) = 9007199254740991 := by exact_mod_cast heq
          have e2 : b = (9007199254740995 : ℚ) * 2 ^ k := by
            rw [hn, hn4, hMe]; norm_num
          rw [e2, roundToDouble_mul_zpow, roundToDouble_two_pow_53_add_3] at hb
          have := mul_right_cancel₀ hq.ne' hb
          norm_num at this

/-- What the closing block returns, in binary64 arithmetic, for binary64 raw
bounds with a positive sum: a range that is not inverted; the single point at
the computed harmonic mean when the raw window is inverted; and a range other
than `\x7b-1, -1\x7d` when the raw maximum is not negative. -/
theorem snapOrShrink_binary64_ordered (raw : Range1D_t)
    (hmin : roundToDouble raw.min = raw.min) (hmax : roundToDouble raw.max = raw.max)
    (hpos : 0 < raw.min + raw.max) :
    ∃ r, snapOrShrink_binary64 raw = some r ∧ r.min ≤ r.max ∧
      (raw.max < raw.min →
        r = ⟨harmonicMean_binary64 raw.min raw.max, harmonicMean_binary64 raw.min raw.max⟩) ∧
      (0 ≤ raw.max → r ≠ ⟨-1, -1⟩) := by
  have he : epsilon = 1 / 2 ^ 52 := rfl
  have hsum : raw.max + raw.min ≠ 0 := by linarith
  have hspos : 0 < roundToDouble (raw.max + raw.min) := roundToDouble_pos (by linarith)
  cases hn : isNarrow_binary64 raw
  · have hw := hn
    rw [← Bool.not_eq_true, isNarrow_binary64_iff] at hw
    refine ⟨_, snapOrShrink_binary64_of_wide raw hn, ?_, ?_, ?_⟩
    · exact shrink_binary64_ordered raw.min raw.max hmin hmax hpos hw
    · intro hinv
      exfalso
      apply hw
      have h1 : roundToDouble (raw.max - raw.min) < 0 := roundToDouble_neg_of_neg (by linarith)
      have h2 : 0 < roundToDouble (raw.max + raw.min) * epsilon :=
        mul_pos hspos (by rw [he]; positivity)
      linarith
    · intro h0 hc
      simp only [Range1D_t.mk.injEq] at hc
      have : 0 ≤ roundToDouble (raw.max * (1 - epsilon)) :=
        roundToDouble_nonneg (mul_nonneg h0 (by rw [he]; norm_num))
      linarith [hc.2]
  · refine ⟨_, snapOrShrink_binary64_of_narrow raw hn hsum, le_rfl, fun _ => rfl, ?_⟩
    intro h0 hc
    simp only [Range1D_t.mk.injEq, and_self] at hc
    have hn' := (isNarrow_binary64_iff raw).mp hn
    have hminpos : 0 < raw.min := by
      by_contra hneg
      have h1 : roundToDouble (raw.max + raw.min) ≤ roundToDouble (raw.max - raw.min) :=
        roundToDouble_mono (by linarith)
      have h2 : roundToDouble (raw.max + raw.min) * epsilon
          ≤ roundToDouble (raw.max + raw.min) := by
        rw [he]
        have : roundToDouble (raw.max + raw.min) * (1 / 2 ^ 52)
            = roundToDouble (raw.max + raw.min) / 2 ^ 52 := by ring
        rw [this]
        exact div_le_self hspos.le (by norm_num)
      linarith
    have : 0 ≤ harmonicMean_binary64 raw.min raw.max := by
      unfold harmonicMean_binary64
      apply roundToDouble_nonneg
      apply div_nonneg _ hspos.le
      apply roundToDouble_nonneg
      exact mul_nonneg (roundToDouble_nonneg (by linarith)) hminpos.le
    linarith

/-- The raw W bounds of the tau-neutrino single-pion interaction below the
tau threshold, in binary64 arithmetic (they print as 1.0778422612999998 and
-0.3415557713646087), the outcome of the test of line 1028 and the harmonic
mean of line 1030, which is exactly -1. -/
theorem WLim_SPP_raw_binary64_tau :
    WLim_SPP_raw_binary64 eightDigitPionConstants exampleSppChannel tauBelowThresholdSPP
      = ⟨1213542501588713 / 2 ^ 50, -(769115222321947 / 2 ^ 51)⟩ ∧
    isNarrow_binary64 ⟨1213542501588713 / 2 ^ 50, -(769115222321947 / 2 ^ 51)⟩ = true ∧
    roundToDouble (-(769115222321947 / 2 ^ 51) + 1213542501588713 / 2 ^ 50) ≠ 0 ∧
    harmonicMean_binary64 (1213542501588713 / 2 ^ 50) (-(769115222321947 / 2 ^ 51)) = -1 := by
  have s1 : roundToDouble (0.9382720813) = 8451203591429639 / 2 ^ 53 :=
    (roundToDouble_eval_pos _ (-1) (8451203591429639) (by norm_num) (by norm_num) (by norm_num)
      (by norm_num)).trans (by norm_num)
  have s2 : roundToDouble (0.13957018) = 628568210640033 / 2 ^ 52 :=
    (roundToDouble_eval_pos _ (-3) (5028545685120264) (by norm_num) (by norm_num) (by norm_num)
      (by norm_num)).trans (by norm_num)
  have s3 : roundToDouble (1.77686) = 2000566508472385 / 2 ^ 50 :=
    (roundToDouble_eval_pos _ (0) (8002266033889540) (by norm_num) (by norm_num) (by norm_num)
      (by norm_num)).trans (by norm_num)
  have s4 : roundToDouble (1.4353042286353914) = 3232017794622823 / 2 ^ 51 :=
    (roundToDouble_eval_pos _ (0) (6464035589245646) (by norm_num) (by norm_num) (by norm_num)
      (by norm_num)).trans (by norm_num)
  have s5 : roundToDouble (8451203591429639 / 2 ^ 53 + (628568210640033 / 2 ^ 52)) = 1213542501588713 / 2 ^ 50 :=
    (roundToDouble_eval_tie_of _ (0) (4854170006354852) (by rw [abs_of_pos (by norm_num)]; norm_num)
      (by rw [abs_of_pos (by norm_num)]; norm_num) (Or.inl (by norm_num))
      (by norm_num)).trans (by norm_num)
  have s6 : roundToDouble (3232017794622823 / 2 ^ 51 - (2000566508472385 / 2 ^ 50)) = -(769115222321947 / 2 ^ 51) :=
    (roundToDouble_eval_neg _ (-2) (-6152921778575576) (by norm_num) (by norm_num) (by norm_num)
      (by norm_num)).trans (by norm_num)
  have s7 : roundToDouble (-(769115222321947 / 2 ^ 51) - (1213542501588713 / 2 ^ 50)) = -(3196200225499373 / 2 ^ 51) :=
    (roundToDouble_eval_neg _ (0) (-6392400450998746) (by norm_num) (by norm_num) (by norm_num)
      (by norm_num)).trans (by norm_num)
  have s8 : roundToDouble (-(769115222321947 / 2 ^ 51) + (1213542501588713 / 2 ^ 50)) = 1657969780855479 / 2 ^ 51 :=
    (roundToDouble_eval_pos _ (-1) (6631879123421916) (by norm_num) (by norm_num) (by norm_num)
      (by norm_num)).trans (by norm_num)
  have s9 : roundToDouble (2 * (-(769115222321947 / 2 ^ 51))) = -(769115222321947 / 2 ^ 50) :=
    (roundToDouble_eval_neg _ (-1) (-6152921778575576) (by norm_num) (by norm_num) (by norm_num)
      (by norm_num)).trans (by norm_num)
  have s10 : roundToDouble (-(769115222321947 / 2 ^ 50) * (1213542501588713 / 2 ^ 50)) = -(1657969780855479 / 2 ^ 51) :=
    (roundToDouble_eval_neg _ (-1) (-6631879123421916) (by norm_num) (by norm_num) (by norm_num)
      (by norm_num)).trans (by norm_num)
  have s11 : roundToDouble (-(1657969780855479 / 2 ^ 51) / (1657969780855479 / 2 ^ 51)) = -(1) :=
    (roundToDouble_eval_neg _ (0) (-4503599627370496) (by norm_num) (by norm_num) (by norm_num)
      (by norm_num)).trans (by norm_num)
  have eP : eightDigitPionConstants.pdgMass (exampleSppChannel.FinStateNucleon
      tauBelowThresholdSPP) = 0.9382720813 := by
    simp [eightDigitPionConstants, exampleConstants, exampleSppChannel, kPdgProton, kPdgNeutron,
      kPdgPi0, kPdgPiP, kPdgPiM]
  have epi : eightDigitPionConstants.pdgMass (exampleSppChannel.FinStatePion
      tauBelowThresholdSPP) = 0.13957018 := by
    simp [eightDigitPionConstants, exampleConstants, exampleSppChannel, kPdgProton, kPdgNeutron,
      kPdgPi0, kPdgPiP, kPdgPiM]
  have emf : tauBelowThresholdSPP.FSPrimLeptonMass = 1.77686 := rfl
  have eE : tauBelowThresholdSPP.CMEnergy = 1.4353042286353914 := rfl
  refine ⟨?_, ?_, ?_, ?_⟩
  · unfold WLim_SPP_raw_binary64
    simp only [eP, epi, emf, eE]
    rw [s1, s2, s3, s4, s5, s6]
  · rw [isNarrow_binary64_iff]
    simp only []
    rw [s7, s8]
    norm_num [epsilon]
  · rw [s8]
    norm_num
  · unfold harmonicMean_binary64
    rw [s9, s10, s8, s11]

/-- C37 (counterexample): for the tau-neutrino single-pion interaction at
`ECM = 1.4353042286353914` GeV, below the tau threshold, with the proton mass
0.9382720813, the charged-pion mass 0.13957018 and the tau mass 1.77686, the
raw W bounds in binary64 arithmetic have a positive sum and `WLim_SPP`
returns the range `\x7b-1, -1\x7d`. -/
theorem WLim_SPP_binary64_returns_sentinel :
    0 < (WLim_SPP_raw_binary64 eightDigitPionConstants exampleSppChannel
          tauBelowThresholdSPP).min
        + (WLim_SPP_raw_binary64 eightDigitPionConstants exampleSppChannel
          tauBelowThresholdSPP).max ∧
    WLim_SPP_binary64 eightDigitPionConstants exampleSppChannel tauBelowThresholdSPP
      = some ⟨-1, -1⟩ := by
  obtain ⟨hraw, hnarrow, hsum, hH⟩ := WLim_SPP_raw_binary64_tau
  constructor
  · rw [hraw]; norm_num
  · unfold WLim_SPP_binary64 snapOrShrink_binary64
    rw [hraw, if_pos hnarrow]
    simp only []
    rw [if_neg hsum, hH]

/-- C37 (amended): in binary64 arithmetic the range returned by `WLim_SPP`
and by `WLim_SPP_iso` is never inverted: for raw bounds (binary64 values of
moderate magnitude) with `min + max > 0` a range is returned and it
satisfies `min ≤ max`; in the branch that scales `min` by `1 + epsilon` and
`max` by `1 - epsilon` the rounded products stay ordered, and an inverted raw
range is returned as the single point at the computed harmonic mean
`2*max*min/(max + min)`.  The range returned is not `\x7b-1, -1\x7d` when the raw
maximum is non-negative. -/
theorem WLim_SPP_binary64_ordered (c : Constants) (s : SppChannel) (i : Interaction) :
    (∀ raw, WLim_SPP_raw_binary64 c s i = raw → 0 < raw.min + raw.max →
      isModerateDouble raw.min → isModerateDouble raw.max →
      ∃ Wl, WLim_SPP_binary64 c s i = some Wl ∧ Wl.min ≤ Wl.max ∧
        (raw.max < raw.min →
          Wl = ⟨harmonicMean_binary64 raw.min raw.max,
                harmonicMean_binary64 raw.min raw.max⟩) ∧
        (0 ≤ raw.max → Wl ≠ ⟨-1, -1⟩)) ∧
    (∀ raw, WLim_SPP_iso_raw_binary64 c i = some raw → 0 < raw.min + raw.max →
      isModerateDouble raw.min → isModerateDouble raw.max →
      ∃ Wl, WLim_SPP_iso_binary64 c i = some Wl ∧ Wl.min ≤ Wl.max ∧
        (raw.max < raw.min →
          Wl = ⟨harmonicMean_binary64 raw.min raw.max,
                harmonicMean_binary64 raw.min raw.max⟩) ∧
        (0 ≤ raw.max → Wl ≠ ⟨-1, -1⟩)) := by
  constructor
  · intro raw hr hpos hmin hmax
    obtain ⟨r, h1, h2⟩ := snapOrShrink_binary64_ordered raw hmin.1 hmax.1 hpos
    exact ⟨r, by unfold WLim_SPP_binary64; rw [hr, h1], h2⟩
  · intro raw hr hpos hmin hmax
    obtain ⟨r, h1, h2⟩ := snapOrShrink_binary64_ordered raw hmin.1 hmax.1 hpos
    exact ⟨r, by unfold WLim_SPP_iso_binary64; rw [hr, Option.some_bind, h1], h2⟩

/-- C37 (witness): a neutral-current single-pion interaction with
centre-of-mass energy 1 GeV, below the final-state masses 1.0778420813 GeV:
`WLim_SPP` returns the single point at the computed harmonic mean of the raw
bounds (it prints as 1.037462943888064), an ordered range that is not
`\x7b-1, -1\x7d`. -/
theorem WLim_SPP_binary64_ordered_witness :
    WLim_SPP_binary64 exampleConstants exampleSppChannel
        { exampleInteraction .kScSinglePion .kIntWeakNC with CMEnergy := 1 }
      = some ⟨4672317727504983 / 2 ^ 52, 4672317727504983 / 2 ^ 52⟩ := by
  have w1 : roundToDouble (0.9382720813) = 8451203591429639 / 2 ^ 53 :=
    (roundToDouble_eval_pos _ (-1) (8451203591429639) (by norm_num) (by norm_num) (by norm_num)
      (by norm_num)).trans (by norm_num)
  have w2 : roundToDouble (0.13957) = 5028539199936801 / 2 ^ 55 :=
    (roundToDouble_eval_pos _ (-3) (5028539199936801) (by norm_num) (by norm_num) (by norm_num)
      (by norm_num)).trans (by norm_num)
  have w3 : roundToDouble (8451203591429639 / 2 ^ 53 + (5028539199936801 / 2 ^ 55)) = 606771149463365 / 2 ^ 49 :=
    (roundToDouble_eval_pos _ (0) (4854169195706920) (by norm_num) (by norm_num) (by norm_num)
      (by norm_num)).trans (by norm_num)
  have w4 : roundToDouble (1) = 1 :=
    (roundToDouble_eval_pos _ (0) (4503599627370496) (by norm_num) (by norm_num) (by norm_num)
      (by norm_num)).trans (by norm_num)
  have w5 : roundToDouble (1 - 0) = 1 :=
    (roundToDouble_eval_pos _ (0) (4503599627370496) (by norm_num) (by norm_num) (by norm_num)
      (by norm_num)).trans (by norm_num)
  have w6 : roundToDouble (1 + (606771149463365 / 2 ^ 49)) = 1169721102884677 / 2 ^ 49 :=
    (roundToDouble_eval_pos _ (1) (4678884411538708) (by norm_num) (by norm_num) (by norm_num)
      (by norm_num)).trans (by norm_num)
  have w7 : roundToDouble (2 * 1) = 2 :=
    (roundToDouble_eval_pos _ (1) (4503599627370496) (by norm_num) (by norm_num) (by norm_num)
      (by norm_num)).trans (by norm_num)
  have w8 : roundToDouble (2 * (606771149463365 / 2 ^ 49)) = 606771149463365 / 2 ^ 48 :=
    (roundToDouble_eval_pos _ (1) (4854169195706920) (by norm_num) (by norm_num) (by norm_num)
      (by norm_num)).trans (by norm_num)
  have w9 : roundToDouble (606771149463365 / 2 ^ 48 / (1169721102884677 / 2 ^ 49)) = 4672317727504983 / 2 ^ 52 :=
    (roundToDouble_eval_pos _ (0) (4672317727504983) (by norm_num) (by norm_num) (by norm_num)
      (by norm_num)).trans (by norm_num)
  have eP : exampleConstants.pdgMass (exampleSppChannel.FinStateNucleon
      { exampleInteraction .kScSinglePion .kIntWeakNC with CMEnergy := 1 }) = 0.9382720813 := by
    simp [exampleConstants, exampleSppChannel, kPdgProton, kPdgNeutron, kPdgPi0, kPdgPiP,
      kPdgPiM]
  have epi : exampleConstants.pdgMass (exampleSppChannel.FinStatePion
      { exampleInteraction .kScSinglePion .kIntWeakNC with CMEnergy := 1 }) = 0.13957 := by
    simp [exampleConstants, exampleSppChannel, kPdgProton, kPdgNeutron, kPdgPi0, kPdgPiP,
      kPdgPiM]
  have hraw : WLim_SPP_raw_binary64 exampleConstants exampleSppChannel
      { exampleInteraction .kScSinglePion .kIntWeakNC with CMEnergy := 1 }
      = ⟨606771149463365 / 2 ^ 49, 1⟩ := by
    unfold WLim_SPP_raw_binary64
    simp only [eP, epi]
    simp only [exampleInteraction, roundToDouble_zero]
    rw [w1, w2, w3, w4, w5]
  have hH : harmonicMean_binary64 (606771149463365 / 2 ^ 49) 1 = 4672317727504983 / 2 ^ 52 := by
    unfold harmonicMean_binary64
    rw [w7, w8, w6, w9]
  have hmin : isModerateDouble (606771149463365 / 2 ^ 49) :=
    ⟨by rw [← w3, roundToDouble_idem], Or.inr (by rw [abs_of_pos (by norm_num)]; norm_num)⟩
  have hmax : isModerateDouble 1 :=
    ⟨w4, Or.inr (by rw [abs_of_pos (by norm_num)]; norm_num)⟩
  obtain ⟨Wl, h1, -, h3, -⟩ := (WLim_SPP_binary64_ordered exampleConstants exampleSppChannel
    { exampleInteraction .kScSinglePion .kIntWeakNC with CMEnergy := 1 }).1 _ hraw
    (by norm_num) hmin hmax
  rw [h1, h3 (by norm_num), hH]

/-! ### The isospin-symmetric single-pion threshold in binary64 arithmetic -/

/-- The integer square root of the floor of a non-negative rational brackets
the rational between two consecutive squares. -/
theorem natSqrt_floor_bounds (t : ℚ) (ht : 0 ≤ t) :
    ((Nat.sqrt ⌊t⌋₊ : ℕ) : ℚ) * (Nat.sqrt ⌊t⌋₊ : ℕ) ≤ t ∧
    t < (((Nat.sqrt ⌊t⌋₊ : ℕ) : ℚ) + 1) * (((Nat.sqrt ⌊t⌋₊ : ℕ) : ℚ) + 1) := by
  constructor
  · have h1 : Nat.sqrt ⌊t⌋₊ * Nat.sqrt ⌊t⌋₊ ≤ ⌊t⌋₊ := Nat.sqrt_le _
    have h2 : ((⌊t⌋₊ : ℕ) : ℚ) ≤ t := Nat.floor_le ht
    have h3 : ((Nat.sqrt ⌊t⌋₊ * Nat.sqrt ⌊t⌋₊ : ℕ) : ℚ) ≤ ((⌊t⌋₊ : ℕ) : ℚ) := by
      exact_mod_cast h1
    push_cast at h3
    linarith
  · have h1 : ⌊t⌋₊ < (Nat.sqrt ⌊t⌋₊ + 1) * (Nat.sqrt ⌊t⌋₊ + 1) := Nat.lt_succ_sqrt _
    have h2 : t < ((⌊t⌋₊ : ℕ) : ℚ) + 1 := Nat.lt_floor_add_one t
    have h3 : ((⌊t⌋₊ + 1 : ℕ) : ℚ) ≤ (((Nat.sqrt ⌊t⌋₊ + 1) * (Nat.sqrt ⌊t⌋₊ + 1) : ℕ) : ℚ) := by
      exact_mod_cast h1
    push_cast at h3
    linarith

/-- The exponent and the scaled argument of `sqrtDouble`: for positive `x`
and `h = ⌊log2(x)/2⌋` the quotient `x / 4^(h-52)` lies in `[2^104, 2^106)`. -/
theorem sqrtDouble_scaled_bounds {x : ℚ} (hx : 0 < x) :
    (2 : ℚ) ^ 104 ≤ x / (2 ^ (⌊(Int.log 2 x : ℚ) / 2⌋ - 52) * 2 ^ (⌊(Int.log 2 x : ℚ) / 2⌋ - 52)) ∧
    x / (2 ^ (⌊(Int.log 2 x : ℚ) / 2⌋ - 52) * 2 ^ (⌊(Int.log 2 x : ℚ) / 2⌋ - 52)) < (2 : ℚ) ^ 106 := by
  obtain ⟨h, hh⟩ : ∃ h : ℤ, h = ⌊(Int.log 2 x : ℚ) / 2⌋ := ⟨_, rfl⟩
  rw [← hh]
  have hl1 : (2 : ℚ) ^ Int.log 2 x ≤ x := by
    have := Int.zpow_log_le_self (R := ℚ) (b := 2) (by norm_num) hx
    simpa using this
  have hl2 : x < (2 : ℚ) ^ (Int.log 2 x + 1) := by
    have := Int.lt_zpow_succ_log_self (R := ℚ) (b := 2) (by norm_num) x
    simpa using this
  have hf1 : (h : ℚ) ≤ (Int.log 2 x : ℚ) / 2 := by rw [hh]; exact Int.floor_le _
  have hf2 : (Int.log 2 x : ℚ) / 2 < (h : ℚ) + 1 := by rw [hh]; exact Int.lt_floor_add_one _
  have hh1 : 2 * h ≤ Int.log 2 x := by
    have : (2 : ℚ) * h ≤ Int.log 2 x := by linarith
    exact_mod_cast this
  have hh2 : Int.log 2 x + 1 ≤ 2 * h + 2 := by
    have : (Int.log 2 x : ℚ) < 2 * h + 2 := by linarith
    have h' : Int.log 2 x < 2 * h + 2 := by exact_mod_cast this
    omega
  have hqq : (2 : ℚ) ^ (h - 52) * 2 ^ (h - 52) = 2 ^ (2 * h - 104) := by
    rw [← zpow_add₀ (by norm_num)]
    congr 1
    ring
  have hqpos : (0 : ℚ) < 2 ^ (2 * h - 104) := by positivity
  rw [hqq]
  constructor
  · rw [le_div_iff₀ hqpos]
    calc (2 : ℚ) ^ 104 * 2 ^ (2 * h - 104) = 2 ^ (2 * h) := by
          rw [← zpow_natCast, ← zpow_add₀ (by norm_num)]
          congr 1
          push_cast
          ring
      _ ≤ 2 ^ Int.log 2 x := zpow_le_zpow_right₀ (by norm_num) hh1
      _ ≤ x := hl1
  · rw [div_lt_iff₀ hqpos]
    calc x < 2 ^ (Int.log 2 x + 1) := hl2
      _ ≤ 2 ^ (2 * h + 2) := zpow_le_zpow_right₀ (by norm_num) hh2
      _ = (2 : ℚ) ^ 106 * 2 ^ (2 * h - 104) := by
          rw [← zpow_natCast, ← zpow_add₀ (by norm_num)]
          congr 1
          push_cast
          ring

/-- The significand that `sqrtDouble` selects: with `n` the integer square
root of the scaled argument `t`, the selected integer `m` (`n` or `n + 1`)
satisfies `(m - 1/2)^2 ≤ t ≤ (m + 1/2)^2`. -/
theorem sqrtDouble_select_bounds (t : ℚ) (ht : 1 ≤ t) :
    (((if (if (2 * ((Nat.sqrt ⌊t⌋₊ : ℕ) : ℚ) + 1) ^ 2 < 4 * t then true
          else if 4 * t < (2 * ((Nat.sqrt ⌊t⌋₊ : ℕ) : ℚ) + 1) ^ 2 then false
          else decide (Nat.sqrt ⌊t⌋₊ % 2 = 1)) = true
        then ((Nat.sqrt ⌊t⌋₊ : ℕ) : ℚ) + 1 else ((Nat.sqrt ⌊t⌋₊ : ℕ) : ℚ)) - 1 / 2) ^ 2 ≤ t) ∧
    (t ≤ ((if (if (2 * ((Nat.sqrt ⌊t⌋₊ : ℕ) : ℚ) + 1) ^ 2 < 4 * t then true
          else if 4 * t < (2 * ((Nat.sqrt ⌊t⌋₊ : ℕ) : ℚ) + 1) ^ 2 then false
          else decide (Nat.sqrt ⌊t⌋₊ % 2 = 1)) = true
        then ((Nat.sqrt ⌊t⌋₊ : ℕ) : ℚ) + 1 else ((Nat.sqrt ⌊t⌋₊ : ℕ) : ℚ)) + 1 / 2) ^ 2) ∧
    ((Nat.sqrt ⌊t⌋₊ : ℕ) : ℚ) ≤
      (if (if (2 * ((Nat.sqrt ⌊t⌋₊ : ℕ) : ℚ) + 1) ^ 2 < 4 * t then true
          else if 4 * t < (2 * ((Nat.sqrt ⌊t⌋₊ : ℕ) : ℚ) + 1) ^ 2 then false
          else decide (Nat.sqrt ⌊t⌋₊ % 2 = 1)) = true
        then ((Nat.sqrt ⌊t⌋₊ : ℕ) : ℚ) + 1 else ((Nat.sqrt ⌊t⌋₊ : ℕ) : ℚ)) := by
  obtain ⟨hn1, hn2⟩ := natSqrt_floor_bounds t (by linarith)
  obtain ⟨n, hn⟩ : ∃ n : ℚ, n = ((Nat.sqrt ⌊t⌋₊ : ℕ) : ℚ) := ⟨_, rfl⟩
  rw [← hn] at hn1 hn2 ⊢
  have hn0 : 0 ≤ n := by rw [hn]; positivity
  have hn1' : 1 ≤ n := by
    have h1 : ((1 : ℕ) : ℚ) ≤ ((Nat.sqrt ⌊t⌋₊ : ℕ) : ℚ) := by
      have : 1 ≤ Nat.sqrt ⌊t⌋₊ := by
        rw [Nat.le_sqrt]
        have : 1 ≤ ⌊t⌋₊ := Nat.le_floor (by simpa using ht)
        simpa using this
      exact_mod_cast this
    rw [hn]; simpa using h1
  by_cases c1 : (2 * n + 1) ^ 2 < 4 * t
  · simp only [c1, if_true]
    refine ⟨?_, ?_, by linarith only⟩
    · linarith only [c1]
    · linarith only [hn2, hn0]
  · by_cases c2 : 4 * t < (2 * n + 1) ^ 2
    · simp only [c1, c2, if_true, if_false]
      refine ⟨?_, ?_, le_rfl⟩
      · simp only [Bool.false_eq_true, if_false]
        linarith only [hn1, hn1']
      · simp only [Bool.false_eq_true, if_false]
        linarith only [c2]
    · have heq : 4 * t = (2 * n + 1) ^ 2 := le_antisymm (not_lt.mp c1) (not_lt.mp c2)
      simp only [c1, c2, if_false]
      split_ifs
      · refine ⟨?_, ?_, by linarith only⟩ <;> linarith only [heq, hn0]
      · refine ⟨?_, ?_, le_rfl⟩ <;> linarith only [heq, hn0]

/-- The binary64 square root of a positive value is a non-negative number
within a relative `2^-53` of the square root: its square scaled by
`(1 - 2^-53)^2` and by `(1 + 2^-53)^2` brackets the argument. -/
theorem sqrtDouble_bounds {x : ℚ} (hx : 0 ≤ x) :
    ∃ r, sqrtDouble x = some r ∧ 0 ≤ r ∧
      (r * (1 - 1 / 2 ^ 53)) * (r * (1 - 1 / 2 ^ 53)) ≤ x ∧
      x ≤ (r * (1 + 1 / 2 ^ 53)) * (r * (1 + 1 / 2 ^ 53)) := by
  rcases hx.lt_or_eq with hpos | h0
  · unfold sqrtDouble
    rw [if_neg (not_lt.mpr hx), if_neg hpos.ne']
    simp only []
    obtain ⟨ht1, ht2⟩ := sqrtDouble_scaled_bounds hpos
    obtain ⟨q, hq⟩ : ∃ q : ℚ, q = 2 ^ (⌊(Int.log 2 x : ℚ) / 2⌋ - 52) := ⟨_, rfl⟩
    rw [← hq] at ht1 ht2 ⊢
    have hqpos : 0 < q := by rw [hq]; positivity
    obtain ⟨t, ht⟩ : ∃ t : ℚ, t = x / (q * q) := ⟨_, rfl⟩
    rw [← ht] at ht1 ht2 ⊢
    have hxt : x = t * (q * q) := by
      rw [ht]; field_simp
    obtain ⟨hs1, hs2, hs3⟩ := sqrtDouble_select_bounds t (le_trans (by norm_num) ht1)
    obtain ⟨m, hm⟩ : ∃ m : ℚ, m =
        (if (if (2 * ((Nat.sqrt ⌊t⌋₊ : ℕ) : ℚ) + 1) ^ 2 < 4 * t then true
          else if 4 * t < (2 * ((Nat.sqrt ⌊t⌋₊ : ℕ) : ℚ) + 1) ^ 2 then false
          else decide (Nat.sqrt ⌊t⌋₊ % 2 = 1)) = true
        then ((Nat.sqrt ⌊t⌋₊ : ℕ) : ℚ) + 1 else ((Nat.sqrt ⌊t⌋₊ : ℕ) : ℚ)) := ⟨_, rfl⟩
    rw [← hm] at hs1 hs2 hs3 ⊢
    obtain ⟨-, hn2⟩ := natSqrt_floor_bounds t (by linarith)
    -- the significand is at least 2^52
    have hm52 : (2 : ℚ) ^ 52 ≤ m := by
      by_contra hlt
      push_neg at hlt
      have hn52 : ((Nat.sqrt ⌊t⌋₊ : ℕ) : ℚ) + 1 ≤ 2 ^ 52 := by
        have h2 : Nat.sqrt ⌊t⌋₊ < 2 ^ 52 := by
          have : ((Nat.sqrt ⌊t⌋₊ : ℕ) : ℚ) < ((2 ^ 52 : ℕ) : ℚ) := by
            push_cast; linarith
          exact_mod_cast this
        have h3 : Nat.sqrt ⌊t⌋₊ + 1 ≤ 2 ^ 52 := h2
        exact_mod_cast h3
      have h4 : (((Nat.sqrt ⌊t⌋₊ : ℕ) : ℚ) + 1) * (((Nat.sqrt ⌊t⌋₊ : ℕ) : ℚ) + 1)
          ≤ 2 ^ 52 * 2 ^ 52 :=
        mul_le_mul hn52 hn52
          (by have : (0 : ℚ) ≤ ((Nat.sqrt ⌊t⌋₊ : ℕ) : ℚ) := Nat.cast_nonneg _
              linarith) (by norm_num)
      have h5 : (2 : ℚ) ^ 52 * 2 ^ 52 = 2 ^ 104 := by norm_num
      linarith
    have hm0 : (0 : ℚ) ≤ m := le_trans (by norm_num) hm52
    refine ⟨m * q, rfl, mul_nonneg hm0 hqpos.le, ?_, ?_⟩
    · have h1 : m * q * (1 - 1 / 2 ^ 53) ≤ (m - 1 / 2) * q := by
        have : m * (1 - 1 / 2 ^ 53) ≤ m - 1 / 2 := by
          have : (1 : ℚ) / 2 ≤ m * (1 / 2 ^ 53) := by
            calc (1 : ℚ) / 2 = 2 ^ 52 * (1 / 2 ^ 53) := by norm_num
              _ ≤ m * (1 / 2 ^ 53) := mul_le_mul_of_nonneg_right hm52 (by norm_num)
          linarith
        calc m * q * (1 - 1 / 2 ^ 53) = m * (1 - 1 / 2 ^ 53) * q := by ring
          _ ≤ (m - 1 / 2) * q := mul_le_mul_of_nonneg_right this hqpos.le
      have h0 : 0 ≤ m * q * (1 - 1 / 2 ^ 53) :=
        mul_nonneg (mul_nonneg hm0 hqpos.le) (by norm_num)
      calc m * q * (1 - 1 / 2 ^ 53) * (m * q * (1 - 1 / 2 ^ 53))
          ≤ (m - 1 / 2) * q * ((m - 1 / 2) * q) := mul_le_mul h1 h1 h0 (le_trans h0 h1)
        _ = (m - 1 / 2) ^ 2 * (q * q) := by ring
        _ ≤ t * (q * q) := mul_le_mul_of_nonneg_right hs1 (mul_nonneg hqpos.le hqpos.le)
        _ = x := hxt.symm
    · have h1 : (m + 1 / 2) * q ≤ m * q * (1 + 1 / 2 ^ 53) := by
        have : m + 1 / 2 ≤ m * (1 + 1 / 2 ^ 53) := by
          have : (1 : ℚ) / 2 ≤ m * (1 / 2 ^ 53) := by
            calc (1 : ℚ) / 2 = 2 ^ 52 * (1 / 2 ^ 53) := by norm_num
              _ ≤ m * (1 / 2 ^ 53) := mul_le_mul_of_nonneg_right hm52 (by norm_num)
          linarith
        calc (m + 1 / 2) * q ≤ m * (1 + 1 / 2 ^ 53) * q :=
              mul_le_mul_of_nonneg_right this hqpos.le
          _ = m * q * (1 + 1 / 2 ^ 53) := by ring
      have h0 : 0 ≤ (m + 1 / 2) * q := mul_nonneg (by linarith) hqpos.le
      calc x = t * (q * q) := hxt
        _ ≤ (m + 1 / 2) ^ 2 * (q * q) :=
            mul_le_mul_of_nonneg_right hs2 (mul_nonneg hqpos.le hqpos.le)
        _ = (m + 1 / 2) * q * ((m + 1 / 2) * q) := by ring
        _ ≤ m * q * (1 + 1 / 2 ^ 53) * (m * q * (1 + 1 / 2 ^ 53)) :=
            mul_le_mul h1 h1 h0 (le_trans h0 h1)
  · refine ⟨0, ?_, le_rfl, ?_, ?_⟩
    · unfold sqrtDouble
      rw [← h0]
      simp
    · rw [← h0]; simp
    · rw [← h0]; simp

/-- Evaluation of `sqrtDouble`: for `4^h ≤ x < 4^(h+1)` the result is the
multiple `m * 2^(h-52)` whose half-unit neighbourhood contains the square
root, `(m - 1/2)^2 < x / 4^(h-52) < (m + 1/2)^2`. -/
theorem sqrtDouble_eval (x : ℚ) (h : ℤ) (m : ℕ) (hm : 1 ≤ m)
    (hx1 : (2 : ℚ) ^ (2 * h) ≤ x) (hx2 : x < (2 : ℚ) ^ (2 * h + 2))
    (hlo : (2 * (m : ℚ) - 1) ^ 2 * (2 ^ (h - 52) * 2 ^ (h - 52)) < 4 * x)
    (hhi : 4 * x < (2 * (m : ℚ) + 1) ^ 2 * (2 ^ (h - 52) * 2 ^ (h - 52))) :
    sqrtDouble x = some ((m : ℚ) * 2 ^ (h - 52)) := by
  have hx : 0 < x := lt_of_lt_of_le (by positivity) hx1
  have hl1 : 2 * h ≤ Int.log 2 x := by
    rw [← Int.zpow_le_iff_le_log (by norm_num) hx]
    simpa using hx1
  have hl2 : Int.log 2 x < 2 * h + 2 := by
    rw [← Int.lt_zpow_iff_log_lt (by norm_num) hx]
    simpa using hx2
  have hfloor : ⌊(Int.log 2 x : ℚ) / 2⌋ = h := by
    rw [Int.floor_eq_iff]
    have h1 : ((2 * h : ℤ) : ℚ) ≤ (Int.log 2 x : ℚ) := by exact_mod_cast hl1
    have h2 : (Int.log 2 x : ℚ) < ((2 * h + 2 : ℤ) : ℚ) := by exact_mod_cast hl2
    push_cast at h1 h2
    constructor <;> linarith
  unfold sqrtDouble
  rw [if_neg (not_lt.mpr hx.le), if_neg hx.ne']
  simp only [hfloor]
  obtain ⟨q, hq⟩ : ∃ q : ℚ, q = 2 ^ (h - 52) := ⟨_, rfl⟩
  rw [← hq] at hlo hhi ⊢
  have hqpos : 0 < q := by rw [hq]; positivity
  have hqq : 0 < q * q := mul_pos hqpos hqpos
  obtain ⟨t, ht⟩ : ∃ t : ℚ, t = x / (q * q) := ⟨_, rfl⟩
  rw [← ht]
  have hxt : x = t * (q * q) := by
    rw [ht]; field_simp
  have hlo' : (2 * (m : ℚ) - 1) ^ 2 < 4 * t := by
    have : (2 * (m : ℚ) - 1) ^ 2 * (q * q) < 4 * t * (q * q) := by
      rw [hxt] at hlo; linarith only [hlo]
    exact lt_of_mul_lt_mul_right this hqq.le
  have hhi' : 4 * t < (2 * (m : ℚ) + 1) ^ 2 := by
    have : 4 * t * (q * q) < (2 * (m : ℚ) + 1) ^ 2 * (q * q) := by
      rw [hxt] at hhi; linarith only [hhi]
    exact lt_of_mul_lt_mul_right this hqq.le
  have hm1 : (1 : ℚ) ≤ m := by exact_mod_cast hm
  have ht0 : 0 ≤ t := by linarith only [hlo', sq_nonneg (2 * (m : ℚ) - 1)]
  obtain ⟨hn1, hn2⟩ := natSqrt_floor_bounds t ht0
  obtain ⟨n, hn⟩ : ∃ n : ℕ, n = Nat.sqrt ⌊t⌋₊ := ⟨_, rfl⟩
  rw [← hn] at hn1 hn2 ⊢
  have hle : n ≤ m := by
    by_contra hc
    push_neg at hc
    have h1 : (m : ℚ) + 1 ≤ n := by exact_mod_cast hc
    linarith only [h1, hm1, hn1, hhi',
      mul_self_le_mul_self (show (0 : ℚ) ≤ 2 * m + 1 by linarith only [hm1])
        (show 2 * (m : ℚ) + 1 ≤ 2 * n - 1 by linarith only [h1])]
  have hge : m ≤ n + 1 := by
    by_contra hc
    push_neg at hc
    have h1 : (n : ℚ) + 2 ≤ m := by exact_mod_cast hc
    have h0 : (0 : ℚ) ≤ n := Nat.cast_nonneg n
    linarith only [h1, h0, hn2, hlo',
      mul_self_le_mul_self (show (0 : ℚ) ≤ 2 * n + 3 by linarith only [h0])
        (show 2 * (n : ℚ) + 3 ≤ 2 * m - 1 by linarith only [h1])]
  have hcase : n = m ∨ n + 1 = m := by omega
  rcases hcase with h1 | h1
  · have e : (n : ℚ) = m := by exact_mod_cast h1
    have c1 : ¬ (2 * (n : ℚ) + 1) ^ 2 < 4 * t := by rw [e]; exact not_lt.mpr hhi'.le
    have c2 : 4 * t < (2 * (n : ℚ) + 1) ^ 2 := by rw [e]; exact hhi'
    simp only [c1, c2, if_true, if_false, Bool.false_eq_true]
    rw [e]
  · have e : (n : ℚ) + 1 = m := by exact_mod_cast h1
    have c1 : (2 * (n : ℚ) + 1) ^ 2 < 4 * t := by
      have : 2 * (n : ℚ) + 1 = 2 * (m : ℚ) - 1 := by linarith
      rw [this]; exact hlo'
    simp only [c1, if_true]
    rw [e]

/-- Propagation of the rounding errors from the threshold energy to the
argument of the square root: `a1`, `a2`, `a3` stand for the rounded squares of
`T = mtot`, `M` and `mi`, `b1`, `b2` for the rounded differences, `ME` and
`My` for `M` times the rounded threshold energy and `M` times the rounded sum
`M + 2*E`, `z` for the rounded product and `s` for the rounded sum, each
within a relative `2^-53` of the exact result of its operation.  The result
`s` is within a relative `2^-49` of `T^2`. -/
theorem isoThreshold_error_propagation (M mi T a1 a2 a3 b1 b2 ME My z s : ℚ)
    (hM : 0 < M) (hMT : M ≤ T) (hmi : 0 ≤ mi) (hmiT : mi ≤ T)
    (h1 : |a1 - T * T| ≤ T * T / 2 ^ 53)
    (h2 : |a2 - M * M| ≤ M * M / 2 ^ 53)
    (h3 : |b1 - (a1 - a2)| ≤ |a1 - a2| / 2 ^ 53)
    (h4 : |a3 - mi * mi| ≤ mi * mi / 2 ^ 53)
    (h5 : |b2 - (b1 - a3)| ≤ |b1 - a3| / 2 ^ 53)
    (h6 : |ME - b2 / 2| ≤ |b2 / 2| / 2 ^ 53)
    (h7 : |My - (M * M + 2 * ME)| ≤ |M * M + 2 * ME| / 2 ^ 53)
    (h8 : |z - My| ≤ |My| / 2 ^ 53)
    (h9 : |s - (z + a3)| ≤ |z + a3| / 2 ^ 53) :
    |s - T * T| ≤ T * T / 2 ^ 49 := by
  obtain ⟨B, hB⟩ : ∃ B : ℚ, B = T * T := ⟨_, rfl⟩
  have hT : 0 < T := lt_of_lt_of_le hM hMT
  have hBpos : 0 < B := by rw [hB]; exact mul_pos hT hT
  have hMM : M * M ≤ B := by rw [hB]; exact mul_le_mul hMT hMT hM.le hT.le
  have hmm : mi * mi ≤ B := by rw [hB]; exact mul_le_mul hmiT hmiT hmi hT.le
  have hMM0 : 0 ≤ M * M := mul_nonneg hM.le hM.le
  have hmm0 : 0 ≤ mi * mi := mul_nonneg hmi hmi
  rw [← hB] at h1 ⊢
  rw [abs_le] at h1 h2 h4
  have e1 : |a1 - a2| ≤ B * (1 + 2 / 2 ^ 53) := by
    rw [abs_le]; constructor <;> linarith only [h1.1, h1.2, h2.1, h2.2, hMM, hMM0, hBpos]
  have e1' := div_le_div_of_nonneg_right e1 (show (0 : ℚ) ≤ 2 ^ 53 by norm_num)
  rw [abs_le] at h3
  have b1lo : B - M * M - B * (4 / 2 ^ 53) ≤ b1 := by
    linarith only [h1.1, h1.2, h2.1, h2.2, h3.1, h3.2, e1', hMM, hMM0, hBpos]
  have b1hi : b1 ≤ B - M * M + B * (4 / 2 ^ 53) := by
    linarith only [h1.1, h1.2, h2.1, h2.2, h3.1, h3.2, e1', hMM, hMM0, hBpos]
  have e2 : |b1 - a3| ≤ B * (1 + 5 / 2 ^ 53) := by
    rw [abs_le]
    constructor <;> linarith only [h4.1, h4.2, b1lo, b1hi, hMM, hMM0, hmm, hmm0, hBpos]
  have e2' := div_le_div_of_nonneg_right e2 (show (0 : ℚ) ≤ 2 ^ 53 by norm_num)
  rw [abs_le] at h5
  have b2lo : B - M * M - mi * mi - B * (7 / 2 ^ 53) ≤ b2 := by
    linarith only [h4.1, h4.2, h5.1, h5.2, e2', b1lo, b1hi, hmm, hmm0, hBpos]
  have b2hi : b2 ≤ B - M * M - mi * mi + B * (7 / 2 ^ 53) := by
    linarith only [h4.1, h4.2, h5.1, h5.2, e2', b1lo, b1hi, hmm, hmm0, hBpos]
  have e3 : |b2 / 2| ≤ B * (1 / 2 + 4 / 2 ^ 53) := by
    rw [abs_le]
    constructor <;> linarith only [b2lo, b2hi, hMM, hMM0, hmm, hmm0, hBpos]
  have e3' := div_le_div_of_nonneg_right e3 (show (0 : ℚ) ≤ 2 ^ 53 by norm_num)
  rw [abs_le] at h6
  have MElo : (B - M * M - mi * mi) / 2 - B * (9 / 2 ^ 54) ≤ ME := by
    linarith only [h6.1, h6.2, e3', b2lo, b2hi, hBpos]
  have MEhi : ME ≤ (B - M * M - mi * mi) / 2 + B * (9 / 2 ^ 54) := by
    linarith only [h6.1, h6.2, e3', b2lo, b2hi, hBpos]
  have e4 : |M * M + 2 * ME| ≤ B * (1 + 9 / 2 ^ 53) := by
    rw [abs_le]
    constructor <;> linarith only [MElo, MEhi, hMM, hMM0, hmm, hmm0, hBpos]
  have e4' := div_le_div_of_nonneg_right e4 (show (0 : ℚ) ≤ 2 ^ 53 by norm_num)
  rw [abs_le] at h7
  have Mylo : B - mi * mi - B * (11 / 2 ^ 53) ≤ My := by
    linarith only [h7.1, h7.2, e4', MElo, MEhi, hBpos]
  have Myhi : My ≤ B - mi * mi + B * (11 / 2 ^ 53) := by
    linarith only [h7.1, h7.2, e4', MElo, MEhi, hBpos]
  have e5 : |My| ≤ B * (1 + 11 / 2 ^ 53) := by
    rw [abs_le]
    constructor <;> linarith only [Mylo, Myhi, hmm, hmm0, hBpos]
  have e5' := div_le_div_of_nonneg_right e5 (show (0 : ℚ) ≤ 2 ^ 53 by norm_num)
  rw [abs_le] at h8
  have zlo : B - mi * mi - B * (13 / 2 ^ 53) ≤ z := by
    linarith only [h8.1, h8.2, e5', Mylo, Myhi, hBpos]
  have zhi : z ≤ B - mi * mi + B * (13 / 2 ^ 53) := by
    linarith only [h8.1, h8.2, e5', Mylo, Myhi, hBpos]
  have e6 : |z + a3| ≤ B * (1 + 14 / 2 ^ 53) := by
    rw [abs_le]
    constructor <;> linarith only [h4.1, h4.2, zlo, zhi, hmm, hmm0, hBpos]
  have e6' := div_le_div_of_nonneg_right e6 (show (0 : ℚ) ≤ 2 ^ 53 by norm_num)
  rw [abs_le] at h9 ⊢
  constructor <;> linarith only [h4.1, h4.2, h9.1, h9.2, e6', zlo, zhi, hmm, hmm0, hBpos]

/-- From the square to the root: a non-negative `r` whose square brackets
`s` within a relative `2^-53` per factor, for an `s` within a relative
`2^-49` of `T^2`, is within a relative `10 * 2^-53` of `T`. -/
theorem sqrt_near_of_square_near (T s r : ℚ) (hT : 0 < T) (hr : 0 ≤ r)
    (hlo : (r * (1 - 1 / 2 ^ 53)) * (r * (1 - 1 / 2 ^ 53)) ≤ s)
    (hhi : s ≤ (r * (1 + 1 / 2 ^ 53)) * (r * (1 + 1 / 2 ^ 53))) :
    (T * T * (1 - 1 / 2 ^ 49) ≤ s → T * (1 - 10 / 2 ^ 53) ≤ r) ∧
    (s ≤ T * T * (1 + 1 / 2 ^ 49) → r ≤ T * (1 + 10 / 2 ^ 53)) := by
  constructor
  · intro hs
    by_contra hc
    push_neg at hc
    have h1 : r * (1 + 1 / 2 ^ 53) < T * (1 - 10 / 2 ^ 53) * (1 + 1 / 2 ^ 53) :=
      mul_lt_mul_of_pos_right hc (by norm_num)
    have h0 : 0 ≤ r * (1 + 1 / 2 ^ 53) := mul_nonneg hr (by norm_num)
    have h2 : (r * (1 + 1 / 2 ^ 53)) * (r * (1 + 1 / 2 ^ 53))
        < (T * (1 - 10 / 2 ^ 53) * (1 + 1 / 2 ^ 53)) * (T * (1 - 10 / 2 ^ 53) * (1 + 1 / 2 ^ 53)) :=
      mul_lt_mul'' h1 h1 h0 h0
    have h3 : (T * (1 - 10 / 2 ^ 53) * (1 + 1 / 2 ^ 53)) * (T * (1 - 10 / 2 ^ 53) * (1 + 1 / 2 ^ 53))
        ≤ T * T * (1 - 1 / 2 ^ 49) := by
      have : ((1 : ℚ) - 10 / 2 ^ 53) * (1 + 1 / 2 ^ 53) * ((1 - 10 / 2 ^ 53) * (1 + 1 / 2 ^ 53))
          ≤ 1 - 1 / 2 ^ 49 := by norm_num
      calc (T * (1 - 10 / 2 ^ 53) * (1 + 1 / 2 ^ 53)) * (T * (1 - 10 / 2 ^ 53) * (1 + 1 / 2 ^ 53))
          = T * T * ((1 - 10 / 2 ^ 53) * (1 + 1 / 2 ^ 53) * ((1 - 10 / 2 ^ 53) * (1 + 1 / 2 ^ 53))) := by
            ring
        _ ≤ T * T * (1 - 1 / 2 ^ 49) := mul_le_mul_of_nonneg_left this (mul_pos hT hT).le
    linarith
  · intro hs
    by_contra hc
    push_neg at hc
    have h1 : T * (1 + 10 / 2 ^ 53) * (1 - 1 / 2 ^ 53) < r * (1 - 1 / 2 ^ 53) :=
      mul_lt_mul_of_pos_right hc (by norm_num)
    have h0 : 0 ≤ T * (1 + 10 / 2 ^ 53) * (1 - 1 / 2 ^ 53) :=
      mul_nonneg (mul_nonneg hT.le (by norm_num)) (by norm_num)
    have h2 : (T * (1 + 10 / 2 ^ 53) * (1 - 1 / 2 ^ 53)) * (T * (1 + 10 / 2 ^ 53) * (1 - 1 / 2 ^ 53))
        < (r * (1 - 1 / 2 ^ 53)) * (r * (1 - 1 / 2 ^ 53)) :=
      mul_lt_mul'' h1 h1 h0 h0
    have h3 : T * T * (1 + 1 / 2 ^ 49)
        ≤ (T * (1 + 10 / 2 ^ 53) * (1 - 1 / 2 ^ 53)) * (T * (1 + 10 / 2 ^ 53) * (1 - 1 / 2 ^ 53)) := by
      have : (1 : ℚ) + 1 / 2 ^ 49
          ≤ (1 + 10 / 2 ^ 53) * (1 - 1 / 2 ^ 53) * ((1 + 10 / 2 ^ 53) * (1 - 1 / 2 ^ 53)) := by
        norm_num
      calc T * T * (1 + 1 / 2 ^ 49)
          ≤ T * T * ((1 + 10 / 2 ^ 53) * (1 - 1 / 2 ^ 53) * ((1 + 10 / 2 ^ 53) * (1 - 1 / 2 ^ 53))) :=
            mul_le_mul_of_nonneg_left this (mul_pos hT hT).le
        _ = (T * (1 + 10 / 2 ^ 53) * (1 - 1 / 2 ^ 53)) * (T * (1 + 10 / 2 ^ 53) * (1 - 1 / 2 ^ 53)) := by
            ring
    linarith

/-- Halving by division commutes with rounding. -/
theorem roundToDouble_div_two (x : ℚ) : roundToDouble (x / 2) = roundToDouble x / 2 := by
  have h := roundToDouble_mul_zpow x (-1)
  have e : (2 : ℚ) ^ (-1 : ℤ) = 1 / 2 := by norm_num
  rw [e] at h
  rw [show x / 2 = x * (1 / 2) by ring, h]
  ring

/-- The rounding error of `x`, scaled by a positive factor `M`. -/
theorem mul_roundToDouble_error (M x : ℚ) (hM : 0 < M) :
    |M * roundToDouble x - M * x| ≤ |M * x| / 2 ^ 53 := by
  have h := roundToDouble_error x
  rw [← mul_sub, abs_mul, abs_mul, abs_of_pos hM, mul_div_assoc]
  exact mul_le_mul_of_nonneg_left h hM.le

/-- The raw W window at the threshold: with `p`, `T`, `rawmin` and `rawmax`
the rounded sums `M + mf`, `p + mpi`, `M + mpi` and the rounded difference
`r - mf`, for a centre-of-mass energy `r` within a relative `10 * 2^-53` of
`T`, the two raw bounds differ by at most `2^-48 * T`. -/
theorem isoWindow_near (M mf mpi p T r rawmin rawmax : ℚ) (hM : 0 < M) (hmf : 0 ≤ mf)
    (hmpi : 0 < mpi)
    (hp : |p - (M + mf)| ≤ (M + mf) / 2 ^ 53)
    (hT : |T - (p + mpi)| ≤ (p + mpi) / 2 ^ 53)
    (hmin : |rawmin - (M + mpi)| ≤ (M + mpi) / 2 ^ 53)
    (hmax : |rawmax - (r - mf)| ≤ |r - mf| / 2 ^ 53)
    (hr1 : T * (1 - 10 / 2 ^ 53) ≤ r) (hr2 : r ≤ T * (1 + 10 / 2 ^ 53)) :
    |rawmax - rawmin| ≤ T / 2 ^ 48 ∧ rawmin ≤ 2 * T ∧ 0 < rawmin := by
  rw [abs_le] at hp hT hmin
  have hTlo : (M + mf + mpi) * (1 - 2 / 2 ^ 53) ≤ T := by
    linarith only [hp.1, hp.2, hT.1, hT.2, hM, hmf, hmpi]
  have hThi : T ≤ (M + mf + mpi) * (1 + 3 / 2 ^ 53) := by
    linarith only [hp.1, hp.2, hT.1, hT.2, hM, hmf, hmpi]
  have hSlo : T * (1 - 3 / 2 ^ 53) ≤ M + mf + mpi := by
    linarith only [hThi, hM, hmf, hmpi]
  have hShi : M + mf + mpi ≤ T * (1 + 3 / 2 ^ 53) := by
    linarith only [hTlo, hM, hmf, hmpi]
  have hTpos : 0 < T := by linarith only [hTlo, hM, hmf, hmpi]
  have hrm : |r - mf| ≤ T * 3 := by
    rw [abs_le]
    constructor <;> linarith only [hr1, hr2, hShi, hSlo, hM, hmf, hmpi, hTpos]
  have hrm' := div_le_div_of_nonneg_right hrm (show (0 : ℚ) ≤ 2 ^ 53 by norm_num)
  rw [abs_le] at hmax
  refine ⟨?_, ?_, ?_⟩
  · rw [abs_le]
    constructor <;>
      linarith only [hmax.1, hmax.2, hrm', hmin.1, hmin.2, hr1, hr2, hShi, hSlo, hM, hmf, hmpi,
        hTpos]
  · linarith only [hmin.1, hmin.2, hShi, hM, hmf, hmpi, hTpos]
  · linarith only [hmin.1, hmin.2, hM, hmpi]

/-- The closing block on a nearly collapsed window of positive binary64
bounds: with `|max - min| ≤ 2^-48 * T` for a scale `T` between `min / 2` and
`2^40 * min`, a range is returned, it is ordered, it is a single point when
the computed test passes, and both its ends lie within `2^-47 * T` of the raw
minimum. -/
theorem snapOrShrink_binary64_near (raw : Range1D_t) (T : ℚ)
    (hmin : roundToDouble raw.min = raw.min) (hmax : roundToDouble raw.max = raw.max)
    (hpos : 0 < raw.min) (hw : |raw.max - raw.min| ≤ T / 2 ^ 48)
    (hT : T ≤ 2 ^ 40 * raw.min) (hT2 : raw.min ≤ 2 * T) :
    ∃ Wl, snapOrShrink_binary64 raw = some Wl ∧ Wl.min ≤ Wl.max ∧
      (isNarrow_binary64 raw = true → Wl.min = Wl.max) ∧
      |Wl.min - raw.min| ≤ T / 2 ^ 47 ∧ |Wl.max - raw.min| ≤ T / 2 ^ 47 := by
  have he : epsilon = 1 / 2 ^ 52 := rfl
  rw [abs_le] at hw
  have hTpos : 0 < T := by linarith only [hpos, hT2]
  have hmaxpos : 0 < raw.max := by linarith only [hw.1, hT, hpos]
  have hsum : 0 < raw.min + raw.max := by linarith only [hpos, hmaxpos]
  cases hn : isNarrow_binary64 raw
  · have hwide := hn
    rw [← Bool.not_eq_true, isNarrow_binary64_iff] at hwide
    refine ⟨_, snapOrShrink_binary64_of_wide raw hn,
      shrink_binary64_ordered raw.min raw.max hmin hmax hsum hwide, by simp, ?_, ?_⟩
    · simp only []
      obtain ⟨h1, h2⟩ := roundToDouble_bounds_of_nonneg
        (show 0 ≤ raw.min * (1 + epsilon) from mul_nonneg hpos.le (by rw [he]; norm_num))
      rw [he] at h1 h2 ⊢
      rw [abs_le]
      constructor <;> linarith only [h1, h2, hpos, hT2, hTpos]
    · simp only []
      obtain ⟨h1, h2⟩ := roundToDouble_bounds_of_nonneg
        (show 0 ≤ raw.max * (1 - epsilon) from mul_nonneg hmaxpos.le (by rw [he]; norm_num))
      rw [he] at h1 h2 ⊢
      rw [abs_le]
      constructor <;> linarith only [h1, h2, hw.1, hw.2, hpos, hmaxpos, hT2, hTpos]
  · have hs : raw.max + raw.min ≠ 0 := by linarith only [hpos, hmaxpos]
    have hlo : min raw.min raw.max * (raw.max + raw.min) ≤ 2 * raw.max * raw.min := by
      rcases le_total raw.min raw.max with h | h
      · rw [min_eq_left h]
        linarith only [mul_nonneg hpos.le (sub_nonneg.mpr h)]
      · rw [min_eq_right h]
        linarith only [mul_nonneg hmaxpos.le (sub_nonneg.mpr h)]
    have hhi : 2 * raw.max * raw.min ≤ max raw.min raw.max * (raw.max + raw.min) := by
      rcases le_total raw.min raw.max with h | h
      · rw [max_eq_right h]
        linarith only [mul_nonneg hmaxpos.le (sub_nonneg.mpr h)]
      · rw [max_eq_left h]
        linarith only [mul_nonneg hpos.le (sub_nonneg.mpr h)]
    obtain ⟨hH1, hH2⟩ := harmonicMean_binary64_between raw.min raw.max
      (min raw.min raw.max) (max raw.min raw.max) hmax hpos hmaxpos
      (le_min hpos.le hmaxpos.le) (le_max_of_le_left hpos.le) hlo hhi
    have hminlo : raw.min - T / 2 ^ 48 ≤ min raw.min raw.max :=
      le_min (by linarith only [hTpos]) (by linarith only [hw.1])
    have hmaxhi : max raw.min raw.max ≤ raw.min + T / 2 ^ 48 :=
      max_le (by linarith only [hTpos]) (by linarith only [hw.2])
    have hminle : min raw.min raw.max ≤ raw.min := min_le_left _ _
    have hmaxge : raw.min ≤ max raw.min raw.max := le_max_left _ _
    have hb : |harmonicMean_binary64 raw.min raw.max - raw.min| ≤ T / 2 ^ 47 := by
      rw [abs_le]
      constructor <;>
        linarith only [hH1, hH2, hminlo, hmaxhi, hminle, hmaxge, hpos, hT2, hTpos]
    exact ⟨_, snapOrShrink_binary64_of_narrow raw hn hs, le_rfl, fun _ => rfl, hb, hb⟩

/-- The computed total final-state mass is not below the computed nucleon
mass and is positive, for a non-negative lepton mass and a positive pion
mass. -/
theorem isoTotalMass_binary64_ge (c : Constants) (i : Interaction)
    (_hM : 0 < isoNucleonMass_binary64 c) (hmf : 0 ≤ roundToDouble i.FSPrimLeptonMass)
    (hmpi : 0 < isoPionMass_binary64 c) :
    isoNucleonMass_binary64 c ≤ isoTotalMass_binary64 c i := by
  have hMd : roundToDouble (isoNucleonMass_binary64 c) = isoNucleonMass_binary64 c := by
    unfold isoNucleonMass_binary64
    exact roundToDouble_idem _
  unfold isoTotalMass_binary64
  calc isoNucleonMass_binary64 c = roundToDouble (isoNucleonMass_binary64 c) := hMd.symm
    _ ≤ roundToDouble (isoNucleonMass_binary64 c + roundToDouble i.FSPrimLeptonMass) :=
        roundToDouble_mono (by linarith)
    _ = roundToDouble (roundToDouble
          (isoNucleonMass_binary64 c + roundToDouble i.FSPrimLeptonMass)) :=
        (roundToDouble_idem _).symm
    _ ≤ _ := roundToDouble_mono (by linarith)

/-- The squared centre-of-mass energy computed in binary64 arithmetic does not
decrease with the probe energy. -/
theorem isoInvariantMass2_binary64_mono (c : Constants) (i : Interaction)
    (hM : 0 < isoNucleonMass_binary64 c) {E E' : ℚ} (h : E ≤ E') :
    isoInvariantMass2_binary64 c i E ≤ isoInvariantMass2_binary64 c i E' := by
  unfold isoInvariantMass2_binary64
  simp only []
  apply roundToDouble_mono
  apply add_le_add_right
  apply roundToDouble_mono
  apply mul_le_mul_of_nonneg_left _ hM.le
  apply roundToDouble_mono
  apply add_le_add_left
  apply roundToDouble_mono
  linarith

/-- At the threshold energy computed in binary64 arithmetic the squared
centre-of-mass energy is within a relative `2^-49` of the square of the
computed total final-state mass. -/
theorem isoInvariantMass2_binary64_at_threshold (c : Constants) (i : Interaction)
    (hM : 0 < isoNucleonMass_binary64 c) (hmf : 0 ≤ roundToDouble i.FSPrimLeptonMass)
    (hmpi : 0 < isoPionMass_binary64 c) (hmi : 0 ≤ roundToDouble (c.pdgMass i.ProbePdg))
    (hmiT : roundToDouble (c.pdgMass i.ProbePdg) ≤ isoTotalMass_binary64 c i) :
    |isoInvariantMass2_binary64 c i (Threshold_SPP_iso_binary64 c i)
        - isoTotalMass_binary64 c i * isoTotalMass_binary64 c i|
      ≤ isoTotalMass_binary64 c i * isoTotalMass_binary64 c i / 2 ^ 49 := by
  have hMT := isoTotalMass_binary64_ge c i hM hmf hmpi
  obtain ⟨M, hMd⟩ : ∃ M : ℚ, M = isoNucleonMass_binary64 c := ⟨_, rfl⟩
  obtain ⟨T, hTd⟩ : ∃ T : ℚ, T = isoTotalMass_binary64 c i := ⟨_, rfl⟩
  obtain ⟨mi, hmid⟩ : ∃ mi : ℚ, mi = roundToDouble (c.pdgMass i.ProbePdg) := ⟨_, rfl⟩
  unfold isoInvariantMass2_binary64 Threshold_SPP_iso_binary64
  simp only []
  rw [← hMd, ← hTd, ← hmid]
  rw [← hMd] at hM
  rw [← hMd, ← hTd] at hMT
  rw [← hmid] at hmi
  rw [← hmid, ← hTd] at hmiT
  rw [roundToDouble_div_two, roundToDouble_idem, roundToDouble_two_mul, roundToDouble_idem]
  have h6 := mul_roundToDouble_error M
    (roundToDouble (roundToDouble (roundToDouble (T * T) - roundToDouble (M * M)) -
      roundToDouble (mi * mi)) / 2 / M) hM
  have e6 : M * (roundToDouble (roundToDouble (roundToDouble (T * T) - roundToDouble (M * M)) -
      roundToDouble (mi * mi)) / 2 / M)
      = roundToDouble (roundToDouble (roundToDouble (T * T) - roundToDouble (M * M)) -
      roundToDouble (mi * mi)) / 2 := by
    rw [mul_comm]
    exact div_mul_cancel₀ _ hM.ne'
  rw [e6] at h6
  have h7 := mul_roundToDouble_error M
    (M + 2 * roundToDouble (roundToDouble (roundToDouble (roundToDouble (T * T) -
      roundToDouble (M * M)) - roundToDouble (mi * mi)) / 2 / M)) hM
  have e7 : M * (M + 2 * roundToDouble (roundToDouble (roundToDouble (roundToDouble (T * T) -
      roundToDouble (M * M)) - roundToDouble (mi * mi)) / 2 / M))
      = M * M + 2 * (M * roundToDouble (roundToDouble (roundToDouble (roundToDouble (T * T) -
      roundToDouble (M * M)) - roundToDouble (mi * mi)) / 2 / M)) := by ring
  rw [e7] at h7
  have h1 := roundToDouble_error (T * T)
  rw [abs_of_nonneg (mul_self_nonneg T)] at h1
  have h2 := roundToDouble_error (M * M)
  rw [abs_of_nonneg (mul_self_nonneg M)] at h2
  have h4 := roundToDouble_error (mi * mi)
  rw [abs_of_nonneg (mul_self_nonneg mi)] at h4
  exact isoThreshold_error_propagation M mi T _ _ _ _ _ _ _ _ _ hM hMT hmi hmiT h1 h2
    (roundToDouble_error _) h4 (roundToDouble_error _) h6 h7 (roundToDouble_error _)
    (roundToDouble_error _)

/-- C38 (amended): `Threshold_SPP_iso` and `WLim_SPP_iso` are consistent up
to rounding.  In binary64 arithmetic, with positive isospin-averaged nucleon
and pion masses `M`, `mpi`, a non-negative final-state lepton mass `mf`, a
probe mass between 0 and the computed total mass `T = M + mf + mpi`, and
`T ≤ 2^40 * (M + mpi)`, when the probe energy in the hit-nucleon rest frame
equals the computed `Threshold_SPP_iso`: the computed `M*(M + 2*E) + mi*mi`
is within a relative `2^-49` of `T*T`; the centre-of-mass energy is a number
within `10 * 2^-53 * T` of `T`; the raw W window has minimum `M + mpi` as
computed and a maximum within `2^-48 * T` of it; `WLim_SPP_iso` returns a
range with `min ≤ max`, both ends within `2^-47 * T` of the raw minimum, which
is the single point at the computed harmonic mean when the computed test
`(max - min) < (max + min)*epsilon` passes and the range scaled by
`1 + epsilon` and `1 - epsilon` otherwise.  For any probe energy not below the
threshold the raw window exists, has the same minimum, and its maximum is not
more than `2^-48 * T` below that minimum. -/
theorem WLim_SPP_iso_binary64_at_threshold (c : Constants) (i : Interaction)
    (hM : 0 < isoNucleonMass_binary64 c) (hmpi : 0 < isoPionMass_binary64 c)
    (hmf : 0 ≤ roundToDouble i.FSPrimLeptonMass)
    (hmi : 0 ≤ roundToDouble (c.pdgMass i.ProbePdg))
    (hmiT : roundToDouble (c.pdgMass i.ProbePdg) ≤ isoTotalMass_binary64 c i)
    (hT : isoTotalMass_binary64 c i
      ≤ 2 ^ 40 * roundToDouble (isoNucleonMass_binary64 c + isoPionMass_binary64 c))
    (hE : roundToDouble i.ProbeE_HitNucRest = Threshold_SPP_iso_binary64 c i) :
    |isoInvariantMass2_binary64 c i (Threshold_SPP_iso_binary64 c i)
        - isoTotalMass_binary64 c i * isoTotalMass_binary64 c i|
      ≤ isoTotalMass_binary64 c i * isoTotalMass_binary64 c i / 2 ^ 49 ∧
    ∃ ECM raw Wl,
      isoCMEnergy_binary64 c i (Threshold_SPP_iso_binary64 c i) = some ECM ∧
      |ECM - isoTotalMass_binary64 c i| ≤ isoTotalMass_binary64 c i * (10 / 2 ^ 53) ∧
      WLim_SPP_iso_raw_binary64 c i = some raw ∧
      raw.min = roundToDouble (isoNucleonMass_binary64 c + isoPionMass_binary64 c) ∧
      raw.max = roundToDouble (ECM - roundToDouble i.FSPrimLeptonMass) ∧
      |raw.max - raw.min| ≤ isoTotalMass_binary64 c i / 2 ^ 48 ∧
      WLim_SPP_iso_binary64 c i = some Wl ∧
      Wl.min ≤ Wl.max ∧
      (isNarrow_binary64 raw = true →
        Wl = ⟨harmonicMean_binary64 raw.min raw.max, harmonicMean_binary64 raw.min raw.max⟩) ∧
      (isNarrow_binary64 raw = false →
        Wl = ⟨roundToDouble (raw.min * roundToDouble (1 + epsilon)),
              roundToDouble (raw.max * roundToDouble (1 - epsilon))⟩) ∧
      |Wl.min - raw.min| ≤ isoTotalMass_binary64 c i / 2 ^ 47 ∧
      |Wl.max - raw.min| ≤ isoTotalMass_binary64 c i / 2 ^ 47 ∧
      ∀ E : ℚ, Threshold_SPP_iso_binary64 c i ≤ roundToDouble E →
        ∃ raw2, WLim_SPP_iso_raw_binary64 c { i with ProbeE_HitNucRest := E } = some raw2 ∧
          raw2.min = raw.min ∧
          raw.min - isoTotalMass_binary64 c i / 2 ^ 48 ≤ raw2.max := by
  have hs := isoInvariantMass2_binary64_at_threshold c i hM hmf hmpi hmi hmiT
  refine ⟨hs, ?_⟩
  have hMT := isoTotalMass_binary64_ge c i hM hmf hmpi
  have hTdef : isoTotalMass_binary64 c i
      = roundToDouble (roundToDouble (isoNucleonMass_binary64 c +
          roundToDouble i.FSPrimLeptonMass) + isoPionMass_binary64 c) := rfl
  obtain ⟨M, hMd⟩ : ∃ M : ℚ, M = isoNucleonMass_binary64 c := ⟨_, rfl⟩
  obtain ⟨T, hTd⟩ : ∃ T : ℚ, T = isoTotalMass_binary64 c i := ⟨_, rfl⟩
  obtain ⟨mpi, hmpid⟩ : ∃ m : ℚ, m = isoPionMass_binary64 c := ⟨_, rfl⟩
  obtain ⟨mf, hmfd⟩ : ∃ m : ℚ, m = roundToDouble i.FSPrimLeptonMass := ⟨_, rfl⟩
  obtain ⟨s, hsd⟩ : ∃ s : ℚ,
      s = isoInvariantMass2_binary64 c i (Threshold_SPP_iso_binary64 c i) := ⟨_, rfl⟩
  rw [← hMd, ← hmpid, ← hmfd] at hTdef
  rw [← hTd] at hTdef hmiT hT hMT hs ⊢
  rw [← hMd] at hM hMT hT ⊢
  rw [← hmpid] at hmpi hT ⊢
  rw [← hmfd] at hmf ⊢
  rw [← hsd] at hs
  have hTpos : 0 < T := lt_of_lt_of_le hM hMT
  have hTT : 0 < T * T := mul_pos hTpos hTpos
  rw [abs_le] at hs
  have hs0 : 0 ≤ s := by linarith only [hs.1, hTT]
  obtain ⟨r, hr, hr0, hlo, hhi⟩ := sqrtDouble_bounds hs0
  obtain ⟨hn1, hn2⟩ := sqrt_near_of_square_near T s r hTpos hr0 hlo hhi
  have hr1 := hn1 (by linarith only [hs.1])
  have hr2 := hn2 (by linarith only [hs.2])
  have hECM : isoCMEnergy_binary64 c i (Threshold_SPP_iso_binary64 c i) = some r := by
    unfold isoCMEnergy_binary64
    rw [← hsd]
    exact hr
  have hraw : WLim_SPP_iso_raw_binary64 c i
      = some ⟨roundToDouble (M + mpi), roundToDouble (r - mf)⟩ := by
    unfold WLim_SPP_iso_raw_binary64
    simp only []
    rw [hE, hECM, hMd, hmpid, hmfd]
  have hp0 : 0 ≤ roundToDouble (M + mf) := roundToDouble_nonneg (by linarith only [hM, hmf])
  have hp := roundToDouble_error (M + mf)
  rw [abs_of_nonneg (show 0 ≤ M + mf by linarith only [hM, hmf])] at hp
  have hTe : |T - (roundToDouble (M + mf) + mpi)| ≤ (roundToDouble (M + mf) + mpi) / 2 ^ 53 := by
    have := roundToDouble_error (roundToDouble (M + mf) + mpi)
    rw [abs_of_nonneg (show 0 ≤ roundToDouble (M + mf) + mpi by linarith only [hp0, hmpi]),
      ← hTdef] at this
    exact this
  have hmine := roundToDouble_error (M + mpi)
  rw [abs_of_nonneg (show 0 ≤ M + mpi by linarith only [hM, hmpi])] at hmine
  obtain ⟨hw, hmin2T, hminpos⟩ := isoWindow_near M mf mpi (roundToDouble (M + mf)) T r
    (roundToDouble (M + mpi)) (roundToDouble (r - mf)) hM hmf hmpi hp hTe hmine
    (roundToDouble_error _) hr1 hr2
  obtain ⟨Wl, hWl, hord, -, hc1, hc2⟩ := snapOrShrink_binary64_near
    ⟨roundToDouble (M + mpi), roundToDouble (r - mf)⟩ T (roundToDouble_idem _)
    (roundToDouble_idem _) hminpos hw hT hmin2T
  have hmaxpos : 0 < roundToDouble (r - mf) := by
    rw [abs_le] at hw
    linarith only [hw.1, hT, hminpos]
  refine ⟨r, ⟨roundToDouble (M + mpi), roundToDouble (r - mf)⟩, Wl, hECM, ?_, hraw, rfl, rfl,
    hw, ?_, hord, ?_, ?_, hc1, hc2, ?_⟩
  · rw [abs_le]
    constructor <;> linarith only [hr1, hr2]
  · unfold WLim_SPP_iso_binary64
    rw [hraw]
    exact hWl
  · intro hn
    have h2 := snapOrShrink_binary64_of_narrow
      ⟨roundToDouble (M + mpi), roundToDouble (r - mf)⟩ hn
      (show roundToDouble (r - mf) + roundToDouble (M + mpi) ≠ 0 by
        linarith only [hmaxpos, hminpos])
    rw [hWl] at h2
    exact Option.some.inj h2
  · intro hn
    have h2 := snapOrShrink_binary64_of_wide
      ⟨roundToDouble (M + mpi), roundToDouble (r - mf)⟩ hn
    rw [hWl] at h2
    rw [roundToDouble_one_add_epsilon, roundToDouble_one_sub_epsilon]
    exact Option.some.inj h2
  · intro E hEge
    have hmono : s ≤ isoInvariantMass2_binary64 c i (roundToDouble E) := by
      rw [hsd]
      exact isoInvariantMass2_binary64_mono c i (by rw [← hMd]; exact hM) hEge
    obtain ⟨r2, hr2e, hr20, hlo2, hhi2⟩ := sqrtDouble_bounds (le_trans hs0 hmono)
    obtain ⟨hm1, -⟩ := sqrt_near_of_square_near T _ r2 hTpos hr20 hlo2 hhi2
    have hr21 := hm1 (by linarith only [hs.1, hmono])
    have hraw2 : WLim_SPP_iso_raw_binary64 c { i with ProbeE_HitNucRest := E }
        = some ⟨roundToDouble (M + mpi), roundToDouble (r2 - mf)⟩ := by
      unfold WLim_SPP_iso_raw_binary64
      simp only []
      have e : isoCMEnergy_binary64 c { i with ProbeE_HitNucRest := E } (roundToDouble E)
          = some r2 := hr2e
      rw [e, hMd, hmpid, hmfd]
    refine ⟨_, hraw2, rfl, ?_⟩
    obtain ⟨hw2, -, -⟩ := isoWindow_near M mf mpi (roundToDouble (M + mf)) T
      (T * (1 - 10 / 2 ^ 53)) (roundToDouble (M + mpi))
      (roundToDouble (T * (1 - 10 / 2 ^ 53) - mf)) hM hmf hmpi hp hTe hmine
      (roundToDouble_error _) le_rfl (by linarith only [hTpos])
    have hge : roundToDouble (T * (1 - 10 / 2 ^ 53) - mf) ≤ roundToDouble (r2 - mf) :=
      roundToDouble_mono (by linarith only [hr21])
    rw [abs_le] at hw2
    show roundToDouble (M + mpi) - T / 2 ^ 48 ≤ roundToDouble (r2 - mf)
    linarith only [hw2.1, hge]

/-- The binary64 values of the isospin-symmetric single-pion threshold and W
limits for the muon-neutrino interaction at threshold, with the example mass
table. -/
theorem WLim_SPP_iso_binary64_muon_values :
    isoNucleonMass_binary64 exampleConstants = 4228514120471453 / 2 ^ 52 ∧
    isoPionMass_binary64 exampleConstants = 1243343576965291 / 2 ^ 53 ∧
    roundToDouble muonSinglePionAtIsoThreshold.FSPrimLeptonMass = 7613488256428357 / 2 ^ 56 ∧
    roundToDouble (exampleConstants.pdgMass muonSinglePionAtIsoThreshold.ProbePdg) = 0 ∧
    isoTotalMass_binary64 exampleConstants muonSinglePionAtIsoThreshold = 2663014462490435 / 2 ^ 51 ∧
    Threshold_SPP_iso_binary64 exampleConstants muonSinglePionAtIsoThreshold = 4959781211059201 / 2 ^ 54 ∧
    roundToDouble muonSinglePionAtIsoThreshold.ProbeE_HitNucRest = 4959781211059201 / 2 ^ 54 ∧
    isoCMEnergy_binary64 exampleConstants muonSinglePionAtIsoThreshold (4959781211059201 / 2 ^ 54) = some (5326028924980871 / 2 ^ 52) ∧
    roundToDouble (4228514120471453 / 2 ^ 52 + 1243343576965291 / 2 ^ 53) = 2425092954477049 / 2 ^ 51 ∧
    WLim_SPP_iso_raw_binary64 exampleConstants muonSinglePionAtIsoThreshold
      = some ⟨2425092954477049 / 2 ^ 51, 4850185908954099 / 2 ^ 52⟩ ∧
    WLim_SPP_iso_binary64 exampleConstants muonSinglePionAtIsoThreshold
      = some ⟨4850185908954099 / 2 ^ 52, 4850185908954099 / 2 ^ 52⟩ := by
  have a1 : roundToDouble (0.9382720813) = 8451203591429639 / 2 ^ 53 :=
    (roundToDouble_eval_pos _ (-1) (8451203591429639) (by norm_num) (by norm_num) (by norm_num)
      (by norm_num)).trans (by norm_num)
  have a2 : roundToDouble (0.9395654133) = 2115713222614043 / 2 ^ 51 :=
    (roundToDouble_eval_pos _ (-1) (8462852890456172) (by norm_num) (by norm_num) (by norm_num)
      (by norm_num)).trans (by norm_num)
  have a3 : roundToDouble (0.13957) = 5028539199936801 / 2 ^ 55 :=
    (roundToDouble_eval_pos _ (-3) (5028539199936801) (by norm_num) (by norm_num) (by norm_num)
      (by norm_num)).trans (by norm_num)
  have a4 : roundToDouble (0.1349766) = 1215761130927473 / 2 ^ 53 :=
    (roundToDouble_eval_pos _ (-3) (4863044523709892) (by norm_num) (by norm_num) (by norm_num)
      (by norm_num)).trans (by norm_num)
  have a5 : roundToDouble (8451203591429639 / 2 ^ 53 + (2115713222614043 / 2 ^ 51)) = 4228514120471453 / 2 ^ 51 :=
    (roundToDouble_eval_tie_of _ (0) (8457028240942906) (by rw [abs_of_pos (by norm_num)]; norm_num)
      (by rw [abs_of_pos (by norm_num)]; norm_num) (Or.inr (by norm_num))
      (by norm_num)).trans (by norm_num)
  have a6 : roundToDouble (4228514120471453 / 2 ^ 51 / 2) = 4228514120471453 / 2 ^ 52 :=
    (roundToDouble_eval_pos _ (-1) (8457028240942906) (by norm_num) (by norm_num) (by norm_num)
      (by norm_num)).trans (by norm_num)
  have a7 : roundToDouble (5028539199936801 / 2 ^ 55 + (1215761130927473 / 2 ^ 53)) = 2472895930911673 / 2 ^ 53 :=
    (roundToDouble_eval_tie_of _ (-2) (4945791861823346) (by rw [abs_of_pos (by norm_num)]; norm_num)
      (by rw [abs_of_pos (by norm_num)]; norm_num) (Or.inl (by norm_num))
      (by norm_num)).trans (by norm_num)
  have a8 : roundToDouble (2472895930911673 / 2 ^ 53 + (5028539199936801 / 2 ^ 55)) = 3730030730895873 / 2 ^ 53 :=
    (roundToDouble_eval_tie_of _ (-2) (7460061461791746) (by rw [abs_of_pos (by norm_num)]; norm_num)
      (by rw [abs_of_pos (by norm_num)]; norm_num) (Or.inl (by norm_num))
      (by norm_num)).trans (by norm_num)
  have a9 : roundToDouble (3730030730895873 / 2 ^ 53 / 3) = 1243343576965291 / 2 ^ 53 :=
    (roundToDouble_eval_pos _ (-3) (4973374307861164) (by norm_num) (by norm_num) (by norm_num)
      (by norm_num)).trans (by norm_num)
  have a10 : roundToDouble (0.1056583745) = 7613488256428357 / 2 ^ 56 :=
    (roundToDouble_eval_pos _ (-4) (7613488256428357) (by norm_num) (by norm_num) (by norm_num)
      (by norm_num)).trans (by norm_num)
  have a11 : roundToDouble (4228514120471453 / 2 ^ 52 + (7613488256428357 / 2 ^ 56)) = 4704357136498225 / 2 ^ 52 :=
    (roundToDouble_eval_pos _ (0) (4704357136498225) (by norm_num) (by norm_num) (by norm_num)
      (by norm_num)).trans (by norm_num)
  have a12 : roundToDouble (4704357136498225 / 2 ^ 52 + (1243343576965291 / 2 ^ 53)) = 2663014462490435 / 2 ^ 51 :=
    (roundToDouble_eval_tie_of _ (0) (5326028924980870) (by rw [abs_of_pos (by norm_num)]; norm_num)
      (by rw [abs_of_pos (by norm_num)]; norm_num) (Or.inl (by norm_num))
      (by norm_num)).trans (by norm_num)
  have a13 : roundToDouble (2663014462490435 / 2 ^ 51 * (2663014462490435 / 2 ^ 51)) = 6298646961718309 / 2 ^ 52 :=
    (roundToDouble_eval_pos _ (0) (6298646961718309) (by norm_num) (by norm_num) (by norm_num)
      (by norm_num)).trans (by norm_num)
  have a14 : roundToDouble (4228514120471453 / 2 ^ 52 * (4228514120471453 / 2 ^ 52)) = 1985115590466709 / 2 ^ 51 :=
    (roundToDouble_eval_pos _ (-1) (7940462361866836) (by norm_num) (by norm_num) (by norm_num)
      (by norm_num)).trans (by norm_num)
  have a15 : roundToDouble (6298646961718309 / 2 ^ 52 - (1985115590466709 / 2 ^ 51)) = 2328415780784891 / 2 ^ 52 :=
    (roundToDouble_eval_pos _ (-1) (4656831561569782) (by norm_num) (by norm_num) (by norm_num)
      (by norm_num)).trans (by norm_num)
  have a16 : roundToDouble (0 * 0) = 0 := by
    rw [show (0 * 0 : ℚ) = 0 by norm_num]; exact roundToDouble_zero
  have a17 : roundToDouble (2328415780784891 / 2 ^ 52 - 0) = 2328415780784891 / 2 ^ 52 :=
    (roundToDouble_eval_pos _ (-1) (4656831561569782) (by norm_num) (by norm_num) (by norm_num)
      (by norm_num)).trans (by norm_num)
  have a18 : roundToDouble (2328415780784891 / 2 ^ 52 / 2) = 2328415780784891 / 2 ^ 53 :=
    (roundToDouble_eval_pos _ (-2) (4656831561569782) (by norm_num) (by norm_num) (by norm_num)
      (by norm_num)).trans (by norm_num)
  have a19 : roundToDouble (2328415780784891 / 2 ^ 53 / (4228514120471453 / 2 ^ 52)) = 4959781211059201 / 2 ^ 54 :=
    (roundToDouble_eval_pos _ (-2) (4959781211059201) (by norm_num) (by norm_num) (by norm_num)
      (by norm_num)).trans (by norm_num)
  have a20 : roundToDouble (0.2753231648810584) = 4959781211059201 / 2 ^ 54 :=
    (roundToDouble_eval_pos _ (-2) (4959781211059201) (by norm_num) (by norm_num) (by norm_num)
      (by norm_num)).trans (by norm_num)
  have a21 : roundToDouble (2 * (4959781211059201 / 2 ^ 54)) = 4959781211059201 / 2 ^ 53 :=
    (roundToDouble_eval_pos _ (-1) (4959781211059201) (by norm_num) (by norm_num) (by norm_num)
      (by norm_num)).trans (by norm_num)
  have a22 : roundToDouble (4228514120471453 / 2 ^ 52 + (4959781211059201 / 2 ^ 53)) = 3354202363000527 / 2 ^ 51 :=
    (roundToDouble_eval_tie_of _ (0) (6708404726001054) (by rw [abs_of_pos (by norm_num)]; norm_num)
      (by rw [abs_of_pos (by norm_num)]; norm_num) (Or.inr (by norm_num))
      (by norm_num)).trans (by norm_num)
  have a23 : roundToDouble (4228514120471453 / 2 ^ 52 * (3354202363000527 / 2 ^ 51)) = 3149323480859155 / 2 ^ 51 :=
    (roundToDouble_eval_pos _ (0) (6298646961718310) (by norm_num) (by norm_num) (by norm_num)
      (by norm_num)).trans (by norm_num)
  have a24 : roundToDouble (3149323480859155 / 2 ^ 51 + 0) = 3149323480859155 / 2 ^ 51 :=
    (roundToDouble_eval_pos _ (0) (6298646961718310) (by norm_num) (by norm_num) (by norm_num)
      (by norm_num)).trans (by norm_num)
  have a25 : roundToDouble (4228514120471453 / 2 ^ 52 + (1243343576965291 / 2 ^ 53)) = 2425092954477049 / 2 ^ 51 :=
    (roundToDouble_eval_tie_of _ (0) (4850185908954098) (by rw [abs_of_pos (by norm_num)]; norm_num)
      (by rw [abs_of_pos (by norm_num)]; norm_num) (Or.inl (by norm_num))
      (by norm_num)).trans (by norm_num)
  have a26 : roundToDouble (5326028924980871 / 2 ^ 52 - (7613488256428357 / 2 ^ 56)) = 4850185908954099 / 2 ^ 52 :=
    (roundToDouble_eval_pos _ (0) (4850185908954099) (by norm_num) (by norm_num) (by norm_num)
      (by norm_num)).trans (by norm_num)
  have a27 : roundToDouble (4850185908954099 / 2 ^ 52 - (2425092954477049 / 2 ^ 51)) = 1 / 2 ^ 52 :=
    (roundToDouble_eval_pos _ (-52) (4503599627370496) (by norm_num) (by norm_num) (by norm_num)
      (by norm_num)).trans (by norm_num)
  have a28 : roundToDouble (4850185908954099 / 2 ^ 52 + (2425092954477049 / 2 ^ 51)) = 2425092954477049 / 2 ^ 50 :=
    (roundToDouble_eval_tie_of _ (1) (4850185908954098) (by rw [abs_of_pos (by norm_num)]; norm_num)
      (by rw [abs_of_pos (by norm_num)]; norm_num) (Or.inl (by norm_num))
      (by norm_num)).trans (by norm_num)
  have a29 : roundToDouble (2 * (4850185908954099 / 2 ^ 52)) = 4850185908954099 / 2 ^ 51 :=
    (roundToDouble_eval_pos _ (1) (4850185908954099) (by norm_num) (by norm_num) (by norm_num)
      (by norm_num)).trans (by norm_num)
  have a30 : roundToDouble (4850185908954099 / 2 ^ 51 * (2425092954477049 / 2 ^ 51)) = 2611722321900977 / 2 ^ 50 :=
    (roundToDouble_eval_pos _ (1) (5223444643801954) (by norm_num) (by norm_num) (by norm_num)
      (by norm_num)).trans (by norm_num)
  have a31 : roundToDouble (2611722321900977 / 2 ^ 50 / (2425092954477049 / 2 ^ 50)) = 4850185908954099 / 2 ^ 52 :=
    (roundToDouble_eval_pos _ (0) (4850185908954099) (by norm_num) (by norm_num) (by norm_num)
      (by norm_num)).trans (by norm_num)
  have aq : sqrtDouble (3149323480859155 / 2 ^ 51) = some (5326028924980871 / 2 ^ 52) :=
    (sqrtDouble_eval _ (0) 5326028924980871 (by norm_num) (by norm_num) (by norm_num) (by norm_num)
      (by norm_num)).trans (by norm_num)
  have eP : exampleConstants.pdgMass kPdgProton = 0.9382720813 := by
    simp [exampleConstants, kPdgProton, kPdgNeutron, kPdgPi0, kPdgPiP, kPdgPiM]
  have eN : exampleConstants.pdgMass kPdgNeutron = 0.9395654133 := by
    simp [exampleConstants, kPdgProton, kPdgNeutron, kPdgPi0, kPdgPiP, kPdgPiM]
  have ePiP : exampleConstants.pdgMass kPdgPiP = 0.13957 := by
    simp [exampleConstants, kPdgProton, kPdgNeutron, kPdgPi0, kPdgPiP, kPdgPiM]
  have ePiM : exampleConstants.pdgMass kPdgPiM = 0.13957 := by
    simp [exampleConstants, kPdgProton, kPdgNeutron, kPdgPi0, kPdgPiP, kPdgPiM]
  have ePi0 : exampleConstants.pdgMass kPdgPi0 = 0.1349766 := by
    simp [exampleConstants, kPdgProton, kPdgNeutron, kPdgPi0, kPdgPiP, kPdgPiM]
  have eI : exampleConstants.pdgMass muonSinglePionAtIsoThreshold.ProbePdg = 0 := by
    simp [exampleConstants, kPdgProton, kPdgNeutron, kPdgPi0, kPdgPiP, kPdgPiM, muonSinglePionAtIsoThreshold, exampleInteraction]
  have emf : muonSinglePionAtIsoThreshold.FSPrimLeptonMass = 0.1056583745 := rfl
  have eE : muonSinglePionAtIsoThreshold.ProbeE_HitNucRest = 0.2753231648810584 := rfl
  have hM : isoNucleonMass_binary64 exampleConstants = 4228514120471453 / 2 ^ 52 := by
    unfold isoNucleonMass_binary64
    rw [eP, eN, a1, a2, a5, a6]
  have hmpi : isoPionMass_binary64 exampleConstants = 1243343576965291 / 2 ^ 53 := by
    unfold isoPionMass_binary64
    rw [ePiP, ePi0, ePiM, a3, a4, a7, a8, a9]
  have hmf : roundToDouble muonSinglePionAtIsoThreshold.FSPrimLeptonMass = 7613488256428357 / 2 ^ 56 := by
    rw [emf, a10]
  have hmi : roundToDouble (exampleConstants.pdgMass muonSinglePionAtIsoThreshold.ProbePdg) = 0 := by
    rw [eI]; exact roundToDouble_zero
  have hT : isoTotalMass_binary64 exampleConstants muonSinglePionAtIsoThreshold = 2663014462490435 / 2 ^ 51 := by
    unfold isoTotalMass_binary64
    rw [hM, hmpi, hmf, a11, a12]
  have hE : Threshold_SPP_iso_binary64 exampleConstants muonSinglePionAtIsoThreshold = 4959781211059201 / 2 ^ 54 := by
    unfold Threshold_SPP_iso_binary64
    simp only []
    rw [hT, hM, hmi, a13, a14, a15, a16, a17, a18, a19]
  have hEd : roundToDouble muonSinglePionAtIsoThreshold.ProbeE_HitNucRest = 4959781211059201 / 2 ^ 54 := by
    rw [eE, a20]
  have hECM : isoCMEnergy_binary64 exampleConstants muonSinglePionAtIsoThreshold (4959781211059201 / 2 ^ 54)
      = some (5326028924980871 / 2 ^ 52) := by
    unfold isoCMEnergy_binary64 isoInvariantMass2_binary64
    simp only []
    rw [hM, hmi, a21, a22, a23, a16, a24, aq]
  have hraw : WLim_SPP_iso_raw_binary64 exampleConstants muonSinglePionAtIsoThreshold
      = some ⟨2425092954477049 / 2 ^ 51, 4850185908954099 / 2 ^ 52⟩ := by
    unfold WLim_SPP_iso_raw_binary64
    simp only []
    rw [hEd, hECM]
    simp only []
    rw [hM, hmpi, hmf, a25, a26]
  have hn : isNarrow_binary64 ⟨2425092954477049 / 2 ^ 51, 4850185908954099 / 2 ^ 52⟩ = true := by
    rw [isNarrow_binary64_iff]
    simp only []
    rw [a27, a28]
    norm_num [epsilon]
  have hH : harmonicMean_binary64 (2425092954477049 / 2 ^ 51) (4850185908954099 / 2 ^ 52)
      = 4850185908954099 / 2 ^ 52 := by
    unfold harmonicMean_binary64
    rw [a29, a30, a28, a31]
  refine ⟨hM, hmpi, hmf, hmi, hT, hE, hEd, hECM, a25, hraw, ?_⟩
  unfold WLim_SPP_iso_binary64
  rw [hraw, Option.some_bind,
    snapOrShrink_binary64_of_narrow _ hn (by norm_num), hH]

/-- The binary64 values of the isospin-symmetric single-pion threshold and W
limits for the electron-neutrino interaction one unit in the last place above
threshold, with the eight-digit charged-pion mass. -/
theorem WLim_SPP_iso_binary64_electron_values :
    isoNucleonMass_binary64 eightDigitPionConstants = 4228514120471453 / 2 ^ 52 ∧
    isoPionMass_binary64 eightDigitPionConstants = 4973378631316807 / 2 ^ 55 ∧
    roundToDouble electronSinglePionAboveIsoThreshold.FSPrimLeptonMass = 4713133390321001 / 2 ^ 63 ∧
    roundToDouble (eightDigitPionConstants.pdgMass electronSinglePionAboveIsoThreshold.ProbePdg) = 0 ∧
    isoTotalMass_binary64 eightDigitPionConstants electronSinglePionAboveIsoThreshold = 303280486503081 / 2 ^ 48 ∧
    Threshold_SPP_iso_binary64 eightDigitPionConstants electronSinglePionAboveIsoThreshold = 670011482270919 / 2 ^ 52 ∧
    roundToDouble electronSinglePionAboveIsoThreshold.ProbeE_HitNucRest = 5360091858167353 / 2 ^ 55 ∧
    isoCMEnergy_binary64 eightDigitPionConstants electronSinglePionAboveIsoThreshold (5360091858167353 / 2 ^ 55) = some (303280486503081 / 2 ^ 48) ∧
    roundToDouble (4228514120471453 / 2 ^ 52 + 4973378631316807 / 2 ^ 55) = 2425093224693027 / 2 ^ 51 ∧
    WLim_SPP_iso_raw_binary64 eightDigitPionConstants electronSinglePionAboveIsoThreshold
      = some ⟨2425093224693027 / 2 ^ 51, 4850186449386053 / 2 ^ 52⟩ ∧
    WLim_SPP_iso_binary64 eightDigitPionConstants electronSinglePionAboveIsoThreshold
      = some ⟨4850186449386053 / 2 ^ 52, 4850186449386053 / 2 ^ 52⟩ := by
  have b1 : roundToDouble (0.9382720813) = 8451203591429639 / 2 ^ 53 :=
    (roundToDouble_eval_pos _ (-1) (8451203591429639) (by norm_num) (by norm_num) (by norm_num)
      (by norm_num)).trans (by norm_num)
  have b2 : roundToDouble (0.9395654133) = 2115713222614043 / 2 ^ 51 :=
    (roundToDouble_eval_pos _ (-1) (8462852890456172) (by norm_num) (by norm_num) (by norm_num)
      (by norm_num)).trans (by norm_num)
  have b3 : roundToDouble (0.13957018) = 628568210640033 / 2 ^ 52 :=
    (roundToDouble_eval_pos _ (-3) (5028545685120264) (by norm_num) (by norm_num) (by norm_num)
      (by norm_num)).trans (by norm_num)
  have b4 : roundToDouble (0.1349766) = 1215761130927473 / 2 ^ 53 :=
    (roundToDouble_eval_pos _ (-3) (4863044523709892) (by norm_num) (by norm_num) (by norm_num)
      (by norm_num)).trans (by norm_num)
  have b5 : roundToDouble (8451203591429639 / 2 ^ 53 + (2115713222614043 / 2 ^ 51)) = 4228514120471453 / 2 ^ 51 :=
    (roundToDouble_eval_tie_of _ (0) (8457028240942906) (by rw [abs_of_pos (by norm_num)]; norm_num)
      (by rw [abs_of_pos (by norm_num)]; norm_num) (Or.inr (by norm_num))
      (by norm_num)).trans (by norm_num)
  have b6 : roundToDouble (4228514120471453 / 2 ^ 51 / 2) = 4228514120471453 / 2 ^ 52 :=
    (roundToDouble_eval_pos _ (-1) (8457028240942906) (by norm_num) (by norm_num) (by norm_num)
      (by norm_num)).trans (by norm_num)
  have b7 : roundToDouble (628568210640033 / 2 ^ 52 + (1215761130927473 / 2 ^ 53)) = 2472897552207539 / 2 ^ 53 :=
    (roundToDouble_eval_pos _ (-2) (4945795104415078) (by norm_num) (by norm_num) (by norm_num)
      (by norm_num)).trans (by norm_num)
  have b8 : roundToDouble (2472897552207539 / 2 ^ 53 + (628568210640033 / 2 ^ 52)) = 3730033973487605 / 2 ^ 53 :=
    (roundToDouble_eval_pos _ (-2) (7460067946975210) (by norm_num) (by norm_num) (by norm_num)
      (by norm_num)).trans (by norm_num)
  have b9 : roundToDouble (3730033973487605 / 2 ^ 53 / 3) = 4973378631316807 / 2 ^ 55 :=
    (roundToDouble_eval_pos _ (-3) (4973378631316807) (by norm_num) (by norm_num) (by norm_num)
      (by norm_num)).trans (by norm_num)
  have b10 : roundToDouble (0.0005109989461) = 4713133390321001 / 2 ^ 63 :=
    (roundToDouble_eval_pos _ (-11) (4713133390321001) (by norm_num) (by norm_num) (by norm_num)
      (by norm_num)).trans (by norm_num)
  have b11 : roundToDouble (4228514120471453 / 2 ^ 52 + (4713133390321001 / 2 ^ 63)) = 8461630910269391 / 2 ^ 53 :=
    (roundToDouble_eval_pos _ (-1) (8461630910269391) (by norm_num) (by norm_num) (by norm_num)
      (by norm_num)).trans (by norm_num)
  have b12 : roundToDouble (8461630910269391 / 2 ^ 53 + (4973378631316807 / 2 ^ 55)) = 303280486503081 / 2 ^ 48 :=
    (roundToDouble_eval_pos _ (0) (4852487784049296) (by norm_num) (by norm_num) (by norm_num)
      (by norm_num)).trans (by norm_num)
  have b13 : roundToDouble (303280486503081 / 2 ^ 48 * (303280486503081 / 2 ^ 48)) = 5228403864154273 / 2 ^ 52 :=
    (roundToDouble_eval_pos _ (0) (5228403864154273) (by norm_num) (by norm_num) (by norm_num)
      (by norm_num)).trans (by norm_num)
  have b14 : roundToDouble (4228514120471453 / 2 ^ 52 * (4228514120471453 / 2 ^ 52)) = 1985115590466709 / 2 ^ 51 :=
    (roundToDouble_eval_pos _ (-1) (7940462361866836) (by norm_num) (by norm_num) (by norm_num)
      (by norm_num)).trans (by norm_num)
  have b15 : roundToDouble (5228403864154273 / 2 ^ 52 - (1985115590466709 / 2 ^ 51)) = 1258172683220855 / 2 ^ 52 :=
    (roundToDouble_eval_pos _ (-2) (5032690732883420) (by norm_num) (by norm_num) (by norm_num)
      (by norm_num)).trans (by norm_num)
  have b16 : roundToDouble (0 * 0) = 0 := by
    rw [show (0 * 0 : ℚ) = 0 by norm_num]; exact roundToDouble_zero
  have b17 : roundToDouble (1258172683220855 / 2 ^ 52 - 0) = 1258172683220855 / 2 ^ 52 :=
    (roundToDouble_eval_pos _ (-2) (5032690732883420) (by norm_num) (by norm_num) (by norm_num)
      (by norm_num)).trans (by norm_num)
  have b18 : roundToDouble (1258172683220855 / 2 ^ 52 / 2) = 1258172683220855 / 2 ^ 53 :=
    (roundToDouble_eval_pos _ (-3) (5032690732883420) (by norm_num) (by norm_num) (by norm_num)
      (by norm_num)).trans (by norm_num)
  have b19 : roundToDouble (1258172683220855 / 2 ^ 53 / (4228514120471453 / 2 ^ 52)) = 670011482270919 / 2 ^ 52 :=
    (roundToDouble_eval_pos _ (-3) (5360091858167352) (by norm_num) (by norm_num) (by norm_num)
      (by norm_num)).trans (by norm_num)
  have b20 : roundToDouble (0.14877243487608086) = 5360091858167353 / 2 ^ 55 :=
    (roundToDouble_eval_pos _ (-3) (5360091858167353) (by norm_num) (by norm_num) (by norm_num)
      (by norm_num)).trans (by norm_num)
  have b21 : roundToDouble (2 * (5360091858167353 / 2 ^ 55)) = 5360091858167353 / 2 ^ 54 :=
    (roundToDouble_eval_pos _ (-2) (5360091858167353) (by norm_num) (by norm_num) (by norm_num)
      (by norm_num)).trans (by norm_num)
  have b22 : roundToDouble (4228514120471453 / 2 ^ 52 + (5360091858167353 / 2 ^ 54)) = 5568537085013291 / 2 ^ 52 :=
    (roundToDouble_eval_pos _ (0) (5568537085013291) (by norm_num) (by norm_num) (by norm_num)
      (by norm_num)).trans (by norm_num)
  have b23 : roundToDouble (4228514120471453 / 2 ^ 52 * (5568537085013291 / 2 ^ 52)) = 5228403864154273 / 2 ^ 52 :=
    (roundToDouble_eval_pos _ (0) (5228403864154273) (by norm_num) (by norm_num) (by norm_num)
      (by norm_num)).trans (by norm_num)
  have b24 : roundToDouble (5228403864154273 / 2 ^ 52 + 0) = 5228403864154273 / 2 ^ 52 :=
    (roundToDouble_eval_pos _ (0) (5228403864154273) (by norm_num) (by norm_num) (by norm_num)
      (by norm_num)).trans (by norm_num)
  have b25 : roundToDouble (4228514120471453 / 2 ^ 52 + (4973378631316807 / 2 ^ 55)) = 2425093224693027 / 2 ^ 51 :=
    (roundToDouble_eval_pos _ (0) (4850186449386054) (by norm_num) (by norm_num) (by norm_num)
      (by norm_num)).trans (by norm_num)
  have b26 : roundToDouble (303280486503081 / 2 ^ 48 - (4713133390321001 / 2 ^ 63)) = 4850186449386053 / 2 ^ 52 :=
    (roundToDouble_eval_pos _ (0) (4850186449386053) (by norm_num) (by norm_num) (by norm_num)
      (by norm_num)).trans (by norm_num)
  have b27 : roundToDouble (4850186449386053 / 2 ^ 52 - (2425093224693027 / 2 ^ 51)) = -(1 / 2 ^ 52) :=
    (roundToDouble_eval_neg _ (-52) (-4503599627370496) (by norm_num) (by norm_num) (by norm_num)
      (by norm_num)).trans (by norm_num)
  have b28 : roundToDouble (4850186449386053 / 2 ^ 52 + (2425093224693027 / 2 ^ 51)) = 2425093224693027 / 2 ^ 50 :=
    (roundToDouble_eval_tie_of _ (1) (4850186449386054) (by rw [abs_of_pos (by norm_num)]; norm_num)
      (by rw [abs_of_pos (by norm_num)]; norm_num) (Or.inr (by norm_num))
      (by norm_num)).trans (by norm_num)
  have b29 : roundToDouble (2 * (4850186449386053 / 2 ^ 52)) = 4850186449386053 / 2 ^ 51 :=
    (roundToDouble_eval_pos _ (1) (4850186449386053) (by norm_num) (by norm_num) (by norm_num)
      (by norm_num)).trans (by norm_num)
  have b30 : roundToDouble (4850186449386053 / 2 ^ 51 * (2425093224693027 / 2 ^ 51)) = 5223445807846637 / 2 ^ 51 :=
    (roundToDouble_eval_pos _ (1) (5223445807846637) (by norm_num) (by norm_num) (by norm_num)
      (by norm_num)).trans (by norm_num)
  have b31 : roundToDouble (5223445807846637 / 2 ^ 51 / (2425093224693027 / 2 ^ 50)) = 4850186449386053 / 2 ^ 52 :=
    (roundToDouble_eval_pos _ (0) (4850186449386053) (by norm_num) (by norm_num) (by norm_num)
      (by norm_num)).trans (by norm_num)
  have bq : sqrtDouble (5228403864154273 / 2 ^ 52) = some (303280486503081 / 2 ^ 48) :=
    (sqrtDouble_eval _ (0) 4852487784049296 (by norm_num) (by norm_num) (by norm_num) (by norm_num)
      (by norm_num)).trans (by norm_num)
  have eP : eightDigitPionConstants.pdgMass kPdgProton = 0.9382720813 := by
    simp [eightDigitPionConstants, exampleConstants, kPdgProton, kPdgNeutron, kPdgPi0, kPdgPiP,
      kPdgPiM]
  have eN : eightDigitPionConstants.pdgMass kPdgNeutron = 0.9395654133 := by
    simp [eightDigitPionConstants, exampleConstants, kPdgProton, kPdgNeutron, kPdgPi0, kPdgPiP,
      kPdgPiM]
  have ePiP : eightDigitPionConstants.pdgMass kPdgPiP = 0.13957018 := by
    simp [eightDigitPionConstants, exampleConstants, kPdgProton, kPdgNeutron, kPdgPi0, kPdgPiP,
      kPdgPiM]
  have ePiM : eightDigitPionConstants.pdgMass kPdgPiM = 0.13957018 := by
    simp [eightDigitPionConstants, exampleConstants, kPdgProton, kPdgNeutron, kPdgPi0, kPdgPiP,
      kPdgPiM]
  have ePi0 : eightDigitPionConstants.pdgMass kPdgPi0 = 0.1349766 := by
    simp [eightDigitPionConstants, exampleConstants, kPdgProton, kPdgNeutron, kPdgPi0, kPdgPiP,
      kPdgPiM]
  have eI : eightDigitPionConstants.pdgMass electronSinglePionAboveIsoThreshold.ProbePdg = 0 := by
    simp [eightDigitPionConstants, exampleConstants, kPdgProton, kPdgNeutron, kPdgPi0, kPdgPiP,
      kPdgPiM, electronSinglePionAboveIsoThreshold, exampleInteraction]
  have emf : electronSinglePionAboveIsoThreshold.FSPrimLeptonMass = 0.0005109989461 := rfl
  have eE : electronSinglePionAboveIsoThreshold.ProbeE_HitNucRest = 0.14877243487608086 := rfl
  have hM : isoNucleonMass_binary64 eightDigitPionConstants = 4228514120471453 / 2 ^ 52 := by
    unfold isoNucleonMass_binary64
    rw [eP, eN, b1, b2, b5, b6]
  have hmpi : isoPionMass_binary64 eightDigitPionConstants = 4973378631316807 / 2 ^ 55 := by
    unfold isoPionMass_binary64
    rw [ePiP, ePi0, ePiM, b3, b4, b7, b8, b9]
  have hmf : roundToDouble electronSinglePionAboveIsoThreshold.FSPrimLeptonMass = 4713133390321001 / 2 ^ 63 := by
    rw [emf, b10]
  have hmi : roundToDouble (eightDigitPionConstants.pdgMass electronSinglePionAboveIsoThreshold.ProbePdg) = 0 := by
    rw [eI]; exact roundToDouble_zero
  have hT : isoTotalMass_binary64 eightDigitPionConstants electronSinglePionAboveIsoThreshold = 303280486503081 / 2 ^ 48 := by
    unfold isoTotalMass_binary64
    rw [hM, hmpi, hmf, b11, b12]
  have hE : Threshold_SPP_iso_binary64 eightDigitPionConstants electronSinglePionAboveIsoThreshold = 670011482270919 / 2 ^ 52 := by
    unfold Threshold_SPP_iso_binary64
    simp only []
    rw [hT, hM, hmi, b13, b14, b15, b16, b17, b18, b19]
  have hEd : roundToDouble electronSinglePionAboveIsoThreshold.ProbeE_HitNucRest = 5360091858167353 / 2 ^ 55 := by
    rw [eE, b20]
  have hECM : isoCMEnergy_binary64 eightDigitPionConstants electronSinglePionAboveIsoThreshold (5360091858167353 / 2 ^ 55)
      = some (303280486503081 / 2 ^ 48) := by
    unfold isoCMEnergy_binary64 isoInvariantMass2_binary64
    simp only []
    rw [hM, hmi, b21, b22, b23, b16, b24, bq]
  have hraw : WLim_SPP_iso_raw_binary64 eightDigitPionConstants electronSinglePionAboveIsoThreshold
      = some ⟨2425093224693027 / 2 ^ 51, 4850186449386053 / 2 ^ 52⟩ := by
    unfold WLim_SPP_iso_raw_binary64
    simp only []
    rw [hEd, hECM]
    simp only []
    rw [hM, hmpi, hmf, b25, b26]
  have hn : isNarrow_binary64 ⟨2425093224693027 / 2 ^ 51, 4850186449386053 / 2 ^ 52⟩ = true := by
    rw [isNarrow_binary64_iff]
    simp only []
    rw [b27, b28]
    norm_num [epsilon]
  have hH : harmonicMean_binary64 (2425093224693027 / 2 ^ 51) (4850186449386053 / 2 ^ 52)
      = 4850186449386053 / 2 ^ 52 := by
    unfold harmonicMean_binary64
    rw [b29, b30, b28, b31]
  refine ⟨hM, hmpi, hmf, hmi, hT, hE, hEd, hECM, b25, hraw, ?_⟩
  unfold WLim_SPP_iso_binary64
  rw [hraw, Option.some_bind,
    snapOrShrink_binary64_of_narrow _ hn (by norm_num), hH]

/-- C38 (witness): the muon-neutrino single-pion interaction at the binary64
threshold energy of the example mass table satisfies the hypotheses, so its
centre-of-mass energy lies within `10 * 2^-53 * T` of the total mass `T` and
`WLim_SPP_iso` returns an ordered range within `2^-47 * T` of the raw
minimum. -/
theorem WLim_SPP_iso_binary64_at_threshold_witness :
    (0 < isoNucleonMass_binary64 exampleConstants ∧
    0 < isoPionMass_binary64 exampleConstants ∧
    0 ≤ roundToDouble muonSinglePionAtIsoThreshold.FSPrimLeptonMass ∧
    0 ≤ roundToDouble (exampleConstants.pdgMass muonSinglePionAtIsoThreshold.ProbePdg) ∧
    roundToDouble (exampleConstants.pdgMass muonSinglePionAtIsoThreshold.ProbePdg)
      ≤ isoTotalMass_binary64 exampleConstants muonSinglePionAtIsoThreshold ∧
    isoTotalMass_binary64 exampleConstants muonSinglePionAtIsoThreshold
      ≤ 2 ^ 40 * roundToDouble (isoNucleonMass_binary64 exampleConstants + isoPionMass_binary64 exampleConstants) ∧
    roundToDouble muonSinglePionAtIsoThreshold.ProbeE_HitNucRest = Threshold_SPP_iso_binary64 exampleConstants muonSinglePionAtIsoThreshold) ∧
    ∃ ECM raw Wl,
      isoCMEnergy_binary64 exampleConstants muonSinglePionAtIsoThreshold
          (Threshold_SPP_iso_binary64 exampleConstants muonSinglePionAtIsoThreshold) = some ECM ∧
      |ECM - isoTotalMass_binary64 exampleConstants muonSinglePionAtIsoThreshold|
        ≤ isoTotalMass_binary64 exampleConstants muonSinglePionAtIsoThreshold * (10 / 2 ^ 53) ∧
      WLim_SPP_iso_raw_binary64 exampleConstants muonSinglePionAtIsoThreshold = some raw ∧
      |raw.max - raw.min| ≤ isoTotalMass_binary64 exampleConstants muonSinglePionAtIsoThreshold / 2 ^ 48 ∧
      WLim_SPP_iso_binary64 exampleConstants muonSinglePionAtIsoThreshold = some Wl ∧
      Wl.min ≤ Wl.max ∧
      |Wl.min - raw.min| ≤ isoTotalMass_binary64 exampleConstants muonSinglePionAtIsoThreshold / 2 ^ 47 ∧
      |Wl.max - raw.min| ≤ isoTotalMass_binary64 exampleConstants muonSinglePionAtIsoThreshold / 2 ^ 47 := by
  obtain ⟨vM, vmpi, vmf, vmi, vT, vE, vEd, -, vmin, -, -⟩ := WLim_SPP_iso_binary64_muon_values
  have h1 : 0 < isoNucleonMass_binary64 exampleConstants := by rw [vM]; norm_num
  have h2 : 0 < isoPionMass_binary64 exampleConstants := by rw [vmpi]; norm_num
  have h3 : 0 ≤ roundToDouble muonSinglePionAtIsoThreshold.FSPrimLeptonMass := by
    rw [vmf]; norm_num
  have h4 : 0 ≤ roundToDouble (exampleConstants.pdgMass muonSinglePionAtIsoThreshold.ProbePdg) := by
    rw [vmi]
  have h5 : roundToDouble (exampleConstants.pdgMass muonSinglePionAtIsoThreshold.ProbePdg)
      ≤ isoTotalMass_binary64 exampleConstants muonSinglePionAtIsoThreshold := by
    rw [vmi, vT]; norm_num
  have h6 : isoTotalMass_binary64 exampleConstants muonSinglePionAtIsoThreshold
      ≤ 2 ^ 40 * roundToDouble (isoNucleonMass_binary64 exampleConstants + isoPionMass_binary64 exampleConstants) := by
    rw [vT, vM, vmpi, vmin]; norm_num
  have h7 : roundToDouble muonSinglePionAtIsoThreshold.ProbeE_HitNucRest
      = Threshold_SPP_iso_binary64 exampleConstants muonSinglePionAtIsoThreshold := by
    rw [vEd, vE]
  obtain ⟨-, ECM, raw, Wl, c1, c2, c3, -, -, c6, c7, c8, -, -, c11, c12, -⟩ :=
    WLim_SPP_iso_binary64_at_threshold exampleConstants muonSinglePionAtIsoThreshold h1 h2 h3 h4 h5 h6 h7
  exact ⟨⟨h1, h2, h3, h4, h5, h6, h7⟩, ECM, raw, Wl, c1, c2, c3, c6, c7, c8, c11, c12⟩

/-- C38 (counterexample): in binary64 arithmetic, for the muon-neutrino
single-pion interaction whose probe energy 0.2753231648810584 GeV equals the
computed `Threshold_SPP_iso` (example mass table, muon mass 0.1056583745), the
centre-of-mass energy is 1.1826159884666667, one unit in the last place above
the computed total mass 1.1826159884666665; the raw W window is
`\x7b1.0769576139666666, 1.0769576139666668\x7d`, not collapsed; and
`WLim_SPP_iso` returns the point 1.0769576139666668, which is not the computed
`M + mpi`.  For the electron-neutrino interaction with the eight-digit
charged-pion mass and a probe energy one unit in the last place above the
computed threshold, the raw maximum 1.0769577339666665 is below the raw
minimum 1.0769577339666667. -/
theorem WLim_SPP_iso_binary64_threshold_mismatch :
    (roundToDouble muonSinglePionAtIsoThreshold.ProbeE_HitNucRest
        = Threshold_SPP_iso_binary64 exampleConstants muonSinglePionAtIsoThreshold ∧
      isoTotalMass_binary64 exampleConstants muonSinglePionAtIsoThreshold
        = 2663014462490435 / 2 ^ 51 ∧
      isoCMEnergy_binary64 exampleConstants muonSinglePionAtIsoThreshold
          (Threshold_SPP_iso_binary64 exampleConstants muonSinglePionAtIsoThreshold)
        = some (2663014462490435 / 2 ^ 51 + 1 / 2 ^ 52) ∧
      roundToDouble (isoNucleonMass_binary64 exampleConstants +
          isoPionMass_binary64 exampleConstants) = 2425092954477049 / 2 ^ 51 ∧
      WLim_SPP_iso_raw_binary64 exampleConstants muonSinglePionAtIsoThreshold
        = some ⟨2425092954477049 / 2 ^ 51, 2425092954477049 / 2 ^ 51 + 1 / 2 ^ 52⟩ ∧
      WLim_SPP_iso_binary64 exampleConstants muonSinglePionAtIsoThreshold
        = some ⟨2425092954477049 / 2 ^ 51 + 1 / 2 ^ 52,
                2425092954477049 / 2 ^ 51 + 1 / 2 ^ 52⟩) ∧
    (Threshold_SPP_iso_binary64 eightDigitPionConstants electronSinglePionAboveIsoThreshold
        < roundToDouble electronSinglePionAboveIsoThreshold.ProbeE_HitNucRest ∧
      roundToDouble (isoNucleonMass_binary64 eightDigitPionConstants +
          isoPionMass_binary64 eightDigitPionConstants) = 2425093224693027 / 2 ^ 51 ∧
      WLim_SPP_iso_raw_binary64 eightDigitPionConstants electronSinglePionAboveIsoThreshold
        = some ⟨2425093224693027 / 2 ^ 51, 2425093224693027 / 2 ^ 51 - 1 / 2 ^ 52⟩) := by
  obtain ⟨vM, vmpi, -, -, vT, vE, vEd, vECM, vmin, vraw, vW⟩ :=
    WLim_SPP_iso_binary64_muon_values
  obtain ⟨wM, wmpi, -, -, -, wE, wEd, -, wmin, wraw, -⟩ :=
    WLim_SPP_iso_binary64_electron_values
  refine ⟨⟨by rw [vEd, vE], vT, ?_, by rw [vM, vmpi, vmin], ?_, ?_⟩,
    by rw [wE, wEd]; norm_num, by rw [wM, wmpi, wmin], ?_⟩
  · rw [vE, vECM]
    norm_num
  · rw [vraw]
    norm_num
  · rw [vW]
    norm_num
  · rw [wraw]
    norm_num

end genie
